import Mathlib

/-!
# GROUP BY / aggregation core: query memory descriptor

A shallow embedding of `QueryEngine/GroupByAndAggregate.cpp`.

Conventions of the embedding:

* `size_t` values are natural numbers and every `size_t` operation is reduced
  modulo `2 ^ 64` (`SIZE_T_RANGE`), pointers included.
* `int64_t` values are integers.  A signed C++ operation whose mathematical
  result leaves the 64-bit range has no defined behaviour; it is reported as
  `Failure.UndefinedBehaviour`.  Operations of the emitted LLVM IR wrap.
* A failed `CHECK` aborts the process: `Failure.CheckFailed`.  A C++
  exception is one of the remaining `Failure` constructors.
-/

namespace MapD

/-! ## Outcomes -/

/-- The ways in which a call does not return a value. -/
inductive Failure where
  /-- A `CHECK` macro failed and aborted the process. -/
  | CheckFailed
  /-- Behaviour the C++ standard leaves undefined: signed 64-bit overflow in unchecked
  arithmetic, a null pointer dereferenced. -/
  | UndefinedBehaviour
  /-- Exception: `WatchdogException("Group by float / double would be slow")`. -/
  | WouldBeSlow
  /-- Exception: `WatchdogException("Cannot use a fast path for COUNT distinct")`. -/
  | CannotUseFastPath
  /-- Exception: `WatchdogException("Query would use too much memory")`. -/
  | WouldUseTooMuchMemory
  /-- Exception: `std::runtime_error` about strings that are not dictionary encoded. -/
  | StringsMustBeDictionaryEncoded
  /-- Exception: overflow signalled by `checked_int64_t`. -/
  | OverflowedCardinality
  /-- Exception: `std::runtime_error("UNNEST not supported in the projection list yet.")`. -/
  | UnnestNotSupported
  /-- A loop that does not end: the call never returns. -/
  | DoesNotReturn
  deriving DecidableEq, Repr

/-- Whether the failure is a C++ exception, which `catch (...)` intercepts. -/
def Failure.isException : Failure → Bool
  | .CheckFailed => false
  | .UndefinedBehaviour => false
  | .DoesNotReturn => false
  | _ => true

/-- The macro `CHECK(cond)`. -/
def CHECK (cond : Bool) : Except Failure Unit :=
  if cond then .ok () else .error .CheckFailed

/-! ## Machine integers -/

/-- Number of values of `size_t`, `2 ^ 64`. -/
abbrev SIZE_T_RANGE : Nat := 18446744073709551616

/-- Modelled from the spec: `align_to_int64` (declared in `AggregateUtils.h`, which is
not among the sources) rounds a byte count or an address up to the next multiple
of eight ("each 8-byte slot is 8-aligned; whole row padded up to multiple of 8"),
in `size_t` arithmetic. -/
def align_to_int64 (addr : Nat) : Nat :=
  (addr + 7) % SIZE_T_RANGE / 8 * 8

/-! ## Data model -/

/-- The enumeration `GroupByColRangeType`. -/
inductive GroupByColRangeType where
  | OneColKnownRange
  | OneColGuessedRange
  | MultiCol
  | MultiColPerfectHash
  | Scan
  deriving DecidableEq, Repr, Inhabited

/-- The enumeration `GroupByMemSharing`. -/
inductive GroupByMemSharing where
  | Private
  | Shared
  deriving DecidableEq, Repr

/-- The enumeration `ExecutorDeviceType`. -/
inductive ExecutorDeviceType where
  | CPU
  | GPU
  deriving DecidableEq, Repr

/-- The enumeration `CountDistinctImplType`. -/
inductive CountDistinctImplType where
  | Bitmap
  | StdSet
  deriving DecidableEq, Repr

/-- The part of `Executor` the descriptor reads. -/
structure Executor where
  isCPUOnly : Bool
  warpSize : Nat
  blockSize : Nat
  gridSize : Nat
  deriving DecidableEq, Repr

/-- The record `ColWidths`: logical and in-buffer byte width of a target slot. -/
structure ColWidths where
  actual : Nat
  compact : Nat
  deriving DecidableEq, Repr, Inhabited

/-- The record `CountDistinctDescriptor`, built as
`{executor_, impl_type_, min_val, bitmap_sz_bits}`. -/
structure CountDistinctDescriptor where
  impl_type_ : CountDistinctImplType
  min_val : Int
  bitmap_sz_bits : Int
  deriving DecidableEq, Repr

/-- The map `CountDistinctDescriptors`, keyed by target index. -/
abbrev CountDistinctDescriptors := List (Nat × CountDistinctDescriptor)

/-- The record `QueryMemoryDescriptor`, fields in the order of its initialiser lists. -/
structure QueryMemoryDescriptor where
  executor_ : Executor
  allow_multifrag : Bool
  hash_type : GroupByColRangeType
  keyless_hash : Bool
  interleaved_bins_on_gpu : Bool
  idx_target_as_key : Int
  init_val : Int
  group_col_widths : List Nat
  agg_col_widths : List ColWidths
  entry_count : Nat
  entry_count_small : Nat
  min_val : Int
  max_val : Int
  bucket : Int
  has_nulls : Bool
  sharing : GroupByMemSharing
  count_distinct_descriptors_ : CountDistinctDescriptors
  sort_on_gpu_ : Bool
  is_sort_plan : Bool
  output_columnar : Bool
  render_output : Bool
  deriving DecidableEq, Repr

namespace QueryMemoryDescriptor

/-! ## Layout formulas -/

/-- One iteration of the loop shared by `getColsSize` and `getColOnlyOffInBytes`:
an 8-byte slot is aligned first, then the slot is added. -/
def colsStep (total_bytes : Nat) (w : ColWidths) : Nat :=
  ((if w.compact = 8 then align_to_int64 total_bytes else total_bytes) + w.compact) % SIZE_T_RANGE

/-- `QueryMemoryDescriptor::getColsSize`. -/
def getColsSize (q : QueryMemoryDescriptor) : Except Failure Nat :=
  if q.output_columnar then .error .CheckFailed
  else .ok (q.agg_col_widths.foldl colsStep 0)

/-- `QueryMemoryDescriptor::getRowSize`. -/
def getRowSize (q : QueryMemoryDescriptor) : Except Failure Nat :=
  if q.output_columnar then .error .CheckFailed
  else if q.keyless_hash && q.group_col_widths.length != 1 then .error .CheckFailed
  else
    let key_bytes := if q.keyless_hash then 0 else q.group_col_widths.length * 8 % SIZE_T_RANGE
    match q.getColsSize with
    | .error e => .error e
    | .ok cols => .ok (align_to_int64 ((key_bytes + cols) % SIZE_T_RANGE))

/-- `QueryMemoryDescriptor::getWarpCount`. -/
def getWarpCount (q : QueryMemoryDescriptor) : Nat :=
  if q.interleaved_bins_on_gpu then q.executor_.warpSize else 1

/-- `QueryMemoryDescriptor::isCompactLayoutIsometric`. -/
def isCompactLayoutIsometric (q : QueryMemoryDescriptor) : Bool :=
  match q.agg_col_widths with
  | [] => true
  | front :: _ => q.agg_col_widths.all (fun col_width => col_width.compact == front.compact)

/-- `QueryMemoryDescriptor::getColOnlyOffInBytes`. -/
def getColOnlyOffInBytes (q : QueryMemoryDescriptor) (col_idx : Nat) : Except Failure Nat :=
  if col_idx < q.agg_col_widths.length then
    let offset := (q.agg_col_widths.take col_idx).foldl colsStep 0
    if (q.agg_col_widths.getD col_idx default).compact = 8 then .ok (align_to_int64 offset)
    else .ok offset
  else .error .CheckFailed

/-- One iteration of the columnar loop of `getColOffInBytes` (also the loop of
`getTotalBytesOfColumnarBuffers`): the column is added, then padded when the layout
is not isometric. -/
def columnarStep (q : QueryMemoryDescriptor) (offset : Nat) (w : ColWidths) : Nat :=
  let offset := (offset + w.compact * q.entry_count) % SIZE_T_RANGE
  if q.isCompactLayoutIsometric then offset else align_to_int64 offset

/-- `QueryMemoryDescriptor::getColOffInBytes`. -/
def getColOffInBytes (q : QueryMemoryDescriptor) (bin col_idx : Nat) : Except Failure Nat :=
  if col_idx < q.agg_col_widths.length then
    if q.output_columnar then
      if bin < q.entry_count && q.group_col_widths.length == 1 && q.getWarpCount == 1 then
        let offset := if q.keyless_hash then 0 else 8 * q.entry_count % SIZE_T_RANGE
        let offset := (q.agg_col_widths.take col_idx).foldl q.columnarStep offset
        .ok ((offset + bin * (q.agg_col_widths.getD col_idx default).compact) % SIZE_T_RANGE)
      else .error .CheckFailed
    else
      match q.getRowSize with
      | .error e => .error e
      | .ok row_size =>
        let offset := bin * q.getWarpCount * row_size % SIZE_T_RANGE
        -- the keyless `CHECK_EQ(1, group_col_widths.size())` was passed inside getRowSize
        let offset :=
          if q.keyless_hash then offset
          else (offset + q.group_col_widths.length * 8) % SIZE_T_RANGE
        match q.getColOnlyOffInBytes col_idx with
        | .error e => .error e
        | .ok col_off => .ok ((offset + col_off) % SIZE_T_RANGE)
  else .error .CheckFailed

/-- `QueryMemoryDescriptor::getNextColOffInBytes`; `col_ptr` is the address held by
the pointer argument. -/
def getNextColOffInBytes (q : QueryMemoryDescriptor) (col_ptr bin col_idx : Nat) :
    Except Failure Nat :=
  if col_idx < q.agg_col_widths.length && (!q.output_columnar || bin < q.entry_count) then
    let chosen_bytes := (q.agg_col_widths.getD col_idx default).compact
    -- `align_to_int64(col_ptr + chosen_bytes) - col_ptr`, converted to `size_t`
    let to_aligned :=
      (align_to_int64 ((col_ptr + chosen_bytes) % SIZE_T_RANGE) + SIZE_T_RANGE
        - col_ptr % SIZE_T_RANGE) % SIZE_T_RANGE
    if col_idx + 1 = q.agg_col_widths.length then
      if q.output_columnar then
        .ok ((q.entry_count + SIZE_T_RANGE - bin % SIZE_T_RANGE) % SIZE_T_RANGE * chosen_bytes
              % SIZE_T_RANGE)
      else .ok to_aligned
    else
      let next_chosen_bytes := (q.agg_col_widths.getD (col_idx + 1) default).compact
      if q.output_columnar then
        if q.group_col_widths.length == 1 && q.getWarpCount == 1 then
          let offset := q.entry_count * chosen_bytes % SIZE_T_RANGE
          let offset := if q.isCompactLayoutIsometric then offset else align_to_int64 offset
          -- `next_chosen_bytes - chosen_bytes` is an `int`, converted to `size_t`
          let diff := (next_chosen_bytes + SIZE_T_RANGE - chosen_bytes % SIZE_T_RANGE) % SIZE_T_RANGE
          .ok ((offset + bin * diff) % SIZE_T_RANGE)
        else .error .CheckFailed
      else if next_chosen_bytes = 8 then .ok to_aligned
      else .ok (chosen_bytes % SIZE_T_RANGE)
  else .error .CheckFailed

end QueryMemoryDescriptor

/-- The pointer progression of the loop of `QueryExecutionContext::initColumnPerRow`:
the address reached after `steps` executions of
`col_ptr += getNextColOffInBytes(col_ptr, bin, col_idx++)`, starting at column 0. -/
def initColumnPerRow_col_ptr (q : QueryMemoryDescriptor) (row_ptr bin : Nat) :
    Nat → Except Failure Nat
  | 0 => .ok row_ptr
  | steps + 1 =>
    match initColumnPerRow_col_ptr q row_ptr bin steps with
    | .error e => .error e
    | .ok col_ptr =>
      match q.getNextColOffInBytes col_ptr bin steps with
      | .error e => .error e
      | .ok off => .ok ((col_ptr + off) % SIZE_T_RANGE)

/-! ## Signed 64-bit arithmetic -/

/-- Smallest `int64_t`. -/
abbrev INT64_MIN : Int := -9223372036854775808

/-- Largest `int64_t`. -/
abbrev INT64_MAX : Int := 9223372036854775807

/-- The result of an unchecked signed 64-bit C++ operation whose mathematical value is
`x`: defined only when `x` is representable. -/
def int64_op (x : Int) : Except Failure Int :=
  if INT64_MIN ≤ x ∧ x ≤ INT64_MAX then .ok x else .error .UndefinedBehaviour

/-- Modelled from the spec: multiplication of `checked_int64_t` (declared outside the
sources), "checked 64-bit arithmetic" in which "any overflow is signalled": an
exception is thrown when the product is not representable. -/
def checked_int64_mul (a b : Int) : Except Failure Int :=
  if INT64_MIN ≤ a * b ∧ a * b ≤ INT64_MAX then .ok (a * b) else .error .OverflowedCardinality

/-- Two's complement reduction to 64 bits: the result of an LLVM `i64` operation. -/
def wrap64 (x : Int) : Int :=
  (x + 9223372036854775808) % 18446744073709551616 - 9223372036854775808

/-- Two's complement reduction to 32 bits: LLVM `trunc` to `i32`, read as `int32_t`. -/
def wrap32 (x : Int) : Int :=
  (x + 2147483648) % 4294967296 - 2147483648

/-! ## Range analysis -/

/-- The enumeration `ExpressionRangeType`. -/
inductive ExpressionRangeType where
  | Invalid
  | Integer
  | FloatingPoint
  deriving DecidableEq, Repr, Inhabited

/-- A `double` as comparisons see it: a finite value, an infinity, or a NaN. -/
inductive Double where
  | finite (value : Rat)
  | infinity (negative : Bool)
  | nan
  deriving DecidableEq, Repr, Inhabited

/-- The comparison `x < y` of two `double`s. -/
def Double.lt : Double → Double → Bool
  | .finite x, .finite y => decide (x < y)
  | .finite _, .infinity negative => !negative
  | .infinity negative, .finite _ => negative
  | .infinity x, .infinity y => x && !y
  | _, _ => false

/-- What this file reads of an `ExpressionRange` (declared in `ExpressionRange.h`,
outside the sources), one field per getter. -/
structure ExpressionRange where
  getType : ExpressionRangeType
  getIntMin : Int
  getIntMax : Int
  getBucket : Int
  hasNulls : Bool
  getFpMin : Double := .finite 0
  getFpMax : Double := .finite 0
  deriving DecidableEq, Repr, Inhabited

/-- The record `GroupByAndAggregate::ColRangeInfo`. -/
structure ColRangeInfo where
  hash_type_ : GroupByColRangeType
  min : Int
  max : Int
  bucket : Int
  has_nulls : Bool
  deriving DecidableEq, Repr, Inhabited

/-- `GroupByAndAggregate::getExprRangeInfo`, applied to the range that
`getExpressionRange(expr, query_infos_, executor_)` returned for the expression. -/
def getExprRangeInfo (g_enable_watchdog : Bool) (expr_range : ExpressionRange) :
    Except Failure ColRangeInfo :=
  let guessed_range_max : Int := 255
  match expr_range.getType with
  | .Integer =>
    .ok { hash_type_ := .OneColKnownRange, min := expr_range.getIntMin, max := expr_range.getIntMax,
          bucket := expr_range.getBucket, has_nulls := expr_range.hasNulls }
  | .FloatingPoint =>
    if g_enable_watchdog then .error .WouldBeSlow
    else .ok { hash_type_ := .OneColGuessedRange, min := 0, max := guessed_range_max, bucket := 0,
               has_nulls := false }
  | .Invalid =>
    .ok { hash_type_ := .OneColGuessedRange, min := 0, max := guessed_range_max, bucket := 0,
          has_nulls := false }

/-- The value `{GroupByColRangeType::MultiCol, 0, 0, 0, false}`. -/
def ColRangeInfo.multiCol : ColRangeInfo :=
  { hash_type_ := .MultiCol, min := 0, max := 0, bucket := 0, has_nulls := false }

/-- The `try` block of `GroupByAndAggregate::getColRangeInfo`: the loop over the
remaining grouping expressions with the running `cardinality` and `has_nulls`, then
the test against ten million groups. -/
def getColRangeInfo_try (g_enable_watchdog : Bool) :
    List ExpressionRange → Int → Bool → Except Failure ColRangeInfo
  | [], cardinality, has_nulls =>
    if cardinality > 10000000 then .ok ColRangeInfo.multiCol
    else .ok { hash_type_ := .MultiColPerfectHash, min := 0, max := cardinality, bucket := 0,
               has_nulls := has_nulls }
  | groupby_expr :: rest, cardinality, has_nulls =>
    match getExprRangeInfo g_enable_watchdog groupby_expr with
    | .error e => .error e
    | .ok col_range_info =>
      if col_range_info.hash_type_ ≠ .OneColKnownRange then .ok ColRangeInfo.multiCol
      else
        -- max - min + 1 + (has_nulls ? 1 : 0), evaluated left to right in int64_t
        match int64_op (col_range_info.max - col_range_info.min) with
        | .error e => .error e
        | .ok d =>
          match int64_op (d + 1) with
          | .error e => .error e
          | .ok d1 =>
            match int64_op (d1 + (if col_range_info.has_nulls then 1 else 0)) with
            | .error e => .error e
            | .ok crt_col_cardinality =>
              if crt_col_cardinality > 0 then
                match checked_int64_mul cardinality crt_col_cardinality with
                | .error e => .error e
                | .ok cardinality =>
                  getColRangeInfo_try g_enable_watchdog rest cardinality
                    (if col_range_info.has_nulls then true else has_nulls)
              else .error .CheckFailed

/-- `GroupByAndAggregate::getColRangeInfo`; the argument lists the expression ranges
of `ra_exe_unit_.groupby_exprs`.  `catch (...)` turns every exception of the `try`
block into `MultiCol`. -/
def getColRangeInfo (g_enable_watchdog : Bool) (groupby_exprs : List ExpressionRange) :
    Except Failure ColRangeInfo :=
  if groupby_exprs.length ≠ 1 then
    match getColRangeInfo_try g_enable_watchdog groupby_exprs 1 false with
    | .error e => if e.isException then .ok ColRangeInfo.multiCol else .error e
    | .ok info => .ok info
  else getExprRangeInfo g_enable_watchdog (groupby_exprs.headD default)

/-! ## Perfect hash function -/

/-- The constants that `codegenPerfectHashFunction` bakes into the emitted function
`perfect_key_hash`: the minimum and the cardinality of every dimension. -/
structure PerfectKeyHash where
  mins : List Int
  cardinalities : List Int
  deriving DecidableEq, Repr

/-- The two loops of `codegenPerfectHashFunction` over the grouping expressions: the
first collects `cardinalities`, the second reads `col_range_info.min`. -/
def codegenPerfectHashFunction_consts (g_enable_watchdog : Bool) :
    List ExpressionRange → Except Failure PerfectKeyHash
  | [] => .ok { mins := [], cardinalities := [] }
  | groupby_expr :: rest =>
    match getExprRangeInfo g_enable_watchdog groupby_expr with
    | .error e => .error e
    | .ok col_range_info =>
      if col_range_info.hash_type_ = .OneColKnownRange then
        match int64_op (col_range_info.max - col_range_info.min) with
        | .error e => .error e
        | .ok d =>
          match int64_op (d + 1) with
          | .error e => .error e
          | .ok cardinality =>
            match codegenPerfectHashFunction_consts g_enable_watchdog rest with
            | .error e => .error e
            | .ok f => .ok { mins := col_range_info.min :: f.mins,
                             cardinalities := cardinality :: f.cardinalities }
      else .error .CheckFailed

/-- `GroupByAndAggregate::codegenPerfectHashFunction`: the emitted function, given by
its constants. -/
def codegenPerfectHashFunction (g_enable_watchdog : Bool) (groupby_exprs : List ExpressionRange) :
    Except Failure PerfectKeyHash :=
  if groupby_exprs.length > 1 then codegenPerfectHashFunction_consts g_enable_watchdog groupby_exprs
  else .error .CheckFailed

namespace PerfectKeyHash

/-- The term `crt_term_lv` emitted for dimension `dim_idx`: the sub-key minus the
minimum, multiplied in turn by the cardinality of every earlier dimension. -/
def crt_term (f : PerfectKeyHash) (key_buff : List Int) (dim_idx : Nat) : Int :=
  (f.cardinalities.take dim_idx).foldl (fun crt_term_lv cardinality => wrap64 (crt_term_lv * cardinality))
    (wrap64 (key_buff.getD dim_idx 0 - f.mins.getD dim_idx 0))

/-- The value `hash_lv` after the code emitted for the first `dims` dimensions. -/
def hash_lv (f : PerfectKeyHash) (key_buff : List Int) : Nat → Int
  | 0 => 0
  | dim_idx + 1 => wrap64 (hash_lv f key_buff dim_idx + crt_term f key_buff dim_idx)

/-- The emitted function `perfect_key_hash(key_buff)`: the hash of all dimensions,
truncated to 32 bits. -/
def perfect_key_hash (f : PerfectKeyHash) (key_buff : List Int) : Int :=
  wrap32 (hash_lv f key_buff f.mins.length)

end PerfectKeyHash

/-- The hash as the specification writes it:
`h(k) = Σᵢ (kᵢ − minᵢ) · Π_{j<i} cardⱼ` with `cardⱼ = maxⱼ − minⱼ + 1`. -/
def perfectHashSpec (groupby_exprs : List ExpressionRange) (k : List Int) : Int :=
  ∑ i in Finset.range groupby_exprs.length,
    (k.getD i 0 - (groupby_exprs.getD i default).getIntMin) *
      ∏ j in Finset.range i,
        ((groupby_exprs.getD j default).getIntMax - (groupby_exprs.getD j default).getIntMin + 1)

/-- The cardinality of a grouping column as the specification counts it:
`max − min + 1`, plus 1 for a column with nulls. -/
def columnCardinality (r : ExpressionRange) : Int :=
  r.getIntMax - r.getIntMin + 1 + (if r.hasNulls then 1 else 0)

/-- The sub-range of a grouping expression is `OneColKnownRange`: `getExprRangeInfo`
returns such a range for it. -/
def subRangeKnown (g_enable_watchdog : Bool) (r : ExpressionRange) : Prop :=
  ∃ info, getExprRangeInfo g_enable_watchdog r = .ok info ∧ info.hash_type_ = .OneColKnownRange

/-- The cardinality of an integer range is a positive 64-bit value that the unchecked
`int64_t` arithmetic of `getColRangeInfo` computes without overflow.  Every range with
`min ≤ max` whose cardinality is representable satisfies it; it is what
`CHECK_GT(crt_col_cardinality, 0)` asserts. -/
def cardinalityDefined (r : ExpressionRange) : Prop :=
  INT64_MIN ≤ r.getIntMax - r.getIntMin ∧ 0 < columnCardinality r ∧ columnCardinality r ≤ INT64_MAX

instance : DecidablePred cardinalityDefined := fun r => by
  unfold cardinalityDefined
  infer_instance

/-- A legal sub-key of a grouping column: a value of the range, or `max + 1` standing
for NULL in a column that has nulls (what `codegenGroupBy` passes to
`groupByColumnCodegen`). -/
def legalSubKey (r : ExpressionRange) (k : Int) : Prop :=
  (r.getIntMin ≤ k ∧ k ≤ r.getIntMax) ∨ (k = r.getIntMax + 1 ∧ r.hasNulls = true)

/-- A legal key tuple: one legal sub-key per grouping column. -/
def legalKey (groupby_exprs : List ExpressionRange) (k : List Int) : Prop :=
  k.length = groupby_exprs.length ∧
    ∀ i, i < groupby_exprs.length → legalSubKey (groupby_exprs.getD i default) (k.getD i 0)

/-! ## Expressions, as far as this file observes them

The classes of `Analyzer.h` and `sqltypes.h` are declared outside the sources.  An
expression is represented by the answers to the queries the code makes of it. -/

/-- The aggregate kinds `SQLAgg`. -/
inductive SQLAgg where
  | kAVG
  | kMIN
  | kMAX
  | kSUM
  | kCOUNT
  deriving DecidableEq, Repr, Inhabited

/-- The encodings `EncodingType` the code tells apart: none, dictionary, any other. -/
inductive EncodingType where
  | kENCODING_NONE
  | kENCODING_DICT
  | kENCODING_OTHER
  deriving DecidableEq, Repr, Inhabited

/-- What the code reads of an `SQLTypeInfo`. -/
structure SQLTypeInfo where
  /-- `get_type() == kINT` -/
  is_kINT : Bool
  is_string : Bool
  is_array : Bool
  is_integer : Bool
  get_compression : EncodingType
  get_notnull : Bool
  is_fp : Bool := false
  /-- `get_type() == kFLOAT` -/
  is_kFLOAT : Bool := false
  deriving DecidableEq, Repr, Inhabited

/-- An `Analyzer::Expr` that is the argument of an aggregate: its type and the range
`getExpressionRange(expr, query_infos_, executor_)` returns for it. -/
structure ArgExpr where
  get_type_info : SQLTypeInfo
  expr_range : ExpressionRange
  deriving DecidableEq, Repr, Inhabited

/-- An `Analyzer::AggExpr`; `get_arg` is `none` for `COUNT(*)`. -/
structure AggExpr where
  get_aggtype : SQLAgg
  get_is_distinct : Bool
  get_arg : Option ArgExpr
  deriving DecidableEq, Repr, Inhabited

/-- The record `TargetInfo`. -/
structure TargetInfo where
  is_agg : Bool
  agg_kind : SQLAgg
  sql_type : SQLTypeInfo
  skip_null_val : Bool
  is_distinct : Bool
  deriving DecidableEq, Repr, Inhabited

/-- A target expression: what `target_info(target_expr)` returns for it (the function
is declared outside the sources), its type, and the aggregate it is when
`dynamic_cast<Analyzer::AggExpr*>` succeeds. -/
structure TargetExpr where
  target_info : TargetInfo
  get_type_info : SQLTypeInfo
  agg_expr : Option AggExpr
  deriving DecidableEq, Repr, Inhabited

/-! ## COUNT DISTINCT descriptors -/

/-- The choice of implementation in `initCountDistinctDescriptors`: the statements from
`CountDistinctImplType count_distinct_impl_type{StdSet}` to the end of the `if` on the
argument's range; returns `(count_distinct_impl_type, bitmap_sz_bits)`. -/
def chooseCountDistinctImpl (arg_range_info : ColRangeInfo) (arg_is_array : Bool) :
    Except Failure (CountDistinctImplType × Int) :=
  if arg_range_info.hash_type_ = .OneColKnownRange ∧ arg_is_array = false then
    -- bitmap_sz_bits = arg_range_info.max - arg_range_info.min + 1, in int64_t
    match int64_op (arg_range_info.max - arg_range_info.min) with
    | .error e => .error e
    | .ok d =>
      match int64_op (d + 1) with
      | .error e => .error e
      | .ok bitmap_sz_bits =>
        let MAX_BITMAP_BITS : Int := 8 * 1000 * 1000 * 1000
        if bitmap_sz_bits ≤ 0 ∨ bitmap_sz_bits > MAX_BITMAP_BITS then .ok (.StdSet, bitmap_sz_bits)
        else .ok (.Bitmap, bitmap_sz_bits)
  else .ok (.StdSet, 0)

/-- The body of the loop of `initCountDistinctDescriptors` for one target: the
descriptor to insert, `none` for a target that is not distinct. -/
def countDistinctDescriptorOf (g_enable_watchdog : Bool) (target_expr : TargetExpr) :
    Except Failure (Option CountDistinctDescriptor) :=
  let agg_info := target_expr.target_info
  if agg_info.is_distinct then
    if !agg_info.is_agg then .error .CheckFailed
    else if agg_info.agg_kind ≠ .kCOUNT then .error .CheckFailed
    else
      -- static_cast<const Analyzer::AggExpr*>(target_expr)->get_arg()->get_type_info()
      match target_expr.agg_expr with
      | none => .error .UndefinedBehaviour
      | some agg_expr =>
        match agg_expr.get_arg with
        | none => .error .UndefinedBehaviour
        | some arg =>
          let arg_ti := arg.get_type_info
          if arg_ti.is_string && arg_ti.get_compression != .kENCODING_DICT then
            .error .StringsMustBeDictionaryEncoded
          else
            match getExprRangeInfo g_enable_watchdog arg.expr_range with
            | .error e => .error e
            | .ok arg_range_info =>
              match chooseCountDistinctImpl arg_range_info arg_ti.is_array with
              | .error e => .error e
              | .ok (count_distinct_impl_type, bitmap_sz_bits) =>
                if g_enable_watchdog && count_distinct_impl_type == .StdSet then
                  .error .CannotUseFastPath
                else
                  .ok (some { impl_type_ := count_distinct_impl_type,
                              min_val := arg_range_info.min,
                              bitmap_sz_bits := bitmap_sz_bits })
  else .ok none

/-- The loop of `initCountDistinctDescriptors` over the remaining targets, with the
running `target_idx` and map. -/
def initCountDistinctDescriptors_loop (g_enable_watchdog : Bool) :
    List TargetExpr → Nat → CountDistinctDescriptors → Except Failure CountDistinctDescriptors
  | [], _, count_distinct_descriptors => .ok count_distinct_descriptors
  | target_expr :: rest, target_idx, count_distinct_descriptors =>
    match countDistinctDescriptorOf g_enable_watchdog target_expr with
    | .error e => .error e
    | .ok none =>
      initCountDistinctDescriptors_loop g_enable_watchdog rest (target_idx + 1)
        count_distinct_descriptors
    | .ok (some count_distinct_desc) =>
      -- insert, then CHECK(it_ok.second): the key must be new
      if (count_distinct_descriptors.lookup target_idx).isSome then .error .CheckFailed
      else
        initCountDistinctDescriptors_loop g_enable_watchdog rest (target_idx + 1)
          (count_distinct_descriptors ++ [(target_idx, count_distinct_desc)])

/-- `GroupByAndAggregate::initCountDistinctDescriptors`. -/
def initCountDistinctDescriptors (g_enable_watchdog : Bool) (target_exprs : List TargetExpr) :
    Except Failure CountDistinctDescriptors :=
  initCountDistinctDescriptors_loop g_enable_watchdog target_exprs 0 []

/-- The condition under which the specification chooses a bitmap: the argument's range
is `OneColKnownRange`, the argument is not an array, and
`bitmap_bits = max − min + 1` is in `(0, 8·10⁹]`. -/
def bitmapCondition (arg_range_info : ColRangeInfo) (arg_is_array : Bool) : Prop :=
  arg_range_info.hash_type_ = .OneColKnownRange ∧ arg_is_array = false ∧
    0 < arg_range_info.max - arg_range_info.min + 1 ∧
    arg_range_info.max - arg_range_info.min + 1 ≤ 8000000000

/-- A `COUNT(DISTINCT)` target with an acceptable argument (not an unencoded string,
range analysis not failing) whose implementation falls back to `StdSet`. -/
def fallsBackToStdSet (g_enable_watchdog : Bool) (target_expr : TargetExpr) : Prop :=
  target_expr.target_info.is_distinct = true ∧ target_expr.target_info.is_agg = true ∧
    target_expr.target_info.agg_kind = .kCOUNT ∧
    ∃ agg_expr arg arg_range_info bitmap_sz_bits,
      target_expr.agg_expr = some agg_expr ∧ agg_expr.get_arg = some arg ∧
      (arg.get_type_info.is_string && arg.get_type_info.get_compression != .kENCODING_DICT)
        = false ∧
      getExprRangeInfo g_enable_watchdog arg.expr_range = .ok arg_range_info ∧
      chooseCountDistinctImpl arg_range_info arg.get_type_info.is_array
        = .ok (.StdSet, bitmap_sz_bits)

/-- A `COUNT(DISTINCT arg)` target whose argument has the given type and range. -/
def countDistinctTarget (arg_ti : SQLTypeInfo) (expr_range : ExpressionRange) : TargetExpr :=
  { target_info := { is_agg := true, agg_kind := .kCOUNT, sql_type := default,
                     skip_null_val := false, is_distinct := true }
    get_type_info := default
    agg_expr := some { get_aggtype := .kCOUNT, get_is_distinct := true,
                       get_arg := some { get_type_info := arg_ti, expr_range := expr_range } } }

/-! ## Buffer sizes and descriptor predicates -/

namespace QueryMemoryDescriptor

/-- `QueryMemoryDescriptor::interleavedBins`. -/
def interleavedBins (q : QueryMemoryDescriptor) (device_type : ExecutorDeviceType) : Bool :=
  q.interleaved_bins_on_gpu && device_type == .GPU

/-- `QueryMemoryDescriptor::getTotalBytesOfColumnarBuffers`. -/
def getTotalBytesOfColumnarBuffers (q : QueryMemoryDescriptor) (col_widths : List ColWidths) :
    Except Failure Nat :=
  if q.output_columnar then .ok (col_widths.foldl q.columnarStep 0)
  else .error .CheckFailed

/-- `QueryMemoryDescriptor::getBufferSizeQuad`. -/
def getBufferSizeQuad (q : QueryMemoryDescriptor) (device_type : ExecutorDeviceType) :
    Except Failure Nat := do
  if q.keyless_hash then
    CHECK (q.group_col_widths.length == 1)
    let cols_size ← q.getColsSize
    let total_bytes := align_to_int64 cols_size
    pure ((if q.interleavedBins device_type then q.executor_.warpSize else 1) * q.entry_count
      * total_bytes % SIZE_T_RANGE / 8)
  else if q.output_columnar then
    CHECK (q.group_col_widths.length == 1)
    let columns ← q.getTotalBytesOfColumnarBuffers q.agg_col_widths
    pure ((8 * q.entry_count + columns) % SIZE_T_RANGE / 8)
  else
    let row_size ← q.getRowSize
    pure (row_size * q.entry_count % SIZE_T_RANGE / 8)

/-- `QueryMemoryDescriptor::getSmallBufferSizeQuad`. -/
def getSmallBufferSizeQuad (q : QueryMemoryDescriptor) : Except Failure Nat := do
  CHECK (!q.keyless_hash || q.entry_count_small == 0)
  pure ((q.group_col_widths.length + q.agg_col_widths.length) * q.entry_count_small % SIZE_T_RANGE)

/-- `QueryMemoryDescriptor::getBufferSizeBytes`. -/
def getBufferSizeBytes (q : QueryMemoryDescriptor) (device_type : ExecutorDeviceType) :
    Except Failure Nat := do
  let quad ← q.getBufferSizeQuad device_type
  pure (quad * 8 % SIZE_T_RANGE)

/-- `QueryMemoryDescriptor::getSmallBufferSizeBytes`. -/
def getSmallBufferSizeBytes (q : QueryMemoryDescriptor) : Except Failure Nat := do
  let quad ← q.getSmallBufferSizeQuad
  pure (quad * 8 % SIZE_T_RANGE)

/-- `QueryMemoryDescriptor::usesGetGroupValueFast`. -/
def usesGetGroupValueFast (q : QueryMemoryDescriptor) : Except Failure Bool := do
  if q.hash_type = .OneColKnownRange then
    let small ← q.getSmallBufferSizeBytes
    pure (small == 0)
  else pure false

/-- `QueryMemoryDescriptor::usesCachedContext`. -/
def usesCachedContext (q : QueryMemoryDescriptor) : Except Failure Bool := do
  if q.allow_multifrag then
    let fast ← q.usesGetGroupValueFast
    pure (fast || q.hash_type == .MultiColPerfectHash)
  else pure false

/-- `QueryMemoryDescriptor::threadsShareMemory`. -/
def threadsShareMemory (q : QueryMemoryDescriptor) : Bool :=
  q.sharing == .Shared

/-- `QueryMemoryDescriptor::sharedMemBytes`. -/
def sharedMemBytes (q : QueryMemoryDescriptor) (device_type : ExecutorDeviceType) :
    Except Failure Nat := do
  if device_type = .CPU then pure 0
  else
    let shared_mem_threshold : Nat := 0
    let shared_mem_bytes ← q.getBufferSizeBytes .GPU
    let fast ← q.usesGetGroupValueFast
    if !fast || shared_mem_bytes > shared_mem_threshold then pure 0
    else pure shared_mem_bytes

end QueryMemoryDescriptor

/-- The function `many_entries`; the subtraction and the product are `int64_t`
operations. -/
def many_entries (max_val min_val bucket : Int) : Except Failure Bool := do
  let range ← int64_op (max_val - min_val)
  let scaled ← int64_op (10000 * max bucket 1)
  pure (decide (range > scaled))

namespace QueryMemoryDescriptor

/-- `QueryMemoryDescriptor::blocksShareMemory`. -/
def blocksShareMemory (q : QueryMemoryDescriptor) : Except Failure Bool := do
  if q.executor_.isCPUOnly || q.render_output then pure true
  else
    let cached ← q.usesCachedContext
    if !cached then pure false
    else
      let shared ← q.sharedMemBytes .GPU
      if shared != 0 then pure false
      else many_entries q.max_val q.min_val q.bucket

/-- `QueryMemoryDescriptor::canOutputColumnar`. -/
def canOutputColumnar (q : QueryMemoryDescriptor) : Except Failure Bool := do
  let fast ← q.usesGetGroupValueFast
  if !fast then pure false
  else if !q.threadsShareMemory then pure false
  else
    let blocks ← q.blocksShareMemory
    if !blocks then pure false
    else pure (!q.interleavedBins .GPU)

/-- `QueryMemoryDescriptor::sortOnGpu`. -/
def sortOnGpu (q : QueryMemoryDescriptor) : Bool :=
  q.sort_on_gpu_

end QueryMemoryDescriptor

/-! ## Building the descriptor -/

/-- An element of `ra_exe_unit.groupby_exprs`, a possibly null pointer to an expression:
its type, whether it is an `UNNEST`, and the range `getExpressionRange` returns for it. -/
structure GroupByExpr where
  is_null : Bool
  get_type_info : SQLTypeInfo
  is_unnest : Bool
  expr_range : ExpressionRange
  deriving DecidableEq, Repr, Inhabited

/-- The record `Analyzer::OrderEntry`. -/
structure OrderEntry where
  tle_no : Int
  is_desc : Bool
  nulls_first : Bool
  deriving DecidableEq, Repr, Inhabited

/-- The fields of `RelAlgExecutionUnit` this file reads. -/
structure RelAlgExecutionUnit where
  groupby_exprs : List GroupByExpr
  target_exprs : List TargetExpr
  order_entries : List OrderEntry
  scan_limit : Nat
  deriving DecidableEq, Repr

/-- The record `GroupByAndAggregate::KeylessInfo`. -/
structure KeylessInfo where
  keyless : Bool
  target_index : Int
  init_val : Int
  deriving DecidableEq, Repr, Inhabited

/-- Conversion of an `int64_t` to `size_t`. -/
def to_size_t (x : Int) : Nat :=
  (x % 18446744073709551616).toNat

/-- The test of `gpuCanHandleOrderEntries` on the argument of the ordering aggregate:
whether `(hash_type_ != OneColKnownRange || has_nulls) && is_desc == nulls_first`;
`false` when the aggregate has no argument. -/
def orderEntryArgRejected (g_enable_watchdog : Bool) (agg_expr : AggExpr)
    (order_entry : OrderEntry) : Except Failure Bool :=
  match agg_expr.get_arg with
  | none => pure false
  | some arg => do
    let expr_range_info ← getExprRangeInfo g_enable_watchdog arg.expr_range
    pure ((expr_range_info.hash_type_ != .OneColKnownRange || expr_range_info.has_nulls)
      && order_entry.is_desc == order_entry.nulls_first)

/-- The body of the loop of `GroupByAndAggregate::gpuCanHandleOrderEntries` for one
order entry: `some false` for `return false`, `none` to go on. -/
def gpuCanHandleOrderEntry (g_enable_watchdog : Bool) (target_exprs : List TargetExpr)
    (order_entry : OrderEntry) : Except Failure (Option Bool) := do
  CHECK (decide (order_entry.tle_no ≥ 1))
  CHECK (decide (to_size_t order_entry.tle_no ≤ target_exprs.length))
  let target_expr := target_exprs.getD (order_entry.tle_no - 1).toNat default
  match target_expr.agg_expr with
  | none => pure (some false)
  | some agg_expr =>
    if agg_expr.get_is_distinct || agg_expr.get_aggtype == .kAVG || agg_expr.get_aggtype == .kMIN
        || agg_expr.get_aggtype == .kMAX then pure (some false)
    else do
      let rejected ← orderEntryArgRejected g_enable_watchdog agg_expr order_entry
      if rejected then pure (some false)
      else do
        let target_ti := target_expr.get_type_info
        CHECK (!target_ti.is_array)
        if !target_ti.is_integer then pure (some false) else pure none

/-- `GroupByAndAggregate::gpuCanHandleOrderEntries`. -/
def gpuCanHandleOrderEntries (g_enable_watchdog : Bool) (target_exprs : List TargetExpr)
    (order_entries : List OrderEntry) : Except Failure Bool :=
  if order_entries.length > 1 then pure false
  else
    match order_entries with
    | [] => pure true
    | order_entry :: _ => do
      let r ← gpuCanHandleOrderEntry g_enable_watchdog target_exprs order_entry
      pure (r.getD true)

/-- The arguments of the constructor `GroupByAndAggregate::GroupByAndAggregate`, with the
global `g_enable_watchdog` and what comes from outside the sources: the `numTuples` of
every table in `query_infos`, the results of `get_col_byte_widths` on the grouping
expressions and on the targets, the function `compact_byte_width`, and the value that
the call of `getKeylessInfo` returns, which depends on functions declared outside the
sources. -/
structure GroupByAndAggregateArgs where
  executor : Executor
  device_type : ExecutorDeviceType
  ra_exe_unit : RelAlgExecutionUnit
  render_output : Bool
  query_infos : List Nat
  row_set_mem_owner_is_null : Bool
  max_groups_buffer_entry_count : Nat
  small_groups_buffer_entry_count : Nat
  allow_multifrag : Bool
  output_columnar_hint : Bool
  g_enable_watchdog : Bool
  group_col_widths : List Nat
  target_col_byte_widths : List Nat
  compact_byte_width : Nat → Nat → Nat
  keyless_info : KeylessInfo

/-- The loop of `pick_target_compact_width` over the targets: `true` when it reaches
`return 8`. -/
def pick_target_compact_width_targets : List TargetExpr → Except Failure Bool
  | [] => pure false
  | target :: rest =>
    let ti := target.get_type_info
    match target.agg_expr with
    | some agg =>
      if agg.get_arg.isSome then pure true
      else do
        CHECK (agg.get_aggtype == .kCOUNT)
        CHECK (!agg.get_is_distinct)
        pick_target_compact_width_targets rest
    | none =>
      if ti.is_kINT || (ti.is_string && ti.get_compression == .kENCODING_DICT) then
        pick_target_compact_width_targets rest
      else pure true

/-- The function `pick_target_compact_width`. -/
def pick_target_compact_width (ra_exe_unit : RelAlgExecutionUnit) (query_infos : List Nat) :
    Except Failure Nat :=
  if ra_exe_unit.groupby_exprs.any (fun groupby_expr => !groupby_expr.is_null && groupby_expr.is_unnest)
  then pure 8
  else if ra_exe_unit.groupby_exprs.length != 1
      || (ra_exe_unit.groupby_exprs.headD default).is_null then pure 8
  else do
    let wide ← pick_target_compact_width_targets ra_exe_unit.target_exprs
    if wide then pure 8
    else
      let total_tuples := query_infos.foldl (fun total numTuples => (total + numTuples) % SIZE_T_RANGE) 0
      pure (if total_tuples ≤ 2147483647 then 4 else 8)

/-- The descriptor with the values every initialiser list of `initQueryMemoryDescriptor`
shares: `executor_`, `allow_multifrag`, the column widths, the count distinct
descriptors, and `false` for `sort_on_gpu_`, `is_sort_plan` and `output_columnar`. -/
def descriptorOf (a : GroupByAndAggregateArgs) (agg_col_widths : List ColWidths)
    (count_distinct_descriptors : CountDistinctDescriptors) (hash_type : GroupByColRangeType) (keyless interleaved_bins : Bool)
    (idx_target_as_key init_val : Int) (entry_count entry_count_small : Nat)
    (min_val max_val bucket : Int) (has_nulls : Bool) (sharing : GroupByMemSharing)
    (render_output : Bool) : QueryMemoryDescriptor :=
  { executor_ := a.executor
    allow_multifrag := a.allow_multifrag
    hash_type := hash_type
    keyless_hash := keyless
    interleaved_bins_on_gpu := interleaved_bins
    idx_target_as_key := idx_target_as_key
    init_val := init_val
    group_col_widths := a.group_col_widths
    agg_col_widths := agg_col_widths
    entry_count := entry_count
    entry_count_small := entry_count_small
    min_val := min_val
    max_val := max_val
    bucket := bucket
    has_nulls := has_nulls
    sharing := sharing
    count_distinct_descriptors_ := count_distinct_descriptors
    sort_on_gpu_ := false
    is_sort_plan := false
    output_columnar := false
    render_output := render_output }

/-- The watchdog test of `initQueryMemoryDescriptor`: whether
`WatchdogException("Query would use too much memory")` is thrown. -/
def watchdogRejects (a : GroupByAndAggregateArgs) (col_range_info : ColRangeInfo) : Bool :=
  a.g_enable_watchdog && col_range_info.hash_type_ != .OneColKnownRange &&
    col_range_info.hash_type_ != .MultiColPerfectHash &&
    col_range_info.hash_type_ != .OneColGuessedRange && !a.render_output &&
    (a.ra_exe_unit.scan_limit == 0 || decide (a.ra_exe_unit.scan_limit > 10000))

/-- The operand `groupby_exprs.size() != 1 || !groupby_exprs.front()->get_type_info().is_string()`
of the single-column test of `initQueryMemoryDescriptor`. -/
def groupByIsNotOneString (a : GroupByAndAggregateArgs) : Except Failure Bool :=
  if a.ra_exe_unit.groupby_exprs.length != 1 then pure true
  else
    match a.ra_exe_unit.groupby_exprs.head? with
    | none => throw .UndefinedBehaviour
    | some front =>
      if front.is_null then throw .UndefinedBehaviour
      else pure (!front.get_type_info.is_string)

/-- The condition of the single-column case of `initQueryMemoryDescriptor` under which
the baseline open-addressing table is chosen, evaluated with the short circuits of the
source. -/
def usesBaselineTable (a : GroupByAndAggregateArgs) (col_range_info : ColRangeInfo) :
    Except Failure Bool :=
  if col_range_info.hash_type_ = .OneColGuessedRange ∨ col_range_info.hash_type_ = .Scan then
    pure true
  else do
    let not_string ← groupByIsNotOneString a
    if !not_string then pure false
    else do
      -- col_range_info.max >= col_range_info.min + static_cast<int64_t>(max_groups_buffer_entry_count)
      let bound ← int64_op (col_range_info.min + wrap64 (a.max_groups_buffer_entry_count : Int))
      pure (decide (col_range_info.max ≥ bound) && col_range_info.bucket == 0)

/-- The branch of `initQueryMemoryDescriptor` that builds the baseline table. -/
def baselineDescriptor (a : GroupByAndAggregateArgs) (agg_col_widths : List ColWidths)
    (count_distinct_descriptors : CountDistinctDescriptors) (col_range_info : ColRangeInfo) :
    QueryMemoryDescriptor :=
  let hash_type := if a.render_output then .MultiCol else col_range_info.hash_type_
  let small_group_slots :=
    if a.ra_exe_unit.scan_limit != 0 then a.ra_exe_unit.scan_limit
    else a.small_groups_buffer_entry_count
  let small_group_slots := if a.render_output then 0 else small_group_slots
  descriptorOf a agg_col_widths count_distinct_descriptors hash_type false false (-1) 0
    (a.max_groups_buffer_entry_count * (if a.render_output then 4 else 1) % SIZE_T_RANGE)
    small_group_slots col_range_info.min col_range_info.max 0 col_range_info.has_nulls
    .Shared a.render_output

/-- The operand `!sort_on_gpu_hint || !many_entries(max, min, bucket)` of the keyless
test. -/
def notManyEntriesToSort (sort_on_gpu_hint : Bool) (col_range_info : ColRangeInfo) :
    Except Failure Bool :=
  if !sort_on_gpu_hint then pure true
  else do
    let many ← many_entries col_range_info.max col_range_info.min col_range_info.bucket
    pure (!many)

/-- The branch of `initQueryMemoryDescriptor` that builds the direct-addressed table. -/
def directAddressedDescriptor (a : GroupByAndAggregateArgs) (agg_col_widths : List ColWidths)
    (count_distinct_descriptors : CountDistinctDescriptors) (col_range_info : ColRangeInfo)
    (sort_on_gpu_hint : Bool) : Except Failure QueryMemoryDescriptor := do
  CHECK (!a.render_output)
  let keyless_info := a.keyless_info
  let few_entries ← notManyEntriesToSort sort_on_gpu_hint col_range_info
  let keyless := few_entries && col_range_info.bucket == 0 && keyless_info.keyless
  -- size_t bin_count = col_range_info.max - col_range_info.min
  let range ← int64_op (col_range_info.max - col_range_info.min)
  let bin_count := to_size_t range
  let bin_count :=
    if col_range_info.bucket != 0 then bin_count / to_size_t col_range_info.bucket
    else bin_count
  let bin_count := (bin_count + (1 + (if col_range_info.has_nulls then 1 else 0))) % SIZE_T_RANGE
  let interleaved_max_threshold : Nat := 20
  let interleaved_bins := keyless && decide (bin_count ≤ interleaved_max_threshold)
  pure (descriptorOf a agg_col_widths count_distinct_descriptors col_range_info.hash_type_ keyless
    interleaved_bins keyless_info.target_index keyless_info.init_val bin_count 0
    col_range_info.min col_range_info.max col_range_info.bucket col_range_info.has_nulls
    .Shared false)

/-- The `switch` of `initQueryMemoryDescriptor` on the kind of the column range. -/
def descriptorForRange (a : GroupByAndAggregateArgs) (agg_col_widths : List ColWidths)
    (count_distinct_descriptors : CountDistinctDescriptors) (col_range_info : ColRangeInfo)
    (sort_on_gpu_hint : Bool) : Except Failure QueryMemoryDescriptor :=
  match col_range_info.hash_type_ with
  | .MultiCol => do
    CHECK (!a.render_output)
    pure (descriptorOf a agg_col_widths count_distinct_descriptors col_range_info.hash_type_ false false (-1) 0
      a.max_groups_buffer_entry_count 0 0 0 0 false .Shared false)
  | .MultiColPerfectHash => do
    CHECK (!a.render_output)
    pure (descriptorOf a agg_col_widths count_distinct_descriptors col_range_info.hash_type_ false false (-1) 0
      (to_size_t col_range_info.max) 0 col_range_info.min col_range_info.max 0
      col_range_info.has_nulls .Shared false)
  | _ => do
    -- OneColKnownRange, OneColGuessedRange, Scan
    let baseline ← usesBaselineTable a col_range_info
    if baseline then pure (baselineDescriptor a agg_col_widths count_distinct_descriptors col_range_info)
    else
      (directAddressedDescriptor a agg_col_widths count_distinct_descriptors col_range_info
        sort_on_gpu_hint)

/-- `GroupByAndAggregate::initQueryMemoryDescriptor`.  The call of
`addTransientStringLiterals`, which only registers literals with the string dictionary,
is not represented. -/
def initQueryMemoryDescriptor (a : GroupByAndAggregateArgs) (sort_on_gpu_hint : Bool) :
    Except Failure QueryMemoryDescriptor := do
  let count_distinct_descriptors ←
    initCountDistinctDescriptors a.g_enable_watchdog a.ra_exe_unit.target_exprs
  CHECK (count_distinct_descriptors.isEmpty || !a.row_set_mem_owner_is_null)
  let smallest_byte_width_to_compact ← pick_target_compact_width a.ra_exe_unit a.query_infos
  let agg_col_widths : List ColWidths := a.target_col_byte_widths.map (fun wid =>
    { actual := wid, compact := a.compact_byte_width wid smallest_byte_width_to_compact })
  let is_group_by := !a.group_col_widths.isEmpty
  if !is_group_by then do
    CHECK (!a.render_output)
    pure (descriptorOf a agg_col_widths count_distinct_descriptors .Scan false false (-1) 0 0 0 0 0 0 false
      .Private false)
  else do
    let col_range_info ←
      getColRangeInfo a.g_enable_watchdog (a.ra_exe_unit.groupby_exprs.map (fun e => e.expr_range))
    if watchdogRejects a col_range_info then throw .WouldUseTooMuchMemory
    else
      (descriptorForRange a agg_col_widths count_distinct_descriptors col_range_info
        sort_on_gpu_hint)

/-- The value of `sort_on_gpu_hint` in the constructor. -/
def sortOnGpuHint (a : GroupByAndAggregateArgs) : Except Failure Bool :=
  if a.device_type == .GPU && a.allow_multifrag && !a.ra_exe_unit.order_entries.isEmpty then
    gpuCanHandleOrderEntries a.g_enable_watchdog a.ra_exe_unit.target_exprs
      a.ra_exe_unit.order_entries
  else pure false

/-- The value `sort_on_gpu_hint && canOutputColumnar() && !keyless_hash` the constructor
assigns to `sort_on_gpu_`. -/
def sortOnGpuValue (query_mem_desc : QueryMemoryDescriptor) (sort_on_gpu_hint : Bool) :
    Except Failure Bool :=
  if !sort_on_gpu_hint then pure false
  else do
    let can ← query_mem_desc.canOutputColumnar
    pure (can && !query_mem_desc.keyless_hash)

/-- The value `(output_columnar_hint && canOutputColumnar()) || sortOnGpu()` the
constructor assigns to `output_columnar_`. -/
def outputColumnarValue (query_mem_desc : QueryMemoryDescriptor) (output_columnar_hint : Bool) :
    Except Failure Bool :=
  if !output_columnar_hint then pure query_mem_desc.sortOnGpu
  else do
    let can ← query_mem_desc.canOutputColumnar
    pure (can || query_mem_desc.sortOnGpu)

/-- The statement `if (device_type != GPU) query_mem_desc_.interleaved_bins_on_gpu = false`
of the constructor. -/
def interleavedOnlyOnGpu (device_type : ExecutorDeviceType) (query_mem_desc : QueryMemoryDescriptor) :
    QueryMemoryDescriptor :=
  if device_type != .GPU then { query_mem_desc with interleaved_bins_on_gpu := false }
  else query_mem_desc

/-- The constructor `GroupByAndAggregate::GroupByAndAggregate`; the result is
`query_mem_desc_`, whose `output_columnar` is also the member `output_columnar_`. -/
def GroupByAndAggregate (a : GroupByAndAggregateArgs) : Except Failure QueryMemoryDescriptor :=
  if a.ra_exe_unit.groupby_exprs.any (fun groupby_expr =>
      !groupby_expr.is_null && groupby_expr.get_type_info.is_string
        && groupby_expr.get_type_info.get_compression != .kENCODING_DICT) then
    throw .StringsMustBeDictionaryEncoded
  else do
    let sort_on_gpu_hint ← sortOnGpuHint a
    let q0 ← initQueryMemoryDescriptor a sort_on_gpu_hint
    let q1 := interleavedOnlyOnGpu a.device_type q0
    let sort_on_gpu ← sortOnGpuValue q1 sort_on_gpu_hint
    let q2 : QueryMemoryDescriptor := { q1 with sort_on_gpu_ := sort_on_gpu }
    let q3 : QueryMemoryDescriptor :=
      { q2 with is_sort_plan := !a.ra_exe_unit.order_entries.isEmpty && !q2.sort_on_gpu_ }
    let output_columnar ← outputColumnarValue q3 a.output_columnar_hint
    pure { q3 with output_columnar := output_columnar }

/-- What is common to the descriptors `initQueryMemoryDescriptor` returns. -/
def InitShape (a : GroupByAndAggregateArgs) (q : QueryMemoryDescriptor) : Prop :=
  q.executor_ = a.executor ∧ q.output_columnar = false ∧ q.sort_on_gpu_ = false ∧
    (q.render_output = true → q.hash_type = .MultiCol) ∧
    (q.keyless_hash = true → q.entry_count_small = 0 ∧ q.hash_type = .OneColKnownRange) ∧
    (q.interleaved_bins_on_gpu = true → q.keyless_hash = true)

/-! ## Keyless analysis -/

/-- The result of an unchecked signed 32-bit C++ operation whose mathematical value is
`x`: defined only when `x` is representable. -/
def int32_op (x : Int) : Except Failure Int :=
  if -2147483648 ≤ x ∧ x ≤ 2147483647 then .ok x else .error .UndefinedBehaviour

/-- The value `*reinterpret_cast<const double*>(&x)` of an `int64_t`: its 64 bits read as
an IEEE 754 binary64 number. -/
def double_of_bits (x : Int) : Double :=
  let bits : Nat := to_size_t x
  let negative : Bool := decide (bits / 2 ^ 63 = 1)
  let exponent : Nat := bits / 2 ^ 52 % 2048
  let fraction : Nat := bits % 2 ^ 52
  if exponent = 2047 then
    if fraction = 0 then .infinity negative else .nan
  else
    let significand : Nat := if exponent = 0 then fraction else 2 ^ 52 + fraction
    let scale : Int := (if exponent = 0 then 1 else (exponent : Int)) - 1075
    let magnitude : Rat := (significand : Rat) * (2 : Rat) ^ scale
    .finite (if negative then -magnitude else magnitude)

/-- `QueryMemoryDescriptor::getCompactByteWidth`. -/
def QueryMemoryDescriptor.getCompactByteWidth (q : QueryMemoryDescriptor) : Except Failure Nat :=
  match q.agg_col_widths with
  | [] => pure 8
  | front :: _ =>
    let compact_width := front.compact
    if q.agg_col_widths.all (fun col_width => col_width.compact == compact_width) then
      pure compact_width
    else .error .CheckFailed

/-- The local variables `keyless`, `found`, `index` and `init_val` of `getKeylessInfo`. -/
structure KeylessScan where
  keyless : Bool
  found : Bool
  index : Int
  init_val : Int
  deriving DecidableEq, Repr, Inhabited

/-- The case `kSUM` of the `switch` of `getKeylessInfo`, for the argument `arg_expr`. -/
def getKeylessInfo_sum (get_agg_initial_val : SQLAgg → SQLTypeInfo → Bool → Nat → Int)
    (query_mem_desc_ : QueryMemoryDescriptor) (is_group_by : Bool) (agg_info : TargetInfo)
    (arg_expr : ArgExpr) (s : KeylessScan) : Except Failure KeylessScan :=
  let expr_range_info := arg_expr.expr_range
  if !arg_expr.get_type_info.get_notnull then
    if !expr_range_info.hasNulls then do
      let compact_byte_width ← query_mem_desc_.getCompactByteWidth
      pure { s with
        init_val := get_agg_initial_val agg_info.agg_kind arg_expr.get_type_info is_group_by
          compact_byte_width
        found := true }
    else pure s
  else
    match expr_range_info.getType with
    | .FloatingPoint =>
      pure { s with
        init_val := 0
        found := s.found || (expr_range_info.getFpMax.lt (.finite 0)
          || Double.lt (.finite 0) expr_range_info.getFpMin) }
    | .Integer =>
      pure { s with
        init_val := 0
        found := s.found || (decide (expr_range_info.getIntMax < 0)
          || decide (expr_range_info.getIntMin > 0)) }
    | .Invalid => pure { s with init_val := 0 }

/-- The cases `kMIN` (`is_min`) and `kMAX` of the `switch` of `getKeylessInfo`: the
initial value of the aggregate becomes `init_val`, and the aggregate is accepted when
the range stays strictly on the near side of it. -/
def getKeylessInfo_min_max (get_agg_initial_val : SQLAgg → SQLTypeInfo → Bool → Nat → Int)
    (query_mem_desc_ : QueryMemoryDescriptor) (is_group_by : Bool) (agg_info : TargetInfo)
    (chosen_type : SQLTypeInfo) (is_min : Bool) (arg_expr : ArgExpr) (s : KeylessScan) :
    Except Failure KeylessScan := do
  let expr_range_info := arg_expr.expr_range
  let compact_byte_width ← query_mem_desc_.getCompactByteWidth
  let init := get_agg_initial_val agg_info.agg_kind chosen_type is_group_by compact_byte_width
  match expr_range_info.getType with
  | .FloatingPoint =>
    pure { s with
      init_val := init
      found := s.found || (if is_min then expr_range_info.getFpMax.lt (double_of_bits init)
        else (double_of_bits init).lt expr_range_info.getFpMin) }
  | .Integer =>
    pure { s with
      init_val := init
      found := s.found || (if is_min then decide (expr_range_info.getIntMax < init)
        else decide (expr_range_info.getIntMin > init)) }
  | .Invalid => pure s

/-- The `switch (agg_info.agg_kind)` of `getKeylessInfo` for the aggregate `agg_expr`.
`agg_arg(target_expr)` is `agg_expr->get_arg()`; a null argument that is dereferenced,
or handed to `getExpressionRange`, is undefined behaviour.  The `default` case, which
sets `keyless = false`, is not reached by any of the five values of `SQLAgg`. -/
def getKeylessInfo_switch (get_agg_initial_val : SQLAgg → SQLTypeInfo → Bool → Nat → Int)
    (query_mem_desc_ : QueryMemoryDescriptor) (is_group_by : Bool) (agg_info : TargetInfo)
    (chosen_type : SQLTypeInfo) (agg_expr : AggExpr) (s : KeylessScan) :
    Except Failure KeylessScan :=
  match agg_info.agg_kind, agg_expr.get_arg with
  | .kAVG, _ => do
    let index ← int32_op (s.index + 1)
    pure { s with index := index, init_val := 0, found := true }
  | .kCOUNT, none => pure { s with init_val := 0, found := true }
  | .kCOUNT, some arg_expr =>
    if !arg_expr.get_type_info.get_notnull && arg_expr.expr_range.hasNulls then pure s
    else pure { s with init_val := 0, found := true }
  | .kSUM, none => .error .UndefinedBehaviour
  | .kSUM, some arg_expr =>
    getKeylessInfo_sum get_agg_initial_val query_mem_desc_ is_group_by agg_info arg_expr s
  | .kMIN, none => .error .UndefinedBehaviour
  | .kMIN, some arg_expr =>
    getKeylessInfo_min_max get_agg_initial_val query_mem_desc_ is_group_by agg_info chosen_type
      true arg_expr s
  | .kMAX, none => .error .UndefinedBehaviour
  | .kMAX, some arg_expr =>
    getKeylessInfo_min_max get_agg_initial_val query_mem_desc_ is_group_by agg_info chosen_type
      false arg_expr s

/-- The statements of the loop of `getKeylessInfo` up to the end of
`if (!found && agg_info.is_agg)`. -/
def getKeylessInfo_target (get_compact_type : TargetInfo → SQLTypeInfo)
    (get_agg_initial_val : SQLAgg → SQLTypeInfo → Bool → Nat → Int)
    (query_mem_desc_ : QueryMemoryDescriptor) (is_group_by : Bool) (target_expr : TargetExpr)
    (s : KeylessScan) : Except Failure KeylessScan :=
  let agg_info := target_expr.target_info
  let chosen_type := get_compact_type agg_info
  if !s.found && agg_info.is_agg then
    match target_expr.agg_expr with
    | none => .error .CheckFailed
    | some agg_expr =>
      getKeylessInfo_switch get_agg_initial_val query_mem_desc_ is_group_by agg_info chosen_type
        agg_expr s
  else pure s

/-- The loop of `getKeylessInfo` over the remaining targets. -/
def getKeylessInfo_loop (get_compact_type : TargetInfo → SQLTypeInfo)
    (get_agg_initial_val : SQLAgg → SQLTypeInfo → Bool → Nat → Int)
    (query_mem_desc_ : QueryMemoryDescriptor) (is_group_by : Bool) :
    List TargetExpr → KeylessScan → Except Failure KeylessScan
  | [], s => pure s
  | target_expr :: rest, s => do
    let s ← getKeylessInfo_target get_compact_type get_agg_initial_val query_mem_desc_
      is_group_by target_expr s
    if !s.keyless then pure s
    else if !s.found then do
      let index ← int32_op (s.index + 1)
      getKeylessInfo_loop get_compact_type get_agg_initial_val query_mem_desc_ is_group_by rest
        { s with index := index }
    else
      getKeylessInfo_loop get_compact_type get_agg_initial_val query_mem_desc_ is_group_by rest s

/-- `GroupByAndAggregate::getKeylessInfo`.  The functions `get_compact_type` and
`get_agg_initial_val` are declared outside the sources; `query_mem_desc_` is the member
as it is when the function is called. -/
def getKeylessInfo (get_compact_type : TargetInfo → SQLTypeInfo)
    (get_agg_initial_val : SQLAgg → SQLTypeInfo → Bool → Nat → Int)
    (query_mem_desc_ : QueryMemoryDescriptor) (target_expr_list : List TargetExpr)
    (is_group_by : Bool) : Except Failure KeylessInfo := do
  let s ← getKeylessInfo_loop get_compact_type get_agg_initial_val query_mem_desc_ is_group_by
    target_expr_list { keyless := true, found := false, index := 0, init_val := 0 }
  pure { keyless := s.keyless && s.found, target_index := s.index, init_val := s.init_val }

/-! ## Aggregate calls -/

/-- The function `agg_fn_base_names`; `get_compact_type` is declared outside the
sources. -/
def agg_fn_base_names (get_compact_type : TargetInfo → SQLTypeInfo) (target_info : TargetInfo) :
    List String :=
  let chosen_type := get_compact_type target_info
  if !target_info.is_agg then
    if (chosen_type.is_string && chosen_type.get_compression == .kENCODING_NONE)
        || chosen_type.is_array then ["agg_id", "agg_id"]
    else ["agg_id"]
  else
    match target_info.agg_kind with
    | .kAVG => ["agg_sum", "agg_count"]
    | .kCOUNT => [if target_info.is_distinct then "agg_count_distinct" else "agg_count"]
    | .kMAX => ["agg_max"]
    | .kMIN => ["agg_min"]
    | .kSUM => ["agg_sum"]

/-- An operand of a call that `codegenAggCalls` emits, named by its role. -/
inductive AggArg where
  /-- `agg_col_ptr`: the slot `col_off` of the output row, or of the column when the
  bin index is added. -/
  | agg_col_ptr (col_off : Nat) (plus_bin_index : Bool)
  /-- `agg_out_vec[agg_out_off]` -/
  | agg_out_vec (agg_out_off : Nat)
  /-- `LL_INT(int32_t(0))` or `LL_INT(int64_t(0))` -/
  | zero (bits : Nat)
  | str_target_lv
  /-- `target_lvs[..]` after `convertNullIfAny`, `castToFP`, `castToTypeIn` -/
  | target_lv (lv : Nat) (null_converted cast_to_fp cast_to_width : Bool)
  /-- The inline null of the chosen type. -/
  | null_lv (is_fp : Bool)
  deriving DecidableEq, Repr, Inhabited

/-- What `codegenAggCalls` emits to update one output slot. -/
inductive AggUpdate where
  /-- `CreateAtomicRMW(Add, acc_i32, 1, Monotonic)` -/
  | atomic_add (agg_col_ptr : AggArg)
  /-- `emitExternalCall("agg_count_distinct_array_" + numeric_type_name(elem_ti), ..)` -/
  | count_distinct_array (agg_col_ptr : AggArg)
  /-- `codegenCountDistinct(target_idx, target_expr, agg_args, ..)` -/
  | count_distinct (agg_args : List AggArg)
  /-- `emitCall(fname, agg_args)` -/
  | call (fname : String) (agg_args : List AggArg)
  deriving DecidableEq, Repr, Inhabited

/-- What `codegenAggCalls` is called with and what it reads of its object: whether the
two components of `agg_out_ptr_w_idx` are non-null, the size of `agg_out_vec`,
`co.device_type_`, the member `output_columnar_`, and the function `get_compact_type`,
declared outside the sources. -/
structure AggCallsEnv where
  is_group_by : Bool
  has_bin_index : Bool
  agg_out_vec_size : Nat
  device_type : ExecutorDeviceType
  output_columnar_ : Bool
  get_compact_type : TargetInfo → SQLTypeInfo

/-- What the collaborators of `codegenAggCalls` answer for one target: whether it is an
`UNNEST`, `constrained_not_null(arg_expr, quals)`, the number of values
`codegenAggArg` returns, and `isLazyFetchColumn`. -/
structure AggTargetContext where
  is_unnest : Bool
  constrained_not_null : Bool
  target_lvs_size : Nat
  isLazyFetchColumn : Bool
  deriving DecidableEq, Repr, Inhabited

/-- The read `query_mem_desc_.agg_col_widths[agg_out_off].compact`. -/
def codegenAggCalls_chosen_bytes (q : QueryMemoryDescriptor) (agg_out_off : Nat) :
    Except Failure Nat :=
  match q.agg_col_widths[agg_out_off]? with
  | none => .error .UndefinedBehaviour
  | some col_width => pure col_width.compact

/-- The computation of `col_off`, a `uint32_t`, in `codegenAggCalls`: the byte offset of
the slot, which must be a multiple of `chosen_bytes`, divided by it. -/
def codegenAggCalls_col_off (env : AggCallsEnv) (q : QueryMemoryDescriptor)
    (agg_out_off chosen_bytes : Nat) : Except Failure Nat := do
  let offset ← (if env.output_columnar_ then q.getColOffInBytes 0 agg_out_off
    else q.getColOnlyOffInBytes agg_out_off)
  let col_off := offset % 4294967296
  if chosen_bytes = 0 then .error .UndefinedBehaviour
  else if col_off % chosen_bytes ≠ 0 then .error .CheckFailed
  else if env.output_columnar_ && !env.has_bin_index then .error .CheckFailed
  else pure (col_off / chosen_bytes)

/-- The computation of `agg_col_ptr` in `codegenAggCalls`: `none`, the null pointer, for
a query without grouping. -/
def codegenAggCalls_agg_col_ptr (env : AggCallsEnv) (q : QueryMemoryDescriptor)
    (agg_out_off chosen_bytes : Nat) : Except Failure (Option AggArg) :=
  if env.is_group_by then do
    let col_off ← codegenAggCalls_col_off env q agg_out_off chosen_bytes
    pure (some (.agg_col_ptr col_off env.output_columnar_))
  else pure none

/-- The operand `is_group_by ? agg_col_ptr : agg_out_vec[agg_out_off]`. -/
def codegenAggCalls_out_ptr (env : AggCallsEnv) (agg_col_ptr : Option AggArg)
    (agg_out_off : Nat) : Except Failure AggArg :=
  match agg_col_ptr with
  | some ptr => pure ptr
  | none =>
    if agg_out_off < env.agg_out_vec_size then pure (.agg_out_vec agg_out_off)
    else .error .UndefinedBehaviour

/-- The statements of `codegenAggCalls` that turn `target_lvs[target_lv_idx]` into the
value operand: `convertNullIfAny` (which fails a `CHECK` for a floating point argument
of an aggregate that is not floating point) or `castToFP`, then `castToTypeIn`. -/
def codegenAggCalls_value (agg_info : TargetInfo) (chosen_type : SQLTypeInfo)
    (is_agg_expr : Bool) (arg_expr : Option ArgExpr) (lazy_fetched need_skip_null : Bool)
    (target_lvs : List Nat) (target_lv_idx : Nat) : Except Failure AggArg :=
  match target_lvs[target_lv_idx]? with
  | none => .error .UndefinedBehaviour
  | some lv =>
    let cast_to_width := !is_agg_expr || arg_expr.isSome
    if need_skip_null && agg_info.agg_kind != .kCOUNT then
      match arg_expr with
      | none => .error .UndefinedBehaviour
      | some arg =>
        if arg.get_type_info.is_fp && !chosen_type.is_fp then .error .CheckFailed
        else pure (.target_lv lv true false cast_to_width)
    else pure (.target_lv lv false (!lazy_fetched && chosen_type.is_fp) cast_to_width)

/-- The statements of `codegenAggCalls` that append the type suffix to the base name. -/
def codegenAggCalls_typed_name (agg_base_name : String) (lazy_fetched : Bool)
    (chosen_type : SQLTypeInfo) (chosen_bytes : Nat) : Except Failure String :=
  if !lazy_fetched && chosen_type.is_fp then
    if chosen_bytes = 4 then
      if chosen_type.is_kFLOAT then pure (agg_base_name ++ "_float") else .error .CheckFailed
    else if chosen_bytes = 8 then pure (agg_base_name ++ "_double")
    else .error .CheckFailed
  else if chosen_bytes = 4 then pure (agg_base_name ++ "_int32")
  else pure agg_base_name

/-- The generic dispatch of `codegenAggCalls`: the body of the loop over the base names
of one target, after the test for `COUNT(DISTINCT)` over an array. -/
def codegenAggCalls_dispatch (env : AggCallsEnv) (q : QueryMemoryDescriptor)
    (agg_info : TargetInfo) (is_agg_expr : Bool) (arg_expr : Option ArgExpr)
    (has_str_target_lv lazy_fetched : Bool) (target_lvs : List Nat)
    (agg_out_off target_lv_idx : Nat) (agg_base_name : String) : Except Failure AggUpdate := do
  let chosen_bytes ← codegenAggCalls_chosen_bytes q agg_out_off
  let chosen_type := env.get_compact_type agg_info
  let agg_col_ptr ← codegenAggCalls_agg_col_ptr env q agg_out_off chosen_bytes
  let need_skip_null :=
    agg_info.skip_null_val && !(agg_info.agg_kind == .kAVG && agg_base_name == "agg_count")
  let target_lv ← codegenAggCalls_value agg_info chosen_type is_agg_expr arg_expr lazy_fetched
    need_skip_null target_lvs target_lv_idx
  let is_simple_count := agg_info.is_agg && agg_info.agg_kind == .kCOUNT && !agg_info.is_distinct
  let out_ptr ← codegenAggCalls_out_ptr env agg_col_ptr agg_out_off
  let agg_args : List AggArg :=
    [out_ptr,
     if is_simple_count && arg_expr.isNone then .zero (if chosen_bytes = 4 then 32 else 64)
     else if is_simple_count && arg_expr.isSome && has_str_target_lv then .str_target_lv
     else target_lv]
  let agg_fname ← codegenAggCalls_typed_name agg_base_name lazy_fetched chosen_type chosen_bytes
  if agg_info.is_distinct then do
    CHECK (chosen_bytes == 8)
    CHECK (!chosen_type.is_fp)
    CHECK (agg_base_name == "agg_count_distinct")
    pure (.count_distinct agg_args)
  else
    let agg_fname := if need_skip_null then agg_fname ++ "_skip_val" else agg_fname
    let agg_args := if need_skip_null then agg_args ++ [.null_lv chosen_type.is_fp] else agg_args
    pure (.call
      (if env.device_type == .GPU && q.threadsShareMemory then agg_fname ++ "_shared"
       else agg_fname)
      agg_args)

/-- The body of the loop of `codegenAggCalls` over the base names of one target: the
call for `COUNT(DISTINCT)` over an array, or the generic dispatch. -/
def codegenAggCalls_name (env : AggCallsEnv) (q : QueryMemoryDescriptor)
    (agg_info : TargetInfo) (is_agg_expr : Bool) (arg_expr : Option ArgExpr)
    (has_str_target_lv lazy_fetched : Bool) (target_lvs : List Nat)
    (agg_out_off target_lv_idx : Nat) (agg_base_name : String) : Except Failure AggUpdate :=
  if !agg_info.is_distinct then
    codegenAggCalls_dispatch env q agg_info is_agg_expr arg_expr has_str_target_lv lazy_fetched
      target_lvs agg_out_off target_lv_idx agg_base_name
  else
    match arg_expr with
    | none => .error .UndefinedBehaviour
    | some arg =>
      if !arg.get_type_info.is_array then
        codegenAggCalls_dispatch env q agg_info is_agg_expr arg_expr has_str_target_lv
          lazy_fetched target_lvs agg_out_off target_lv_idx agg_base_name
      else
        match q.agg_col_widths[agg_out_off]? with
        | none => .error .UndefinedBehaviour
        | some col_width =>
          if col_width.actual ≠ 8 then .error .CheckFailed
          else if env.output_columnar_ then .error .CheckFailed
          else if env.is_group_by then
            match q.getColOnlyOffInBytes agg_out_off with
            | .error e => .error e
            | .ok offset =>
              let col_off := offset % 4294967296
              if col_off % 8 ≠ 0 then .error .CheckFailed
              else if target_lv_idx < target_lvs.length then
                pure (.count_distinct_array (.agg_col_ptr (col_off / 8) false))
              else .error .UndefinedBehaviour
          else if agg_out_off < env.agg_out_vec_size ∧ target_lv_idx < target_lvs.length then
            pure (.count_distinct_array (.agg_out_vec agg_out_off))
          else .error .UndefinedBehaviour

/-- The loop of `codegenAggCalls` over the remaining base names of one target, from the
slot `agg_out_off` and the value `target_lv_idx`; returns the updates emitted and the
new `agg_out_off`, an `int32_t`. -/
def codegenAggCalls_names (env : AggCallsEnv) (q : QueryMemoryDescriptor)
    (agg_info : TargetInfo) (is_agg_expr : Bool) (arg_expr : Option ArgExpr)
    (has_str_target_lv lazy_fetched : Bool) (target_lvs : List Nat) :
    List String → Nat → Nat → Except Failure (List AggUpdate × Nat)
  | [], agg_out_off, _ => pure ([], agg_out_off)
  | agg_base_name :: rest, agg_out_off, target_lv_idx => do
    let update ← codegenAggCalls_name env q agg_info is_agg_expr arg_expr has_str_target_lv
      lazy_fetched target_lvs agg_out_off target_lv_idx agg_base_name
    let next ← int32_op (agg_out_off + 1)
    let r ← codegenAggCalls_names env q agg_info is_agg_expr arg_expr has_str_target_lv
      lazy_fetched target_lvs rest next.toNat (target_lv_idx + 1)
    pure (update :: r.1, r.2)

/-- The adjustment of `target_lvs` in `codegenAggCalls`: the values are numbered as
`codegenAggArg` returned them; returns whether `str_target_lv` is set, and the list. -/
def codegenAggCalls_target_lvs (target_lvs_size agg_fn_names_size : Nat) :
    Except Failure (Bool × List Nat) :=
  let str_target_lv := target_lvs_size == 3
  let target_lvs := if str_target_lv then [1, 2] else List.range target_lvs_size
  if target_lvs.length < agg_fn_names_size then
    if target_lvs.length ≠ 1 then .error .CheckFailed
    else if agg_fn_names_size ≠ 2 then .error .CheckFailed
    else pure (str_target_lv, [0, 0])
  else if !(str_target_lv || agg_fn_names_size == target_lvs.length) then .error .CheckFailed
  else if !(target_lvs.length == 1 || target_lvs.length == 2) then .error .CheckFailed
  else pure (str_target_lv, target_lvs)

/-- The statement of `codegenAggCalls` that widens the slot of a lazily fetched target,
or of any target of a query without grouping, to eight bytes. -/
def codegenAggCalls_widen (env : AggCallsEnv) (lazy_fetched : Bool) (q : QueryMemoryDescriptor)
    (agg_out_off : Nat) : Except Failure QueryMemoryDescriptor :=
  if lazy_fetched || !env.is_group_by then
    match q.agg_col_widths[agg_out_off]? with
    | none => .error .UndefinedBehaviour
    | some col_width =>
      pure { q with
        agg_col_widths := q.agg_col_widths.set agg_out_off { col_width with compact := 8 } }
  else pure q

/-- The branch of `codegenAggCalls` for a simple `COUNT` on a device whose threads share
memory: an atomic increment of the slot. -/
def codegenAggCalls_simple_count (env : AggCallsEnv) (q : QueryMemoryDescriptor)
    (agg_fn_names_size agg_out_off : Nat) : Except Failure AggUpdate := do
  CHECK (agg_fn_names_size == 1)
  let chosen_bytes ← codegenAggCalls_chosen_bytes q agg_out_off
  let agg_col_ptr ← codegenAggCalls_agg_col_ptr env q agg_out_off chosen_bytes
  let out_ptr ← codegenAggCalls_out_ptr env agg_col_ptr agg_out_off
  pure (.atomic_add out_ptr)

/-- The body of the loop of `codegenAggCalls` over the targets; returns the updates
emitted, the descriptor, and the new `agg_out_off`. -/
def codegenAggCalls_target (env : AggCallsEnv) (ctx : AggTargetContext)
    (target_expr : TargetExpr) (q : QueryMemoryDescriptor) (agg_out_off : Nat) :
    Except Failure (List AggUpdate × QueryMemoryDescriptor × Nat) :=
  if ctx.is_unnest then .error .UnnestNotSupported
  else
    -- agg_arg(target_expr)
    let arg_expr := target_expr.agg_expr.bind (fun agg_expr => agg_expr.get_arg)
    let agg_info : TargetInfo :=
      if arg_expr.isSome && ctx.constrained_not_null then
        { target_expr.target_info with skip_null_val := false }
      else target_expr.target_info
    let agg_fn_names := agg_fn_base_names env.get_compact_type agg_info
    let is_simple_count := agg_info.is_agg && agg_info.agg_kind == .kCOUNT && !agg_info.is_distinct
    do
      let q ← codegenAggCalls_widen env ctx.isLazyFetchColumn q agg_out_off
      let lvs ← codegenAggCalls_target_lvs ctx.target_lvs_size agg_fn_names.length
      if env.device_type == .GPU && q.threadsShareMemory && is_simple_count &&
          (match arg_expr with
           | none => true
           | some arg => arg.get_type_info.get_notnull) then do
        let update ← codegenAggCalls_simple_count env q agg_fn_names.length agg_out_off
        let next ← int32_op (agg_out_off + 1)
        pure ([update], q, next.toNat)
      else do
        let r ← codegenAggCalls_names env q agg_info target_expr.agg_expr.isSome arg_expr lvs.1
          ctx.isLazyFetchColumn lvs.2 agg_fn_names agg_out_off 0
        pure (r.1, q, r.2)

/-- The loop of `codegenAggCalls` over the remaining targets, each with the answers of
the collaborators for it. -/
def codegenAggCalls_loop (env : AggCallsEnv) :
    List (TargetExpr × AggTargetContext) → QueryMemoryDescriptor → Nat →
      Except Failure (List AggUpdate × QueryMemoryDescriptor)
  | [], q, _ => pure ([], q)
  | (target_expr, ctx) :: rest, q, agg_out_off => do
    let r ← codegenAggCalls_target env ctx target_expr q agg_out_off
    let s ← codegenAggCalls_loop env rest r.2.1 r.2.2
    pure (r.1 ++ s.1, s.2)

/-- `GroupByAndAggregate::codegenAggCalls`, up to the loop that emits the updates;
returns the updates in the order of emission and `query_mem_desc_` as the function
leaves it. -/
def codegenAggCalls (env : AggCallsEnv) (targets : List (TargetExpr × AggTargetContext))
    (query_mem_desc_ : QueryMemoryDescriptor) :
    Except Failure (List AggUpdate × QueryMemoryDescriptor) := do
  CHECK (if env.is_group_by then env.agg_out_vec_size == 0 else env.agg_out_vec_size != 0)
  codegenAggCalls_loop env targets query_mem_desc_ 0

/-! ## Kernel errors -/

/-- The loop of `launchGpuCode` over the remaining `error_codes`, with the current
value of `*error_code`; the assignment is followed by `break`. -/
def launchGpuCode_scan : List Int → Int → Int
  | [], error_code => error_code
  | err :: rest, error_code =>
    if err ≠ 0 ∧ (error_code = 0 ∨ err > error_code) then err
    else launchGpuCode_scan rest error_code

/-- The value `launchGpuCode` leaves in `*error_code` after a grouping kernel, from the
`error_codes` copied back from the device: `*error_code = 0`, then the loop. -/
def launchGpuCode_error_code (error_codes : List Int) : Int :=
  launchGpuCode_scan error_codes 0

/-! ## Assertions on the descriptor -/

/-- The statement `if (query_mem_desc_.interleavedBins(device_type_)) {
CHECK(query_mem_desc_.keyless_hash); }` of the constructor of `QueryExecutionContext`;
`codegenGroupBy` makes the same assertion under the same test. -/
def QueryExecutionContext_checkInterleaved (query_mem_desc_ : QueryMemoryDescriptor)
    (device_type : ExecutorDeviceType) : Except Failure Unit :=
  if query_mem_desc_.interleavedBins device_type then CHECK query_mem_desc_.keyless_hash
  else pure ()

/-! ## Group lookup -/

/-- An operand of a call that `codegenGroupBy` emits, named by its role. -/
inductive GroupArg where
  | groups_buffer
  | small_groups_buffer
  | group_expr_lv
  | group_key
  | hash_lv
  | warp_idx
  /-- An argument of the row function reached by advancing `arg_it`. -/
  | row_func_arg
  /-- `LL_INT(v)` -/
  | ll_int (v : Int)
  deriving DecidableEq, Repr, Inhabited

/-- A component of the tuple `codegenGroupBy` returns: null, the buffer argument, or the
result of an emitted call. -/
inductive GroupValue where
  | null
  | groups_buffer
  | call (fname : String) (args : List GroupArg)
  deriving DecidableEq, Repr, Inhabited

/-- The name of the lookup function on the fast path of `codegenGroupBy`, with the
assertions made while it is built. -/
def codegenGroupBy_fast_name (q : QueryMemoryDescriptor) (output_columnar_ : Bool)
    (device_type : ExecutorDeviceType) : Except Failure String :=
  let get_group_fn_name :=
    if output_columnar_ && !q.keyless_hash then "get_columnar_group_bin_offset"
    else "get_group_value_fast"
  let get_group_fn_name :=
    if q.keyless_hash then get_group_fn_name ++ "_keyless" else get_group_fn_name
  if q.interleavedBins device_type then
    if output_columnar_ then .error .CheckFailed
    else if !q.keyless_hash then .error .CheckFailed
    else pure (get_group_fn_name ++ "_semiprivate")
  else pure get_group_fn_name

/-- The operands of the lookup function on the fast path of `codegenGroupBy`. -/
def codegenGroupBy_fast_args (q : QueryMemoryDescriptor) (output_columnar_ : Bool)
    (device_type : ExecutorDeviceType) (row_size_quad : Int) : Except Failure (List GroupArg) :=
  let get_group_fn_args : List GroupArg :=
    [.groups_buffer, .group_expr_lv, .ll_int q.min_val, .ll_int q.bucket]
  if !q.keyless_hash then
    if !output_columnar_ then pure (get_group_fn_args ++ [.ll_int row_size_quad])
    else pure get_group_fn_args
  else if output_columnar_ then .error .CheckFailed
  else if q.interleavedBins device_type then
    pure (get_group_fn_args ++ [.ll_int row_size_quad, .warp_idx, .ll_int q.executor_.warpSize])
  else pure (get_group_fn_args ++ [.ll_int row_size_quad])

/-- The fast path of `codegenGroupBy`, taken when `usesGetGroupValueFast()` holds. -/
def codegenGroupBy_fast (q : QueryMemoryDescriptor) (output_columnar_ : Bool)
    (device_type : ExecutorDeviceType) (row_size_quad : Int) :
    Except Failure (GroupValue × GroupValue) := do
  let get_group_fn_name ← codegenGroupBy_fast_name q output_columnar_ device_type
  let get_group_fn_args ← codegenGroupBy_fast_args q output_columnar_ device_type row_size_quad
  if get_group_fn_name == "get_columnar_group_bin_offset" then
    pure (.groups_buffer, .call get_group_fn_name get_group_fn_args)
  else pure (.call get_group_fn_name get_group_fn_args, .null)

/-- The value `row_size_quad`, an `int32_t`, of `codegenGroupBy`. -/
def codegenGroupBy_row_size_quad (q : QueryMemoryDescriptor) (output_columnar_ : Bool) :
    Except Failure Int :=
  if output_columnar_ then pure 0
  else do
    let row_size ← q.getRowSize
    pure (wrap32 ((row_size / 8 : Nat) : Int))

/-- The loop of `codegenGroupBy` over the grouping expressions of a multi-column key:
`getExprRangeInfo` is called for each, and the replacement of NULL is computed. -/
def codegenGroupBy_sub_keys (g_enable_watchdog : Bool) :
    List ExpressionRange → Except Failure Unit
  | [] => pure ()
  | group_expr :: rest => do
    let col_range_info ← getExprRangeInfo g_enable_watchdog group_expr
    -- the null replacement `col_range_info.max + 1`, in int64_t
    let _ ← int64_op (col_range_info.max + 1)
    codegenGroupBy_sub_keys g_enable_watchdog rest

/-- The case of `codegenGroupBy` for a single grouping column. -/
def codegenGroupBy_one_col (groupby_exprs : List ExpressionRange)
    (q : QueryMemoryDescriptor) (output_columnar_ : Bool) (device_type : ExecutorDeviceType)
    (row_size_quad : Int) : Except Failure (GroupValue × GroupValue) := do
  CHECK (groupby_exprs.length == 1)
  -- the null replacement `max_val + (bucket ? bucket : 1)`, in int64_t
  let _ ← int64_op (q.max_val + (if q.bucket != 0 then q.bucket else 1))
  let fast ← q.usesGetGroupValueFast
  if fast then codegenGroupBy_fast q output_columnar_ device_type row_size_quad
  else
    pure (.call "get_group_value_one_key"
      [.groups_buffer, .ll_int (wrap32 q.entry_count), .small_groups_buffer,
       .ll_int (wrap32 q.entry_count_small), .group_expr_lv, .ll_int q.min_val,
       .ll_int row_size_quad, .row_func_arg], .null)

/-- The case of `codegenGroupBy` for a multi-column key. -/
def codegenGroupBy_multi_col (g_enable_watchdog : Bool) (groupby_exprs : List ExpressionRange)
    (q : QueryMemoryDescriptor) (row_size_quad : Int) :
    Except Failure (GroupValue × GroupValue) := do
  let key_size_lv : GroupArg := .ll_int (wrap32 q.group_col_widths.length)
  codegenGroupBy_sub_keys g_enable_watchdog groupby_exprs
  if q.hash_type = .MultiColPerfectHash then do
    let _ ← codegenPerfectHashFunction g_enable_watchdog groupby_exprs
    pure (.call "get_matching_group_value_perfect_hash"
      [.groups_buffer, .hash_lv, .group_key, key_size_lv, .ll_int row_size_quad], .null)
  else
    pure (.call "get_group_value"
      [.groups_buffer, .ll_int (wrap32 q.entry_count), .group_key, key_size_lv,
       .ll_int row_size_quad, .row_func_arg], .null)

/-- `GroupByAndAggregate::codegenGroupBy`: the tuple it returns, for the ranges of the
grouping expressions, the members `query_mem_desc_` and `output_columnar_`, and
`co.device_type_`. -/
def codegenGroupBy (g_enable_watchdog : Bool) (groupby_exprs : List ExpressionRange)
    (query_mem_desc_ : QueryMemoryDescriptor) (output_columnar_ : Bool)
    (device_type : ExecutorDeviceType) : Except Failure (GroupValue × GroupValue) := do
  let row_size_quad ← codegenGroupBy_row_size_quad query_mem_desc_ output_columnar_
  match query_mem_desc_.hash_type with
  | .OneColKnownRange | .OneColGuessedRange | .Scan =>
    codegenGroupBy_one_col groupby_exprs query_mem_desc_ output_columnar_ device_type
      row_size_quad
  | .MultiCol | .MultiColPerfectHash =>
    codegenGroupBy_multi_col g_enable_watchdog groupby_exprs query_mem_desc_ row_size_quad

/-! ## Output slots -/

/-- The loop of `get_agg_count` over the remaining targets, with the running
`agg_count`, an `int32_t`. -/
def get_agg_count_loop : List TargetExpr → Int → Except Failure Int
  | [], agg_count => pure agg_count
  | target_expr :: rest, agg_count =>
    match target_expr.agg_expr with
    | none => do
      let ti := target_expr.get_type_info
      let agg_count ← int32_op
        (agg_count + (if ti.is_string && ti.get_compression != .kENCODING_DICT then 2 else 1))
      get_agg_count_loop rest agg_count
    | some agg_expr => do
      let agg_count ← int32_op (agg_count + (if agg_expr.get_aggtype == .kAVG then 2 else 1))
      get_agg_count_loop rest agg_count

/-- The function `get_agg_count`. -/
def get_agg_count (target_exprs : List TargetExpr) : Except Failure Int :=
  get_agg_count_loop target_exprs 0

/-- The vectors `allocateCountDistinctBuffers` writes and the allocations made so far:
`agg_bitmap_size`, the member `init_agg_vals_`, and the sizes requested from
`allocateCountDistinctBitmap` (in bits) and `allocateCountDistinctSet` (recorded as -1),
in order. -/
structure CountDistinctBuffers where
  agg_bitmap_size : List Int
  init_agg_vals_ : List Int
  requests : List Int
  deriving DecidableEq, Repr, Inhabited

/-- `allocateCountDistinctBitmap` (`bitmap_sz > 0`) and `allocateCountDistinctSet`
(`bitmap_sz = -1`): the request is recorded, and the address of the new buffer, the
value `new_buffer k` for the `k`-th allocation, is returned as an `int64_t`. -/
def allocateCountDistinct (new_buffer : Nat → Int) (requests : List Int) (bitmap_sz : Int) :
    Int × List Int :=
  (new_buffer requests.length, requests ++ [bitmap_sz])

/-- The statements of the loop of `allocateCountDistinctBuffers` for a distinct target:
the value `bitmap_sz` is the size of the bitmap in bits, or -1 for a set. -/
def allocateCountDistinctBuffers_record (new_buffer : Nat → Int) (deferred : Bool)
    (agg_col_idx : Nat) (bitmap_sz : Int) (s : CountDistinctBuffers) :
    Except Failure CountDistinctBuffers :=
  if deferred then
    pure { s with agg_bitmap_size := s.agg_bitmap_size.set agg_col_idx bitmap_sz }
  else if agg_col_idx < s.init_agg_vals_.length then
    let r := allocateCountDistinct new_buffer s.requests bitmap_sz
    pure { s with init_agg_vals_ := s.init_agg_vals_.set agg_col_idx r.1, requests := r.2 }
  else .error .UndefinedBehaviour

/-- The body of the loop of `allocateCountDistinctBuffers` up to the test for `kAVG`. -/
def allocateCountDistinctBuffers_target (new_buffer : Nat → Int) (q : QueryMemoryDescriptor)
    (deferred : Bool) (target_expr : TargetExpr) (target_idx agg_col_idx : Nat)
    (s : CountDistinctBuffers) : Except Failure CountDistinctBuffers :=
  let agg_info := target_expr.target_info
  if agg_info.is_distinct then
    if !(agg_info.is_agg && agg_info.agg_kind == .kCOUNT) then .error .CheckFailed
    else if (q.agg_col_widths.getD agg_col_idx default).actual ≠ 8 then .error .CheckFailed
    else
      match q.count_distinct_descriptors_.lookup target_idx with
      | none => .error .CheckFailed
      | some count_distinct_desc =>
        match count_distinct_desc.impl_type_ with
        | .Bitmap =>
          allocateCountDistinctBuffers_record new_buffer deferred agg_col_idx
            count_distinct_desc.bitmap_sz_bits s
        | .StdSet =>
          allocateCountDistinctBuffers_record new_buffer deferred agg_col_idx (-1) s
  else pure s

/-- The loop of `allocateCountDistinctBuffers` over the remaining targets, from
`target_idx` and `agg_col_idx`. -/
def allocateCountDistinctBuffers_loop (new_buffer : Nat → Int) (q : QueryMemoryDescriptor)
    (deferred : Bool) :
    List TargetExpr → Nat → Nat → CountDistinctBuffers → Except Failure CountDistinctBuffers
  | [], _, _, s => pure s
  | target_expr :: rest, target_idx, agg_col_idx, s =>
    if agg_col_idx < q.agg_col_widths.length then do
      let s ← allocateCountDistinctBuffers_target new_buffer q deferred target_expr target_idx
        agg_col_idx s
      allocateCountDistinctBuffers_loop new_buffer q deferred rest (target_idx + 1)
        (agg_col_idx + 1 + (if target_expr.target_info.agg_kind == .kAVG then 1 else 0)) s
    else pure s

/-- `QueryExecutionContext::allocateCountDistinctBuffers`, for the targets
`executor_->plan_state_->target_exprs_`, the member `init_agg_vals_` and the
allocations made before the call. -/
def allocateCountDistinctBuffers (new_buffer : Nat → Int) (q : QueryMemoryDescriptor)
    (target_exprs_ : List TargetExpr) (deferred : Bool) (init_agg_vals_ requests : List Int) :
    Except Failure CountDistinctBuffers :=
  let agg_col_count := q.agg_col_widths.length
  if agg_col_count < target_exprs_.length then .error .CheckFailed
  else
    allocateCountDistinctBuffers_loop new_buffer q deferred target_exprs_ 0 0
      { agg_bitmap_size := List.replicate (if deferred then agg_col_count else 0) 0
        init_agg_vals_ := init_agg_vals_
        requests := requests }

/-! ## Conditions named by the specification -/

/-- Whether the target is a `COUNT` aggregate. -/
def isCountTarget (target : TargetExpr) : Bool :=
  match target.agg_expr with
  | some agg => agg.get_aggtype == .kCOUNT
  | none => false

/-- Whether the type is `INT` or a dictionary-encoded string. -/
def isIntOrDictString (ti : SQLTypeInfo) : Bool :=
  ti.is_kINT || (ti.is_string && ti.get_compression == .kENCODING_DICT)

/-- Modelled from the spec: compact-width selection "picks 4 instead of 8 iff (a) no
`UNNEST` grouping, (b) exactly one grouping column, (c) every non-COUNT target is INT or
dictionary-encoded string, (d) total source tuples ≤ 2³¹−1". -/
def compactWidthSpec (ra_exe_unit : RelAlgExecutionUnit) (query_infos : List Nat) : Bool :=
  ra_exe_unit.groupby_exprs.all (fun groupby_expr => !groupby_expr.is_unnest)
    && ra_exe_unit.groupby_exprs.length == 1
    && ra_exe_unit.target_exprs.all
        (fun target => isCountTarget target || isIntOrDictString target.get_type_info)
    && decide (query_infos.sum ≤ 2147483647)

/-- A target that leaves the compact width at 4: an aggregate without an argument, which
is `COUNT(*)`, or a projection of type `INT` or dictionary-encoded string. -/
def isNarrowTarget (target : TargetExpr) : Bool :=
  match target.agg_expr with
  | some agg => agg.get_arg.isNone
  | none => isIntOrDictString target.get_type_info

/-- The inputs for which `pick_target_compact_width` returns 4: no grouping expression
is an `UNNEST`, there is exactly one grouping expression and it is not null, every
target is narrow, and the tuple counts, summed in `size_t`, do not exceed `2³¹−1`. -/
def picksCompactWidth4 (ra_exe_unit : RelAlgExecutionUnit) (query_infos : List Nat) : Bool :=
  ra_exe_unit.groupby_exprs.all (fun groupby_expr => groupby_expr.is_null || !groupby_expr.is_unnest)
    && ra_exe_unit.groupby_exprs.length == 1
    && !(ra_exe_unit.groupby_exprs.headD default).is_null
    && ra_exe_unit.target_exprs.all isNarrowTarget
    && decide (query_infos.foldl (fun total numTuples => (total + numTuples) % SIZE_T_RANGE) 0
        ≤ 2147483647)

/-- Modelled from the spec: the baseline table has "a small-overflow of
`min(scan_limit, small_groups_buffer_entry_count)` slots". -/
def baselineSmallSlotsSpec (scan_limit small_groups_buffer_entry_count : Nat) : Nat :=
  min scan_limit small_groups_buffer_entry_count

/-- Modelled from the spec: a `SUM` is found "iff the argument's range is provably
strictly positive or strictly negative", that is `min > 0` or `max < 0`. -/
def sumFoundSpec (expr_range : ExpressionRange) : Bool :=
  match expr_range.getType with
  | .Integer => decide (expr_range.getIntMin > 0) || decide (expr_range.getIntMax < 0)
  | .FloatingPoint =>
    Double.lt (.finite 0) expr_range.getFpMin || expr_range.getFpMax.lt (.finite 0)
  | .Invalid => false

/-- The arguments for which `getKeylessInfo` accepts a `SUM`: of nullable type with a
range without nulls, or of a `NOT NULL` type with a range strictly below or strictly
above zero. -/
def sumAccepted (arg_expr : ArgExpr) : Bool :=
  if !arg_expr.get_type_info.get_notnull then !arg_expr.expr_range.hasNulls
  else sumFoundSpec arg_expr.expr_range

/-- Modelled from the spec: "pure projection (no aggregate before the first
non-aggregate)": the list does not start with an aggregate. -/
def pureProjectionSpec (target_expr_list : List TargetExpr) : Bool :=
  match target_expr_list with
  | [] => true
  | target_expr :: _ => !target_expr.target_info.is_agg

/-- Modelled from the spec: the suffix `_skip_val` is used "when the target is nullable
and the aggregate is not `COUNT` and not the count half of `AVG`". -/
def skipValSpec (agg_info : TargetInfo) (agg_base_name : String) : Bool :=
  agg_info.skip_null_val && agg_info.agg_kind != .kCOUNT
    && !(agg_info.agg_kind == .kAVG && agg_base_name == "agg_count")

/-- The condition `need_skip_null` of `codegenAggCalls`. -/
def needSkipNull (agg_info : TargetInfo) (agg_base_name : String) : Bool :=
  agg_info.skip_null_val && !(agg_info.agg_kind == .kAVG && agg_base_name == "agg_count")

/-- Whether the name of an intrinsic carries `_skip_val`. -/
def carriesSkipVal (fname : String) : Prop :=
  "_skip_val".data <:+: fname.data

/-! ## Sample inputs -/

/-- A keyed row-major descriptor over one group column with compact widths 4, 8, 1. -/
def witnessRowMajor : QueryMemoryDescriptor :=
  { executor_ := { isCPUOnly := false, warpSize := 32, blockSize := 1024, gridSize := 16 }
    allow_multifrag := true
    hash_type := .OneColKnownRange
    keyless_hash := false
    interleaved_bins_on_gpu := false
    idx_target_as_key := -1
    init_val := 0
    group_col_widths := [8]
    agg_col_widths := [⟨4, 4⟩, ⟨8, 8⟩, ⟨1, 1⟩]
    entry_count := 10
    entry_count_small := 0
    min_val := 0
    max_val := 9
    bucket := 0
    has_nulls := false
    sharing := .Shared
    count_distinct_descriptors_ := []
    sort_on_gpu_ := false
    is_sort_plan := false
    output_columnar := false
    render_output := false }

/-- Two integer grouping columns of cardinalities 3 and 4 (scenario S5): the ranges
`[10, 12]` and `[-5, -2]`, no nulls. -/
def witnessTwoKeys : List ExpressionRange :=
  [{ getType := .Integer, getIntMin := 10, getIntMax := 12, getBucket := 0, hasNulls := false },
   { getType := .Integer, getIntMin := -5, getIntMax := -2, getBucket := 0, hasNulls := false }]

/-- Two integer grouping columns: a `BIGINT` column whose values span
`[-5000000000000000000, 5000000000000000000]` and a column of range `[0, 1]`, without
nulls. -/
def wideThenTinyKeys : List ExpressionRange :=
  [{ getType := .Integer, getIntMin := -5000000000000000000, getIntMax := 5000000000000000000,
     getBucket := 0, hasNulls := false },
   { getType := .Integer, getIntMin := 0, getIntMax := 1, getBucket := 0, hasNulls := false }]

/-- The type of an `INT` column. -/
def intTypeInfo : SQLTypeInfo :=
  { is_kINT := true, is_string := false, is_array := false, is_integer := true,
    get_compression := .kENCODING_NONE, get_notnull := false }

/-- The type of a string column that is not dictionary encoded. -/
def unencodedStringTypeInfo : SQLTypeInfo :=
  { is_kINT := false, is_string := true, is_array := false, is_integer := false,
    get_compression := .kENCODING_NONE, get_notnull := false }

/-- The targets `COUNT(DISTINCT s), COUNT(DISTINCT x)`: `s` an unencoded string, `x` an
integer expression whose range is not known. -/
def watchdogTargets : List TargetExpr :=
  [countDistinctTarget unencodedStringTypeInfo default, countDistinctTarget intTypeInfo default]

/-- A grouping query on a GPU: `SELECT COUNT(*) ... GROUP BY x` with `x` an integer
column of range `[0, 12000]`, no order entries, multi-fragment kernels allowed, the
columnar output hint set, and `getKeylessInfo` having accepted the `COUNT`. -/
def keylessColumnarArgs : GroupByAndAggregateArgs :=
  { executor := { isCPUOnly := false, warpSize := 32, blockSize := 1024, gridSize := 16 }
    device_type := .GPU
    ra_exe_unit :=
      { groupby_exprs :=
          [{ is_null := false, get_type_info := intTypeInfo, is_unnest := false,
             expr_range := { getType := .Integer, getIntMin := 0, getIntMax := 12000,
                             getBucket := 0, hasNulls := false } }]
        target_exprs :=
          [{ target_info := { is_agg := true, agg_kind := .kCOUNT, sql_type := intTypeInfo,
                              skip_null_val := false, is_distinct := false }
             get_type_info := intTypeInfo
             agg_expr := some { get_aggtype := .kCOUNT, get_is_distinct := false,
                                get_arg := none } }]
        order_entries := []
        scan_limit := 0 }
    render_output := false
    query_infos := [1000000]
    row_set_mem_owner_is_null := false
    max_groups_buffer_entry_count := 16384
    small_groups_buffer_entry_count := 1024
    allow_multifrag := true
    output_columnar_hint := true
    g_enable_watchdog := false
    group_col_widths := [8]
    target_col_byte_widths := [8]
    compact_byte_width := fun qw low_bound => max qw low_bound
    keyless_info := { keyless := true, target_index := 0, init_val := 0 } }

/-- The descriptor the constructor builds for `keylessColumnarArgs`. -/
def keylessColumnarDescriptor : QueryMemoryDescriptor :=
  { executor_ := keylessColumnarArgs.executor
    allow_multifrag := true
    hash_type := .OneColKnownRange
    keyless_hash := true
    interleaved_bins_on_gpu := false
    idx_target_as_key := 0
    init_val := 0
    group_col_widths := [8]
    agg_col_widths := [{ actual := 8, compact := 8 }]
    entry_count := 12001
    entry_count_small := 0
    min_val := 0
    max_val := 12000
    bucket := 0
    has_nulls := false
    sharing := .Shared
    count_distinct_descriptors_ := []
    sort_on_gpu_ := false
    is_sort_plan := false
    output_columnar := true
    render_output := false }

/-- A grouping query sorted on the GPU: `SELECT x, COUNT(*) ... GROUP BY x ORDER BY 2 DESC`
with `x` an integer column of range `[0, 12000]`. -/
def sortOnGpuArgs : GroupByAndAggregateArgs :=
  { keylessColumnarArgs with
    ra_exe_unit :=
      { keylessColumnarArgs.ra_exe_unit with
        target_exprs :=
          [{ target_info := { is_agg := false, agg_kind := .kMIN, sql_type := intTypeInfo,
                              skip_null_val := false, is_distinct := false }
             get_type_info := intTypeInfo
             agg_expr := none }] ++ keylessColumnarArgs.ra_exe_unit.target_exprs
        order_entries := [{ tle_no := 2, is_desc := true, nulls_first := false }] }
    output_columnar_hint := false
    target_col_byte_widths := [8, 8]
    keyless_info := { keyless := true, target_index := 1, init_val := 0 } }

/-- The descriptor the constructor builds for `sortOnGpuArgs`. -/
def sortOnGpuDescriptor : QueryMemoryDescriptor :=
  { keylessColumnarDescriptor with
    keyless_hash := false
    idx_target_as_key := 1
    agg_col_widths := [{ actual := 8, compact := 8 }, { actual := 8, compact := 8 }]
    sort_on_gpu_ := true }

/-- A grouping query whose single grouping column has no known range:
`SELECT COUNT(*) ... GROUP BY x` on a CPU. -/
def smallBufferArgs : GroupByAndAggregateArgs :=
  { keylessColumnarArgs with
    device_type := .CPU
    ra_exe_unit :=
      { keylessColumnarArgs.ra_exe_unit with
        groupby_exprs :=
          [{ is_null := false, get_type_info := intTypeInfo, is_unnest := false,
             expr_range := default }] } }

/-- The descriptor the constructor builds for `smallBufferArgs`: a baseline table with a
small buffer of 1024 entries. -/
def smallBufferDescriptor : QueryMemoryDescriptor :=
  { keylessColumnarDescriptor with
    hash_type := .OneColGuessedRange
    keyless_hash := false
    idx_target_as_key := -1
    entry_count := 16384
    entry_count_small := 1024
    max_val := 255
    output_columnar := false }

/-- A grouping query on a GPU over a small known range (scenario S1):
`SELECT COUNT(*) ... GROUP BY x` with `x` an integer column of range `[1, 7]`, without
nulls or bucket. -/
def knownRangeArgs : GroupByAndAggregateArgs :=
  { keylessColumnarArgs with
    ra_exe_unit :=
      { keylessColumnarArgs.ra_exe_unit with
        groupby_exprs :=
          [{ is_null := false, get_type_info := intTypeInfo, is_unnest := false,
             expr_range := { getType := .Integer, getIntMin := 1, getIntMax := 7,
                             getBucket := 0, hasNulls := false } }] }
    output_columnar_hint := false }

/-- The descriptor the constructor builds for `knownRangeArgs`: seven bins, keyless,
interleaved. -/
def knownRangeDescriptor : QueryMemoryDescriptor :=
  { keylessColumnarDescriptor with
    interleaved_bins_on_gpu := true
    entry_count := 7
    min_val := 1
    max_val := 7
    output_columnar := false }

/-- The target `COUNT(x)`, `x` a nullable `INT` column of range `[1, 7]` with nulls. -/
def countOfColumnTarget : TargetExpr :=
  { target_info := { is_agg := true, agg_kind := .kCOUNT, sql_type := intTypeInfo,
                     skip_null_val := true, is_distinct := false }
    get_type_info := intTypeInfo
    agg_expr := some { get_aggtype := .kCOUNT, get_is_distinct := false,
                       get_arg := some { get_type_info := intTypeInfo,
                                         expr_range := { getType := .Integer, getIntMin := 1,
                                                         getIntMax := 7, getBucket := 0,
                                                         hasNulls := true } } } }

/-- The query `SELECT COUNT(x) ... GROUP BY x`. -/
def countOfColumnUnit : RelAlgExecutionUnit :=
  { knownRangeArgs.ra_exe_unit with target_exprs := [countOfColumnTarget] }

/-- The query of `smallBufferArgs` with `LIMIT 5000`: the scan limit exceeds the 1024
slots of `small_groups_buffer_entry_count`. -/
def scanLimitArgs : GroupByAndAggregateArgs :=
  { smallBufferArgs with
    ra_exe_unit := { smallBufferArgs.ra_exe_unit with scan_limit := 5000 } }

/-- The descriptor `initQueryMemoryDescriptor` builds for `scanLimitArgs`. -/
def scanLimitDescriptor : QueryMemoryDescriptor :=
  { smallBufferDescriptor with entry_count_small := 5000 }

/-- The target `SUM(arg)`. -/
def sumTarget (arg_expr : ArgExpr) : TargetExpr :=
  { target_info := { is_agg := true, agg_kind := .kSUM, sql_type := default,
                     skip_null_val := !arg_expr.get_type_info.get_notnull,
                     is_distinct := false }
    get_type_info := default
    agg_expr := some { get_aggtype := .kSUM, get_is_distinct := false,
                       get_arg := some arg_expr } }

/-- A nullable `INT` argument whose range `[-5, 5]` spans zero and has no nulls. -/
def spanningArg : ArgExpr :=
  { get_type_info := intTypeInfo
    expr_range := { getType := .Integer, getIntMin := -5, getIntMax := 5, getBucket := 0,
                    hasNulls := false } }

/-- A nullable `INT` argument whose range `[1, 9]` is strictly positive and has nulls. -/
def positiveWithNullsArg : ArgExpr :=
  { get_type_info := intTypeInfo
    expr_range := { getType := .Integer, getIntMin := 1, getIntMax := 9, getBucket := 0,
                    hasNulls := true } }

/-- The member `query_mem_desc_` when `initQueryMemoryDescriptor` calls `getKeylessInfo`:
not assigned yet, its `agg_col_widths` an empty vector. -/
def unassignedDescriptor : QueryMemoryDescriptor :=
  { witnessRowMajor with agg_col_widths := [] }

/-- The call of `codegenAggCalls` for a grouping query compiled for the CPU, row-major,
with `get_compact_type` returning the type recorded in the `TargetInfo`. -/
def cpuGroupByEnv : AggCallsEnv :=
  { is_group_by := true
    has_bin_index := false
    agg_out_vec_size := 0
    device_type := .CPU
    output_columnar_ := false
    get_compact_type := fun target_info => target_info.sql_type }

/-- A target that is not an `UNNEST`, whose argument is not constrained to be not null,
for which `codegenAggArg` returns one value, and which is not fetched lazily. -/
def plainTargetContext : AggTargetContext :=
  { is_unnest := false, constrained_not_null := false, target_lvs_size := 1,
    isLazyFetchColumn := false }

/-- Two integer grouping columns, the first with nulls: the ranges `[10, 12]` with nulls
and `[-5, -2]` without. -/
def nullableFirstKeys : List ExpressionRange :=
  [{ getType := .Integer, getIntMin := 10, getIntMax := 12, getBucket := 0, hasNulls := true },
   { getType := .Integer, getIntMin := -5, getIntMax := -2, getBucket := 0, hasNulls := false }]

/-- The type of a column of arrays. -/
def arrayTypeInfo : SQLTypeInfo :=
  { is_kINT := false, is_string := false, is_array := true, is_integer := false,
    get_compression := .kENCODING_NONE, get_notnull := false }

/-- The projection of a column, or of a constant, of the given type: what `target_info`
returns for a target that is not an aggregate. -/
def projectionTarget (ti : SQLTypeInfo) : TargetExpr :=
  { target_info := { is_agg := false, agg_kind := .kMIN, sql_type := ti,
                     skip_null_val := false, is_distinct := false }
    get_type_info := ti
    agg_expr := none }

/-- The descriptor of a query without grouping whose targets take two 8-byte slots. -/
def scanDescriptor : QueryMemoryDescriptor :=
  { witnessRowMajor with
    hash_type := .Scan
    idx_target_as_key := -1
    group_col_widths := []
    agg_col_widths := [⟨8, 8⟩, ⟨8, 8⟩]
    entry_count := 0
    max_val := 0
    sharing := .Private }

/-- The call of `codegenAggCalls` for a query without grouping compiled for the CPU,
with the `agg_out_vec` that `codegen` builds for a target list of `get_agg_count` 1. -/
def cpuScanEnv : AggCallsEnv :=
  { is_group_by := false
    has_bin_index := false
    agg_out_vec_size := 1
    device_type := .CPU
    output_columnar_ := false
    get_compact_type := fun target_info => target_info.sql_type }

/-- The targets `'abc', COUNT(DISTINCT x)`: a string that is not dictionary encoded, and
a `COUNT(DISTINCT)` over an integer column of range `[0, 999]`. -/
def stringThenDistinctTargets : List TargetExpr :=
  [projectionTarget unencodedStringTypeInfo,
   countDistinctTarget intTypeInfo
     { getType := .Integer, getIntMin := 0, getIntMax := 999, getBucket := 0,
       hasNulls := false }]

/-- The descriptor of `SELECT 'abc', COUNT(DISTINCT x) ... GROUP BY y`: three 8-byte
slots, two for the string and one for the count, and the bitmap of 1000 bits that
`initCountDistinctDescriptors` records for target 1. -/
def stringThenDistinctDescriptor : QueryMemoryDescriptor :=
  { smallBufferDescriptor with
    agg_col_widths := [⟨8, 8⟩, ⟨8, 8⟩, ⟨8, 8⟩]
    count_distinct_descriptors_ :=
      [(1, { impl_type_ := .Bitmap, min_val := 0, bitmap_sz_bits := 1000 })] }

/-- A grouping query sorted on the GPU with a single 4-byte target:
`SELECT COUNT(*) ... GROUP BY x ORDER BY 1 DESC` with `x` an integer column of range
`[0, 12000]`. -/
def sortCountArgs : GroupByAndAggregateArgs :=
  { keylessColumnarArgs with
    ra_exe_unit :=
      { keylessColumnarArgs.ra_exe_unit with
        order_entries := [{ tle_no := 1, is_desc := true, nulls_first := false }] }
    output_columnar_hint := false
    target_col_byte_widths := [4] }

/-- The descriptor the constructor builds for `sortCountArgs`: keyed, columnar, 12001
bins, one target column of compact width 4. -/
def sortCountDescriptor : QueryMemoryDescriptor :=
  { keylessColumnarDescriptor with
    keyless_hash := false
    agg_col_widths := [{ actual := 4, compact := 4 }]
    sort_on_gpu_ := true }

/-! ## Group buffers

Initialisation of the buffers of a `QueryExecutionContext`, on a byte-addressed
memory. -/

/-- Number of values of `unsigned`, `2 ^ 32`. -/
abbrev UNSIGNED_RANGE : Nat := 4294967296

/-- Byte-addressed memory: the value of the byte at each address. -/
abbrev Memory := Nat → Nat

/-- The bit pattern of `value` converted to the integer type of `width` bytes, as an
unsigned number: the conversions `(int8_t)`, `(int16_t)`, `(int32_t)` and the value of
an `int64_t` itself. -/
def truncate (value : Int) (width : Nat) : Nat :=
  (value % 256 ^ width).toNat

namespace Memory

/-- The assignment `*reinterpret_cast<intN_t*>(addr) = value` for an integer type of
`width` bytes: the bytes of `value`, least significant first, replace the bytes at
`addr`. -/
def store (m : Memory) (addr width value : Nat) : Memory :=
  fun a => if addr ≤ a ∧ a < addr + width then value / 256 ^ (a - addr) % 256 else m a

/-- The unsigned value of the `width` bytes at `addr`, least significant first. -/
def load (m : Memory) (addr : Nat) : Nat → Nat
  | 0 => 0
  | width + 1 => m addr + 256 * load m (addr + 1) width

/-- The `int64_t` read at `addr`. -/
def load_int64 (m : Memory) (addr : Nat) : Int :=
  wrap64 (m.load addr 8)

/-- The construction of a `std::vector<int64_t>` of `bytes / 8` elements at `addr`:
every byte is zero. -/
def zero_fill (m : Memory) (addr bytes : Nat) : Memory :=
  fun a => if addr ≤ a ∧ a < addr + bytes then 0 else m a

/-- The call `memcpy(dst, src, bytes)`. -/
def memcpy (m : Memory) (dst src bytes : Nat) : Memory :=
  fun a => if dst ≤ a ∧ a < dst + bytes then m (src + (a - dst)) else m a

end Memory

/-- The state the initialisation routines change: the memory, and the sizes requested
from `allocateCountDistinctBitmap` (in bits) and `allocateCountDistinctSet` (recorded
as -1), in order. -/
structure InitState where
  memory : Memory
  requests : List Int

/-- The first statements of the loop body of `initColumnPerRow`: the value `init_val`
for column `col_idx`, with the allocations made for it. -/
def initColumnPerRow_init_val (new_buffer : Nat → Int) (q : QueryMemoryDescriptor)
    (init_vals bitmap_sizes : List Int) (col_idx : Nat) (requests : List Int) :
    Except Failure (Int × List Int) :=
  if col_idx < bitmap_sizes.length then
    let bm_sz := bitmap_sizes.getD col_idx 0
    if bm_sz = 0 then
      if col_idx < init_vals.length then pure (init_vals.getD col_idx 0, requests)
      else .error .UndefinedBehaviour
    else if (q.agg_col_widths.getD col_idx default).compact ≠ 8 then .error .CheckFailed
    else pure (allocateCountDistinct new_buffer requests (if bm_sz > 0 then bm_sz else -1))
  else .error .UndefinedBehaviour

/-- The `switch` of the loop body of `initColumnPerRow`: the write of `init_val` at
`col_ptr` in the compact width of column `col_idx`. -/
def initColumnPerRow_write (q : QueryMemoryDescriptor) (col_idx col_ptr : Nat) (init_val : Int)
    (m : Memory) : Except Failure Memory :=
  let compact := (q.agg_col_widths.getD col_idx default).compact
  if compact = 1 then pure (m.store col_ptr 1 (truncate init_val 1))
  else if compact = 2 then pure (m.store col_ptr 2 (truncate init_val 2))
  else if compact = 4 then pure (m.store col_ptr 4 (truncate init_val 4))
  else if compact = 8 then pure (m.store col_ptr 8 (truncate init_val 8))
  else .error .CheckFailed

/-- The loop of `initColumnPerRow` with `remaining` columns left, at column `col_idx`
and address `col_ptr`. -/
def initColumnPerRow_loop (new_buffer : Nat → Int) (q : QueryMemoryDescriptor) (bin : Nat)
    (init_vals bitmap_sizes : List Int) :
    Nat → Nat → Nat → InitState → Except Failure InitState
  | 0, _, _, s => pure s
  | remaining + 1, col_idx, col_ptr, s => do
    let r ← initColumnPerRow_init_val new_buffer q init_vals bitmap_sizes col_idx s.requests
    let memory ← initColumnPerRow_write q col_idx col_ptr r.1 s.memory
    let off ← q.getNextColOffInBytes col_ptr bin col_idx
    initColumnPerRow_loop new_buffer q bin init_vals bitmap_sizes remaining (col_idx + 1)
      ((col_ptr + off) % SIZE_T_RANGE) { memory := memory, requests := r.2 }

/-- `QueryExecutionContext::initColumnPerRow`. -/
def initColumnPerRow (new_buffer : Nat → Int) (q : QueryMemoryDescriptor) (row_ptr bin : Nat)
    (init_vals bitmap_sizes : List Int) (s : InitState) : Except Failure InitState :=
  initColumnPerRow_loop new_buffer q bin init_vals bitmap_sizes q.agg_col_widths.length 0
    row_ptr s

/-- The inner loop of the keyed branch of `initGroups`: the key slots of the row at
`buffer_ptr` receive `EMPTY_KEY_64`. -/
def initGroups_keys (EMPTY_KEY_64 : Int) (key_qw_count buffer_ptr : Nat) (m : Memory) : Memory :=
  (List.range key_qw_count).foldl
    (fun m key_idx =>
      m.store ((buffer_ptr + 8 * key_idx) % SIZE_T_RANGE) 8 (truncate EMPTY_KEY_64 8))
    m

/-- The loop of `initGroups` over the bins, with `remaining` bins left, at bin `bin` and
address `buffer_ptr`; the key slots are written when `keyless` is false.  The result
carries the address reached. -/
def initGroups_bins (EMPTY_KEY_64 : Int) (new_buffer : Nat → Int) (q : QueryMemoryDescriptor)
    (init_vals agg_bitmap_size : List Int) (keyless : Bool)
    (key_qw_count row_size col_base_off : Nat) :
    Nat → Nat → Nat → InitState → Except Failure (Nat × InitState)
  | 0, _, buffer_ptr, s => pure (buffer_ptr, s)
  | remaining + 1, bin, buffer_ptr, s => do
    let memory :=
      if keyless then s.memory else initGroups_keys EMPTY_KEY_64 key_qw_count buffer_ptr s.memory
    let s ← initColumnPerRow new_buffer q ((buffer_ptr + col_base_off) % SIZE_T_RANGE) bin
      init_vals agg_bitmap_size { s with memory := memory }
    initGroups_bins EMPTY_KEY_64 new_buffer q init_vals agg_bitmap_size keyless key_qw_count
      row_size col_base_off remaining (bin + 1) ((buffer_ptr + row_size) % SIZE_T_RANGE) s

/-- The loop of the keyless branch of `initGroups` over the warps. -/
def initGroups_warps (EMPTY_KEY_64 : Int) (new_buffer : Nat → Int) (q : QueryMemoryDescriptor)
    (init_vals agg_bitmap_size : List Int) (entry_count key_qw_count row_size col_base_off : Nat) :
    Nat → Nat → InitState → Except Failure InitState
  | 0, _, s => pure s
  | remaining + 1, buffer_ptr, s => do
    let r ← initGroups_bins EMPTY_KEY_64 new_buffer q init_vals agg_bitmap_size true key_qw_count
      row_size col_base_off entry_count 0 buffer_ptr s
    initGroups_warps EMPTY_KEY_64 new_buffer q init_vals agg_bitmap_size entry_count key_qw_count
      row_size col_base_off remaining r.1 r.2

/-- The keyless branch of `initGroups`. -/
def initGroups_keyless (EMPTY_KEY_64 : Int) (new_buffer : Nat → Int) (q : QueryMemoryDescriptor)
    (init_vals agg_bitmap_size : List Int) (entry_count key_qw_count row_size col_base_off : Nat)
    (groups_buffer warp_size : Nat) (s : InitState) : Except Failure InitState := do
  CHECK (decide (warp_size ≥ 1))
  CHECK (key_qw_count == 1)
  initGroups_warps EMPTY_KEY_64 new_buffer q init_vals agg_bitmap_size entry_count key_qw_count
    row_size col_base_off warp_size groups_buffer s

/-- `QueryExecutionContext::initGroups`, for the constant `EMPTY_KEY_64` (defined
outside the sources), the targets `executor_->plan_state_->target_exprs_` and the member
`init_agg_vals_`; `groups_buffer` is the address of the buffer, `init_vals` the values
behind the pointer of that name, `groups_buffer_entry_count` an `int32_t`. -/
def initGroups (EMPTY_KEY_64 : Int) (new_buffer : Nat → Int) (q : QueryMemoryDescriptor)
    (target_exprs_ : List TargetExpr) (init_agg_vals_ : List Int) (groups_buffer : Nat)
    (init_vals : List Int) (groups_buffer_entry_count : Int) (keyless : Bool) (warp_size : Nat)
    (s : InitState) : Except Failure InitState := do
  let key_qw_count := q.group_col_widths.length
  let row_size ← q.getRowSize
  let col_base_off ← q.getColOffInBytes 0 0
  let bufs ← allocateCountDistinctBuffers new_buffer q target_exprs_ true init_agg_vals_
    s.requests
  let s := { s with requests := bufs.requests }
  if keyless then
    initGroups_keyless EMPTY_KEY_64 new_buffer q init_vals bufs.agg_bitmap_size
      (to_size_t groups_buffer_entry_count) key_qw_count row_size col_base_off groups_buffer
      warp_size s
  else do
    let r ← initGroups_bins EMPTY_KEY_64 new_buffer q init_vals bufs.agg_bitmap_size false
      key_qw_count row_size col_base_off (to_size_t groups_buffer_entry_count) 0 groups_buffer s
    pure r.2

/-- `QueryMemoryDescriptor::getKeyOffInBytes`. -/
def QueryMemoryDescriptor.getKeyOffInBytes (q : QueryMemoryDescriptor) (bin key_idx : Nat) :
    Except Failure Nat := do
  CHECK (!q.keyless_hash)
  if q.output_columnar then do
    CHECK (key_idx == 0)
    pure (bin * 8 % SIZE_T_RANGE)
  else do
    CHECK (decide (key_idx < q.group_col_widths.length))
    let row_size ← q.getRowSize
    let offset := bin * row_size % SIZE_T_RANGE
    CHECK (offset % 8 == 0)
    pure ((offset + key_idx * 8 % SIZE_T_RANGE) % SIZE_T_RANGE)

/-- `QueryExecutionContext::isEmptyBin`, for the buffer at address `group_by_buffer`. -/
def isEmptyBin (EMPTY_KEY_64 : Int) (q : QueryMemoryDescriptor) (m : Memory)
    (group_by_buffer bin key_idx : Nat) : Except Failure Bool := do
  let key_off_in_bytes ← q.getKeyOffInBytes bin key_idx
  let key_off := key_off_in_bytes / 8
  pure (decide (m.load_int64 ((group_by_buffer + 8 * key_off) % SIZE_T_RANGE) = EMPTY_KEY_64))

/-- The loop of `initColumnarBuffer<T>` in the branch `key_or_col`: `buffer_ptr[i] =
init_val` for the `remaining` elements from index `i`, `width` being `sizeof(T)`. -/
def initColumnarBuffer_keys (width buffer_ptr : Nat) (init_val : Int) :
    Nat → Nat → Memory → Memory
  | 0, _, m => m
  | remaining + 1, i, m =>
    initColumnarBuffer_keys width buffer_ptr init_val remaining (i + 1)
      (m.store ((buffer_ptr + width * i) % SIZE_T_RANGE) width (truncate init_val width))

/-- The loop of `initColumnarBuffer<T>` in the other branch, from index `j`. -/
def initColumnarBuffer_cols (new_buffer : Nat → Int) (width buffer_ptr : Nat) (init_val : Int)
    (bitmap_sz : Int) : Nat → Nat → InitState → Except Failure InitState
  | 0, _, s => pure s
  | remaining + 1, j, s =>
    if bitmap_sz = 0 then
      initColumnarBuffer_cols new_buffer width buffer_ptr init_val bitmap_sz remaining (j + 1)
        { s with memory := s.memory.store ((buffer_ptr + width * j) % SIZE_T_RANGE) width
                             (truncate init_val width) }
    else if width ≠ 8 then .error .CheckFailed
    else
      let r := allocateCountDistinct new_buffer s.requests (if bitmap_sz > 0 then bitmap_sz else -1)
      initColumnarBuffer_cols new_buffer width buffer_ptr init_val bitmap_sz remaining (j + 1)
        { memory := s.memory.store ((buffer_ptr + width * j) % SIZE_T_RANGE) width
                      (truncate r.1 width)
          requests := r.2 }

/-- `QueryExecutionContext::initColumnarBuffer<T>` with `sizeof(T) = width`;
`entry_count` is the value of the `uint32_t` parameter.  The result carries the address
returned. -/
def initColumnarBuffer (new_buffer : Nat → Int) (width buffer_ptr : Nat) (init_val : Int)
    (entry_count : Nat) (bitmap_sz : Int) (key_or_col : Bool) (s : InitState) :
    Except Failure (Nat × InitState) :=
  if key_or_col then
    pure ((buffer_ptr + entry_count * width) % SIZE_T_RANGE,
      { s with memory := initColumnarBuffer_keys width buffer_ptr init_val entry_count 0 s.memory })
  else do
    let s ← initColumnarBuffer_cols new_buffer width buffer_ptr init_val bitmap_sz entry_count 0 s
    pure ((buffer_ptr + entry_count * width) % SIZE_T_RANGE, s)

/-- Conversion of an `ssize_t` or `int32_t` to `uint32_t`. -/
def to_uint32 (x : Int) : Nat :=
  (x % 4294967296).toNat

/-- The body of the loop of `initColumnarGroups` for column `i`: the call
`initColumnarBuffer<intN_t>(buffer_ptr, init_vals[i], bitmap_sz, false)` passes
`bitmap_sz` for the parameter `entry_count` and `false` for the parameter `bitmap_sz`;
the parameter `key_or_col` takes its default, declared outside the sources. -/
def initColumnarGroups_col (new_buffer : Nat → Int) (key_or_col_default : Bool)
    (q : QueryMemoryDescriptor) (init_vals agg_bitmap_size : List Int) (need_padding : Bool)
    (i buffer_ptr : Nat) (s : InitState) : Except Failure (Nat × InitState) :=
  if i < agg_bitmap_size.length then
    let bitmap_sz := agg_bitmap_size.getD i 0
    let compact := (q.agg_col_widths.getD i default).compact
    if compact = 1 ∨ compact = 2 ∨ compact = 4 ∨ compact = 8 then
      if i < init_vals.length then do
        let r ← initColumnarBuffer new_buffer compact buffer_ptr (init_vals.getD i 0)
          (to_uint32 bitmap_sz) 0 key_or_col_default s
        pure (if need_padding then align_to_int64 r.1 else r.1, r.2)
      else .error .UndefinedBehaviour
    else .error .CheckFailed
  else .error .UndefinedBehaviour

/-- The loop of `initColumnarGroups` over the columns, with `remaining` columns left. -/
def initColumnarGroups_loop (new_buffer : Nat → Int) (key_or_col_default : Bool)
    (q : QueryMemoryDescriptor) (init_vals agg_bitmap_size : List Int) (need_padding : Bool) :
    Nat → Nat → Nat → InitState → Except Failure InitState
  | 0, _, _, s => pure s
  | remaining + 1, i, buffer_ptr, s => do
    let r ← initColumnarGroups_col new_buffer key_or_col_default q init_vals agg_bitmap_size
      need_padding i buffer_ptr s
    initColumnarGroups_loop new_buffer key_or_col_default q init_vals agg_bitmap_size
      need_padding remaining (i + 1) r.1 r.2

/-- The statements of `initColumnarGroups` from `if (!keyless)`. -/
def initColumnarGroups_body (EMPTY_KEY_64 : Int) (new_buffer : Nat → Int)
    (bitmap_sz_default : Int) (key_or_col_default : Bool) (q : QueryMemoryDescriptor)
    (init_vals agg_bitmap_size : List Int) (groups_buffer : Nat)
    (groups_buffer_entry_count : Int) (keyless : Bool) (s : InitState) :
    Except Failure InitState :=
  let need_padding := !q.isCompactLayoutIsometric
  let agg_col_count := (wrap32 q.agg_col_widths.length).toNat
  if keyless then
    initColumnarGroups_loop new_buffer key_or_col_default q init_vals agg_bitmap_size
      need_padding agg_col_count 0 groups_buffer s
  else do
    let r ← initColumnarBuffer new_buffer 8 groups_buffer EMPTY_KEY_64
      (to_uint32 groups_buffer_entry_count) bitmap_sz_default key_or_col_default s
    initColumnarGroups_loop new_buffer key_or_col_default q init_vals agg_bitmap_size
      need_padding agg_col_count 0 r.1 r.2

/-- `QueryExecutionContext::initColumnarGroups`, for the constant `EMPTY_KEY_64` and the
default arguments `bitmap_sz_default` and `key_or_col_default` of `initColumnarBuffer`,
which are declared outside the sources. -/
def initColumnarGroups (EMPTY_KEY_64 : Int) (new_buffer : Nat → Int) (bitmap_sz_default : Int)
    (key_or_col_default : Bool) (q : QueryMemoryDescriptor) (target_exprs_ : List TargetExpr)
    (init_agg_vals_ : List Int) (groups_buffer : Nat) (init_vals : List Int)
    (groups_buffer_entry_count : Int) (keyless : Bool) (s : InitState) :
    Except Failure InitState := do
  let bufs ← allocateCountDistinctBuffers new_buffer q target_exprs_ true init_agg_vals_
    s.requests
  CHECK (wrap32 q.group_col_widths.length == 1)
  initColumnarGroups_body EMPTY_KEY_64 new_buffer bitmap_sz_default key_or_col_default q
    init_vals bufs.agg_bitmap_size groups_buffer groups_buffer_entry_count keyless
    { s with requests := bufs.requests }

/-- `QueryMemoryDescriptor::lazyInitGroups`. -/
def QueryMemoryDescriptor.lazyInitGroups (q : QueryMemoryDescriptor)
    (device_type : ExecutorDeviceType) : Except Failure Bool :=
  if device_type = .GPU ∧ q.render_output = false then do
    let small ← q.getSmallBufferSizeQuad
    pure (small == 0)
  else pure false

/-- What the constructor of `QueryExecutionContext` takes from outside the sources: the
constant `EMPTY_KEY_64`, the default arguments of `initColumnarBuffer`, the address
`new_buffer k` of the `k`-th bitmap or set of a `COUNT(DISTINCT)`, the address
`checked_malloc k` of the `k`-th buffer it allocates, and the addresses of the storage
of its two template vectors. -/
structure Runtime where
  EMPTY_KEY_64 : Int
  bitmap_sz_default : Int
  key_or_col_default : Bool
  new_buffer : Nat → Int
  checked_malloc : Nat → Nat
  group_by_buffer_template : Nat
  group_by_small_buffer_template : Nat

/-- The arguments of the constructor of `QueryExecutionContext`, with the two members of
`executor->plan_state_` it reads; `render_allocator_map` tells whether the pointer is
set. -/
structure QueryExecutionContextArgs where
  query_mem_desc : QueryMemoryDescriptor
  init_agg_vals : List Int
  executor : Executor
  target_exprs_ : List TargetExpr
  plan_state_init_agg_vals_ : List Int
  device_type : ExecutorDeviceType
  output_columnar : Bool
  sort_on_gpu : Bool
  render_allocator_map : Bool

/-- The members of `QueryExecutionContext` the constructor computes, with the memory and
the allocations it leaves; a null pointer is `none`. -/
structure QueryExecutionContext where
  init_agg_vals_ : List Int
  num_buffers_ : Nat
  group_by_buffers_ : List (Option Nat)
  small_group_by_buffers_ : List (Option Nat)
  allocated : Nat
  state : InitState

/-- The member initialiser of `num_buffers_`; `blockSize()` and `gridSize()` return
`unsigned`, so the product is an `unsigned` widened to `size_t`. -/
def QueryExecutionContext_num_buffers (a : QueryExecutionContextArgs) : Except Failure Nat :=
  if a.device_type = .CPU then pure 1
  else do
    let blocks ← a.query_mem_desc.blocksShareMemory
    pure (a.executor.blockSize * (if blocks then 1 else a.executor.gridSize) % UNSIGNED_RANGE)

/-- The initialisation of `group_by_buffer_template` (lines 50 to 62). -/
def QueryExecutionContext_template (rt : Runtime) (a : QueryExecutionContextArgs)
    (s : InitState) : Except Failure InitState := do
  let quad ← a.query_mem_desc.getBufferSizeQuad a.device_type
  let s := { s with memory := s.memory.zero_fill rt.group_by_buffer_template (8 * quad) }
  let lazy ← a.query_mem_desc.lazyInitGroups a.device_type
  if lazy then pure s
  else if a.output_columnar then
    initColumnarGroups rt.EMPTY_KEY_64 rt.new_buffer rt.bitmap_sz_default rt.key_or_col_default
      a.query_mem_desc a.target_exprs_ a.plan_state_init_agg_vals_ rt.group_by_buffer_template
      a.init_agg_vals (wrap32 a.query_mem_desc.entry_count) a.query_mem_desc.keyless_hash s
  else
    initGroups rt.EMPTY_KEY_64 rt.new_buffer a.query_mem_desc a.target_exprs_
      a.plan_state_init_agg_vals_ rt.group_by_buffer_template a.init_agg_vals
      (wrap32 a.query_mem_desc.entry_count) a.query_mem_desc.keyless_hash
      (if a.query_mem_desc.interleavedBins a.device_type then a.executor.warpSize else 1) s

/-- The assertions of lines 64 to 70. -/
def QueryExecutionContext_checks (a : QueryExecutionContextArgs) : Except Failure Unit := do
  QueryExecutionContext_checkInterleaved a.query_mem_desc a.device_type
  if a.query_mem_desc.keyless_hash then do
    let small ← a.query_mem_desc.getSmallBufferSizeQuad
    CHECK (small == 0)
  else pure ()

/-- The initialisation of `group_by_small_buffer_template` (lines 72 to 77). -/
def QueryExecutionContext_small_template (rt : Runtime) (a : QueryExecutionContextArgs)
    (s : InitState) : Except Failure InitState := do
  let small_bytes ← a.query_mem_desc.getSmallBufferSizeBytes
  if small_bytes ≠ 0 then do
    CHECK (!a.output_columnar && !a.query_mem_desc.keyless_hash)
    let quad ← a.query_mem_desc.getSmallBufferSizeQuad
    initGroups rt.EMPTY_KEY_64 rt.new_buffer a.query_mem_desc a.target_exprs_
      a.plan_state_init_agg_vals_ rt.group_by_small_buffer_template a.init_agg_vals
      (wrap32 a.query_mem_desc.entry_count_small) false 1
      { s with memory := s.memory.zero_fill rt.group_by_small_buffer_template (8 * quad) }
  else pure s

/-- The statements of the loop body that allocate, fill and record the main buffer
(lines 83 to 97). -/
def QueryExecutionContext_push_buffer (rt : Runtime) (a : QueryExecutionContextArgs)
    (step : Nat) (c : QueryExecutionContext) : Except Failure QueryExecutionContext := do
  let index_buffer_qw :=
    if a.device_type = .GPU ∧ a.sort_on_gpu = true ∧ a.query_mem_desc.keyless_hash = true
    then a.query_mem_desc.entry_count else 0
  let bytes ← a.query_mem_desc.getBufferSizeBytes a.device_type
  let group_by_buffer := rt.checked_malloc c.allocated
  let lazy ← a.query_mem_desc.lazyInitGroups a.device_type
  pure { c with
    group_by_buffers_ := c.group_by_buffers_ ++ some group_by_buffer :: List.replicate (step - 1) none
    allocated := c.allocated + 1
    state := { c.state with
      memory :=
        if lazy then c.state.memory
        else c.state.memory.memcpy ((group_by_buffer + 8 * index_buffer_qw) % SIZE_T_RANGE)
          rt.group_by_buffer_template bytes } }

/-- The statements of the loop body for the small buffer (lines 98 to 106). -/
def QueryExecutionContext_push_small_buffer (rt : Runtime) (a : QueryExecutionContextArgs)
    (step : Nat) (c : QueryExecutionContext) : Except Failure QueryExecutionContext := do
  let small_bytes ← a.query_mem_desc.getSmallBufferSizeBytes
  if small_bytes ≠ 0 then
    let group_by_small_buffer := rt.checked_malloc c.allocated
    pure { c with
      small_group_by_buffers_ :=
        c.small_group_by_buffers_ ++ some group_by_small_buffer :: List.replicate (step - 1) none
      allocated := c.allocated + 1
      state := { c.state with
        memory := c.state.memory.memcpy group_by_small_buffer rt.group_by_small_buffer_template
          small_bytes } }
  else pure c

/-- The loop `for (size_t i = 0; i < num_buffers_; i += step)` from `i`, for at most
`fuel` iterations; the loop ends within `num_buffers_` iterations unless `step` is 0, in
which case it does not end and there is no result. -/
def QueryExecutionContext_buffers (rt : Runtime) (a : QueryExecutionContextArgs) (step : Nat) :
    Nat → Nat → QueryExecutionContext → Except Failure QueryExecutionContext
  | 0, i, c => if i < c.num_buffers_ then .error .DoesNotReturn else pure c
  | fuel + 1, i, c =>
    if i < c.num_buffers_ then do
      let c ← QueryExecutionContext_push_buffer rt a step c
      let c ← QueryExecutionContext_push_small_buffer rt a step c
      QueryExecutionContext_buffers rt a step fuel ((i + step) % SIZE_T_RANGE) c
    else pure c

/-- The body of the constructor after the early return (lines 50 to 108). -/
def QueryExecutionContext_grouped (rt : Runtime) (a : QueryExecutionContextArgs)
    (num_buffers_ : Nat) (s : InitState) : Except Failure QueryExecutionContext := do
  let s ← QueryExecutionContext_template rt a s
  QueryExecutionContext_checks a
  let s ← QueryExecutionContext_small_template rt a s
  let step :=
    if a.device_type = .GPU ∧ a.query_mem_desc.threadsShareMemory = true
    then a.executor.blockSize else 1
  QueryExecutionContext_buffers rt a step num_buffers_ 0
    { init_agg_vals_ := a.plan_state_init_agg_vals_
      num_buffers_ := num_buffers_
      group_by_buffers_ := []
      small_group_by_buffers_ := []
      allocated := 0
      state := s }

/-- The early return of the constructor (lines 45 to 48). -/
def QueryExecutionContext_ungrouped (rt : Runtime) (a : QueryExecutionContextArgs)
    (num_buffers_ : Nat) (s : InitState) : Except Failure QueryExecutionContext := do
  let bufs ← allocateCountDistinctBuffers rt.new_buffer a.query_mem_desc a.target_exprs_ false
    a.plan_state_init_agg_vals_ s.requests
  pure { init_agg_vals_ := bufs.init_agg_vals_
         num_buffers_ := num_buffers_
         group_by_buffers_ := []
         small_group_by_buffers_ := []
         allocated := 0
         state := { s with requests := bufs.requests } }

/-- The constructor `QueryExecutionContext::QueryExecutionContext`, entered with the
memory and the allocations of `s`. -/
def QueryExecutionContext.new (rt : Runtime) (a : QueryExecutionContextArgs) (s : InitState) :
    Except Failure QueryExecutionContext := do
  let num_buffers_ ← QueryExecutionContext_num_buffers a
  CHECK (!a.sort_on_gpu || a.output_columnar)
  if a.render_allocator_map || a.query_mem_desc.group_col_widths.isEmpty then
    QueryExecutionContext_ungrouped rt a num_buffers_ s
  else QueryExecutionContext_grouped rt a num_buffers_ s

/-- A runtime for the sample runs: `EMPTY_KEY_64` the all-ones pattern, the defaults
`bitmap_sz = -1` and `key_or_col = true`, and allocations at distinct 8-aligned
addresses. -/
def sampleRuntime : Runtime :=
  { EMPTY_KEY_64 := -1
    bitmap_sz_default := -1
    key_or_col_default := true
    new_buffer := fun k => 1048576 + 4096 * k
    checked_malloc := fun k => 16777216 + 1048576 * k
    group_by_buffer_template := 4096
    group_by_small_buffer_template := 528384 }

/-- Zeroed memory, nothing allocated. -/
def zeroedState : InitState :=
  { memory := fun _ => 0, requests := [] }

/-- The construction of the execution context on the GPU for `knownRangeArgs`
(`SELECT COUNT(*) ... GROUP BY x`, 1024 threads per block, 16 blocks). -/
def knownRangeContextArgs : QueryExecutionContextArgs :=
  { query_mem_desc := knownRangeDescriptor
    init_agg_vals := [0]
    executor := knownRangeArgs.executor
    target_exprs_ := knownRangeArgs.ra_exe_unit.target_exprs
    plan_state_init_agg_vals_ := [0]
    device_type := .GPU
    output_columnar := false
    sort_on_gpu := false
    render_allocator_map := false }

/-- The query `SELECT 'abc', COUNT(DISTINCT x) ... GROUP BY y` compiled for the CPU: `y`
an integer column of range `[0, 1]`, the string not dictionary encoded, `x` a nullable
integer column of range `[0, 999]` with nulls, for which `getKeylessInfo` declines. -/
def distinctInRangeArgs : GroupByAndAggregateArgs :=
  { keylessColumnarArgs with
    device_type := .CPU
    ra_exe_unit :=
      { groupby_exprs :=
          [{ is_null := false, get_type_info := intTypeInfo, is_unnest := false,
             expr_range := { getType := .Integer, getIntMin := 0, getIntMax := 1,
                             getBucket := 0, hasNulls := false } }]
        target_exprs :=
          [projectionTarget unencodedStringTypeInfo,
           countDistinctTarget intTypeInfo
             { getType := .Integer, getIntMin := 0, getIntMax := 999, getBucket := 0,
               hasNulls := true }]
        order_entries := []
        scan_limit := 0 }
    output_columnar_hint := false
    target_col_byte_widths := [8, 8, 8]
    keyless_info := { keyless := false, target_index := 2, init_val := 0 } }

/-- The query `SELECT MIN(f(x)) ... GROUP BY y` compiled for the CPU with the columnar
output hint: `y` an integer column of range `[0, 12000]`, the range of `f(x)` not known,
so that `getKeylessInfo` declines. -/
def minColumnarArgs : GroupByAndAggregateArgs :=
  { keylessColumnarArgs with
    device_type := .CPU
    ra_exe_unit :=
      { keylessColumnarArgs.ra_exe_unit with
        target_exprs :=
          [{ target_info := { is_agg := true, agg_kind := .kMIN, sql_type := intTypeInfo,
                              skip_null_val := false, is_distinct := false }
             get_type_info := intTypeInfo
             agg_expr := some { get_aggtype := .kMIN, get_is_distinct := false,
                                get_arg := some { get_type_info := intTypeInfo,
                                                  expr_range := default } } }] }
    keyless_info := { keyless := false, target_index := 1, init_val := 0 } }

/-- The descriptor the constructor builds for `distinctInRangeArgs`: keyed, row-major,
two bins, three 8-byte slots (two for the string, one for the count), and a bitmap of
1000 bits for target 1. -/
def distinctInRangeDescriptor : QueryMemoryDescriptor :=
  { executor_ := distinctInRangeArgs.executor
    allow_multifrag := true
    hash_type := .OneColKnownRange
    keyless_hash := false
    interleaved_bins_on_gpu := false
    idx_target_as_key := 2
    init_val := 0
    group_col_widths := [8]
    agg_col_widths := [⟨8, 8⟩, ⟨8, 8⟩, ⟨8, 8⟩]
    entry_count := 2
    entry_count_small := 0
    min_val := 0
    max_val := 1
    bucket := 0
    has_nulls := false
    sharing := .Shared
    count_distinct_descriptors_ :=
      [(1, { impl_type_ := .Bitmap, min_val := 0, bitmap_sz_bits := 1000 })]
    sort_on_gpu_ := false
    is_sort_plan := false
    output_columnar := false
    render_output := false }

/-- The descriptor the constructor builds for `minColumnarArgs`: keyed, columnar, 12001
bins, one 8-byte target column. -/
def minColumnarDescriptor : QueryMemoryDescriptor :=
  { keylessColumnarDescriptor with
    keyless_hash := false
    idx_target_as_key := 1 }

/-- The value of `total_bytes` in `getColOnlyOffInBytes` when the loop reaches column
`col_idx`: the bytes of the columns before it. -/
def QueryMemoryDescriptor.colsBefore (q : QueryMemoryDescriptor) (col_idx : Nat) : Nat :=
  (q.agg_col_widths.take col_idx).foldl QueryMemoryDescriptor.colsStep 0

/-- The offset of column `col_idx` in the target part of a row, as `getColOnlyOffInBytes`
returns it. -/
def QueryMemoryDescriptor.slotOff (q : QueryMemoryDescriptor) (col_idx : Nat) : Nat :=
  if (q.agg_col_widths.getD col_idx default).compact = 8 then align_to_int64 (q.colsBefore col_idx)
  else q.colsBefore col_idx

/-- A keyed row-major buffer of `n` rows of `row_size` bytes at the 8-aligned address
`base`, with compact widths in `{1, 2, 4, 8}`, bins not interleaved, the widths fitting
a `size_t` and the buffer lying within the address space. -/
structure RowMajorKeyed (q : QueryMemoryDescriptor) (base n row_size : Nat) : Prop where
  hrow : q.output_columnar = false
  hkeyed : q.keyless_hash = false
  hinter : q.interleaved_bins_on_gpu = false
  hwidths : ∀ w ∈ q.agg_col_widths,
    w.compact = 1 ∨ w.compact = 2 ∨ w.compact = 4 ∨ w.compact = 8
  hbase : base % 8 = 0
  hrs : q.getRowSize = .ok row_size
  hvec : 8 * (q.group_col_widths.length + q.agg_col_widths.length) + 8 ≤ SIZE_T_RANGE
  hfit : base + n * row_size < SIZE_T_RANGE

/-- The construction of the execution context on the CPU for `distinctInRangeArgs`. -/
def distinctInRangeContextArgs : QueryExecutionContextArgs :=
  { query_mem_desc := distinctInRangeDescriptor
    init_agg_vals := [0, 0, 0]
    executor := distinctInRangeArgs.executor
    target_exprs_ := distinctInRangeArgs.ra_exe_unit.target_exprs
    plan_state_init_agg_vals_ := [0, 0, 0]
    device_type := .CPU
    output_columnar := false
    sort_on_gpu := false
    render_allocator_map := false }

/-- The construction of the execution context on the CPU for `minColumnarArgs`; the
initial value of `MIN` is `INT64_MAX`. -/
def minColumnarContextArgs : QueryExecutionContextArgs :=
  { query_mem_desc := minColumnarDescriptor
    init_agg_vals := [INT64_MAX]
    executor := minColumnarArgs.executor
    target_exprs_ := minColumnarArgs.ra_exe_unit.target_exprs
    plan_state_init_agg_vals_ := [INT64_MAX]
    device_type := .CPU
    output_columnar := true
    sort_on_gpu := false
    render_allocator_map := false }

/-- The query of `smallBufferArgs` with `LIMIT 2147483648`: the scan limit, `2 ^ 31`,
becomes the slot count of the small buffer. -/
def wideLimitArgs : GroupByAndAggregateArgs :=
  { smallBufferArgs with
    ra_exe_unit := { smallBufferArgs.ra_exe_unit with scan_limit := 2147483648 } }

/-- The descriptor the constructor builds for `wideLimitArgs`: a keyed row-major
baseline table with one 8-byte key and one 8-byte target, and a small buffer of `2 ^ 31`
entries. -/
def wideLimitDescriptor : QueryMemoryDescriptor :=
  { smallBufferDescriptor with entry_count_small := 2147483648 }

/-- The query of `smallBufferArgs` with `LIMIT 4`. -/
def smallLimitArgs : GroupByAndAggregateArgs :=
  { smallBufferArgs with
    ra_exe_unit := { smallBufferArgs.ra_exe_unit with scan_limit := 4 } }

/-- The descriptor the constructor builds for `smallLimitArgs`: the baseline table of
`smallBufferDescriptor` with a small buffer of 4 entries. -/
def smallLimitDescriptor : QueryMemoryDescriptor :=
  { smallBufferDescriptor with entry_count_small := 4 }

/-! # Theorems -/

open QueryMemoryDescriptor

/-! ## Peeling outcomes -/

theorem except_bind_ok {α β : Type} {x : Except Failure α} {f : α → Except Failure β} {b : β}
    (h : (x >>= f) = .ok b) : ∃ a, x = .ok a ∧ f a = .ok b := by
  cases x with
  | error e => cases h
  | ok a => exact ⟨a, rfl, h⟩

theorem CHECK_ok {c : Bool} {u : Unit} (h : CHECK c = .ok u) : c = true := by
  unfold CHECK at h
  split_ifs at h with hc
  exact hc

theorem except_pure_ok {α : Type} {a b : α} (h : (pure a : Except Failure α) = .ok b) : a = b := by
  cases h
  rfl

/-! ## Layout round-trip -/

theorem foldl_take_succ {α β : Type} (f : β → α → β) (b : β) (l : List α) (n : Nat)
    (h : n < l.length) (d : α) :
    (l.take (n + 1)).foldl f b = f ((l.take n).foldl f b) (l.getD n d) := by
  rw [List.take_succ, List.foldl_append]
  simp [List.getElem?_eq_getElem h]

theorem align_to_int64_mod8 (x : Nat) : align_to_int64 x % 8 = 0 := by
  unfold align_to_int64 SIZE_T_RANGE at *; omega

theorem row_step_aligned (base R c w : Nat) (hb : base % 8 = 0) (hR : R % 8 = 0) :
    ((base + (R + c) % SIZE_T_RANGE) % SIZE_T_RANGE +
        (align_to_int64 (((base + (R + c) % SIZE_T_RANGE) % SIZE_T_RANGE + w) % SIZE_T_RANGE)
          + SIZE_T_RANGE - (base + (R + c) % SIZE_T_RANGE) % SIZE_T_RANGE % SIZE_T_RANGE)
          % SIZE_T_RANGE) % SIZE_T_RANGE
      = (base + (R + align_to_int64 ((c + w) % SIZE_T_RANGE)) % SIZE_T_RANGE) % SIZE_T_RANGE := by
  unfold align_to_int64 SIZE_T_RANGE at *; omega

theorem row_step_packed (base R c w : Nat) :
    ((base + (R + c) % SIZE_T_RANGE) % SIZE_T_RANGE + w % SIZE_T_RANGE) % SIZE_T_RANGE
      = (base + (R + (c + w) % SIZE_T_RANGE) % SIZE_T_RANGE) % SIZE_T_RANGE := by
  unfold SIZE_T_RANGE at *; omega

theorem bin_diff (bin w w' : Nat) :
    (bin * w + bin * ((w' + SIZE_T_RANGE - w % SIZE_T_RANGE) % SIZE_T_RANGE)) % SIZE_T_RANGE
      = bin * w' % SIZE_T_RANGE := by
  rw [← Nat.mul_add]
  have h : (w + (w' + SIZE_T_RANGE - w % SIZE_T_RANGE) % SIZE_T_RANGE) % SIZE_T_RANGE
      = w' % SIZE_T_RANGE := by unfold SIZE_T_RANGE; omega
  exact Nat.ModEq.mul_left bin h

theorem col_step_iso (base G A B C X : Nat) (h : (A + B) % SIZE_T_RANGE = C % SIZE_T_RANGE) :
    ((base + (G + A) % SIZE_T_RANGE) % SIZE_T_RANGE + (X % SIZE_T_RANGE + B) % SIZE_T_RANGE)
        % SIZE_T_RANGE
      = (base + ((G + X) % SIZE_T_RANGE + C) % SIZE_T_RANGE) % SIZE_T_RANGE := by
  unfold SIZE_T_RANGE at *; omega

theorem col_step_padded (base G A B C X : Nat) (hG : G % 8 = 0)
    (h : (A + B) % SIZE_T_RANGE = C % SIZE_T_RANGE) :
    ((base + (G + A) % SIZE_T_RANGE) % SIZE_T_RANGE
        + (align_to_int64 (X % SIZE_T_RANGE) + B) % SIZE_T_RANGE) % SIZE_T_RANGE
      = (base + (align_to_int64 ((G + X) % SIZE_T_RANGE) + C) % SIZE_T_RANGE) % SIZE_T_RANGE := by
  unfold align_to_int64 SIZE_T_RANGE at *; omega

theorem columnarStep_foldl_mod8 (q : QueryMemoryDescriptor) (hiso : q.isCompactLayoutIsometric = false)
    (l : List ColWidths) (K : Nat) (hK : K % 8 = 0) :
    (l.foldl q.columnarStep K) % 8 = 0 := by
  induction l generalizing K with
  | nil => simpa using hK
  | cons w l ih =>
    simp only [List.foldl_cons]
    apply ih
    simp only [columnarStep, hiso]
    exact align_to_int64_mod8 _

theorem getColOffInBytes_step_columnar (q : QueryMemoryDescriptor) (base bin c o : Nat)
    (hcol : q.output_columnar = true) (hc : c + 1 < q.agg_col_widths.length)
    (h : q.getColOffInBytes bin c = .ok o) :
    ∃ o' off, q.getColOffInBytes bin (c + 1) = .ok o' ∧
      q.getNextColOffInBytes ((base + o) % SIZE_T_RANGE) bin c = .ok off ∧
      ((base + o) % SIZE_T_RANGE + off) % SIZE_T_RANGE = (base + o') % SIZE_T_RANGE := by
  have hc0 : c < q.agg_col_widths.length := by omega
  have hne : ¬ (c + 1 = q.agg_col_widths.length) := by omega
  simp only [getColOffInBytes, hc0, hcol, if_true] at h
  by_cases hchk : (decide (bin < q.entry_count) && q.group_col_widths.length == 1
      && q.getWarpCount == 1) = true
  · simp only [hchk, if_true, Except.ok.injEq] at h
    have hchk' := hchk
    simp only [Bool.and_eq_true, decide_eq_true_eq] at hchk'
    obtain ⟨⟨hbin, hg⟩, hwc⟩ := hchk'
    simp only [getColOffInBytes, getNextColOffInBytes, hc, hc0, hcol, hchk, hbin, hg, hwc, hne,
      if_true, if_false, Bool.not_true, Bool.false_or, decide_True, Bool.and_self,
      foldl_take_succ q.columnarStep _ q.agg_col_widths c hc0 default]
    refine ⟨_, _, rfl, rfl, ?_⟩
    subst h
    have hd := bin_diff bin (q.agg_col_widths.getD c default).compact
      (q.agg_col_widths.getD (c + 1) default).compact
    by_cases hiso : q.isCompactLayoutIsometric = true
    · simp only [columnarStep, hiso, if_true]
      rw [Nat.mul_comm q.entry_count (q.agg_col_widths.getD c default).compact]
      exact col_step_iso _ _ _ _ _ _ hd
    · have hiso' : q.isCompactLayoutIsometric = false := by simpa using hiso
      simp only [columnarStep, hiso', if_false, Bool.false_eq_true]
      rw [Nat.mul_comm q.entry_count (q.agg_col_widths.getD c default).compact]
      refine col_step_padded _ _ _ _ _ _ ?_ hd
      apply columnarStep_foldl_mod8 q hiso'
      split
      · rfl
      · unfold SIZE_T_RANGE; omega
  · simp [hchk] at h

theorem getRowSize_mod8 (q : QueryMemoryDescriptor) (rs : Nat) (h : q.getRowSize = .ok rs) :
    rs % 8 = 0 := by
  unfold getRowSize at h
  split_ifs at h
  all_goals
    cases hcs : q.getColsSize with
    | error e => simp [hcs] at h
    | ok cols =>
      simp only [hcs, Except.ok.injEq] at h
      subst h
      exact align_to_int64_mod8 _

theorem getColOffInBytes_step_row (q : QueryMemoryDescriptor) (base bin c o : Nat)
    (hb : base % 8 = 0) (hcol : q.output_columnar = false) (hc : c + 1 < q.agg_col_widths.length)
    (h : q.getColOffInBytes bin c = .ok o) :
    ∃ o' off, q.getColOffInBytes bin (c + 1) = .ok o' ∧
      q.getNextColOffInBytes ((base + o) % SIZE_T_RANGE) bin c = .ok off ∧
      ((base + o) % SIZE_T_RANGE + off) % SIZE_T_RANGE = (base + o') % SIZE_T_RANGE := by
  have hc0 : c < q.agg_col_widths.length := by omega
  have hne : ¬ (c + 1 = q.agg_col_widths.length) := by omega
  simp only [getColOffInBytes, hc0, hcol, if_true, if_false, Bool.false_eq_true] at h
  cases hrs : q.getRowSize with
  | error e => simp [hrs] at h
  | ok rs =>
    have hrs8 := getRowSize_mod8 q rs hrs
    simp only [hrs, getColOnlyOffInBytes, hc0, if_true] at h
    simp only [getColOffInBytes, getNextColOffInBytes, getColOnlyOffInBytes, hc, hc0, hcol, hrs, hne,
      if_true, if_false, Bool.false_eq_true, Bool.not_false, Bool.true_or, decide_True, Bool.and_self,
      foldl_take_succ colsStep _ q.agg_col_widths c hc0 default]
    rw [show ∀ t w, colsStep t w
      = ((if w.compact = 8 then align_to_int64 t else t) + w.compact) % SIZE_T_RANGE from fun _ _ => rfl]
    have hR : (if q.keyless_hash = true then bin * q.getWarpCount * rs % SIZE_T_RANGE
        else (bin * q.getWarpCount * rs % SIZE_T_RANGE + q.group_col_widths.length * 8)
          % SIZE_T_RANGE) % 8 = 0 := by
      have h8 : (bin * q.getWarpCount * rs) % 8 = 0 :=
        Nat.mod_eq_zero_of_dvd (Dvd.dvd.mul_left (Nat.dvd_of_mod_eq_zero hrs8) _)
      split <;> (unfold SIZE_T_RANGE; omega)
    generalize (if q.keyless_hash = true then bin * q.getWarpCount * rs % SIZE_T_RANGE
        else (bin * q.getWarpCount * rs % SIZE_T_RANGE + q.group_col_widths.length * 8)
          % SIZE_T_RANGE) = R at h hR ⊢
    generalize List.foldl colsStep 0 (List.take c q.agg_col_widths) = F at h ⊢
    generalize (q.agg_col_widths.getD c default).compact = w at h ⊢
    generalize (q.agg_col_widths.getD (c + 1) default).compact = w' at h ⊢
    by_cases hw : w = 8 <;> by_cases hw' : w' = 8 <;>
      simp only [hw, hw', if_true, if_false, Except.ok.injEq] at h <;>
      subst h <;>
      simp only [hw, hw', if_true, if_false] <;>
      refine ⟨_, _, rfl, rfl, ?_⟩
    · exact row_step_aligned base R _ _ hb hR
    · exact row_step_packed base R _ _
    · exact row_step_aligned base R _ _ hb hR
    · exact row_step_packed base R _ _

theorem getColOffInBytes_step (q : QueryMemoryDescriptor) (base bin c o : Nat)
    (hb : base % 8 = 0) (hc : c + 1 < q.agg_col_widths.length)
    (h : q.getColOffInBytes bin c = .ok o) :
    ∃ o' off, q.getColOffInBytes bin (c + 1) = .ok o' ∧
      q.getNextColOffInBytes ((base + o) % SIZE_T_RANGE) bin c = .ok off ∧
      ((base + o) % SIZE_T_RANGE + off) % SIZE_T_RANGE = (base + o') % SIZE_T_RANGE := by
  cases hcol : q.output_columnar with
  | true => exact getColOffInBytes_step_columnar q base bin c o hcol hc h
  | false => exact getColOffInBytes_step_row q base bin c o hb hcol hc h

/-- Whether `getColOffInBytes` fails does not depend on the (valid) column index. -/
theorem getColOffInBytes_error (q : QueryMemoryDescriptor) (bin c c' : Nat) (e : Failure)
    (hc : c < q.agg_col_widths.length) (hc' : c' < q.agg_col_widths.length)
    (h : q.getColOffInBytes bin c = .error e) : q.getColOffInBytes bin c' = .error e := by
  unfold getColOffInBytes at h ⊢
  simp only [hc, hc', if_true, getColOnlyOffInBytes] at h ⊢
  cases hoc : q.output_columnar with
  | true =>
    simp only [hoc, if_true] at h ⊢
    split_ifs at h ⊢
    · exact h
  | false =>
    simp only [hoc, if_false, Bool.false_eq_true] at h ⊢
    cases hrs : q.getRowSize with
    | error e' => simpa [hrs] using h
    | ok rs => simp only [hrs] at h; split_ifs at h

theorem walk_agrees (q : QueryMemoryDescriptor) (base bin o0 : Nat) (hb : base % 8 = 0)
    (h0 : q.getColOffInBytes bin 0 = .ok o0) (c : Nat) (hc : c < q.agg_col_widths.length) :
    ∃ o, q.getColOffInBytes bin c = .ok o ∧
      initColumnPerRow_col_ptr q ((base + o0) % SIZE_T_RANGE) bin c
        = .ok ((base + o) % SIZE_T_RANGE) := by
  induction c with
  | zero => exact ⟨o0, h0, rfl⟩
  | succ c ih =>
    obtain ⟨o, ho, hw⟩ := ih (by omega)
    obtain ⟨o', off, ho', hoff, heq⟩ := getColOffInBytes_step q base bin c o hb hc ho
    refine ⟨o', ho', ?_⟩
    simp only [initColumnPerRow_col_ptr, hw, hoff, heq]

theorem getColOffInBytes_defined (q : QueryMemoryDescriptor) (bin c : Nat)
    (hbin : bin < q.entry_count) (hc : c < q.agg_col_widths.length)
    (hcol : q.output_columnar = true → q.group_col_widths.length = 1 ∧ q.getWarpCount = 1)
    (hkl : q.keyless_hash = true → q.group_col_widths.length = 1) :
    ∃ o, q.getColOffInBytes bin c = .ok o := by
  cases hoc : q.output_columnar with
  | true =>
    obtain ⟨hg, hw⟩ := hcol hoc
    simp [getColOffInBytes, hc, hoc, hbin, hg, hw]
  | false =>
    have hk : (q.keyless_hash && q.group_col_widths.length != 1) = false := by
      cases hk : q.keyless_hash with
      | true => simp [hkl hk]
      | false => simp
    simp only [getColOffInBytes, getRowSize, getColsSize, getColOnlyOffInBytes, hc, hoc, hk, if_true,
      if_false, Bool.false_eq_true]
    split_ifs <;> exact ⟨_, rfl⟩

/-- C1 (layout round-trip).  For every descriptor (row-major or columnar, keyed or
keyless, any compact widths, in particular widths in {1,2,4,8}), every 8-byte aligned
buffer base, every `bin < entry_count` and every `col_idx < agg_col_widths.size()`:
starting at the address of `getColOffInBytes(bin, 0)` and successively adding
`getNextColOffInBytes(ptr, bin, j)` for `j = 0 .. col_idx-1` gives exactly the address of
`getColOffInBytes(bin, col_idx)`; the two computations also fail a `CHECK` together.
Moreover the address is defined whenever the descriptor passes the structural
`CHECK`s (one group column when columnar or keyless, warp count 1 when columnar). -/
theorem layout_round_trip (q : QueryMemoryDescriptor) (base bin col_idx : Nat)
    (hbase : base % 8 = 0) (hbin : bin < q.entry_count)
    (hcol : col_idx < q.agg_col_widths.length) :
    (q.getColOffInBytes bin 0).bind
        (fun o0 => initColumnPerRow_col_ptr q ((base + o0) % SIZE_T_RANGE) bin col_idx)
      = (q.getColOffInBytes bin col_idx).map (fun o => (base + o) % SIZE_T_RANGE)
    ∧ ((q.output_columnar = true → q.group_col_widths.length = 1 ∧ q.getWarpCount = 1) →
        (q.keyless_hash = true → q.group_col_widths.length = 1) →
        ∃ o, q.getColOffInBytes bin col_idx = .ok o) := by
  refine ⟨?_, fun h1 h2 => getColOffInBytes_defined q bin col_idx hbin hcol h1 h2⟩
  cases h0 : q.getColOffInBytes bin 0 with
  | error e =>
    rw [getColOffInBytes_error q bin 0 col_idx e (by omega) hcol h0]
    rfl
  | ok o0 =>
    obtain ⟨o, ho, hw⟩ := walk_agrees q base bin o0 hbase h0 col_idx hcol
    simp only [ho, hw, Except.bind, Except.map]

/-- Witness for C1: a keyed row-major descriptor with compact widths 4, 8, 1. -/
theorem layout_round_trip_witness :
    (witnessRowMajor.getColOffInBytes 3 0).bind
        (fun o0 => initColumnPerRow_col_ptr witnessRowMajor ((1000 + o0) % SIZE_T_RANGE) 3 2)
      = (witnessRowMajor.getColOffInBytes 3 2).map (fun o => (1000 + o) % SIZE_T_RANGE)
    ∧ ((witnessRowMajor.output_columnar = true →
          witnessRowMajor.group_col_widths.length = 1 ∧ witnessRowMajor.getWarpCount = 1) →
        (witnessRowMajor.keyless_hash = true → witnessRowMajor.group_col_widths.length = 1) →
        ∃ o, witnessRowMajor.getColOffInBytes 3 2 = .ok o) :=
  layout_round_trip witnessRowMajor 1000 3 2 (by decide) (by decide) (by decide)

/-! ## Perfect hash -/

theorem wrap64_modEq (x : Int) : wrap64 x ≡ x [ZMOD 18446744073709551616] := by
  unfold wrap64 Int.ModEq
  omega

theorem wrap32_wrap64 (x : Int) : wrap32 (wrap64 x) = wrap32 x := by
  unfold wrap32 wrap64
  omega

theorem wrap32_of_modEq {x y : Int} (h : x ≡ y [ZMOD 18446744073709551616]) :
    wrap32 x = wrap32 y := by
  unfold wrap32
  unfold Int.ModEq at h
  omega

theorem wrap32_of_bounds {x : Int} (h0 : 0 ≤ x) (h1 : x < 2147483648) : wrap32 x = x := by
  unfold wrap32
  omega

theorem foldl_wrap64_mul (l : List Int) (t : Int) :
    l.foldl (fun crt c => wrap64 (crt * c)) t ≡ t * l.prod [ZMOD 18446744073709551616] := by
  induction l generalizing t with
  | nil => simp [Int.ModEq]
  | cons c l ih =>
    simp only [List.foldl_cons, List.prod_cons]
    refine (ih _).trans ?_
    rw [← mul_assoc]
    exact (wrap64_modEq _).mul_right _

theorem prod_range_getD {α : Type} (g : α → Int) (l : List α) (dflt : α) (d : Nat)
    (hd : d ≤ l.length) :
    ∏ j in Finset.range d, g (l.getD j dflt) = ((l.take d).map g).prod := by
  induction d with
  | zero => simp
  | succ d ih =>
    have hd' : d < l.length := hd
    rw [Finset.prod_range_succ, ih (by omega), List.take_succ, List.map_append, List.prod_append,
      List.getElem?_eq_getElem hd', List.getD_eq_getElem _ _ hd']
    simp

theorem int64_op_ok {x y : Int} :
    int64_op x = .ok y ↔ (INT64_MIN ≤ x ∧ x ≤ INT64_MAX) ∧ y = x := by
  unfold int64_op
  split_ifs with h
  · simp only [Except.ok.injEq]
    constructor
    · intro e; exact ⟨h, e.symm⟩
    · intro e; exact e.2.symm
  · simp only [false_iff, not_and]
    intro h'; exact absurd h' h

/-- What a successful `codegenPerfectHashFunction_consts` has baked in. -/
theorem codegenPerfectHashFunction_consts_ok (wd : Bool) (exprs : List ExpressionRange)
    (f : PerfectKeyHash) (h : codegenPerfectHashFunction_consts wd exprs = .ok f) :
    f.mins = exprs.map (fun r => r.getIntMin) ∧
      f.cardinalities = exprs.map (fun r => r.getIntMax - r.getIntMin + 1) := by
  induction exprs generalizing f with
  | nil =>
    simp only [codegenPerfectHashFunction_consts, Except.ok.injEq] at h
    subst h; simp
  | cons r rest ih =>
    unfold codegenPerfectHashFunction_consts at h
    cases hr : r.getType with
    | Integer =>
      simp only [getExprRangeInfo, hr, if_true] at h
      cases h1 : int64_op (r.getIntMax - r.getIntMin) with
      | error e => simp [h1] at h
      | ok d =>
        obtain ⟨_, rfl⟩ := int64_op_ok.1 h1
        simp only [h1] at h
        cases h2 : int64_op (r.getIntMax - r.getIntMin + 1) with
        | error e => simp [h2] at h
        | ok c =>
          obtain ⟨_, rfl⟩ := int64_op_ok.1 h2
          simp only [h2] at h
          cases hrest : codegenPerfectHashFunction_consts wd rest with
          | error e => simp [hrest] at h
          | ok f' =>
            simp only [hrest, Except.ok.injEq] at h
            obtain ⟨hm, hc⟩ := ih f' hrest
            subst h
            simp [hm, hc]
    | FloatingPoint =>
      simp only [getExprRangeInfo, hr] at h
      split_ifs at h
      simp at h
    | Invalid =>
      simp [getExprRangeInfo, hr] at h

theorem crt_term_modEq (exprs : List ExpressionRange) (f : PerfectKeyHash) (k : List Int)
    (hm : f.mins = exprs.map (fun r => r.getIntMin))
    (hc : f.cardinalities = exprs.map (fun r => r.getIntMax - r.getIntMin + 1))
    (d : Nat) (hd : d < exprs.length) :
    f.crt_term k d ≡
      (k.getD d 0 - (exprs.getD d default).getIntMin) *
        ∏ j in Finset.range d,
          ((exprs.getD j default).getIntMax - (exprs.getD j default).getIntMin + 1)
      [ZMOD 18446744073709551616] := by
  unfold PerfectKeyHash.crt_term
  refine (foldl_wrap64_mul _ _).trans ?_
  rw [prod_range_getD (fun r => r.getIntMax - r.getIntMin + 1) exprs default d (by omega), hc, hm,
    List.map_take]
  have hmin : (exprs.map (fun r => r.getIntMin)).getD d 0 = (exprs.getD d default).getIntMin := by
    rw [List.getD_eq_getElem _ _ (by simpa using hd), List.getD_eq_getElem _ _ hd, List.getElem_map]
  rw [hmin]
  exact (wrap64_modEq _).mul_right _

theorem hash_lv_modEq (exprs : List ExpressionRange) (f : PerfectKeyHash) (k : List Int)
    (hm : f.mins = exprs.map (fun r => r.getIntMin))
    (hc : f.cardinalities = exprs.map (fun r => r.getIntMax - r.getIntMin + 1))
    (d : Nat) (hd : d ≤ exprs.length) :
    f.hash_lv k d ≡
      ∑ i in Finset.range d,
        (k.getD i 0 - (exprs.getD i default).getIntMin) *
          ∏ j in Finset.range i,
            ((exprs.getD j default).getIntMax - (exprs.getD j default).getIntMin + 1)
      [ZMOD 18446744073709551616] := by
  induction d with
  | zero => simp [PerfectKeyHash.hash_lv, Int.ModEq]
  | succ d ih =>
    rw [Finset.sum_range_succ]
    unfold PerfectKeyHash.hash_lv
    refine (wrap64_modEq _).trans ?_
    exact (ih (by omega)).add (crt_term_modEq exprs f k hm hc d hd)

/-- The emitted function computes the specification's formula, reduced to 32 bits. -/
theorem perfect_key_hash_eq_spec (wd : Bool) (exprs : List ExpressionRange) (f : PerfectKeyHash)
    (h : codegenPerfectHashFunction wd exprs = .ok f) (k : List Int) :
    f.perfect_key_hash k = wrap32 (perfectHashSpec exprs k) := by
  unfold codegenPerfectHashFunction at h
  split_ifs at h
  obtain ⟨hm, hc⟩ := codegenPerfectHashFunction_consts_ok wd exprs f h
  unfold PerfectKeyHash.perfect_key_hash perfectHashSpec
  have hlen : f.mins.length = exprs.length := by simp [hm]
  rw [hlen]
  exact wrap32_of_modEq (hash_lv_modEq exprs f k hm hc exprs.length le_rfl)

theorem mixed_radix_bound (t c p : Nat → Int) (n : Nat)
    (h : ∀ i, i < n → 0 ≤ t i ∧ t i + 1 ≤ p i ∧ 0 ≤ c i ∧ c i ≤ p i) (d : Nat) (hd : d ≤ n) :
    0 ≤ ∏ j in Finset.range d, c j ∧
      ∏ j in Finset.range d, c j ≤ ∏ j in Finset.range d, p j ∧
      0 ≤ ∑ i in Finset.range d, t i * ∏ j in Finset.range i, c j ∧
      (∑ i in Finset.range d, t i * ∏ j in Finset.range i, c j) + 1 ≤ ∏ j in Finset.range d, p j := by
  induction d with
  | zero => simp
  | succ d ih =>
    obtain ⟨hC0, hCP, hS0, hSP⟩ := ih (by omega)
    obtain ⟨ht0, htp, hc0, hcp⟩ := h d (by omega)
    rw [Finset.prod_range_succ, Finset.prod_range_succ, Finset.sum_range_succ]
    generalize (∏ j in Finset.range d, c j) = C at *
    generalize (∏ j in Finset.range d, p j) = P at *
    generalize (∑ i in Finset.range d, t i * ∏ j in Finset.range i, c j) = S at *
    have hP0 : 0 ≤ P := le_trans hC0 hCP
    have h1 : C * c d ≤ P * p d := mul_le_mul hCP hcp hc0 hP0
    have h2 : t d * C ≤ (p d - 1) * P := mul_le_mul (by omega) hCP hC0 (by omega)
    refine ⟨mul_nonneg hC0 hc0, h1, add_nonneg hS0 (mul_nonneg ht0 hC0), ?_⟩
    have h3 : (p d - 1) * P = P * p d - P := by ring
    omega

theorem getExprRangeInfo_known {wd : Bool} {r : ExpressionRange} {cri : ColRangeInfo}
    (h : getExprRangeInfo wd r = .ok cri) (hk : cri.hash_type_ = .OneColKnownRange) :
    r.getType = .Integer ∧
      cri = { hash_type_ := .OneColKnownRange, min := r.getIntMin, max := r.getIntMax,
              bucket := r.getBucket, has_nulls := r.hasNulls } := by
  unfold getExprRangeInfo at h
  cases hr : r.getType with
  | Integer =>
    simp only [hr, Except.ok.injEq] at h
    exact ⟨rfl, h.symm⟩
  | FloatingPoint =>
    simp only [hr] at h
    split_ifs at h
    simp only [Except.ok.injEq] at h
    subst h
    simp at hk
  | Invalid =>
    simp only [hr, Except.ok.injEq] at h
    subst h
    simp at hk

theorem checked_int64_mul_ok {a b c : Int} :
    checked_int64_mul a b = .ok c ↔ (INT64_MIN ≤ a * b ∧ a * b ≤ INT64_MAX) ∧ c = a * b := by
  unfold checked_int64_mul
  split_ifs with h
  · simp only [Except.ok.injEq]
    constructor
    · intro e; exact ⟨h, e.symm⟩
    · intro e; exact e.2.symm
  · simp only [false_iff, not_and]
    intro h'; exact absurd h' h

/-- What a `MultiColPerfectHash` result of the `try` block says about its input. -/
theorem getColRangeInfo_try_perfect (wd : Bool) (exprs : List ExpressionRange) (c0 : Int)
    (hn0 : Bool) (info : ColRangeInfo)
    (h : getColRangeInfo_try wd exprs c0 hn0 = .ok info)
    (hph : info.hash_type_ = .MultiColPerfectHash) :
    (∀ r ∈ exprs, r.getType = .Integer ∧ INT64_MIN ≤ r.getIntMax - r.getIntMin ∧
        r.getIntMax - r.getIntMin + 1 ≤ INT64_MAX ∧ 0 < columnCardinality r) ∧
      info.max = c0 * (exprs.map columnCardinality).prod ∧ info.max ≤ 10000000 ∧
      info.has_nulls = (hn0 || exprs.any (fun r => r.hasNulls)) ∧ info.min = 0 ∧
      info.bucket = 0 := by
  induction exprs generalizing c0 hn0 with
  | nil =>
    unfold getColRangeInfo_try at h
    split_ifs at h with hgt
    · simp only [Except.ok.injEq] at h
      subst h
      simp [ColRangeInfo.multiCol] at hph
    · simp only [Except.ok.injEq] at h
      subst h
      simp only [not_lt] at hgt
      simp [hgt]
  | cons r rest ih =>
    unfold getColRangeInfo_try at h
    cases hcri : getExprRangeInfo wd r with
    | error e => simp [hcri] at h
    | ok cri =>
      simp only [hcri] at h
      by_cases hk : cri.hash_type_ = .OneColKnownRange
      · obtain ⟨hty, rfl⟩ := getExprRangeInfo_known hcri hk
        simp only [ne_eq, not_true_eq_false, if_false] at h
        cases h1 : int64_op (r.getIntMax - r.getIntMin) with
        | error e => simp [h1] at h
        | ok d =>
          obtain ⟨hb1, rfl⟩ := int64_op_ok.1 h1
          simp only [h1] at h
          cases h2 : int64_op (r.getIntMax - r.getIntMin + 1) with
          | error e => simp [h2] at h
          | ok d1 =>
            obtain ⟨hb2, rfl⟩ := int64_op_ok.1 h2
            simp only [h2] at h
            rw [show (r.getIntMax - r.getIntMin + 1 + if r.hasNulls = true then 1 else 0)
              = columnCardinality r from rfl] at h
            cases h3 : int64_op (columnCardinality r) with
            | error e => simp [h3] at h
            | ok crt =>
              obtain ⟨hb3, rfl⟩ := int64_op_ok.1 h3
              simp only [h3] at h
              by_cases hpos : columnCardinality r > 0
              · simp only [hpos, if_true] at h
                cases h4 : checked_int64_mul c0 (columnCardinality r) with
                | error e => simp [h4] at h
                | ok c1 =>
                  obtain ⟨hb4, rfl⟩ := checked_int64_mul_ok.1 h4
                  simp only [h4] at h
                  obtain ⟨hall, hmax, hle, hnul, hmin, hbk⟩ := ih _ _ h
                  refine ⟨?_, ?_, hle, ?_, hmin, hbk⟩
                  · intro r' hr'
                    rcases List.mem_cons.1 hr' with rfl | hr'
                    · exact ⟨hty, hb1.1, hb2.2, hpos⟩
                    · exact hall r' hr'
                  · rw [hmax, List.map_cons, List.prod_cons, mul_assoc]
                  · rw [hnul]
                    simp only [List.any_cons]
                    generalize r.hasNulls = b
                    cases b <;> cases hn0 <;> simp
              · simp [hpos] at h
      · simp only [ne_eq, hk, not_false_eq_true, if_true, Except.ok.injEq] at h
        subst h
        simp [ColRangeInfo.multiCol] at hph

theorem codegenPerfectHashFunction_consts_defined (wd : Bool) (exprs : List ExpressionRange)
    (h : ∀ r ∈ exprs, r.getType = .Integer ∧ INT64_MIN ≤ r.getIntMax - r.getIntMin ∧
        r.getIntMax - r.getIntMin + 1 ≤ INT64_MAX) :
    ∃ f, codegenPerfectHashFunction_consts wd exprs = .ok f := by
  induction exprs with
  | nil => exact ⟨_, rfl⟩
  | cons r rest ih =>
    obtain ⟨f', hf'⟩ := ih (fun r' hr' => h r' (List.mem_cons_of_mem _ hr'))
    obtain ⟨hty, hlo, hhi⟩ := h r (List.mem_cons_self _ _)
    have h1 : int64_op (r.getIntMax - r.getIntMin) = .ok (r.getIntMax - r.getIntMin) :=
      int64_op_ok.2 ⟨⟨hlo, by unfold INT64_MAX at *; omega⟩, rfl⟩
    have h2 : int64_op (r.getIntMax - r.getIntMin + 1) = .ok (r.getIntMax - r.getIntMin + 1) :=
      int64_op_ok.2 ⟨⟨by unfold INT64_MIN at *; omega, hhi⟩, rfl⟩
    unfold codegenPerfectHashFunction_consts
    simp only [getExprRangeInfo, hty, if_true, h1, h2, hf']
    exact ⟨_, rfl⟩

theorem perfectHashSpec_bounds (exprs : List ExpressionRange) (k : List Int)
    (hall : ∀ r ∈ exprs, 0 < columnCardinality r) (hkey : legalKey exprs k) :
    0 ≤ perfectHashSpec exprs k ∧
      perfectHashSpec exprs k + 1 ≤ (exprs.map columnCardinality).prod := by
  have hi : ∀ i, i < exprs.length →
      0 ≤ k.getD i 0 - (exprs.getD i default).getIntMin ∧
      k.getD i 0 - (exprs.getD i default).getIntMin + 1 ≤ columnCardinality (exprs.getD i default) ∧
      0 ≤ (exprs.getD i default).getIntMax - (exprs.getD i default).getIntMin + 1 ∧
      (exprs.getD i default).getIntMax - (exprs.getD i default).getIntMin + 1
        ≤ columnCardinality (exprs.getD i default) := by
    intro i hi
    have hmem : exprs.getD i default ∈ exprs := by
      rw [List.getD_eq_getElem _ _ hi]; exact List.getElem_mem _
    have hpos := hall _ hmem
    have hleg := hkey.2 i hi
    unfold columnCardinality at hpos ⊢
    unfold legalSubKey at hleg
    generalize exprs.getD i default = r at *
    generalize k.getD i 0 = ki at *
    rcases hleg with ⟨h1, h2⟩ | ⟨h1, h2⟩
    · refine ⟨by omega, ?_, by omega, ?_⟩ <;> split <;> omega
    · simp only [h2, if_true] at hpos ⊢
      refine ⟨by omega, by omega, by omega, by omega⟩
  have hb := mixed_radix_bound (fun i => k.getD i 0 - (exprs.getD i default).getIntMin)
    (fun j => (exprs.getD j default).getIntMax - (exprs.getD j default).getIntMin + 1)
    (fun j => columnCardinality (exprs.getD j default)) exprs.length hi exprs.length le_rfl
  rw [prod_range_getD columnCardinality exprs default exprs.length le_rfl, List.take_length] at hb
  exact ⟨hb.2.2.1, hb.2.2.2⟩

/-- C2 (perfect hash range).  For every list of two or more grouping columns for which
`getColRangeInfo` returns `MultiColPerfectHash`, and every legal key tuple (each sub-key
in `[min_i, max_i]`, or `max_i + 1` for NULL in a column with nulls): the function that
`codegenPerfectHashFunction` emits exists, its value is
`Σ_i (k_i − min_i) · Π_{j<i} (max_j − min_j + 1)`, and that value lies in
`[0, entry_count)`, where `entry_count` is the `max` of the range info, the product of
the column cardinalities that `initQueryMemoryDescriptor` takes as entry count. -/
theorem perfect_hash_range (g_enable_watchdog : Bool) (groupby_exprs : List ExpressionRange)
    (col_range_info : ColRangeInfo) (k : List Int)
    (hsize : 2 ≤ groupby_exprs.length)
    (hrange : getColRangeInfo g_enable_watchdog groupby_exprs = .ok col_range_info)
    (hkind : col_range_info.hash_type_ = .MultiColPerfectHash)
    (hkey : legalKey groupby_exprs k) :
    ∃ f, codegenPerfectHashFunction g_enable_watchdog groupby_exprs = .ok f ∧
      f.perfect_key_hash k = perfectHashSpec groupby_exprs k ∧
      0 ≤ f.perfect_key_hash k ∧ f.perfect_key_hash k < col_range_info.max ∧
      col_range_info.max = (groupby_exprs.map columnCardinality).prod ∧
      ∀ a agg_col_widths count_distinct_descriptors sort_on_gpu_hint q,
        descriptorForRange a agg_col_widths count_distinct_descriptors col_range_info
          sort_on_gpu_hint = .ok q →
        f.perfect_key_hash k < (q.entry_count : Int) := by
  have hne : groupby_exprs.length ≠ 1 := by omega
  unfold getColRangeInfo at hrange
  simp only [hne, ne_eq, not_false_eq_true, if_true] at hrange
  cases htry : getColRangeInfo_try g_enable_watchdog groupby_exprs 1 false with
  | error e =>
    simp only [htry] at hrange
    split_ifs at hrange
    simp only [Except.ok.injEq] at hrange
    subst hrange
    simp [ColRangeInfo.multiCol] at hkind
  | ok info =>
    simp only [htry, Except.ok.injEq] at hrange
    subst hrange
    obtain ⟨hall, hmax, hle, -, -, -⟩ :=
      getColRangeInfo_try_perfect g_enable_watchdog groupby_exprs 1 false info htry hkind
    rw [one_mul] at hmax
    obtain ⟨f, hf⟩ := codegenPerfectHashFunction_consts_defined g_enable_watchdog groupby_exprs
      (fun r hr => ⟨(hall r hr).1, (hall r hr).2.1, (hall r hr).2.2.1⟩)
    have hcg : codegenPerfectHashFunction g_enable_watchdog groupby_exprs = .ok f := by
      unfold codegenPerfectHashFunction
      rw [if_pos (by omega)]
      exact hf
    obtain ⟨h0, h1⟩ := perfectHashSpec_bounds groupby_exprs k (fun r hr => (hall r hr).2.2.2) hkey
    have heq : f.perfect_key_hash k = perfectHashSpec groupby_exprs k := by
      rw [perfect_key_hash_eq_spec g_enable_watchdog groupby_exprs f hcg k]
      exact wrap32_of_bounds h0 (by omega)
    refine ⟨f, hcg, heq, ?_, ?_, hmax, ?_⟩
    · rw [heq]; exact h0
    · rw [heq]; omega
    · intro a ws cdd hint q hq
      unfold descriptorForRange at hq
      simp only [hkind] at hq
      obtain ⟨_, -, hq⟩ := except_bind_ok hq
      cases except_pure_ok hq
      show f.perfect_key_hash k < ((to_size_t info.max : Nat) : Int)
      rw [heq]
      unfold to_size_t
      omega

theorem witnessTwoKeys_legal : legalKey witnessTwoKeys [12, -2] := by
  refine ⟨rfl, ?_⟩
  intro i hi
  have hi' : i < 2 := hi
  interval_cases i <;> simp [witnessTwoKeys, legalSubKey]

/-- Witness for C2: the two-column scenario S5 with the key `(min0 + 2, min1 + 3)`. -/
theorem perfect_hash_range_witness :
    ∃ f, codegenPerfectHashFunction true witnessTwoKeys = .ok f ∧
      f.perfect_key_hash [12, -2] = perfectHashSpec witnessTwoKeys [12, -2] ∧
      0 ≤ f.perfect_key_hash [12, -2] ∧ f.perfect_key_hash [12, -2] < 12 ∧
      (12 : Int) = (witnessTwoKeys.map columnCardinality).prod ∧
      ∀ a agg_col_widths count_distinct_descriptors sort_on_gpu_hint q,
        descriptorForRange a agg_col_widths count_distinct_descriptors
          { hash_type_ := .MultiColPerfectHash, min := 0, max := 12, bucket := 0,
            has_nulls := false }
          sort_on_gpu_hint = .ok q →
        f.perfect_key_hash [12, -2] < (q.entry_count : Int) :=
  perfect_hash_range true witnessTwoKeys
    { hash_type_ := .MultiColPerfectHash, min := 0, max := 12, bucket := 0, has_nulls := false }
    [12, -2] (by decide) (by rfl) rfl witnessTwoKeys_legal

/-- C3 (perfect hash formula).  The function emitted by `codegenPerfectHashFunction`
computes `h(k) = Σ_i (k_i − min_i) · Π_{j<i} card_j` with `card_j = max_j − min_j + 1`,
in 64-bit arithmetic truncated to the 32-bit result.  For two keys with cardinalities
3 and 4 this is `h(k0, k1) = (k0 − min0) + 3·(k1 − min1)`, exactly so for sub-keys of the
ranges (NULL replacements included), and `(k0, k1) = (min0 + 2, min1 + 3)` gives 11. -/
theorem perfect_hash_formula (g_enable_watchdog : Bool) (groupby_exprs : List ExpressionRange)
    (f : PerfectKeyHash)
    (hf : codegenPerfectHashFunction g_enable_watchdog groupby_exprs = .ok f) :
    (∀ k, f.perfect_key_hash k = wrap32 (perfectHashSpec groupby_exprs k)) ∧
      ∀ r0 r1, groupby_exprs = [r0, r1] →
        r0.getIntMax - r0.getIntMin + 1 = 3 → r1.getIntMax - r1.getIntMin + 1 = 4 →
        (∀ k0 k1, f.perfect_key_hash [k0, k1]
            = wrap32 ((k0 - r0.getIntMin) + 3 * (k1 - r1.getIntMin))) ∧
        (∀ k0 k1, r0.getIntMin ≤ k0 → k0 ≤ r0.getIntMax + 1 →
            r1.getIntMin ≤ k1 → k1 ≤ r1.getIntMax + 1 →
            f.perfect_key_hash [k0, k1] = (k0 - r0.getIntMin) + 3 * (k1 - r1.getIntMin)) ∧
        f.perfect_key_hash [r0.getIntMin + 2, r1.getIntMin + 3] = 11 := by
  have hgen := perfect_key_hash_eq_spec g_enable_watchdog groupby_exprs f hf
  refine ⟨hgen, ?_⟩
  intro r0 r1 hl h3 h4
  subst hl
  have hspec : ∀ k0 k1, perfectHashSpec [r0, r1] [k0, k1]
      = (k0 - r0.getIntMin) + 3 * (k1 - r1.getIntMin) := by
    intro k0 k1
    simp [perfectHashSpec, Finset.sum_range_succ, Finset.prod_range_succ, h3]
    ring
  refine ⟨fun k0 k1 => by rw [hgen, hspec], fun k0 k1 a0 b0 a1 b1 => ?_, ?_⟩
  · rw [hgen, hspec]
    exact wrap32_of_bounds (by omega) (by omega)
  · rw [hgen, hspec]
    have : r0.getIntMin + 2 - r0.getIntMin + 3 * (r1.getIntMin + 3 - r1.getIntMin) = 11 := by ring
    rw [this]
    rfl

/-- Witness for C3: the emitted function of scenario S5 exists, and the formula holds
for it. -/
theorem perfect_hash_formula_witness :
    ∃ f, codegenPerfectHashFunction true witnessTwoKeys = .ok f ∧
      ((∀ k, f.perfect_key_hash k = wrap32 (perfectHashSpec witnessTwoKeys k)) ∧
        ∀ r0 r1, witnessTwoKeys = [r0, r1] →
          r0.getIntMax - r0.getIntMin + 1 = 3 → r1.getIntMax - r1.getIntMin + 1 = 4 →
          (∀ k0 k1, f.perfect_key_hash [k0, k1]
              = wrap32 ((k0 - r0.getIntMin) + 3 * (k1 - r1.getIntMin))) ∧
          (∀ k0 k1, r0.getIntMin ≤ k0 → k0 ≤ r0.getIntMax + 1 →
              r1.getIntMin ≤ k1 → k1 ≤ r1.getIntMax + 1 →
              f.perfect_key_hash [k0, k1] = (k0 - r0.getIntMin) + 3 * (k1 - r1.getIntMin)) ∧
          f.perfect_key_hash [r0.getIntMin + 2, r1.getIntMin + 3] = 11) ∧
      f.perfect_key_hash [12, -2] = 11 :=
  ⟨{ mins := [10, -5], cardinalities := [3, 4] }, by rfl,
    perfect_hash_formula true witnessTwoKeys { mins := [10, -5], cardinalities := [3, 4] } (by rfl),
    by rfl⟩

/-! ## Single-expression range analysis -/

/-- C6 (single-expression range analysis).  `getExprRangeInfo` returns
`OneColKnownRange` carrying exactly the expression range's `(min, max, bucket, has_nulls)`
when the range type is integer; returns `OneColGuessedRange` with
`(min, max, bucket, has_nulls) = (0, 255, 0, false)` when the range type is invalid, or
floating point with the watchdog disabled; and fails, with `WouldBeSlow`, if and only if
the range type is floating point and the watchdog is enabled. -/
theorem getExprRangeInfo_spec (g_enable_watchdog : Bool) (expr_range : ExpressionRange) :
    (expr_range.getType = .Integer →
        getExprRangeInfo g_enable_watchdog expr_range
          = .ok { hash_type_ := .OneColKnownRange, min := expr_range.getIntMin,
                  max := expr_range.getIntMax, bucket := expr_range.getBucket,
                  has_nulls := expr_range.hasNulls }) ∧
      ((expr_range.getType = .Invalid ∨
          (expr_range.getType = .FloatingPoint ∧ g_enable_watchdog = false)) →
        getExprRangeInfo g_enable_watchdog expr_range
          = .ok { hash_type_ := .OneColGuessedRange, min := 0, max := 255, bucket := 0,
                  has_nulls := false }) ∧
      (getExprRangeInfo g_enable_watchdog expr_range = .error .WouldBeSlow ↔
        expr_range.getType = .FloatingPoint ∧ g_enable_watchdog = true) ∧
      ((∃ e, getExprRangeInfo g_enable_watchdog expr_range = .error e) ↔
        expr_range.getType = .FloatingPoint ∧ g_enable_watchdog = true) := by
  unfold getExprRangeInfo
  cases hty : expr_range.getType <;> cases g_enable_watchdog <;> simp

/-! ## COUNT DISTINCT descriptors -/

theorem chooseCountDistinctImpl_spec (info : ColRangeInfo) (arr : Bool)
    (impl : CountDistinctImplType) (bits : Int)
    (h : chooseCountDistinctImpl info arr = .ok (impl, bits)) :
    (impl = .Bitmap ↔ bitmapCondition info arr) ∧ (impl = .StdSet ↔ ¬ bitmapCondition info arr) ∧
      (impl = .Bitmap → bits = info.max - info.min + 1) := by
  unfold chooseCountDistinctImpl at h
  unfold bitmapCondition
  by_cases hc : info.hash_type_ = .OneColKnownRange ∧ arr = false
  · rw [if_pos hc] at h
    cases h1 : int64_op (info.max - info.min) with
    | error e => simp [h1] at h
    | ok d =>
      obtain ⟨_, rfl⟩ := int64_op_ok.1 h1
      simp only [h1] at h
      cases h2 : int64_op (info.max - info.min + 1) with
      | error e => simp [h2] at h
      | ok b =>
        obtain ⟨_, rfl⟩ := int64_op_ok.1 h2
        simp only [h2] at h
        by_cases hb : info.max - info.min + 1 ≤ 0 ∨ info.max - info.min + 1 > 8 * 1000 * 1000 * 1000
        · rw [if_pos hb] at h
          simp only [Except.ok.injEq, Prod.mk.injEq] at h
          obtain ⟨rfl, rfl⟩ := h
          refine ⟨by simp; intro _ _ _; omega, by simp; intro _ _ _; omega, by simp⟩
        · rw [if_neg hb] at h
          simp only [Except.ok.injEq, Prod.mk.injEq] at h
          obtain ⟨rfl, rfl⟩ := h
          refine ⟨by simp [hc.1, hc.2]; omega, by simp [hc.1, hc.2]; omega, by simp⟩
  · rw [if_neg hc] at h
    simp only [Except.ok.injEq, Prod.mk.injEq] at h
    obtain ⟨rfl, rfl⟩ := h
    refine ⟨by simp; intro a b; exact absurd ⟨a, b⟩ hc, by simp; intro a b; exact absurd ⟨a, b⟩ hc,
      by simp⟩

/-- What the loop body returned when it returned a descriptor. -/
theorem countDistinctDescriptorOf_some (wd : Bool) (t : TargetExpr) (desc : CountDistinctDescriptor)
    (h : countDistinctDescriptorOf wd t = .ok (some desc)) :
    t.target_info.is_distinct = true ∧ t.target_info.is_agg = true ∧
      t.target_info.agg_kind = .kCOUNT ∧
      ∃ agg_expr arg info bits,
        t.agg_expr = some agg_expr ∧ agg_expr.get_arg = some arg ∧
        (arg.get_type_info.is_string && arg.get_type_info.get_compression != .kENCODING_DICT)
          = false ∧
        getExprRangeInfo wd arg.expr_range = .ok info ∧
        chooseCountDistinctImpl info arg.get_type_info.is_array = .ok (desc.impl_type_, bits) ∧
        (wd && desc.impl_type_ == .StdSet) = false ∧
        desc = { impl_type_ := desc.impl_type_, min_val := info.min, bitmap_sz_bits := bits } := by
  unfold countDistinctDescriptorOf at h
  simp only at h
  split_ifs at h with h1 h2 h3
  swap
  · simp at h
  cases ha : t.agg_expr with
  | none => simp [ha] at h
  | some agg_expr =>
    simp only [ha] at h
    cases harg : agg_expr.get_arg with
    | none => simp [harg] at h
    | some arg =>
      simp only [harg] at h
      split_ifs at h with h4
      cases hr : getExprRangeInfo wd arg.expr_range with
      | error e => simp [hr] at h
      | ok info =>
        simp only [hr] at h
        cases hch : chooseCountDistinctImpl info arg.get_type_info.is_array with
        | error e => simp [hch] at h
        | ok p =>
          obtain ⟨impl, bits⟩ := p
          simp only [hch] at h
          split_ifs at h with h5
          simp only [Except.ok.injEq, Option.some.injEq] at h
          subst h
          exact ⟨h1, by simpa using h2, by simpa using h3, agg_expr, arg, info, bits, rfl, harg,
            by simpa using h4, hr, hch, by simpa using h5, rfl⟩

theorem countDistinctDescriptorOf_none (wd : Bool) (t : TargetExpr)
    (h : countDistinctDescriptorOf wd t = .ok none) : t.target_info.is_distinct = false := by
  unfold countDistinctDescriptorOf at h
  simp only at h
  split_ifs at h with h1 h2 h3
  · cases ha : t.agg_expr with
    | none => simp [ha] at h
    | some agg_expr =>
      simp only [ha] at h
      cases harg : agg_expr.get_arg with
      | none => simp [harg] at h
      | some arg =>
        simp only [harg] at h
        split_ifs at h with h4
        cases hr : getExprRangeInfo wd arg.expr_range with
        | error e => simp [hr] at h
        | ok info =>
          simp only [hr] at h
          cases hch : chooseCountDistinctImpl info arg.get_type_info.is_array with
          | error e => simp [hch] at h
          | ok p =>
            obtain ⟨impl, bits⟩ := p
            simp only [hch] at h
            split_ifs at h
            simp at h
  · simpa using h1

theorem lookup_none_of_lt (l : CountDistinctDescriptors) (idx : Nat) (h : ∀ p ∈ l, p.1 < idx) :
    l.lookup idx = none := by
  rw [List.lookup_eq_none_iff]
  intro p hp
  have h1 := h p hp
  simp only [bne_iff_ne, ne_eq]
  omega

theorem lookup_none_of_gt (l : CountDistinctDescriptors) (idx : Nat) (h : ∀ p ∈ l, idx < p.1) :
    l.lookup idx = none := by
  rw [List.lookup_eq_none_iff]
  intro p hp
  have h1 := h p hp
  simp only [bne_iff_ne, ne_eq]
  omega

/-- The descriptors a completed loop has added: one per distinct target, under the
target's index. -/
theorem initCountDistinctDescriptors_loop_ok (wd : Bool) (targets : List TargetExpr) (idx : Nat)
    (acc descs : CountDistinctDescriptors)
    (h : initCountDistinctDescriptors_loop wd targets idx acc = .ok descs)
    (hacc : ∀ p ∈ acc, p.1 < idx) :
    ∃ new, descs = acc ++ new ∧ (∀ p ∈ new, idx ≤ p.1) ∧
      ∀ i t, targets[i]? = some t →
        ∃ r, countDistinctDescriptorOf wd t = .ok r ∧ new.lookup (idx + i) = r := by
  induction targets generalizing idx acc with
  | nil =>
    simp only [initCountDistinctDescriptors_loop, Except.ok.injEq] at h
    exact ⟨[], by simp [h], by simp, by simp⟩
  | cons t rest ih =>
    unfold initCountDistinctDescriptors_loop at h
    cases hb : countDistinctDescriptorOf wd t with
    | error e => simp [hb] at h
    | ok r =>
      cases r with
      | none =>
        simp only [hb] at h
        obtain ⟨new, hd, hk, hl⟩ := ih (idx + 1) acc h (fun p hp => by have := hacc p hp; omega)
        refine ⟨new, hd, fun p hp => by have := hk p hp; omega, ?_⟩
        intro i t' hi
        cases i with
        | zero =>
          simp only [List.getElem?_cons_zero, Option.some.injEq] at hi
          subst hi
          exact ⟨none, hb, lookup_none_of_gt new idx (fun p hp => by have := hk p hp; omega)⟩
        | succ i =>
          simp only [List.getElem?_cons_succ] at hi
          obtain ⟨r, hr, hlk⟩ := hl i t' hi
          have e : idx + (i + 1) = idx + 1 + i := by omega
          exact ⟨r, hr, by rw [e]; exact hlk⟩
      | some d =>
        simp only [hb, lookup_none_of_lt acc idx hacc, Option.isSome_none, Bool.false_eq_true,
          if_false] at h
        obtain ⟨new, hd, hk, hl⟩ := ih (idx + 1) (acc ++ [(idx, d)]) h (by
          intro p hp
          rcases List.mem_append.1 hp with hp | hp
          · have := hacc p hp; omega
          · simp only [List.mem_singleton] at hp; subst hp; simp)
        refine ⟨(idx, d) :: new, by simp [hd], ?_, ?_⟩
        · intro p hp
          rcases List.mem_cons.1 hp with rfl | hp
          · simp
          · have := hk p hp; omega
        · intro i t' hi
          cases i with
          | zero =>
            simp only [List.getElem?_cons_zero, Option.some.injEq] at hi
            subst hi
            exact ⟨some d, hb, by simp⟩
          | succ i =>
            simp only [List.getElem?_cons_succ] at hi
            obtain ⟨r, hr, hlk⟩ := hl i t' hi
            refine ⟨r, hr, ?_⟩
            rw [List.lookup_cons]
            have hne : (idx + (i + 1) == idx) = false := by simp
            have e : idx + (i + 1) = idx + 1 + i := by omega
            rw [hne, e]
            exact hlk

/-- The loop fails with `e` exactly when the body fails with `e` on a target all of
whose predecessors the body accepted. -/
theorem initCountDistinctDescriptors_loop_error (wd : Bool) (targets : List TargetExpr)
    (idx : Nat) (acc : CountDistinctDescriptors) (e : Failure) (hacc : ∀ p ∈ acc, p.1 < idx) :
    initCountDistinctDescriptors_loop wd targets idx acc = .error e ↔
      ∃ (i : Nat) (t : TargetExpr), targets[i]? = some t ∧ countDistinctDescriptorOf wd t = .error e ∧
        ∀ (j : Nat) (tj : TargetExpr), j < i → targets[j]? = some tj → ∃ r, countDistinctDescriptorOf wd tj = .ok r := by
  induction targets generalizing idx acc with
  | nil => simp [initCountDistinctDescriptors_loop]
  | cons t rest ih =>
    have key : ∀ (acc' : CountDistinctDescriptors), (∀ p ∈ acc', p.1 < idx + 1) →
        (∃ r, countDistinctDescriptorOf wd t = .ok r) →
        (initCountDistinctDescriptors_loop wd rest (idx + 1) acc' = .error e ↔
          ∃ (i : Nat) (t' : TargetExpr), (t :: rest)[i]? = some t' ∧ countDistinctDescriptorOf wd t' = .error e ∧
            ∀ (j : Nat) (tj : TargetExpr), j < i → (t :: rest)[j]? = some tj →
              ∃ r, countDistinctDescriptorOf wd tj = .ok r) := by
      intro acc' hacc' hok
      rw [ih (idx + 1) acc' hacc']
      constructor
      · rintro ⟨i, t', hi, he, hpre⟩
        have hi' : (t :: rest)[i + 1]? = some t' := by simpa using hi
        refine ⟨i + 1, t', hi', he, ?_⟩
        intro j tj hj hjt
        cases j with
        | zero =>
          simp only [List.getElem?_cons_zero, Option.some.injEq] at hjt
          subst hjt; exact hok
        | succ j =>
          simp only [List.getElem?_cons_succ] at hjt
          exact hpre j tj (by omega) hjt
      · rintro ⟨i, t', hi, he, hpre⟩
        cases i with
        | zero =>
          simp only [List.getElem?_cons_zero, Option.some.injEq] at hi
          subst hi
          obtain ⟨r, hr⟩ := hok
          rw [hr] at he
          cases he
        | succ i =>
          simp only [List.getElem?_cons_succ] at hi
          refine ⟨i, t', hi, he, ?_⟩
          intro j tj hj hjt
          have hjt' : (t :: rest)[j + 1]? = some tj := by simpa using hjt
          exact hpre (j + 1) tj (by omega) hjt'
    unfold initCountDistinctDescriptors_loop
    cases hb : countDistinctDescriptorOf wd t with
    | error e' =>
      simp only [Except.error.injEq]
      constructor
      · rintro rfl
        exact ⟨0, t, by simp, hb, by intro j tj hj; omega⟩
      · rintro ⟨i, t', hi, he, hpre⟩
        cases i with
        | zero =>
          simp only [List.getElem?_cons_zero, Option.some.injEq] at hi
          subst hi
          rw [hb] at he
          simpa using he
        | succ i =>
          obtain ⟨r, hr⟩ := hpre 0 t (by omega) (by simp)
          rw [hb] at hr
          cases hr
    | ok r =>
      cases r with
      | none =>
        exact key acc (fun p hp => by have := hacc p hp; omega) ⟨none, hb⟩
      | some d =>
        simp only [lookup_none_of_lt acc idx hacc, Option.isSome_none, Bool.false_eq_true, if_false]
        refine key (acc ++ [(idx, d)]) ?_ ⟨some d, hb⟩
        intro p hp
        rcases List.mem_append.1 hp with hp | hp
        · have := hacc p hp; omega
        · simp only [List.mem_singleton] at hp; subst hp; simp

theorem int64_op_error {x : Int} {e : Failure} (h : int64_op x = .error e) :
    e = .UndefinedBehaviour := by
  unfold int64_op at h
  split_ifs at h
  simp only [Except.error.injEq] at h
  exact h.symm

theorem getExprRangeInfo_error {wd : Bool} {r : ExpressionRange} {e : Failure}
    (h : getExprRangeInfo wd r = .error e) : e = .WouldBeSlow := by
  unfold getExprRangeInfo at h
  cases hty : r.getType <;> simp only [hty] at h
  · cases h
  · cases h
  · split_ifs at h
    simp only [Except.error.injEq] at h
    exact h.symm

theorem chooseCountDistinctImpl_error {info : ColRangeInfo} {arr : Bool} {e : Failure}
    (h : chooseCountDistinctImpl info arr = .error e) : e = .UndefinedBehaviour := by
  unfold chooseCountDistinctImpl at h
  split_ifs at h
  cases h1 : int64_op (info.max - info.min) with
  | error e1 =>
    simp only [h1, Except.error.injEq] at h
    subst h
    exact int64_op_error h1
  | ok d =>
    simp only [h1] at h
    cases h2 : int64_op (d + 1) with
    | error e2 =>
      simp only [h2, Except.error.injEq] at h
      subst h
      exact int64_op_error h2
    | ok b =>
      simp only [h2] at h
      split_ifs at h

theorem countDistinctDescriptorOf_watchdog (wd : Bool) (t : TargetExpr) :
    countDistinctDescriptorOf wd t = .error .CannotUseFastPath ↔
      wd = true ∧ fallsBackToStdSet wd t := by
  constructor
  · intro h
    unfold countDistinctDescriptorOf at h
    simp only at h
    split_ifs at h with h1 h2 h3
    · cases h
    · cases h
    cases ha : t.agg_expr with
    | none => simp [ha] at h
    | some agg_expr =>
      simp only [ha] at h
      cases harg : agg_expr.get_arg with
      | none => simp [harg] at h
      | some arg =>
        simp only [harg] at h
        split_ifs at h with h4
        · cases h
        cases hr : getExprRangeInfo wd arg.expr_range with
        | error e =>
          simp only [hr, Except.error.injEq] at h
          subst h
          cases getExprRangeInfo_error hr
        | ok info =>
          simp only [hr] at h
          cases hch : chooseCountDistinctImpl info arg.get_type_info.is_array with
          | error e =>
            simp only [hch, Except.error.injEq] at h
            subst h
            cases chooseCountDistinctImpl_error hch
          | ok p =>
            obtain ⟨impl, bits⟩ := p
            simp only [hch] at h
            split_ifs at h with h5
            simp only [Bool.and_eq_true, beq_iff_eq] at h5
            obtain ⟨hwd, rfl⟩ := h5
            exact ⟨hwd, h1, by simpa using h2, by simpa using h3, agg_expr, arg, info, bits, ha,
              harg, by simpa using h4, hr, hch⟩
  · rintro ⟨hwd, h1, h2, h3, agg_expr, arg, info, bits, ha, harg, h4, hr, hch⟩
    subst hwd
    simp [countDistinctDescriptorOf, h1, h2, h3, ha, harg, h4, hr, hch]

/-- C4 (COUNT DISTINCT implementation choice).  Whenever `initCountDistinctDescriptors`
returns, the descriptor it recorded for a `COUNT(DISTINCT)` target is `Bitmap` if and
only if the argument's range is `OneColKnownRange`, the argument is not array-typed and
`bitmap_bits = max − min + 1` satisfies `0 < bitmap_bits ≤ 8,000,000,000`; in every
other case it is `StdSet`.  A `Bitmap` descriptor has `bitmap_sz_bits = max − min + 1`
and `min_val = min`; the range `[0, 999]` gives a bitmap of 1000 bits. -/
theorem count_distinct_implementation_choice (g_enable_watchdog : Bool)
    (target_exprs : List TargetExpr) (descs : CountDistinctDescriptors) (target_idx : Nat)
    (target_expr : TargetExpr)
    (hrun : initCountDistinctDescriptors g_enable_watchdog target_exprs = .ok descs)
    (hidx : target_exprs[target_idx]? = some target_expr)
    (hdistinct : target_expr.target_info.is_distinct = true) :
    (∃ agg_expr arg arg_range_info desc,
      target_expr.agg_expr = some agg_expr ∧ agg_expr.get_arg = some arg ∧
      getExprRangeInfo g_enable_watchdog arg.expr_range = .ok arg_range_info ∧
      descs.lookup target_idx = some desc ∧
      (desc.impl_type_ = .Bitmap ↔ bitmapCondition arg_range_info arg.get_type_info.is_array) ∧
      (desc.impl_type_ = .StdSet ↔ ¬ bitmapCondition arg_range_info arg.get_type_info.is_array) ∧
      (desc.impl_type_ = .Bitmap →
        desc.bitmap_sz_bits = arg_range_info.max - arg_range_info.min + 1 ∧
        desc.min_val = arg_range_info.min)) ∧
    ∀ (wd has_nulls : Bool) (bucket : Int),
      initCountDistinctDescriptors wd
          [countDistinctTarget intTypeInfo
            { getType := .Integer, getIntMin := 0, getIntMax := 999, getBucket := bucket,
              hasNulls := has_nulls }]
        = .ok [(0, { impl_type_ := .Bitmap, min_val := 0, bitmap_sz_bits := 1000 })] := by
  constructor
  · unfold initCountDistinctDescriptors at hrun
    obtain ⟨new, hd, -, hl⟩ := initCountDistinctDescriptors_loop_ok g_enable_watchdog target_exprs 0
      [] descs hrun (by simp)
    obtain ⟨r, hr, hlk⟩ := hl target_idx target_expr hidx
    simp only [List.nil_append] at hd
    subst hd
    rw [Nat.zero_add] at hlk
    cases r with
    | none =>
      have := countDistinctDescriptorOf_none g_enable_watchdog target_expr hr
      rw [hdistinct] at this
      cases this
    | some desc =>
      obtain ⟨-, -, -, agg_expr, arg, info, bits, ha, harg, -, hri, hch, -, hdesc⟩ :=
        countDistinctDescriptorOf_some g_enable_watchdog target_expr desc hr
      obtain ⟨hb, hs, hbits⟩ :=
        chooseCountDistinctImpl_spec info arg.get_type_info.is_array desc.impl_type_ bits hch
      refine ⟨agg_expr, arg, info, desc, ha, harg, hri, hlk, hb, hs, ?_⟩
      intro hbm
      rw [hdesc]
      exact ⟨hbits hbm, rfl⟩
  · intro wd has_nulls bucket
    cases wd <;> rfl

/-- Witness for C4: a single `COUNT(DISTINCT x)` with `x` in `[0, 999]`, watchdog on. -/
theorem count_distinct_implementation_choice_witness :
    (∃ agg_expr arg arg_range_info desc,
      (countDistinctTarget intTypeInfo
          { getType := .Integer, getIntMin := 0, getIntMax := 999, getBucket := 0,
            hasNulls := false }).agg_expr = some agg_expr ∧
      agg_expr.get_arg = some arg ∧
      getExprRangeInfo true arg.expr_range = .ok arg_range_info ∧
      List.lookup 0 [(0, ({ impl_type_ := .Bitmap, min_val := 0, bitmap_sz_bits := 1000 } :
        CountDistinctDescriptor))] = some desc ∧
      (desc.impl_type_ = .Bitmap ↔ bitmapCondition arg_range_info arg.get_type_info.is_array) ∧
      (desc.impl_type_ = .StdSet ↔ ¬ bitmapCondition arg_range_info arg.get_type_info.is_array) ∧
      (desc.impl_type_ = .Bitmap →
        desc.bitmap_sz_bits = arg_range_info.max - arg_range_info.min + 1 ∧
        desc.min_val = arg_range_info.min)) ∧
    ∀ (wd has_nulls : Bool) (bucket : Int),
      initCountDistinctDescriptors wd
          [countDistinctTarget intTypeInfo
            { getType := .Integer, getIntMin := 0, getIntMax := 999, getBucket := bucket,
              hasNulls := has_nulls }]
        = .ok [(0, { impl_type_ := .Bitmap, min_val := 0, bitmap_sz_bits := 1000 })] :=
  count_distinct_implementation_choice true
    [countDistinctTarget intTypeInfo
      { getType := .Integer, getIntMin := 0, getIntMax := 999, getBucket := 0, hasNulls := false }]
    [(0, { impl_type_ := .Bitmap, min_val := 0, bitmap_sz_bits := 1000 })] 0
    (countDistinctTarget intTypeInfo
      { getType := .Integer, getIntMin := 0, getIntMax := 999, getBucket := 0, hasNulls := false })
    (by rfl) (by rfl) (by rfl)

/-- C5, the claim as stated fails: with the watchdog enabled and the targets
`COUNT(DISTINCT s), COUNT(DISTINCT x)`, `s` an unencoded string and `x` of unknown range,
the second target has an acceptable argument and falls back to `StdSet`, yet the error
raised is the one about dictionary encoding, not the watchdog error. -/
theorem count_distinct_watchdog_counterexample :
    initCountDistinctDescriptors true watchdogTargets = .error .StringsMustBeDictionaryEncoded ∧
      initCountDistinctDescriptors true watchdogTargets ≠ .error .CannotUseFastPath ∧
      ∃ t ∈ watchdogTargets, fallsBackToStdSet true t := by
  have hrun : initCountDistinctDescriptors true watchdogTargets
      = .error .StringsMustBeDictionaryEncoded := by rfl
  refine ⟨hrun, by rw [hrun]; simp, ?_⟩
  refine ⟨countDistinctTarget intTypeInfo default, by simp [watchdogTargets], rfl, rfl, rfl, ?_⟩
  exact ⟨_, _, (⟨.OneColGuessedRange, 0, 255, 0, false⟩ : ColRangeInfo), 0, rfl, rfl, rfl, rfl,
    rfl⟩

/-- C5 (COUNT DISTINCT watchdog failure), amended.  `initCountDistinctDescriptors` raises the
watchdog error `CannotUseFastPath` if and only if the watchdog is enabled and some
`COUNT(DISTINCT)` target with an acceptable argument (not an unencoded string, range
analysis not failing) falls back to `StdSet` while every target before it is processed
without an error.  With the watchdog disabled it never raises that error, and a run that
returns has recorded a `StdSet` descriptor for such a target. -/
theorem count_distinct_watchdog (g_enable_watchdog : Bool) (target_exprs : List TargetExpr) :
    (initCountDistinctDescriptors g_enable_watchdog target_exprs = .error .CannotUseFastPath ↔
      g_enable_watchdog = true ∧
        ∃ (i : Nat) (t : TargetExpr), target_exprs[i]? = some t ∧
          fallsBackToStdSet g_enable_watchdog t ∧
          ∀ (j : Nat) (tj : TargetExpr), j < i → target_exprs[j]? = some tj →
            ∃ r, countDistinctDescriptorOf g_enable_watchdog tj = .ok r) ∧
    (g_enable_watchdog = false →
      initCountDistinctDescriptors g_enable_watchdog target_exprs ≠ .error .CannotUseFastPath ∧
      ∀ descs, initCountDistinctDescriptors g_enable_watchdog target_exprs = .ok descs →
        ∀ (i : Nat) (t : TargetExpr), target_exprs[i]? = some t →
          fallsBackToStdSet g_enable_watchdog t →
          ∃ d, descs.lookup i = some d ∧ d.impl_type_ = .StdSet) := by
  have hiff : initCountDistinctDescriptors g_enable_watchdog target_exprs
        = .error .CannotUseFastPath ↔
      g_enable_watchdog = true ∧
        ∃ (i : Nat) (t : TargetExpr), target_exprs[i]? = some t ∧
          fallsBackToStdSet g_enable_watchdog t ∧
          ∀ (j : Nat) (tj : TargetExpr), j < i → target_exprs[j]? = some tj →
            ∃ r, countDistinctDescriptorOf g_enable_watchdog tj = .ok r := by
    unfold initCountDistinctDescriptors
    rw [initCountDistinctDescriptors_loop_error g_enable_watchdog target_exprs 0 [] _ (by simp)]
    constructor
    · rintro ⟨i, t, hi, he, hpre⟩
      obtain ⟨hwd, hfb⟩ := (countDistinctDescriptorOf_watchdog g_enable_watchdog t).1 he
      exact ⟨hwd, i, t, hi, hfb, hpre⟩
    · rintro ⟨hwd, i, t, hi, hfb, hpre⟩
      exact ⟨i, t, hi, (countDistinctDescriptorOf_watchdog g_enable_watchdog t).2 ⟨hwd, hfb⟩, hpre⟩
  refine ⟨hiff, ?_⟩
  intro hwd
  refine ⟨fun h => ?_, ?_⟩
  · have := (hiff.1 h).1
    rw [hwd] at this
    cases this
  · intro descs hrun i t hi hfb
    unfold initCountDistinctDescriptors at hrun
    obtain ⟨new, hd, -, hl⟩ := initCountDistinctDescriptors_loop_ok g_enable_watchdog target_exprs 0
      [] descs hrun (by simp)
    obtain ⟨r, hr, hlk⟩ := hl i t hi
    simp only [List.nil_append] at hd
    subst hd
    rw [Nat.zero_add] at hlk
    obtain ⟨hdist, -, -, agg_expr, arg, info, bits, ha, harg, -, hri, hch⟩ := hfb
    cases r with
    | none =>
      have := countDistinctDescriptorOf_none g_enable_watchdog t hr
      rw [hdist] at this
      cases this
    | some desc =>
      refine ⟨desc, hlk, ?_⟩
      obtain ⟨-, -, -, agg_expr', arg', info', bits', ha', harg', -, hri', hch', -, -⟩ :=
        countDistinctDescriptorOf_some g_enable_watchdog t desc hr
      rw [ha] at ha'
      cases ha'
      rw [harg] at harg'
      cases harg'
      rw [hri] at hri'
      cases hri'
      rw [hch] at hch'
      simp only [Except.ok.injEq, Prod.mk.injEq] at hch'
      exact hch'.1.symm

/-! ## Multi-column range classification -/

theorem subRangeKnown_iff (wd : Bool) (r : ExpressionRange) :
    subRangeKnown wd r ↔ r.getType = .Integer := by
  unfold subRangeKnown getExprRangeInfo
  cases hty : r.getType <;> cases wd <;> simp

theorem columnCardinality_prod_pos (exprs : List ExpressionRange)
    (h : ∀ r ∈ exprs, 0 < columnCardinality r) : 1 ≤ (exprs.map columnCardinality).prod := by
  induction exprs with
  | nil => simp
  | cons r rest ih =>
    rw [List.map_cons, List.prod_cons]
    have h1 := h r (List.mem_cons_self _ _)
    have h2 := ih (fun r' hr' => h r' (List.mem_cons_of_mem _ hr'))
    nlinarith

/-- The arithmetic of one iteration of `getColRangeInfo`, on a well-formed range. -/
theorem crt_col_cardinality_ok (r : ExpressionRange) (h : cardinalityDefined r) :
    int64_op (r.getIntMax - r.getIntMin) = .ok (r.getIntMax - r.getIntMin) ∧
      int64_op (r.getIntMax - r.getIntMin + 1) = .ok (r.getIntMax - r.getIntMin + 1) ∧
      int64_op (columnCardinality r) = .ok (columnCardinality r) := by
  obtain ⟨h1, h2, h3⟩ := h
  have hn : (0 : Int) ≤ (if r.hasNulls then 1 else 0) ∧ (if r.hasNulls then (1 : Int) else 0) ≤ 1 := by
    split <;> omega
  refine ⟨int64_op_ok.2 ⟨?_, rfl⟩, int64_op_ok.2 ⟨?_, rfl⟩, int64_op_ok.2 ⟨?_, rfl⟩⟩ <;>
    (unfold columnCardinality INT64_MIN INT64_MAX at *; constructor <;> omega)

theorem getColRangeInfo_try_cons_known (wd : Bool) (r : ExpressionRange)
    (rest : List ExpressionRange) (c0 : Int) (hn0 : Bool) (hty : r.getType = .Integer)
    (hdef : cardinalityDefined r) :
    getColRangeInfo_try wd (r :: rest) c0 hn0 =
      match checked_int64_mul c0 (columnCardinality r) with
      | .error e => .error e
      | .ok cardinality =>
        getColRangeInfo_try wd rest cardinality (if r.hasNulls then true else hn0) := by
  obtain ⟨h1, h2, h3⟩ := crt_col_cardinality_ok r hdef
  have hpos : columnCardinality r > 0 := hdef.2.1
  rw [getColRangeInfo_try]
  simp only [getExprRangeInfo, hty, ne_eq, not_true_eq_false, if_false, h1, h2]
  rw [show (r.getIntMax - r.getIntMin + 1 + if r.hasNulls = true then 1 else 0)
    = columnCardinality r from rfl]
  simp only [h3, hpos, if_true]

theorem getColRangeInfo_try_multiCol (wd : Bool) (exprs : List ExpressionRange) (c0 : Int)
    (hn0 : Bool) (hinv : ∀ r ∈ exprs, r.getType = .Integer → cardinalityDefined r)
    (h : (∃ r ∈ exprs, r.getType ≠ .Integer) ∨
      10000000 < c0 * (exprs.map columnCardinality).prod) :
    getColRangeInfo_try wd exprs c0 hn0 = .ok ColRangeInfo.multiCol ∨
      ∃ e, getColRangeInfo_try wd exprs c0 hn0 = .error e ∧ e.isException = true := by
  induction exprs generalizing c0 hn0 with
  | nil =>
    rcases h with ⟨r, hr, -⟩ | h
    · cases hr
    · left
      simp only [List.map_nil, List.prod_nil, mul_one] at h
      simp [getColRangeInfo_try, h]
  | cons r rest ih =>
    cases hty : r.getType with
    | Integer =>
      rw [getColRangeInfo_try_cons_known wd r rest c0 hn0 hty (hinv r (List.mem_cons_self _ _) hty)]
      cases hm : checked_int64_mul c0 (columnCardinality r) with
      | error e =>
        right
        refine ⟨e, rfl, ?_⟩
        unfold checked_int64_mul at hm
        split_ifs at hm
        simp only [Except.error.injEq] at hm
        subst hm
        rfl
      | ok c1 =>
        obtain ⟨-, rfl⟩ := checked_int64_mul_ok.1 hm
        apply ih _ _ (fun r' hr' => hinv r' (List.mem_cons_of_mem _ hr'))
        rcases h with ⟨r', hr', hne⟩ | h
        · rcases List.mem_cons.1 hr' with rfl | hr'
          · exact absurd hty hne
          · exact Or.inl ⟨r', hr', hne⟩
        · right
          rw [List.map_cons, List.prod_cons, ← mul_assoc] at h
          exact h
    | FloatingPoint =>
      rw [getColRangeInfo_try]
      cases wd
      · left; simp [getExprRangeInfo, hty, ColRangeInfo.multiCol]
      · right; exact ⟨.WouldBeSlow, by simp [getExprRangeInfo, hty], rfl⟩
    | Invalid =>
      left
      rw [getColRangeInfo_try]
      simp [getExprRangeInfo, hty, ColRangeInfo.multiCol]

theorem getColRangeInfo_try_perfectHash (wd : Bool) (exprs : List ExpressionRange) (c0 : Int)
    (hn0 : Bool) (hc0 : 0 < c0) (hinv : ∀ r ∈ exprs, r.getType = .Integer → cardinalityDefined r)
    (hall : ∀ r ∈ exprs, r.getType = .Integer)
    (hle : c0 * (exprs.map columnCardinality).prod ≤ 10000000) :
    getColRangeInfo_try wd exprs c0 hn0 =
      .ok { hash_type_ := .MultiColPerfectHash, min := 0,
            max := c0 * (exprs.map columnCardinality).prod, bucket := 0,
            has_nulls := hn0 || exprs.any (fun r => r.hasNulls) } := by
  induction exprs generalizing c0 hn0 with
  | nil =>
    simp only [List.map_nil, List.prod_nil, mul_one] at hle ⊢
    have : ¬ c0 > 10000000 := by omega
    simp [getColRangeInfo_try, this]
  | cons r rest ih =>
    have hty := hall r (List.mem_cons_self _ _)
    have hdef := hinv r (List.mem_cons_self _ _) hty
    have hrest : 1 ≤ (rest.map columnCardinality).prod :=
      columnCardinality_prod_pos rest (fun r' hr' =>
        (hinv r' (List.mem_cons_of_mem _ hr') (hall r' (List.mem_cons_of_mem _ hr'))).2.1)
    rw [List.map_cons, List.prod_cons, ← mul_assoc] at hle
    have hpos : 0 < c0 * columnCardinality r := mul_pos hc0 hdef.2.1
    have hbound : c0 * columnCardinality r ≤ 10000000 := by nlinarith
    rw [getColRangeInfo_try_cons_known wd r rest c0 hn0 hty hdef]
    have hm : checked_int64_mul c0 (columnCardinality r) = .ok (c0 * columnCardinality r) :=
      checked_int64_mul_ok.2 ⟨⟨by unfold INT64_MIN; omega, by unfold INT64_MAX; omega⟩, rfl⟩
    simp only [hm]
    rw [ih _ _ hpos (fun r' hr' => hinv r' (List.mem_cons_of_mem _ hr'))
      (fun r' hr' => hall r' (List.mem_cons_of_mem _ hr')) hle]
    simp only [List.map_cons, List.prod_cons, List.any_cons, mul_assoc]
    congr 2
    generalize r.hasNulls = b
    cases b <;> cases hn0 <;> simp

/-- The classification of `getColRangeInfo` where the unchecked arithmetic does not
overflow.  For more than one grouping expression, each integer range having a
cardinality the code can compute (`cardinalityDefined`): `getColRangeInfo` returns `MultiCol` if any sub-range is not `OneColKnownRange`, or if
the product of the per-column cardinalities (`max − min + 1`, plus 1 for a column with
nulls) exceeds 10,000,000 or overflows the checked 64-bit arithmetic; otherwise it
returns `MultiColPerfectHash` with `max` equal to that product and `has_nulls` equal to
the disjunction of the sub-ranges' `has_nulls`. -/
theorem getColRangeInfo_classification (g_enable_watchdog : Bool)
    (groupby_exprs : List ExpressionRange) (hsize : 1 < groupby_exprs.length)
    (hinv : ∀ r ∈ groupby_exprs, r.getType = .Integer → cardinalityDefined r) :
    (((∃ r ∈ groupby_exprs, ¬ subRangeKnown g_enable_watchdog r) ∨
        10000000 < (groupby_exprs.map columnCardinality).prod ∨
        INT64_MAX < (groupby_exprs.map columnCardinality).prod) →
      getColRangeInfo g_enable_watchdog groupby_exprs = .ok ColRangeInfo.multiCol) ∧
    (¬ ((∃ r ∈ groupby_exprs, ¬ subRangeKnown g_enable_watchdog r) ∨
        10000000 < (groupby_exprs.map columnCardinality).prod ∨
        INT64_MAX < (groupby_exprs.map columnCardinality).prod) →
      getColRangeInfo g_enable_watchdog groupby_exprs =
        .ok { hash_type_ := .MultiColPerfectHash, min := 0,
              max := (groupby_exprs.map columnCardinality).prod, bucket := 0,
              has_nulls := groupby_exprs.any (fun r => r.hasNulls) }) := by
  have hne : groupby_exprs.length ≠ 1 := by omega
  unfold getColRangeInfo
  simp only [hne, ne_eq, not_false_eq_true, if_true]
  constructor
  · intro h
    have h' : (∃ r ∈ groupby_exprs, r.getType ≠ .Integer) ∨
        10000000 < 1 * (groupby_exprs.map columnCardinality).prod := by
      rcases h with ⟨r, hr, hk⟩ | h | h
      · exact Or.inl ⟨r, hr, fun hty => hk ((subRangeKnown_iff _ r).2 hty)⟩
      · right; rw [one_mul]; exact h
      · right; rw [one_mul]; unfold INT64_MAX at h; omega
    rcases getColRangeInfo_try_multiCol g_enable_watchdog groupby_exprs 1 false hinv h' with
      hok | ⟨e, he, hex⟩
    · rw [hok]
    · rw [he]
      simp [hex]
  · intro h
    simp only [not_or, not_exists, not_and, not_not, not_lt] at h
    obtain ⟨hall, hle, -⟩ := h
    have hall' : ∀ r ∈ groupby_exprs, r.getType = .Integer :=
      fun r hr => (subRangeKnown_iff _ r).1 (hall r hr)
    rw [getColRangeInfo_try_perfectHash g_enable_watchdog groupby_exprs 1 false one_pos hinv hall'
      (by rw [one_mul]; exact hle)]
    simp

/-- The classification of `getColRangeInfo` on the two integer columns of scenario
S5. -/
theorem getColRangeInfo_classification_sample :
    (((∃ r ∈ witnessTwoKeys, ¬ subRangeKnown true r) ∨
        10000000 < (witnessTwoKeys.map columnCardinality).prod ∨
        INT64_MAX < (witnessTwoKeys.map columnCardinality).prod) →
      getColRangeInfo true witnessTwoKeys = .ok ColRangeInfo.multiCol) ∧
    (¬ ((∃ r ∈ witnessTwoKeys, ¬ subRangeKnown true r) ∨
        10000000 < (witnessTwoKeys.map columnCardinality).prod ∨
        INT64_MAX < (witnessTwoKeys.map columnCardinality).prod) →
      getColRangeInfo true witnessTwoKeys =
        .ok { hash_type_ := .MultiColPerfectHash, min := 0,
              max := (witnessTwoKeys.map columnCardinality).prod, bucket := 0,
              has_nulls := witnessTwoKeys.any (fun r => r.hasNulls) }) :=
  getColRangeInfo_classification true witnessTwoKeys (by decide) (by decide)

/-- C7 (multi-column range classification) fails on the code.  For two grouping columns
with the integer ranges `[-5000000000000000000, 5000000000000000000]` and `[0, 1]`, both
sub-ranges are `OneColKnownRange` with `min ≤ max`, and the product of the cardinalities,
20000000000000000002, exceeds 10,000,000 and the 64-bit range, so the claim gives
`MultiCol`; `getColRangeInfo` computes `max - min` of the first column in plain `int64_t`,
outside the checked product, where it overflows: undefined behaviour, not an exception
that `catch (...)` turns into `MultiCol`. -/
theorem multi_column_range_classification_failing_input :
    1 < wideThenTinyKeys.length ∧
      (∀ r ∈ wideThenTinyKeys,
        r.getType = .Integer ∧ INT64_MIN ≤ r.getIntMin ∧ r.getIntMin ≤ r.getIntMax ∧
          r.getIntMax ≤ INT64_MAX ∧ 0 < columnCardinality r) ∧
      (∀ g_enable_watchdog, ∀ r ∈ wideThenTinyKeys, subRangeKnown g_enable_watchdog r) ∧
      (wideThenTinyKeys.map columnCardinality).prod = 20000000000000000002 ∧
      10000000 < (wideThenTinyKeys.map columnCardinality).prod ∧
      INT64_MAX < (wideThenTinyKeys.map columnCardinality).prod ∧
      getColRangeInfo false wideThenTinyKeys = .error .UndefinedBehaviour ∧
      getColRangeInfo true wideThenTinyKeys = .error .UndefinedBehaviour ∧
      getColRangeInfo false wideThenTinyKeys ≠ .ok ColRangeInfo.multiCol := by
  refine ⟨by decide, by decide, ?_, by decide, by decide, by decide, by rfl, by rfl, ?_⟩
  · intro wd r hr
    rw [subRangeKnown_iff]
    revert r
    decide
  · rw [show getColRangeInfo false wideThenTinyKeys = .error .UndefinedBehaviour from rfl]
    intro h
    cases h

/-! ## Constructor invariants -/

theorem descriptorForRange_shape (a : GroupByAndAggregateArgs) (ws : List ColWidths)
    (cdd : CountDistinctDescriptors) (cri : ColRangeInfo) (hint : Bool)
    (q : QueryMemoryDescriptor) (h : descriptorForRange a ws cdd cri hint = .ok q) :
    InitShape a q := by
  unfold descriptorForRange at h
  split at h
  · obtain ⟨_, -, h⟩ := except_bind_ok h
    cases except_pure_ok h
    simp [InitShape, descriptorOf]
  · obtain ⟨_, -, h⟩ := except_bind_ok h
    cases except_pure_ok h
    simp [InitShape, descriptorOf]
  · rename_i hne1 hne2
    obtain ⟨baseline, hb, h⟩ := except_bind_ok h
    cases baseline with
    | true =>
      simp only [if_true] at h
      cases except_pure_ok h
      unfold InitShape
      refine ⟨rfl, rfl, rfl, ?_, by simp [baselineDescriptor, descriptorOf],
        by simp [baselineDescriptor, descriptorOf]⟩
      intro hr
      have hr' : a.render_output = true := hr
      simp [baselineDescriptor, descriptorOf, hr']
    | false =>
      simp only [Bool.false_eq_true, if_false] at h
      unfold directAddressedDescriptor at h
      obtain ⟨_, -, h⟩ := except_bind_ok h
      obtain ⟨few, -, h⟩ := except_bind_ok h
      obtain ⟨range, -, h⟩ := except_bind_ok h
      cases except_pure_ok h
      unfold InitShape
      refine ⟨rfl, rfl, rfl, by simp [descriptorOf], ?_, ?_⟩
      · intro _
        refine ⟨rfl, ?_⟩
        show cri.hash_type_ = .OneColKnownRange
        unfold usesBaselineTable at hb
        split_ifs at hb with hgs
        · cases except_pure_ok hb
        · cases hty : cri.hash_type_ with
          | OneColKnownRange => rfl
          | OneColGuessedRange => exact absurd (Or.inl hty) hgs
          | Scan => exact absurd (Or.inr hty) hgs
          | MultiCol => exact absurd hty hne1
          | MultiColPerfectHash => exact absurd hty hne2
      · simp only [descriptorOf, Bool.and_eq_true]
        intro hi
        exact hi.1

theorem initQueryMemoryDescriptor_shape (a : GroupByAndAggregateArgs) (hint : Bool)
    (q : QueryMemoryDescriptor) (h : initQueryMemoryDescriptor a hint = .ok q) :
    InitShape a q := by
  unfold initQueryMemoryDescriptor at h
  obtain ⟨cdd, -, h⟩ := except_bind_ok h
  obtain ⟨_, -, h⟩ := except_bind_ok h
  obtain ⟨smallest, -, h⟩ := except_bind_ok h
  simp only [] at h
  split_ifs at h with hg
  · obtain ⟨_, -, h⟩ := except_bind_ok h
    cases except_pure_ok h
    simp [InitShape, descriptorOf]
  · obtain ⟨cri, -, h⟩ := except_bind_ok h
    split_ifs at h with hw
    exact descriptorForRange_shape a _ cdd cri hint q h

theorem usesGetGroupValueFast_true (q : QueryMemoryDescriptor)
    (h : q.usesGetGroupValueFast = .ok true) :
    q.hash_type = .OneColKnownRange ∧ q.getSmallBufferSizeBytes = .ok 0 := by
  unfold QueryMemoryDescriptor.usesGetGroupValueFast at h
  split_ifs at h with hk
  · obtain ⟨small, hs, h⟩ := except_bind_ok h
    have := except_pure_ok h
    have h0 : small = 0 := by simpa using this
    subst h0
    exact ⟨hk, hs⟩
  · cases except_pure_ok h

theorem canOutputColumnar_true (q : QueryMemoryDescriptor)
    (h : q.canOutputColumnar = .ok true) :
    q.usesGetGroupValueFast = .ok true ∧ q.threadsShareMemory = true ∧
      q.blocksShareMemory = .ok true ∧ q.interleavedBins .GPU = false := by
  unfold QueryMemoryDescriptor.canOutputColumnar at h
  obtain ⟨fast, hf, h⟩ := except_bind_ok h
  cases fast with
  | false => cases except_pure_ok h
  | true =>
    simp only [Bool.not_true, Bool.false_eq_true, if_false] at h
    cases ht : q.threadsShareMemory with
    | false =>
      simp only [ht, Bool.not_false, if_true] at h
      cases except_pure_ok h
    | true =>
      simp only [ht, Bool.not_true, Bool.false_eq_true, if_false] at h
      obtain ⟨blocks, hb, h⟩ := except_bind_ok h
      cases blocks with
      | false => cases except_pure_ok h
      | true =>
        simp only [Bool.not_true, Bool.false_eq_true, if_false] at h
        have := except_pure_ok h
        exact ⟨hf, rfl, hb, by simpa using this⟩

/-- How the constructor derives its result from the descriptor of
`initQueryMemoryDescriptor`. -/
theorem GroupByAndAggregate_ok (a : GroupByAndAggregateArgs) (q : QueryMemoryDescriptor)
    (h : GroupByAndAggregate a = .ok q) :
    ∃ (hint : Bool) (q0 q1 : QueryMemoryDescriptor) (sort col : Bool),
      initQueryMemoryDescriptor a hint = .ok q0 ∧
      q1 = interleavedOnlyOnGpu a.device_type q0 ∧
      sortOnGpuValue q1 hint = .ok sort ∧
      outputColumnarValue
        { q1 with sort_on_gpu_ := sort,
                  is_sort_plan := !a.ra_exe_unit.order_entries.isEmpty && !sort }
        a.output_columnar_hint = .ok col ∧
      q = { q1 with sort_on_gpu_ := sort,
                    is_sort_plan := !a.ra_exe_unit.order_entries.isEmpty && !sort,
                    output_columnar := col } := by
  unfold GroupByAndAggregate at h
  split_ifs at h with hs
  obtain ⟨hint, -, h⟩ := except_bind_ok h
  obtain ⟨q0, hq0, h⟩ := except_bind_ok h
  obtain ⟨sort, hsort, h⟩ := except_bind_ok h
  obtain ⟨col, hcol, h⟩ := except_bind_ok h
  have := except_pure_ok h
  exact ⟨hint, q0, _, sort, col, hq0, rfl, hsort, hcol, this.symm⟩

theorem sortOnGpuValue_true (q : QueryMemoryDescriptor) (hint : Bool)
    (h : sortOnGpuValue q hint = .ok true) :
    q.canOutputColumnar = .ok true ∧ q.keyless_hash = false := by
  unfold sortOnGpuValue at h
  split_ifs at h with hh
  · cases except_pure_ok h
  · obtain ⟨can, hc, h⟩ := except_bind_ok h
    have := except_pure_ok h
    simp only [Bool.and_eq_true, Bool.not_eq_true'] at this
    obtain ⟨rfl, hk⟩ := this
    exact ⟨hc, hk⟩

theorem outputColumnarValue_true (q : QueryMemoryDescriptor) (hint : Bool)
    (h : outputColumnarValue q hint = .ok true) :
    q.canOutputColumnar = .ok true ∨ q.sort_on_gpu_ = true := by
  unfold outputColumnarValue at h
  split_ifs at h with hh
  · right
    exact except_pure_ok h
  · obtain ⟨can, hc, h⟩ := except_bind_ok h
    have := except_pure_ok h
    simp only [Bool.or_eq_true] at this
    rcases this with rfl | hs
    · exact Or.inl hc
    · exact Or.inr hs

/-- C8 (sort-on-device invariant).  For every input for which the constructor
`GroupByAndAggregate` completes without error, the resulting descriptor satisfies
`sort_on_gpu_ ⇒ output_columnar ∧ ¬keyless_hash ∧ ¬render_output`. -/
theorem sort_on_gpu_invariant (a : GroupByAndAggregateArgs) (q : QueryMemoryDescriptor)
    (h : GroupByAndAggregate a = .ok q) (hsort : q.sort_on_gpu_ = true) :
    q.output_columnar = true ∧ q.keyless_hash = false ∧ q.render_output = false := by
  obtain ⟨hint, q0, q1, sort, col, hq0, hq1, hs, hc, rfl⟩ := GroupByAndAggregate_ok a q h
  have hsort' : sort = true := hsort
  subst hsort'
  obtain ⟨-, -, -, hrender, -, -⟩ := initQueryMemoryDescriptor_shape a hint q0 hq0
  obtain ⟨hcan, hkl⟩ := sortOnGpuValue_true q1 hint hs
  obtain ⟨hfast, -, -, -⟩ := canOutputColumnar_true q1 hcan
  obtain ⟨hknown, -⟩ := usesGetGroupValueFast_true q1 hfast
  have hq1k : q1.hash_type = q0.hash_type := by
    rw [hq1]; unfold interleavedOnlyOnGpu; split_ifs <;> rfl
  have hq1r : q1.render_output = q0.render_output := by
    rw [hq1]; unfold interleavedOnlyOnGpu; split_ifs <;> rfl
  refine ⟨?_, hkl, ?_⟩
  · show col = true
    unfold outputColumnarValue at hc
    split_ifs at hc
    · exact (except_pure_ok hc).symm
    · obtain ⟨can, -, hc⟩ := except_bind_ok hc
      have := except_pure_ok hc
      rw [← this]
      simp [QueryMemoryDescriptor.sortOnGpu]
  · show q1.render_output = false
    rw [hq1r]
    cases hr : q0.render_output with
    | false => rfl
    | true =>
      have := hrender hr
      rw [← hq1k, hknown] at this
      cases this

/-- Witness for C8: `SELECT x, COUNT(*) ... GROUP BY x ORDER BY 2 DESC` on a GPU. -/
theorem sort_on_gpu_invariant_witness :
    sortOnGpuDescriptor.output_columnar = true ∧ sortOnGpuDescriptor.keyless_hash = false ∧
      sortOnGpuDescriptor.render_output = false :=
  sort_on_gpu_invariant sortOnGpuArgs sortOnGpuDescriptor (by rfl) (by rfl)

theorem getSmallBufferSizeBytes_congr (q q' : QueryMemoryDescriptor)
    (h1 : q'.keyless_hash = q.keyless_hash) (h2 : q'.entry_count_small = q.entry_count_small)
    (h3 : q'.group_col_widths = q.group_col_widths) (h4 : q'.agg_col_widths = q.agg_col_widths) :
    q'.getSmallBufferSizeBytes = q.getSmallBufferSizeBytes := by
  simp only [QueryMemoryDescriptor.getSmallBufferSizeBytes,
    QueryMemoryDescriptor.getSmallBufferSizeQuad, h1, h2, h3, h4]

theorem getSmallBufferSizeBytes_eq (q : QueryMemoryDescriptor)
    (hcheck : (!q.keyless_hash || q.entry_count_small == 0) = true) :
    q.getSmallBufferSizeBytes = .ok ((q.group_col_widths.length + q.agg_col_widths.length)
      * q.entry_count_small % SIZE_T_RANGE * 8 % SIZE_T_RANGE) := by
  simp only [QueryMemoryDescriptor.getSmallBufferSizeBytes,
    QueryMemoryDescriptor.getSmallBufferSizeQuad, CHECK, hcheck, if_true]
  rfl

theorem canOutputColumnar_small (q : QueryMemoryDescriptor) (h : q.canOutputColumnar = .ok true) :
    q.getSmallBufferSizeBytes = .ok 0 :=
  (usesGetGroupValueFast_true q (canOutputColumnar_true q h).1).2

/-- C10 (small-buffer invariant).  For every descriptor produced by the constructor
`GroupByAndAggregate`, `getSmallBufferSizeBytes()` is defined and
`getSmallBufferSizeBytes() > 0 ⇒ ¬output_columnar ∧ ¬keyless_hash`, so the
`CHECK(!output_columnar_ && !keyless_hash)` guarding the small-buffer template cannot
fail. -/
theorem small_buffer_invariant (a : GroupByAndAggregateArgs) (q : QueryMemoryDescriptor)
    (h : GroupByAndAggregate a = .ok q) :
    ∃ n, q.getSmallBufferSizeBytes = .ok n ∧
      (0 < n → q.output_columnar = false ∧ q.keyless_hash = false) := by
  obtain ⟨hint, q0, q1, sort, col, hq0, hq1, hs, hc, rfl⟩ := GroupByAndAggregate_ok a q h
  obtain ⟨-, -, -, -, hkl, -⟩ := initQueryMemoryDescriptor_shape a hint q0 hq0
  have e1 : q1.keyless_hash = q0.keyless_hash := by
    rw [hq1]; unfold interleavedOnlyOnGpu; split_ifs <;> rfl
  have e2 : q1.entry_count_small = q0.entry_count_small := by
    rw [hq1]; unfold interleavedOnlyOnGpu; split_ifs <;> rfl
  -- the size is the same on every intermediate descriptor
  have hsame : ∀ (s p c : Bool),
      ({ q1 with sort_on_gpu_ := s, is_sort_plan := p, output_columnar := c } :
        QueryMemoryDescriptor).getSmallBufferSizeBytes = q1.getSmallBufferSizeBytes :=
    fun s p c => getSmallBufferSizeBytes_congr _ _ rfl rfl rfl rfl
  rw [hsame]
  have hkl1 : q1.keyless_hash = true → q1.entry_count_small = 0 := by
    intro hk
    rw [e2]
    exact (hkl (by rw [← e1]; exact hk)).1
  have hcheck : (!q1.keyless_hash || q1.entry_count_small == 0) = true := by
    cases hk : q1.keyless_hash with
    | false => rfl
    | true => simp [hkl1 hk]
  refine ⟨(q1.group_col_widths.length + q1.agg_col_widths.length) * q1.entry_count_small
    % SIZE_T_RANGE * 8 % SIZE_T_RANGE, ?_, ?_⟩
  · exact getSmallBufferSizeBytes_eq q1 hcheck
  · intro hpos
    have hsmall : q1.entry_count_small ≠ 0 := by
      intro h0
      rw [h0] at hpos
      simp at hpos
    have hnk : q1.keyless_hash = false := by
      cases hk : q1.keyless_hash with
      | false => rfl
      | true => exact absurd (hkl1 hk) hsmall
    have hbytes : q1.getSmallBufferSizeBytes ≠ .ok 0 := by
      rw [getSmallBufferSizeBytes_eq q1 hcheck]
      intro h0
      simp only [Except.ok.injEq] at h0
      omega
    refine ⟨?_, hnk⟩
    show col = false
    cases hcol : col with
    | false => rfl
    | true =>
      exfalso
      rw [hcol] at hc
      rcases outputColumnarValue_true _ _ hc with hcan | hsort
      · have := canOutputColumnar_small _ hcan
        exact hbytes ((hsame sort _ q1.output_columnar).symm.trans this)
      · have hsort' : sort = true := hsort
        rw [hsort'] at hs
        have := canOutputColumnar_small _ (sortOnGpuValue_true q1 hint hs).1
        exact hbytes this

/-- Witness for C10: grouping by a column of unknown range gives a baseline table with
a small buffer of `(1 + 1) · 1024 · 8` bytes. -/
theorem small_buffer_invariant_witness :
    ∃ n, smallBufferDescriptor.getSmallBufferSizeBytes = .ok n ∧
      (0 < n → smallBufferDescriptor.output_columnar = false ∧
        smallBufferDescriptor.keyless_hash = false) :=
  small_buffer_invariant smallBufferArgs smallBufferDescriptor (by rfl)

/-- On a GPU descriptor that is keyless and columnar and uses the cached context,
`blocksShareMemory()` never returns: the keyless branch of `getBufferSizeQuad` fails a
`CHECK`, of the key count or, in `getColsSize`, of `!output_columnar`. -/
theorem blocksShareMemory_keyless_columnar (q : QueryMemoryDescriptor)
    (hk : q.keyless_hash = true) (hc : q.output_columnar = true)
    (hcpu : q.executor_.isCPUOnly = false) (hr : q.render_output = false)
    (hcached : q.usesCachedContext = .ok true) :
    q.blocksShareMemory = .error .CheckFailed := by
  have hcols : q.getColsSize = .error .CheckFailed := by
    unfold QueryMemoryDescriptor.getColsSize
    simp [hc]
  have hquad : q.getBufferSizeQuad .GPU = .error .CheckFailed := by
    unfold QueryMemoryDescriptor.getBufferSizeQuad
    rw [if_pos hk, hcols]
    unfold CHECK
    split_ifs <;> rfl
  have hshared : q.sharedMemBytes .GPU = .error .CheckFailed := by
    unfold QueryMemoryDescriptor.sharedMemBytes QueryMemoryDescriptor.getBufferSizeBytes
    rw [hquad]
    rfl
  unfold QueryMemoryDescriptor.blocksShareMemory
  rw [hcached, hshared]
  simp [hcpu, hr]
  rfl

/-- C9 (columnar-output invariant) fails on the code: for `keylessColumnarArgs` the
constructor returns a descriptor that is keyless and has `output_columnar` set; on it
`usesGetGroupValueFast()` and `threadsShareMemory()` hold and `interleavedBins(GPU)` does
not, but `blocksShareMemory()` does not return: it reaches `getColsSize()` through the
keyless branch of `getBufferSizeQuad`, whose `CHECK(!output_columnar)` fails. -/
theorem columnar_output_invariant_failing_input :
    GroupByAndAggregate keylessColumnarArgs = .ok keylessColumnarDescriptor ∧
      keylessColumnarDescriptor.output_columnar = true ∧
      keylessColumnarDescriptor.keyless_hash = true ∧
      keylessColumnarDescriptor.usesGetGroupValueFast = .ok true ∧
      keylessColumnarDescriptor.threadsShareMemory = true ∧
      keylessColumnarDescriptor.interleavedBins .GPU = false ∧
      keylessColumnarDescriptor.getColsSize = .error .CheckFailed ∧
      keylessColumnarDescriptor.blocksShareMemory = .error .CheckFailed := by
  refine ⟨by rfl, rfl, rfl, by rfl, by rfl, by rfl, by rfl, by rfl⟩

/-! ## Shape of the descriptor, continued -/

theorem getColRangeInfo_try_hash_type (wd : Bool) (exprs : List ExpressionRange) (c : Int)
    (hn : Bool) (cri : ColRangeInfo) (h : getColRangeInfo_try wd exprs c hn = .ok cri) :
    cri.hash_type_ = .MultiCol ∨ cri.hash_type_ = .MultiColPerfectHash := by
  induction exprs generalizing c hn with
  | nil =>
    unfold getColRangeInfo_try at h
    split_ifs at h
    · cases h; exact Or.inl rfl
    · cases h; exact Or.inr rfl
  | cons e rest ih =>
    unfold getColRangeInfo_try at h
    repeat' split at h
    all_goals first
      | exact ih _ _ h
      | (cases h; exact Or.inl rfl)
      | cases h

theorem getColRangeInfo_known_length (wd : Bool) (exprs : List ExpressionRange)
    (cri : ColRangeInfo) (h : getColRangeInfo wd exprs = .ok cri)
    (hk : cri.hash_type_ ≠ .MultiCol ∧ cri.hash_type_ ≠ .MultiColPerfectHash) :
    exprs.length = 1 := by
  by_contra hlen
  unfold getColRangeInfo at h
  rw [if_pos hlen] at h
  split at h
  · split_ifs at h
    cases h
    exact hk.1 rfl
  · cases h
    rename_i info htry
    rcases getColRangeInfo_try_hash_type wd exprs 1 false _ htry with h1 | h1
    · exact hk.1 h1
    · exact hk.2 h1

/-- The two ways in which `initQueryMemoryDescriptor` returns: the descriptor of a query
without grouping, or the descriptor built for the range of the grouping columns. -/
theorem initQueryMemoryDescriptor_cases (a : GroupByAndAggregateArgs) (hint : Bool)
    (q : QueryMemoryDescriptor) (h : initQueryMemoryDescriptor a hint = .ok q) :
    (a.group_col_widths.isEmpty = true ∧ q.hash_type = .Scan ∧ q.keyless_hash = false) ∨
    ∃ cdd ws cri,
      a.group_col_widths.isEmpty = false ∧
      getColRangeInfo a.g_enable_watchdog (a.ra_exe_unit.groupby_exprs.map (fun e => e.expr_range))
        = .ok cri ∧
      descriptorForRange a ws cdd cri hint = .ok q := by
  unfold initQueryMemoryDescriptor at h
  obtain ⟨cdd, -, h⟩ := except_bind_ok h
  obtain ⟨_, -, h⟩ := except_bind_ok h
  obtain ⟨smallest, -, h⟩ := except_bind_ok h
  simp only [] at h
  split_ifs at h with hg
  · obtain ⟨_, -, h⟩ := except_bind_ok h
    cases except_pure_ok h
    left
    refine ⟨by simpa using hg, rfl, rfl⟩
  · obtain ⟨cri, hcri, h⟩ := except_bind_ok h
    split_ifs at h with hw
    right
    exact ⟨cdd, _, cri, by simpa using hg, hcri, h⟩

/-- What the descriptor built for a range takes from the range and from the arguments. -/
theorem descriptorForRange_fields (a : GroupByAndAggregateArgs) (ws : List ColWidths)
    (cdd : CountDistinctDescriptors) (cri : ColRangeInfo) (hint : Bool)
    (q : QueryMemoryDescriptor) (h : descriptorForRange a ws cdd cri hint = .ok q) :
    q.group_col_widths = a.group_col_widths ∧
      (q.keyless_hash = true →
        cri.hash_type_ ≠ .MultiCol ∧ cri.hash_type_ ≠ .MultiColPerfectHash ∧
        q.render_output = false ∧ q.entry_count_small = 0) := by
  unfold descriptorForRange at h
  split at h
  · obtain ⟨_, -, h⟩ := except_bind_ok h
    cases except_pure_ok h
    exact ⟨rfl, fun hk => by simp [descriptorOf] at hk⟩
  · obtain ⟨_, -, h⟩ := except_bind_ok h
    cases except_pure_ok h
    exact ⟨rfl, fun hk => by simp [descriptorOf] at hk⟩
  · rename_i hne1 hne2
    obtain ⟨baseline, hb, h⟩ := except_bind_ok h
    cases baseline with
    | true =>
      simp only [if_true] at h
      cases except_pure_ok h
      exact ⟨rfl, fun hk => by simp [baselineDescriptor, descriptorOf] at hk⟩
    | false =>
      simp only [Bool.false_eq_true, if_false] at h
      unfold directAddressedDescriptor at h
      obtain ⟨_, -, h⟩ := except_bind_ok h
      obtain ⟨few, -, h⟩ := except_bind_ok h
      obtain ⟨range, -, h⟩ := except_bind_ok h
      cases except_pure_ok h
      exact ⟨rfl, fun _ => ⟨hne1, hne2, rfl, rfl⟩⟩

/-- C11 (keyless coherence).  Every descriptor that `initQueryMemoryDescriptor` returns
with `keyless_hash` set has exactly one group column, given one width per grouping
expression, has `entry_count_small = 0`, hence `getSmallBufferSizeBytes() = 0`, and has
`render_output = false`. -/
theorem keyless_coherence (a : GroupByAndAggregateArgs) (sort_on_gpu_hint : Bool)
    (q : QueryMemoryDescriptor)
    (h : initQueryMemoryDescriptor a sort_on_gpu_hint = .ok q)
    (hwidths : a.group_col_widths.length = a.ra_exe_unit.groupby_exprs.length)
    (hkeyless : q.keyless_hash = true) :
    q.group_col_widths.length = 1 ∧ q.entry_count_small = 0 ∧
      q.getSmallBufferSizeBytes = .ok 0 ∧ q.render_output = false := by
  rcases initQueryMemoryDescriptor_cases a sort_on_gpu_hint q h with ⟨-, -, hk⟩ | ⟨cdd, ws, cri, -, hcri, hq⟩
  · rw [hk] at hkeyless
    cases hkeyless
  · obtain ⟨hg, hrest⟩ := descriptorForRange_fields a ws cdd cri sort_on_gpu_hint q hq
    obtain ⟨hne1, hne2, hrender, hsmall⟩ := hrest hkeyless
    have hlen := getColRangeInfo_known_length _ _ cri hcri ⟨hne1, hne2⟩
    rw [List.length_map] at hlen
    refine ⟨by rw [hg, hwidths, hlen], hsmall, ?_, hrender⟩
    rw [getSmallBufferSizeBytes_eq q (by simp [hsmall]), hsmall]
    simp

/-- Witness for C11: `SELECT COUNT(*) ... GROUP BY x` with `x` in `[0, 12000]`. -/
theorem keyless_coherence_witness :
    ({ keylessColumnarDescriptor with output_columnar := false } :
        QueryMemoryDescriptor).group_col_widths.length = 1 ∧
      ({ keylessColumnarDescriptor with output_columnar := false } :
        QueryMemoryDescriptor).entry_count_small = 0 ∧
      ({ keylessColumnarDescriptor with output_columnar := false } :
        QueryMemoryDescriptor).getSmallBufferSizeBytes = .ok 0 ∧
      ({ keylessColumnarDescriptor with output_columnar := false } :
        QueryMemoryDescriptor).render_output = false :=
  keyless_coherence keylessColumnarArgs false
    { keylessColumnarDescriptor with output_columnar := false } (by rfl) (by rfl) (by rfl)

/-- C12 (interleaved implies keyless).  Every descriptor the constructor
`GroupByAndAggregate` returns with `interleaved_bins_on_gpu` set has `keyless_hash` set,
so the assertion `CHECK(keyless_hash)` made when `interleavedBins(device)` holds, in the
constructor of `QueryExecutionContext` and in `codegenGroupBy`, passes for every
device. -/
theorem interleaved_implies_keyless (a : GroupByAndAggregateArgs) (q : QueryMemoryDescriptor)
    (h : GroupByAndAggregate a = .ok q) :
    (q.interleaved_bins_on_gpu = true → q.keyless_hash = true) ∧
      ∀ device_type, QueryExecutionContext_checkInterleaved q device_type = .ok () := by
  obtain ⟨hint, q0, q1, sort, col, hq0, hq1, -, -, rfl⟩ := GroupByAndAggregate_ok a q h
  obtain ⟨-, -, -, -, -, hik⟩ := initQueryMemoryDescriptor_shape a hint q0 hq0
  have hmain : q1.interleaved_bins_on_gpu = true → q1.keyless_hash = true := by
    rw [hq1]
    unfold interleavedOnlyOnGpu
    split_ifs
    · intro hi
      cases hi
    · exact hik
  refine ⟨hmain, ?_⟩
  intro device_type
  unfold QueryExecutionContext_checkInterleaved QueryMemoryDescriptor.interleavedBins
  show (if (q1.interleaved_bins_on_gpu && device_type == .GPU) = true then CHECK q1.keyless_hash
    else pure ()) = .ok ()
  split_ifs with hi
  · simp only [Bool.and_eq_true] at hi
    rw [hmain hi.1]
    rfl
  · rfl

/-- Witness for C12: `SELECT COUNT(*) ... GROUP BY x` on a GPU with `x` in `[1, 7]`
gives an interleaved, keyless descriptor. -/
theorem interleaved_implies_keyless_witness :
    knownRangeDescriptor.interleaved_bins_on_gpu = true ∧
      (knownRangeDescriptor.interleaved_bins_on_gpu = true →
        knownRangeDescriptor.keyless_hash = true) ∧
      ∀ device_type, QueryExecutionContext_checkInterleaved knownRangeDescriptor device_type
        = .ok () :=
  ⟨rfl, interleaved_implies_keyless knownRangeArgs knownRangeDescriptor (by rfl)⟩

/-! ## Compact width -/

theorem pick_target_compact_width_targets_eq (targets : List TargetExpr)
    (hwf : ∀ t ∈ targets, ∀ agg, t.agg_expr = some agg → agg.get_arg = none →
      agg.get_aggtype = .kCOUNT ∧ agg.get_is_distinct = false) :
    pick_target_compact_width_targets targets = .ok (!targets.all isNarrowTarget) := by
  induction targets with
  | nil => rfl
  | cons t rest ih =>
    have ih := ih (fun t ht => hwf t (List.mem_cons_of_mem _ ht))
    have hwf := hwf t (List.mem_cons_self _ _)
    unfold pick_target_compact_width_targets
    simp only [List.all_cons]
    cases hagg : t.agg_expr with
    | none =>
      simp only [isNarrowTarget, hagg, isIntOrDictString]
      split_ifs with hti
      · rw [ih, hti]
        simp
      · have : (t.get_type_info.is_kINT || (t.get_type_info.is_string &&
            t.get_type_info.get_compression == EncodingType.kENCODING_DICT)) = false := by
          simpa using hti
        rw [this]
        rfl
    | some agg =>
      simp only [isNarrowTarget, hagg]
      cases harg : agg.get_arg with
      | some arg => rfl
      | none =>
        obtain ⟨hc, hd⟩ := hwf agg hagg harg
        simp only [Option.isSome_none, Bool.false_eq_true, if_false, hc, hd,
          Option.isNone_none, Bool.true_and]
        rw [← ih]
        rfl

/-- C13 (compact-width selection), as the code has it.  When every aggregate without an
argument is a plain `COUNT`, `pick_target_compact_width` returns 4 if (a) no grouping
expression is an `UNNEST`, (b) there is exactly one grouping expression and it is not
null, (c) every target is an aggregate without an argument or a projection of type `INT`
or dictionary-encoded string, and (d) the tuple counts, summed in `size_t`, are at most
`2³¹ − 1`; in every other case it returns 8. -/
theorem compact_width_selection (ra_exe_unit : RelAlgExecutionUnit) (query_infos : List Nat)
    (hwf : ∀ t ∈ ra_exe_unit.target_exprs, ∀ agg, t.agg_expr = some agg → agg.get_arg = none →
      agg.get_aggtype = .kCOUNT ∧ agg.get_is_distinct = false) :
    pick_target_compact_width ra_exe_unit query_infos
      = .ok (if picksCompactWidth4 ra_exe_unit query_infos then 4 else 8) := by
  unfold pick_target_compact_width picksCompactWidth4
  rw [pick_target_compact_width_targets_eq _ hwf]
  by_cases h1 : ra_exe_unit.groupby_exprs.any
      (fun groupby_expr => !groupby_expr.is_null && groupby_expr.is_unnest) = true
  · have h1' : ra_exe_unit.groupby_exprs.all
        (fun groupby_expr => groupby_expr.is_null || !groupby_expr.is_unnest) = false := by
      rw [Bool.eq_false_iff]
      intro hall
      rw [List.any_eq_true] at h1
      obtain ⟨g, hg, hgu⟩ := h1
      have := List.all_eq_true.mp hall g hg
      revert hgu this
      cases g.is_null <;> cases g.is_unnest <;> simp
    rw [if_pos h1, h1']
    rfl
  · have h1' : ra_exe_unit.groupby_exprs.all
        (fun groupby_expr => groupby_expr.is_null || !groupby_expr.is_unnest) = true := by
      rw [List.all_eq_true]
      intro g hg
      have : ¬ ((!g.is_null && g.is_unnest) = true) := fun hgu =>
        h1 (List.any_eq_true.mpr ⟨g, hg, hgu⟩)
      revert this
      cases g.is_null <;> cases g.is_unnest <;> simp
    rw [if_neg h1, h1']
    by_cases h2 : (ra_exe_unit.groupby_exprs.length != 1
        || (ra_exe_unit.groupby_exprs.headD default).is_null) = true
    · rw [if_pos h2]
      have : (ra_exe_unit.groupby_exprs.length == 1
          && !(ra_exe_unit.groupby_exprs.headD default).is_null) = false := by
        revert h2
        cases (ra_exe_unit.groupby_exprs.headD default).is_null <;>
          cases hl : (ra_exe_unit.groupby_exprs.length == 1) <;> simp [bne, hl]
      simp only [Bool.true_and, Bool.and_assoc] at this ⊢
      rw [← Bool.and_assoc, this]
      rfl
    · rw [if_neg h2]
      have : (ra_exe_unit.groupby_exprs.length == 1
          && !(ra_exe_unit.groupby_exprs.headD default).is_null) = true := by
        revert h2
        cases (ra_exe_unit.groupby_exprs.headD default).is_null <;>
          cases hl : (ra_exe_unit.groupby_exprs.length == 1) <;> simp [bne, hl]
      simp only [Bool.true_and, Bool.and_assoc] at this ⊢
      rw [← Bool.and_assoc, this]
      cases hall : ra_exe_unit.target_exprs.all isNarrowTarget with
      | false => rfl
      | true =>
        simp only [Bool.not_true, Bool.false_eq_true, if_false, Bool.true_and,
          decide_eq_true_eq, Except.bind, bind, pure, Except.pure]

/-- Witness for C13: `SELECT COUNT(*) ... GROUP BY x` over a million tuples gets the
compact width 4. -/
theorem compact_width_selection_witness :
    pick_target_compact_width knownRangeArgs.ra_exe_unit knownRangeArgs.query_infos
        = .ok (if picksCompactWidth4 knownRangeArgs.ra_exe_unit knownRangeArgs.query_infos
            then 4 else 8) ∧
      picksCompactWidth4 knownRangeArgs.ra_exe_unit knownRangeArgs.query_infos = true :=
  ⟨compact_width_selection knownRangeArgs.ra_exe_unit knownRangeArgs.query_infos (by
      intro t ht agg hagg harg
      have ht' : t = keylessColumnarArgs.ra_exe_unit.target_exprs.headD default := by
        simpa [knownRangeArgs, keylessColumnarArgs] using ht
      subst ht'
      cases hagg
      exact ⟨rfl, rfl⟩),
    by rfl⟩

/-- C13, the claim as stated fails: for `SELECT COUNT(x) ... GROUP BY x` over a thousand
tuples there is no `UNNEST`, there is one grouping column, the only target is a `COUNT`,
and yet `pick_target_compact_width` returns 8, because the `COUNT` has an argument. -/
theorem compact_width_selection_counterexample :
    compactWidthSpec countOfColumnUnit [1000] = true ∧
      pick_target_compact_width countOfColumnUnit [1000] = .ok 8 :=
  ⟨by rfl, by rfl⟩

/-! ## Sizes of the single-column tables -/

/-- The descriptor of the single-column case of `initQueryMemoryDescriptor`. -/
theorem initQueryMemoryDescriptor_single (a : GroupByAndAggregateArgs) (hint : Bool)
    (q : QueryMemoryDescriptor) (cri : ColRangeInfo)
    (h : initQueryMemoryDescriptor a hint = .ok q)
    (hgroup : a.group_col_widths.isEmpty = false)
    (hcri : getColRangeInfo a.g_enable_watchdog
      (a.ra_exe_unit.groupby_exprs.map (fun e => e.expr_range)) = .ok cri)
    (hne1 : cri.hash_type_ ≠ .MultiCol) (hne2 : cri.hash_type_ ≠ .MultiColPerfectHash) :
    ∃ cdd ws baseline, usesBaselineTable a cri = .ok baseline ∧
      (if baseline = true then pure (baselineDescriptor a ws cdd cri)
        else directAddressedDescriptor a ws cdd cri hint) = .ok q := by
  rcases initQueryMemoryDescriptor_cases a hint q h with ⟨hg, -, -⟩ | ⟨cdd, ws, cri', -, hcri', hq⟩
  · rw [hg] at hgroup
    cases hgroup
  · rw [hcri] at hcri'
    cases hcri'
    unfold descriptorForRange at hq
    split at hq
    · rename_i hty
      exact absurd hty hne1
    · rename_i hty
      exact absurd hty hne2
    · obtain ⟨baseline, hb, hq⟩ := except_bind_ok hq
      exact ⟨cdd, ws, baseline, hb, hq⟩

/-- C14 (baseline table sizing), as the code has it.  Whenever
`initQueryMemoryDescriptor` chooses the baseline table on the single-column path, the
descriptor has `entry_count = max_groups_buffer_entry_count * (render_output ? 4 : 1)`,
a `size_t` product, and `entry_count_small` is 0 for a render query, else `scan_limit`
when that is not zero, else `small_groups_buffer_entry_count`. -/
theorem baseline_table_sizing (a : GroupByAndAggregateArgs) (sort_on_gpu_hint : Bool)
    (q : QueryMemoryDescriptor) (col_range_info : ColRangeInfo)
    (h : initQueryMemoryDescriptor a sort_on_gpu_hint = .ok q)
    (hgroup : a.group_col_widths.isEmpty = false)
    (hrange : getColRangeInfo a.g_enable_watchdog
      (a.ra_exe_unit.groupby_exprs.map (fun e => e.expr_range)) = .ok col_range_info)
    (hne1 : col_range_info.hash_type_ ≠ .MultiCol)
    (hne2 : col_range_info.hash_type_ ≠ .MultiColPerfectHash)
    (hbaseline : usesBaselineTable a col_range_info = .ok true) :
    q.entry_count
        = a.max_groups_buffer_entry_count * (if a.render_output then 4 else 1) % SIZE_T_RANGE ∧
      q.entry_count_small
        = (if a.render_output then 0
           else if a.ra_exe_unit.scan_limit ≠ 0 then a.ra_exe_unit.scan_limit
           else a.small_groups_buffer_entry_count) := by
  obtain ⟨cdd, ws, baseline, hb, hq⟩ :=
    initQueryMemoryDescriptor_single a sort_on_gpu_hint q col_range_info h hgroup hrange hne1 hne2
  rw [hbaseline] at hb
  cases hb
  simp only [if_true] at hq
  cases except_pure_ok hq
  refine ⟨rfl, ?_⟩
  show (if a.render_output = true then 0
      else if (a.ra_exe_unit.scan_limit != 0) = true then a.ra_exe_unit.scan_limit
        else a.small_groups_buffer_entry_count) = _
  cases a.render_output
  · simp
  · simp

/-- Witness for C14: grouping by a column of unknown range, without a scan limit, gives
a baseline table of 16384 entries with a small buffer of 1024 entries. -/
theorem baseline_table_sizing_witness :
    smallBufferDescriptor.entry_count
        = smallBufferArgs.max_groups_buffer_entry_count
            * (if smallBufferArgs.render_output then 4 else 1) % SIZE_T_RANGE ∧
      smallBufferDescriptor.entry_count_small
        = (if smallBufferArgs.render_output then 0
           else if smallBufferArgs.ra_exe_unit.scan_limit ≠ 0
             then smallBufferArgs.ra_exe_unit.scan_limit
           else smallBufferArgs.small_groups_buffer_entry_count) :=
  baseline_table_sizing smallBufferArgs false
    { smallBufferDescriptor with output_columnar := false }
    { hash_type_ := .OneColGuessedRange, min := 0, max := 255, bucket := 0, has_nulls := false }
    (by rfl) (by rfl) (by rfl) (by decide) (by decide) (by rfl)

/-- C14, the claim as stated fails: with `LIMIT 5000` and
`small_groups_buffer_entry_count = 1024` the baseline table gets a small buffer of 5000
entries, not of `min(5000, 1024) = 1024`. -/
theorem baseline_table_sizing_counterexample :
    initQueryMemoryDescriptor scanLimitArgs false = .ok scanLimitDescriptor ∧
      usesBaselineTable scanLimitArgs
        { hash_type_ := .OneColGuessedRange, min := 0, max := 255, bucket := 0,
          has_nulls := false } = .ok true ∧
      scanLimitDescriptor.entry_count_small = 5000 ∧
      baselineSmallSlotsSpec scanLimitArgs.ra_exe_unit.scan_limit
        scanLimitArgs.small_groups_buffer_entry_count = 1024 :=
  ⟨by rfl, by rfl, by rfl, by rfl⟩

theorem to_size_t_of_nonneg (x : Int) (h0 : 0 ≤ x) (h1 : x ≤ INT64_MAX) :
    ((to_size_t x : Nat) : Int) = x := by
  unfold to_size_t
  unfold INT64_MAX at h1
  omega

theorem to_size_t_div (x y : Int) (hx0 : 0 ≤ x) (hx1 : x ≤ INT64_MAX) (hy0 : 0 ≤ y)
    (hy1 : y ≤ INT64_MAX) : ((to_size_t x / to_size_t y : Nat) : Int) = x / y := by
  rw [Int.natCast_div, to_size_t_of_nonneg x hx0 hx1, to_size_t_of_nonneg y hy0 hy1]

theorem Int_div_le_self_of_nonneg (x y : Int) (hx : 0 ≤ x) (hy : 0 ≤ y) :
    0 ≤ x / y ∧ x / y ≤ x :=
  ⟨Int.ediv_nonneg hx hy, Int.ediv_le_self y hx⟩

/-- C15 (direct-addressed bin count).  Whenever `initQueryMemoryDescriptor` chooses the
direct-addressed table for a range with `min ≤ max` and a bucket that is not negative,
`entry_count = (max − min) / bucket + 1 + (has_nulls ? 1 : 0)`, the division being the
integer division, skipped when `bucket = 0`; the range `[1, 7]` without nulls or bucket
gives `entry_count = 7`. -/
theorem direct_addressed_bin_count (a : GroupByAndAggregateArgs) (sort_on_gpu_hint : Bool)
    (q : QueryMemoryDescriptor) (col_range_info : ColRangeInfo)
    (h : initQueryMemoryDescriptor a sort_on_gpu_hint = .ok q)
    (hgroup : a.group_col_widths.isEmpty = false)
    (hrange : getColRangeInfo a.g_enable_watchdog
      (a.ra_exe_unit.groupby_exprs.map (fun e => e.expr_range)) = .ok col_range_info)
    (hne1 : col_range_info.hash_type_ ≠ .MultiCol)
    (hne2 : col_range_info.hash_type_ ≠ .MultiColPerfectHash)
    (hdirect : usesBaselineTable a col_range_info = .ok false)
    (hminmax : col_range_info.min ≤ col_range_info.max)
    (hbucket : 0 ≤ col_range_info.bucket ∧ col_range_info.bucket ≤ INT64_MAX) :
    ((q.entry_count : Nat) : Int)
        = (if col_range_info.bucket = 0 then col_range_info.max - col_range_info.min
           else (col_range_info.max - col_range_info.min) / col_range_info.bucket)
          + 1 + (if col_range_info.has_nulls then 1 else 0) ∧
      ∃ q7, initQueryMemoryDescriptor knownRangeArgs false = .ok q7 ∧ q7.entry_count = 7 := by
  refine ⟨?_, knownRangeDescriptor, by rfl, by rfl⟩
  obtain ⟨cdd, ws, baseline, hb, hq⟩ :=
    initQueryMemoryDescriptor_single a sort_on_gpu_hint q col_range_info h hgroup hrange hne1 hne2
  rw [hdirect] at hb
  cases hb
  simp only [Bool.false_eq_true, if_false] at hq
  unfold directAddressedDescriptor at hq
  obtain ⟨_, -, hq⟩ := except_bind_ok hq
  obtain ⟨few, -, hq⟩ := except_bind_ok hq
  obtain ⟨range, hr, hq⟩ := except_bind_ok hq
  cases except_pure_ok hq
  obtain ⟨⟨-, hr1⟩, rfl⟩ := int64_op_ok.mp hr
  have hr0 : 0 ≤ col_range_info.max - col_range_info.min := by omega
  show ((((if (col_range_info.bucket != 0) = true
        then to_size_t (col_range_info.max - col_range_info.min) / to_size_t col_range_info.bucket
        else to_size_t (col_range_info.max - col_range_info.min))
      + (1 + if col_range_info.has_nulls = true then 1 else 0)) % SIZE_T_RANGE : Nat) : Int) = _
  have hn : (if col_range_info.has_nulls = true then (1 : Nat) else 0) ≤ 1 := by
    split_ifs <;> omega
  have hn' : ((if col_range_info.has_nulls = true then (1 : Nat) else 0 : Nat) : Int)
      = if col_range_info.has_nulls = true then 1 else 0 := by
    split_ifs <;> rfl
  by_cases hb0 : col_range_info.bucket = 0
  · rw [if_pos hb0]
    have : (col_range_info.bucket != 0) = false := by simp [hb0]
    rw [this]
    simp only [Bool.false_eq_true, if_false]
    have hc := to_size_t_of_nonneg _ hr0 hr1
    rw [← hn']
    unfold INT64_MAX at hr1
    unfold SIZE_T_RANGE
    omega
  · rw [if_neg hb0]
    have : (col_range_info.bucket != 0) = true := by simp [hb0]
    rw [this]
    simp only [if_true]
    have hc := to_size_t_div _ _ hr0 hr1 hbucket.1 hbucket.2
    obtain ⟨hd0, hd1⟩ := Int_div_le_self_of_nonneg _ _ hr0 hbucket.1
    rw [← hn', ← hc] at *
    unfold INT64_MAX at hr1
    unfold SIZE_T_RANGE
    omega

/-- Witness for C15: the range `[1, 7]` without nulls or bucket (scenario S1). -/
theorem direct_addressed_bin_count_witness :
    ((knownRangeDescriptor.entry_count : Nat) : Int)
        = (if (0 : Int) = 0 then (7 : Int) - 1 else (7 - 1) / 0) + 1
          + (if false = true then 1 else 0) ∧
      ∃ q7, initQueryMemoryDescriptor knownRangeArgs false = .ok q7 ∧ q7.entry_count = 7 :=
  direct_addressed_bin_count knownRangeArgs false knownRangeDescriptor
    { hash_type_ := .OneColKnownRange, min := 1, max := 7, bucket := 0, has_nulls := false }
    (by rfl) (by rfl) (by rfl) (by decide) (by decide) (by rfl) (by decide) (by decide)

/-! ## Keyless scan -/

theorem int32_op_ok {x y : Int} :
    int32_op x = .ok y ↔ (-2147483648 ≤ x ∧ x ≤ 2147483647) ∧ y = x := by
  unfold int32_op
  split_ifs with h
  · simp only [Except.ok.injEq]
    constructor
    · intro e; exact ⟨h, e.symm⟩
    · intro e; exact e.2.symm
  · simp only [false_iff, not_and]
    intro h'; exact absurd h' h

theorem int32_op_eq {x : Int} (h0 : -2147483648 ≤ x) (h1 : x ≤ 2147483647) :
    int32_op x = .ok x :=
  int32_op_ok.mpr ⟨⟨h0, h1⟩, rfl⟩

/-- A target that is not an aggregate leaves the scan as it is. -/
theorem getKeylessInfo_target_projection (gct : TargetInfo → SQLTypeInfo)
    (gaiv : SQLAgg → SQLTypeInfo → Bool → Nat → Int) (q : QueryMemoryDescriptor) (g : Bool)
    (t : TargetExpr) (s : KeylessScan) (h : t.target_info.is_agg = false) :
    getKeylessInfo_target gct gaiv q g t s = .ok s := by
  unfold getKeylessInfo_target
  simp only [h, Bool.and_false, Bool.false_eq_true, if_false]
  rfl

theorem getKeylessInfo_loop_cons (gct : TargetInfo → SQLTypeInfo)
    (gaiv : SQLAgg → SQLTypeInfo → Bool → Nat → Int) (q : QueryMemoryDescriptor) (g : Bool)
    (t : TargetExpr) (rest : List TargetExpr) (s : KeylessScan) :
    getKeylessInfo_loop gct gaiv q g (t :: rest) s
      = (getKeylessInfo_target gct gaiv q g t s >>= fun s =>
          if !s.keyless then pure s
          else if !s.found then
            int32_op (s.index + 1) >>= fun index =>
              getKeylessInfo_loop gct gaiv q g rest { s with index := index }
          else getKeylessInfo_loop gct gaiv q g rest s) := by
  rw [getKeylessInfo_loop]

theorem except_ok_bind {α β : Type} (a : α) (f : α → Except Failure β) :
    ((Except.ok a : Except Failure α) >>= f) = f a := rfl

/-- Once an aggregate is found, the rest of the scan changes nothing. -/
theorem getKeylessInfo_loop_found (gct : TargetInfo → SQLTypeInfo)
    (gaiv : SQLAgg → SQLTypeInfo → Bool → Nat → Int) (q : QueryMemoryDescriptor) (g : Bool)
    (l : List TargetExpr) (i v : Int) :
    getKeylessInfo_loop gct gaiv q g l { keyless := true, found := true, index := i, init_val := v }
      = .ok { keyless := true, found := true, index := i, init_val := v } := by
  induction l with
  | nil => rfl
  | cons t rest ih =>
    have ht : getKeylessInfo_target gct gaiv q g t
        { keyless := true, found := true, index := i, init_val := v }
        = .ok { keyless := true, found := true, index := i, init_val := v } := by
      unfold getKeylessInfo_target
      simp only [Bool.not_true, Bool.false_and, Bool.false_eq_true, if_false]
      rfl
    rw [getKeylessInfo_loop_cons, ht, except_ok_bind]
    simp only [Bool.not_true, Bool.false_eq_true, if_false]
    exact ih

/-- Projections before the first aggregate only advance `index`. -/
theorem getKeylessInfo_loop_projections (gct : TargetInfo → SQLTypeInfo)
    (gaiv : SQLAgg → SQLTypeInfo → Bool → Nat → Int) (q : QueryMemoryDescriptor) (g : Bool)
    (pre rest : List TargetExpr) (i v : Int)
    (hpre : ∀ p ∈ pre, p.target_info.is_agg = false)
    (h0 : 0 ≤ i) (hlen : i + pre.length ≤ 2147483647) :
    getKeylessInfo_loop gct gaiv q g (pre ++ rest)
        { keyless := true, found := false, index := i, init_val := v }
      = getKeylessInfo_loop gct gaiv q g rest
        { keyless := true, found := false, index := i + pre.length, init_val := v } := by
  induction pre generalizing i with
  | nil =>
    simp
  | cons t pre ih =>
    simp only [List.length_cons, Nat.cast_add, Nat.cast_one] at hlen
    rw [List.cons_append, getKeylessInfo_loop_cons,
      getKeylessInfo_target_projection gct gaiv q g t _ (hpre t (List.mem_cons_self _ _)),
      except_ok_bind]
    simp only [Bool.not_true, Bool.not_false, Bool.false_eq_true, if_false, if_true]
    rw [int32_op_eq (by omega) (by omega), except_ok_bind,
      ih (i + 1) (fun p hp => hpre p (List.mem_cons_of_mem _ hp)) (by omega) (by omega)]
    simp only [List.length_cons, Nat.cast_add, Nat.cast_one]
    congr 2
    omega

/-- The case `kSUM`: the scan returns, and the aggregate is found exactly when the
argument is accepted. -/
theorem getKeylessInfo_sum_found (gaiv : SQLAgg → SQLTypeInfo → Bool → Nat → Int)
    (q : QueryMemoryDescriptor) (g : Bool) (agg_info : TargetInfo) (arg_expr : ArgExpr)
    (i v : Int) (w : Nat) (hw : q.getCompactByteWidth = .ok w) :
    ∃ v1, getKeylessInfo_sum gaiv q g agg_info arg_expr
        { keyless := true, found := false, index := i, init_val := v }
      = .ok { keyless := true, found := sumAccepted arg_expr, index := i, init_val := v1 } := by
  unfold getKeylessInfo_sum sumAccepted sumFoundSpec
  cases hnn : arg_expr.get_type_info.get_notnull with
  | false =>
    cases hnulls : arg_expr.expr_range.hasNulls with
    | false =>
      simp only [hnn, hnulls, Bool.not_false, if_true, hw]
      exact ⟨_, rfl⟩
    | true =>
      simp only [hnn, hnulls, Bool.not_false, Bool.not_true, if_true, Bool.false_eq_true,
        if_false]
      exact ⟨_, rfl⟩
  | true =>
    simp only [hnn, Bool.not_true, Bool.false_eq_true, if_false]
    cases hty : arg_expr.expr_range.getType with
    | Invalid =>
      simp only [hty]
      exact ⟨_, rfl⟩
    | Integer =>
      refine ⟨0, ?_⟩
      simp only [hty, Bool.false_or]
      rw [Bool.or_comm]
      rfl
    | FloatingPoint =>
      refine ⟨0, ?_⟩
      simp only [hty, Bool.false_or]
      rw [Bool.or_comm]
      rfl

theorem getKeylessInfo_target_index_le (gct : TargetInfo → SQLTypeInfo)
    (gaiv : SQLAgg → SQLTypeInfo → Bool → Nat → Int) (q : QueryMemoryDescriptor) (g : Bool)
    (t : TargetExpr) (s s1 : KeylessScan) (h : getKeylessInfo_target gct gaiv q g t s = .ok s1) :
    s.index ≤ s1.index := by
  unfold getKeylessInfo_target at h
  simp only [] at h
  split_ifs at h
  · split at h
    · cases h
    · unfold getKeylessInfo_switch at h
      split at h
      · obtain ⟨index, hi, h⟩ := except_bind_ok h
        cases except_pure_ok h
        obtain ⟨-, rfl⟩ := int32_op_ok.mp hi
        show s.index ≤ s.index + 1
        omega
      · cases except_pure_ok h
        exact le_refl _
      · split_ifs at h
        · cases except_pure_ok h
          exact le_refl _
        · cases except_pure_ok h
          exact le_refl _
      · cases h
      · unfold getKeylessInfo_sum at h
        simp only [] at h
        split_ifs at h
        · obtain ⟨w, -, h⟩ := except_bind_ok h
          cases except_pure_ok h
          exact le_refl _
        · cases except_pure_ok h
          exact le_refl _
        · split at h <;> (cases except_pure_ok h; exact le_refl _)
      · cases h
      · unfold getKeylessInfo_min_max at h
        obtain ⟨w, -, h⟩ := except_bind_ok h
        split at h <;> (cases except_pure_ok h; exact le_refl _)
      · cases h
      · unfold getKeylessInfo_min_max at h
        obtain ⟨w, -, h⟩ := except_bind_ok h
        split at h <;> (cases except_pure_ok h; exact le_refl _)
  · cases except_pure_ok h
    exact le_refl _

/-- The scan never moves `index` back. -/
theorem getKeylessInfo_loop_index_le (gct : TargetInfo → SQLTypeInfo)
    (gaiv : SQLAgg → SQLTypeInfo → Bool → Nat → Int) (q : QueryMemoryDescriptor) (g : Bool)
    (l : List TargetExpr) (s s1 : KeylessScan) (h : getKeylessInfo_loop gct gaiv q g l s = .ok s1) :
    s.index ≤ s1.index := by
  induction l generalizing s with
  | nil =>
    cases h
    exact le_refl _
  | cons t rest ih =>
    rw [getKeylessInfo_loop_cons] at h
    obtain ⟨s2, ht, h⟩ := except_bind_ok h
    have h2 := getKeylessInfo_target_index_le gct gaiv q g t s s2 ht
    split_ifs at h
    · cases except_pure_ok h
      exact h2
    · obtain ⟨index, hi, h⟩ := except_bind_ok h
      obtain ⟨-, rfl⟩ := int32_op_ok.mp hi
      have := ih _ h
      have h3 : s2.index + 1 ≤ s1.index := this
      omega
    · exact le_trans h2 (ih _ h)

/-- The scan over projections followed by a `SUM`: the state after the `SUM`. -/
theorem getKeylessInfo_target_sum (gct : TargetInfo → SQLTypeInfo)
    (gaiv : SQLAgg → SQLTypeInfo → Bool → Nat → Int) (q : QueryMemoryDescriptor) (g : Bool)
    (t : TargetExpr) (agg_expr : AggExpr) (arg_expr : ArgExpr) (i v : Int) (w : Nat)
    (hagg : t.target_info.is_agg = true) (hsum : t.target_info.agg_kind = .kSUM)
    (hexpr : t.agg_expr = some agg_expr) (harg : agg_expr.get_arg = some arg_expr)
    (hw : q.getCompactByteWidth = .ok w) :
    ∃ v1, getKeylessInfo_target gct gaiv q g t
        { keyless := true, found := false, index := i, init_val := v }
      = .ok { keyless := true, found := sumAccepted arg_expr, index := i, init_val := v1 } := by
  obtain ⟨v1, h1⟩ := getKeylessInfo_sum_found gaiv q g t.target_info arg_expr i v w hw
  refine ⟨v1, ?_⟩
  unfold getKeylessInfo_target
  simp only [hagg, hexpr, Bool.not_false, Bool.and_self, if_true]
  unfold getKeylessInfo_switch
  simp only [hsum, harg]
  exact h1

/-- C16 (keyless SUM rule), as the code has it.  When the first aggregate that
`getKeylessInfo` meets is a `SUM`, it is accepted as the presence marker if and only if
its argument is of nullable type with a range without nulls, or of a `NOT NULL` type
with a range that is strictly positive (`min > 0`) or strictly negative (`max < 0`).
With the `SUM` last the function returns and reports `keyless` exactly then; with
further targets behind it, a result is keyless with `target_index` at the `SUM` exactly
then. -/
theorem keyless_sum_rule (get_compact_type : TargetInfo → SQLTypeInfo)
    (get_agg_initial_val : SQLAgg → SQLTypeInfo → Bool → Nat → Int)
    (query_mem_desc_ : QueryMemoryDescriptor) (is_group_by : Bool)
    (projections : List TargetExpr) (target_expr : TargetExpr) (agg_expr : AggExpr)
    (arg_expr : ArgExpr) (compact_byte_width : Nat)
    (hprojections : ∀ p ∈ projections, p.target_info.is_agg = false)
    (hagg : target_expr.target_info.is_agg = true)
    (hsum : target_expr.target_info.agg_kind = .kSUM)
    (hexpr : target_expr.agg_expr = some agg_expr)
    (harg : agg_expr.get_arg = some arg_expr)
    (hwidth : query_mem_desc_.getCompactByteWidth = .ok compact_byte_width)
    (hlen : projections.length < 2147483647) :
    (∃ k, getKeylessInfo get_compact_type get_agg_initial_val query_mem_desc_
          (projections ++ [target_expr]) is_group_by = .ok k ∧
        (k.keyless = true ↔ sumAccepted arg_expr = true)) ∧
      ∀ rest k, getKeylessInfo get_compact_type get_agg_initial_val query_mem_desc_
          (projections ++ target_expr :: rest) is_group_by = .ok k →
        ((k.keyless = true ∧ k.target_index = projections.length)
          ↔ sumAccepted arg_expr = true) := by
  obtain ⟨v1, ht⟩ := getKeylessInfo_target_sum get_compact_type get_agg_initial_val
    query_mem_desc_ is_group_by target_expr agg_expr arg_expr (0 + projections.length) 0
    compact_byte_width hagg hsum hexpr harg hwidth
  have hstart : ∀ rest, getKeylessInfo_loop get_compact_type get_agg_initial_val query_mem_desc_
      is_group_by (projections ++ target_expr :: rest)
        { keyless := true, found := false, index := 0, init_val := 0 }
      = if sumAccepted arg_expr = true then
          .ok { keyless := true, found := true, index := 0 + projections.length, init_val := v1 }
        else
          getKeylessInfo_loop get_compact_type get_agg_initial_val query_mem_desc_ is_group_by
            rest { keyless := true, found := false, index := 0 + projections.length + 1,
                   init_val := v1 } := by
    intro rest
    rw [getKeylessInfo_loop_projections _ _ _ _ projections _ 0 0 hprojections (le_refl _)
      (by omega), getKeylessInfo_loop_cons, ht, except_ok_bind]
    cases hacc : sumAccepted arg_expr with
    | true =>
      simp only [Bool.not_true, Bool.false_eq_true, if_false, if_true]
      exact getKeylessInfo_loop_found _ _ _ _ rest _ _
    | false =>
      simp only [Bool.not_true, Bool.not_false, Bool.false_eq_true, if_false, if_true]
      rw [int32_op_eq (by omega) (by omega), except_ok_bind]
  constructor
  · unfold getKeylessInfo
    rw [hstart []]
    cases hacc : sumAccepted arg_expr with
    | true => exact ⟨_, rfl, by simp⟩
    | false => exact ⟨_, rfl, by simp⟩
  · intro rest k hk
    unfold getKeylessInfo at hk
    rw [hstart rest] at hk
    cases hacc : sumAccepted arg_expr with
    | true =>
      rw [hacc] at hk
      simp only [if_true] at hk
      cases hk
      simp
    | false =>
      rw [hacc] at hk
      simp only [Bool.false_eq_true, if_false] at hk
      obtain ⟨s, hs, hk⟩ := except_bind_ok hk
      cases except_pure_ok hk
      have hle := getKeylessInfo_loop_index_le _ _ _ _ rest _ s hs
      have hle' : (0 : Int) + projections.length + 1 ≤ s.index := hle
      simp only [Bool.false_eq_true, iff_false, not_and]
      intro _ hidx
      have hidx' : s.index = projections.length := hidx
      omega

/-- Witness for C16: `SELECT x, SUM(y) ...` with `y` nullable, in `[-5, 5]`, without
nulls. -/
theorem keyless_sum_rule_witness :
    (∃ k, getKeylessInfo (fun info => info.sql_type) (fun _ _ _ _ => INT64_MIN)
          unassignedDescriptor
          (sortOnGpuArgs.ra_exe_unit.target_exprs.take 1 ++ [sumTarget spanningArg]) true
          = .ok k ∧
        (k.keyless = true ↔ sumAccepted spanningArg = true)) ∧
      ∀ rest k, getKeylessInfo (fun info => info.sql_type) (fun _ _ _ _ => INT64_MIN)
          unassignedDescriptor
          (sortOnGpuArgs.ra_exe_unit.target_exprs.take 1 ++ sumTarget spanningArg :: rest) true
          = .ok k →
        ((k.keyless = true ∧
            k.target_index = (sortOnGpuArgs.ra_exe_unit.target_exprs.take 1).length)
          ↔ sumAccepted spanningArg = true) :=
  keyless_sum_rule (fun info => info.sql_type) (fun _ _ _ _ => INT64_MIN) unassignedDescriptor
    true (sortOnGpuArgs.ra_exe_unit.target_exprs.take 1) (sumTarget spanningArg)
    { get_aggtype := .kSUM, get_is_distinct := false, get_arg := some spanningArg }
    spanningArg 8
    (by
      intro p hp
      have : p = sortOnGpuArgs.ra_exe_unit.target_exprs.headD default := by
        simpa [sortOnGpuArgs] using hp
      subst this
      rfl)
    (by rfl) (by rfl) (by rfl) (by rfl) (by rfl) (by decide)

/-- C16, the claim as stated fails in both directions.  A `SUM` over a nullable
argument whose range `[-5, 5]` has no nulls is accepted although the range is neither
strictly positive nor strictly negative; a `SUM` over a nullable argument whose range
`[1, 9]` has nulls is not accepted although the range is strictly positive. -/
theorem keyless_sum_rule_counterexample :
    sumFoundSpec spanningArg.expr_range = false ∧
      (∀ get_compact_type get_agg_initial_val is_group_by,
        getKeylessInfo get_compact_type get_agg_initial_val unassignedDescriptor
            [sumTarget spanningArg] is_group_by
          = .ok { keyless := true, target_index := 0,
                  init_val := get_agg_initial_val .kSUM intTypeInfo is_group_by 8 }) ∧
      sumFoundSpec positiveWithNullsArg.expr_range = true ∧
      (∀ get_compact_type get_agg_initial_val is_group_by,
        getKeylessInfo get_compact_type get_agg_initial_val unassignedDescriptor
            [sumTarget positiveWithNullsArg] is_group_by
          = .ok { keyless := false, target_index := 1, init_val := 0 }) :=
  ⟨by rfl, fun _ _ _ => rfl, by rfl, fun _ _ _ => rfl⟩

/-- C17 (pure projection disables keyless), as the code has it.  For a target list
without any aggregate, of fewer than `2³¹` targets, `getKeylessInfo` returns
`keyless = false`, with `target_index` past the last target. -/
theorem pure_projection_disables_keyless (get_compact_type : TargetInfo → SQLTypeInfo)
    (get_agg_initial_val : SQLAgg → SQLTypeInfo → Bool → Nat → Int)
    (query_mem_desc_ : QueryMemoryDescriptor) (is_group_by : Bool)
    (target_expr_list : List TargetExpr)
    (hprojections : ∀ t ∈ target_expr_list, t.target_info.is_agg = false)
    (hlen : target_expr_list.length ≤ 2147483647) :
    getKeylessInfo get_compact_type get_agg_initial_val query_mem_desc_ target_expr_list
        is_group_by
      = .ok { keyless := false, target_index := target_expr_list.length, init_val := 0 } := by
  unfold getKeylessInfo
  have h := getKeylessInfo_loop_projections get_compact_type get_agg_initial_val
    query_mem_desc_ is_group_by target_expr_list [] 0 0 hprojections (le_refl _) (by omega)
  rw [List.append_nil] at h
  rw [h]
  show Except.ok _ = _
  simp

/-- Witness for C17: the projection `SELECT x`. -/
theorem pure_projection_disables_keyless_witness :
    getKeylessInfo (fun info => info.sql_type) (fun _ _ _ _ => 0) unassignedDescriptor
        (sortOnGpuArgs.ra_exe_unit.target_exprs.take 1) true
      = .ok { keyless := false,
              target_index := (sortOnGpuArgs.ra_exe_unit.target_exprs.take 1).length,
              init_val := 0 } :=
  pure_projection_disables_keyless (fun info => info.sql_type) (fun _ _ _ _ => 0)
    unassignedDescriptor true (sortOnGpuArgs.ra_exe_unit.target_exprs.take 1)
    (by
      intro p hp
      have : p = sortOnGpuArgs.ra_exe_unit.target_exprs.headD default := by
        simpa [sortOnGpuArgs] using hp
      subst this
      rfl)
    (by decide)

/-- C17, the claim as stated fails: in `SELECT x, COUNT(*) ...` no aggregate stands
before the first non-aggregate target, and `getKeylessInfo` returns `keyless = true`,
with the `COUNT` at `target_index = 1` as the presence marker. -/
theorem pure_projection_disables_keyless_counterexample :
    pureProjectionSpec sortOnGpuArgs.ra_exe_unit.target_exprs = true ∧
      ∀ get_compact_type get_agg_initial_val query_mem_desc_ is_group_by,
        getKeylessInfo get_compact_type get_agg_initial_val query_mem_desc_
            sortOnGpuArgs.ra_exe_unit.target_exprs is_group_by
          = .ok { keyless := true, target_index := 1, init_val := 0 } :=
  ⟨by rfl, fun _ _ _ _ => rfl⟩

/-- The `keyless_info` of the sample inputs is what `getKeylessInfo` returns for their
targets. -/
theorem sample_keyless_info (get_compact_type : TargetInfo → SQLTypeInfo)
    (get_agg_initial_val : SQLAgg → SQLTypeInfo → Bool → Nat → Int)
    (query_mem_desc_ : QueryMemoryDescriptor) (is_group_by : Bool) :
    getKeylessInfo get_compact_type get_agg_initial_val query_mem_desc_
        keylessColumnarArgs.ra_exe_unit.target_exprs is_group_by
      = .ok keylessColumnarArgs.keyless_info ∧
    getKeylessInfo get_compact_type get_agg_initial_val query_mem_desc_
        sortOnGpuArgs.ra_exe_unit.target_exprs is_group_by
      = .ok sortOnGpuArgs.keyless_info ∧
    getKeylessInfo get_compact_type get_agg_initial_val query_mem_desc_
        knownRangeArgs.ra_exe_unit.target_exprs is_group_by
      = .ok knownRangeArgs.keyless_info :=
  ⟨rfl, rfl, rfl⟩

/-! ## Names of the aggregate calls -/

/-- C18 (aggregate base names).  `agg_fn_base_names` maps a projection to `[agg_id]`,
or to `[agg_id, agg_id]` when its type is an unencoded string or an array, a
non-distinct `COUNT` to `[agg_count]`, `COUNT DISTINCT` to `[agg_count_distinct]`, `SUM`
to `[agg_sum]`, `MIN` to `[agg_min]`, `MAX` to `[agg_max]`, and `AVG` to
`[agg_sum, agg_count]`. -/
theorem aggregate_base_names (get_compact_type : TargetInfo → SQLTypeInfo)
    (target_info : TargetInfo) :
    (target_info.is_agg = false →
      agg_fn_base_names get_compact_type target_info
        = if ((get_compact_type target_info).is_string = true ∧
              (get_compact_type target_info).get_compression = .kENCODING_NONE) ∨
             (get_compact_type target_info).is_array = true
          then ["agg_id", "agg_id"] else ["agg_id"]) ∧
    (target_info.is_agg = true →
      (target_info.agg_kind = .kCOUNT → target_info.is_distinct = false →
        agg_fn_base_names get_compact_type target_info = ["agg_count"]) ∧
      (target_info.agg_kind = .kCOUNT → target_info.is_distinct = true →
        agg_fn_base_names get_compact_type target_info = ["agg_count_distinct"]) ∧
      (target_info.agg_kind = .kSUM →
        agg_fn_base_names get_compact_type target_info = ["agg_sum"]) ∧
      (target_info.agg_kind = .kMIN →
        agg_fn_base_names get_compact_type target_info = ["agg_min"]) ∧
      (target_info.agg_kind = .kMAX →
        agg_fn_base_names get_compact_type target_info = ["agg_max"]) ∧
      (target_info.agg_kind = .kAVG →
        agg_fn_base_names get_compact_type target_info = ["agg_sum", "agg_count"])) := by
  constructor
  · intro hagg
    unfold agg_fn_base_names
    simp only [hagg, Bool.not_false, if_true]
    cases (get_compact_type target_info).is_string <;>
      cases (get_compact_type target_info).is_array <;>
      cases (get_compact_type target_info).get_compression <;> simp
  · intro hagg
    unfold agg_fn_base_names
    simp only [hagg, Bool.not_true, Bool.false_eq_true, if_false]
    refine ⟨?_, ?_, ?_, ?_, ?_, ?_⟩
    · intro hk hd
      simp [hk, hd]
    · intro hk hd
      simp [hk, hd]
    all_goals
      intro hk
      simp [hk]

/-- The names `agg_fn_base_names` can return. -/
theorem agg_fn_base_names_mem (get_compact_type : TargetInfo → SQLTypeInfo)
    (target_info : TargetInfo) (agg_base_name : String)
    (h : agg_base_name ∈ agg_fn_base_names get_compact_type target_info) :
    agg_base_name ∈
      ["agg_id", "agg_count", "agg_count_distinct", "agg_sum", "agg_min", "agg_max"] := by
  unfold agg_fn_base_names at h
  cases hagg : target_info.is_agg with
  | false =>
    simp only [hagg, Bool.not_false, if_true] at h
    split_ifs at h
    · simp only [List.mem_cons, List.mem_singleton, List.not_mem_nil, or_false, or_self] at h
      subst h
      decide
    · simp only [List.mem_singleton] at h
      subst h
      decide
  | true =>
    simp only [hagg, Bool.not_true, Bool.false_eq_true, if_false] at h
    cases hk : target_info.agg_kind <;> cases hd : target_info.is_distinct <;>
      simp only [hk, hd, List.mem_cons, List.mem_singleton, List.not_mem_nil, or_false,
        Bool.false_eq_true, if_false, if_true] at h <;>
      (first | (subst h; decide) | (rcases h with rfl | rfl <;> decide))

/-- The names `codegenAggCalls_typed_name` can return. -/
theorem codegenAggCalls_typed_name_mem (agg_base_name : String) (lazy_fetched : Bool)
    (chosen_type : SQLTypeInfo) (chosen_bytes : Nat) (typed : String)
    (h : codegenAggCalls_typed_name agg_base_name lazy_fetched chosen_type chosen_bytes
      = .ok typed) :
    ∃ suffix ∈ ["", "_float", "_double", "_int32"], typed = agg_base_name ++ suffix := by
  unfold codegenAggCalls_typed_name at h
  split_ifs at h
  all_goals first
    | exact ⟨"_float", by decide, (except_pure_ok h).symm⟩
    | exact ⟨"_double", by decide, (except_pure_ok h).symm⟩
    | exact ⟨"_int32", by decide, (except_pure_ok h).symm⟩
    | exact ⟨"", by decide, by rw [← except_pure_ok h]; simp⟩

/-- Which of the names that `codegenAggCalls` can build carry `_skip_val`. -/
theorem carriesSkipVal_names :
    ∀ agg_base_name ∈
        ["agg_id", "agg_count", "agg_count_distinct", "agg_sum", "agg_min", "agg_max"],
      ∀ suffix ∈ ["", "_float", "_double", "_int32"],
        ¬ carriesSkipVal (agg_base_name ++ suffix) ∧
        ¬ carriesSkipVal (agg_base_name ++ suffix ++ "_shared") ∧
        carriesSkipVal (agg_base_name ++ suffix ++ "_skip_val") ∧
        carriesSkipVal (agg_base_name ++ suffix ++ "_skip_val" ++ "_shared") := by
  unfold carriesSkipVal
  decide

/-- C19 (skip-null suffix), as the code has it.  For every call that the generic
dispatch of `codegenAggCalls` emits for a base name of a target that is not distinct,
the name of the intrinsic carries `_skip_val`, and the inline null is appended as a
third operand, exactly when `skip_null_val` is set and the call is not the count half
of `AVG`; the aggregate may be a `COUNT`. -/
theorem skip_null_suffix (env : AggCallsEnv) (q : QueryMemoryDescriptor)
    (agg_info : TargetInfo) (is_agg_expr : Bool) (arg_expr : Option ArgExpr)
    (has_str_target_lv lazy_fetched : Bool) (target_lvs : List Nat)
    (agg_out_off target_lv_idx : Nat) (agg_base_name fname : String)
    (agg_args : List AggArg)
    (hname : agg_base_name ∈ agg_fn_base_names env.get_compact_type agg_info)
    (hemit : codegenAggCalls_dispatch env q agg_info is_agg_expr arg_expr has_str_target_lv
      lazy_fetched target_lvs agg_out_off target_lv_idx agg_base_name
        = .ok (.call fname agg_args)) :
    (carriesSkipVal fname ↔
      (agg_info.skip_null_val = true ∧
        ¬ (agg_info.agg_kind = .kAVG ∧ agg_base_name = "agg_count"))) ∧
    (agg_args.length = 3 ↔
      (agg_info.skip_null_val = true ∧
        ¬ (agg_info.agg_kind = .kAVG ∧ agg_base_name = "agg_count"))) ∧
    (agg_args.length = 3 →
      agg_args[2]? = some (.null_lv (env.get_compact_type agg_info).is_fp)) ∧
    (agg_args.length = 2 ∨ agg_args.length = 3) := by
  have hneed : needSkipNull agg_info agg_base_name = true ↔
      (agg_info.skip_null_val = true ∧
        ¬ (agg_info.agg_kind = .kAVG ∧ agg_base_name = "agg_count")) := by
    unfold needSkipNull
    simp only [Bool.and_eq_true, Bool.not_eq_true', Bool.and_eq_false_imp, beq_iff_eq,
      beq_eq_false_iff_ne, ne_eq]
    tauto
  rw [← hneed]
  have hbase := agg_fn_base_names_mem _ _ _ hname
  unfold codegenAggCalls_dispatch at hemit
  obtain ⟨chosen_bytes, -, hemit⟩ := except_bind_ok hemit
  simp only [] at hemit
  obtain ⟨agg_col_ptr, -, hemit⟩ := except_bind_ok hemit
  obtain ⟨target_lv, -, hemit⟩ := except_bind_ok hemit
  obtain ⟨out_ptr, -, hemit⟩ := except_bind_ok hemit
  obtain ⟨typed, htyped, hemit⟩ := except_bind_ok hemit
  obtain ⟨suffix, hsuffix, rfl⟩ := codegenAggCalls_typed_name_mem _ _ _ _ _ htyped
  obtain ⟨h1, h2, h3, h4⟩ := carriesSkipVal_names agg_base_name hbase suffix hsuffix
  cases hdistinct : agg_info.is_distinct with
  | true =>
    simp only [hdistinct, if_true] at hemit
    obtain ⟨_, -, hemit⟩ := except_bind_ok hemit
    obtain ⟨_, -, hemit⟩ := except_bind_ok hemit
    obtain ⟨_, -, hemit⟩ := except_bind_ok hemit
    cases except_pure_ok hemit
  | false =>
    simp only [hdistinct, Bool.false_eq_true, if_false] at hemit
    have hcall := except_pure_ok hemit
    rw [show (agg_info.skip_null_val &&
        !(agg_info.agg_kind == SQLAgg.kAVG && agg_base_name == "agg_count"))
      = needSkipNull agg_info agg_base_name from rfl] at hcall
    injection hcall with hf ha
    subst hf ha
    cases hn : needSkipNull agg_info agg_base_name <;>
      cases hs : (env.device_type == ExecutorDeviceType.GPU && q.threadsShareMemory) <;>
      simp only [hn, hs, Bool.false_eq_true, if_false, if_true, List.length_cons,
        List.length_nil, List.length_append, iff_true, iff_false, true_and, and_true] <;>
      simp [h1, h2, h3, h4]

/-- Witness for C19: the call for `COUNT(x)`, `x` nullable, in a grouping query compiled
for the CPU. -/
theorem skip_null_suffix_witness :
    (carriesSkipVal "agg_count_skip_val" ↔
      (countOfColumnTarget.target_info.skip_null_val = true ∧
        ¬ (countOfColumnTarget.target_info.agg_kind = .kAVG ∧ "agg_count" = "agg_count"))) ∧
    (([.agg_col_ptr 0 false, .target_lv 0 false false true, .null_lv false] :
        List AggArg).length = 3 ↔
      (countOfColumnTarget.target_info.skip_null_val = true ∧
        ¬ (countOfColumnTarget.target_info.agg_kind = .kAVG ∧ "agg_count" = "agg_count"))) ∧
    (([.agg_col_ptr 0 false, .target_lv 0 false false true, .null_lv false] :
        List AggArg).length = 3 →
      ([.agg_col_ptr 0 false, .target_lv 0 false false true, .null_lv false] :
        List AggArg)[2]?
        = some (.null_lv (cpuGroupByEnv.get_compact_type countOfColumnTarget.target_info).is_fp)) ∧
    (([.agg_col_ptr 0 false, .target_lv 0 false false true, .null_lv false] :
        List AggArg).length = 2 ∨
      ([.agg_col_ptr 0 false, .target_lv 0 false false true, .null_lv false] :
        List AggArg).length = 3) :=
  skip_null_suffix cpuGroupByEnv smallBufferDescriptor countOfColumnTarget.target_info true
    (countOfColumnTarget.agg_expr.bind (fun agg_expr => agg_expr.get_arg)) false false [0] 0 0
    "agg_count" "agg_count_skip_val"
    [.agg_col_ptr 0 false, .target_lv 0 false false true, .null_lv false]
    (by decide) (by rfl)

/-- C19, the claim as stated fails: for `COUNT(x)` with `x` nullable, in a grouping
query compiled for the CPU, the target is a `COUNT`, and `codegenAggCalls` emits
`agg_count_skip_val` with the inline null as third operand. -/
theorem skip_null_suffix_counterexample :
    codegenAggCalls_target cpuGroupByEnv plainTargetContext countOfColumnTarget
        smallBufferDescriptor 0
      = .ok ([.call "agg_count_skip_val"
                [.agg_col_ptr 0 false, .target_lv 0 false false true, .null_lv false]],
             smallBufferDescriptor, 1) ∧
      agg_fn_base_names cpuGroupByEnv.get_compact_type countOfColumnTarget.target_info
        = ["agg_count"] ∧
      skipValSpec countOfColumnTarget.target_info "agg_count" = false ∧
      carriesSkipVal "agg_count_skip_val" := by
  refine ⟨by rfl, by rfl, by rfl, ?_⟩
  unfold carriesSkipVal
  decide

/-! ## Kernel error reduction -/

theorem launchGpuCode_scan_zero (error_codes : List Int) :
    launchGpuCode_scan error_codes 0 = (error_codes.find? (fun err => err != 0)).getD 0 := by
  induction error_codes with
  | nil => rfl
  | cons err rest ih =>
    unfold launchGpuCode_scan
    by_cases h : err = 0
    · subst h
      simp only [ne_eq, not_true_eq_false, false_and, if_false]
      rw [ih]
      rfl
    · rw [if_pos ⟨h, Or.inl rfl⟩]
      have : (err != 0) = true := by simpa using h
      simp [List.find?, this]

/-- C20 (kernel error reduction).  From the error codes copied back from the device,
`launchGpuCode` sets `*error_code` to the first entry that is not zero, in lane order,
and to 0 when every entry is zero. -/
theorem kernel_error_reduction (error_codes : List Int) :
    launchGpuCode_error_code error_codes
        = (error_codes.find? (fun err => err != 0)).getD 0 ∧
      ((∀ err ∈ error_codes, err = 0) → launchGpuCode_error_code error_codes = 0) ∧
      ∀ (zeros rest : List Int) (err : Int),
        error_codes = zeros ++ err :: rest → (∀ z ∈ zeros, z = 0) → err ≠ 0 →
          launchGpuCode_error_code error_codes = err := by
  unfold launchGpuCode_error_code
  rw [launchGpuCode_scan_zero]
  refine ⟨rfl, ?_, ?_⟩
  · intro hall
    have : error_codes.find? (fun err => err != 0) = none := by
      rw [List.find?_eq_none]
      intro x hx
      simp [hall x hx]
    rw [this]
    rfl
  · intro zeros rest err heq hzeros herr
    subst heq
    have : (zeros ++ err :: rest).find? (fun err => err != 0) = some err := by
      rw [List.find?_append]
      have hz : zeros.find? (fun err => err != 0) = none := by
        rw [List.find?_eq_none]
        intro x hx
        simp [hzeros x hx]
      rw [hz]
      have : (err != 0) = true := by simpa using herr
      simp [List.find?, this]
    rw [this]
    rfl

/-! ## Group lookup -/

theorem int64_op_eq {x : Int} (h0 : INT64_MIN ≤ x) (h1 : x ≤ INT64_MAX) : int64_op x = .ok x :=
  int64_op_ok.mpr ⟨⟨h0, h1⟩, rfl⟩

/-- A keyless descriptor never gets `get_columnar_group_bin_offset`. -/
theorem codegenGroupBy_fast_name_keyless (q : QueryMemoryDescriptor) (output_columnar_ : Bool)
    (device_type : ExecutorDeviceType) (fname : String) (hk : q.keyless_hash = true)
    (h : codegenGroupBy_fast_name q output_columnar_ device_type = .ok fname) :
    fname = "get_group_value_fast_keyless" ∨
      fname = "get_group_value_fast_keyless_semiprivate" := by
  unfold codegenGroupBy_fast_name at h
  simp only [hk, Bool.not_true, Bool.and_false, Bool.false_eq_true, if_false, if_true] at h
  split_ifs at h
  · exact Or.inr (except_pure_ok h).symm
  · exact Or.inl (except_pure_ok h).symm

/-- C22 (columnar group lookup), as the code has it.  On the direct-address fast path
with columnar output, `codegenGroupBy` selects `get_columnar_group_bin_offset` when the
descriptor is keyed and its bins are not interleaved, and returns the buffer with the
result of the call as bin index; for a keyless descriptor it fails the assertion that
the output is not columnar. -/
theorem columnar_group_lookup (g_enable_watchdog : Bool) (groupby_exprs : List ExpressionRange)
    (q : QueryMemoryDescriptor) (device_type : ExecutorDeviceType)
    (hfast : q.usesGetGroupValueFast = .ok true)
    (hone : groupby_exprs.length = 1)
    (hnull : INT64_MIN ≤ q.max_val + (if q.bucket != 0 then q.bucket else 1) ∧
      q.max_val + (if q.bucket != 0 then q.bucket else 1) ≤ INT64_MAX) :
    (q.keyless_hash = false → q.interleavedBins device_type = false →
      codegenGroupBy g_enable_watchdog groupby_exprs q true device_type
        = .ok (.groups_buffer,
               .call "get_columnar_group_bin_offset"
                 [.groups_buffer, .group_expr_lv, .ll_int q.min_val, .ll_int q.bucket])) ∧
    (q.keyless_hash = true →
      codegenGroupBy g_enable_watchdog groupby_exprs q true device_type
        = .error .CheckFailed) := by
  obtain ⟨hknown, -⟩ := usesGetGroupValueFast_true q hfast
  have hstart : codegenGroupBy g_enable_watchdog groupby_exprs q true device_type
      = codegenGroupBy_fast q true device_type 0 := by
    unfold codegenGroupBy codegenGroupBy_row_size_quad
    simp only [if_true, hknown]
    show codegenGroupBy_one_col groupby_exprs q true device_type 0 = _
    unfold codegenGroupBy_one_col
    rw [int64_op_eq hnull.1 hnull.2, hfast]
    simp only [hone, beq_self_eq_true, CHECK, if_true]
    rfl
  rw [hstart]
  unfold codegenGroupBy_fast codegenGroupBy_fast_name codegenGroupBy_fast_args
  constructor
  · intro hk hi
    simp only [hk, hi, Bool.not_false, Bool.and_self, Bool.not_true, Bool.false_eq_true,
      if_true, if_false]
    rfl
  · intro hk
    simp only [hk, Bool.not_true, Bool.and_false, Bool.false_eq_true, if_false, if_true]
    cases q.interleavedBins device_type <;> rfl

/-- Witness for C22: the keyed columnar descriptor of
`SELECT x, COUNT(*) ... GROUP BY x ORDER BY 2 DESC` on a GPU. -/
theorem columnar_group_lookup_witness :
    (sortOnGpuDescriptor.keyless_hash = false →
      sortOnGpuDescriptor.interleavedBins .GPU = false →
      codegenGroupBy false (sortOnGpuArgs.ra_exe_unit.groupby_exprs.map (fun e => e.expr_range))
          sortOnGpuDescriptor true .GPU
        = .ok (.groups_buffer,
               .call "get_columnar_group_bin_offset"
                 [.groups_buffer, .group_expr_lv, .ll_int sortOnGpuDescriptor.min_val,
                  .ll_int sortOnGpuDescriptor.bucket])) ∧
    (sortOnGpuDescriptor.keyless_hash = true →
      codegenGroupBy false (sortOnGpuArgs.ra_exe_unit.groupby_exprs.map (fun e => e.expr_range))
          sortOnGpuDescriptor true .GPU
        = .error .CheckFailed) :=
  columnar_group_lookup false (sortOnGpuArgs.ra_exe_unit.groupby_exprs.map (fun e => e.expr_range))
    sortOnGpuDescriptor .GPU (by rfl) (by rfl) (by decide)

/-- C22, the claim as stated fails: on the keyless columnar descriptor of
`keylessColumnarArgs`, which is on the fast path, `codegenGroupBy` does not select
`get_columnar_group_bin_offset`; it builds the name `get_group_value_fast_keyless` and
then fails `CHECK(!outputColumnar())`. -/
theorem columnar_group_lookup_counterexample :
    keylessColumnarDescriptor.usesGetGroupValueFast = .ok true ∧
      keylessColumnarDescriptor.output_columnar = true ∧
      keylessColumnarDescriptor.keyless_hash = true ∧
      codegenGroupBy_fast_name keylessColumnarDescriptor true .GPU
        = .ok "get_group_value_fast_keyless" ∧
      codegenGroupBy false
          (keylessColumnarArgs.ra_exe_unit.groupby_exprs.map (fun e => e.expr_range))
          keylessColumnarDescriptor true .GPU
        = .error .CheckFailed :=
  ⟨by rfl, by rfl, by rfl, by rfl, by rfl⟩

/-- C30 (keyless excludes columnar) fails on the code: for `keylessColumnarArgs` the
constructor returns a descriptor with both `keyless_hash` and `output_columnar` set, on
which `CHECK(!output_columnar)` fails in `getColsSize`, reached from the keyless branch
of `getBufferSizeQuad`, and `CHECK(!outputColumnar())` fails in the keyless branch of
`codegenGroupBy`. -/
theorem keyless_excludes_columnar_failing_input :
    (GroupByAndAggregate keylessColumnarArgs).map
        (fun q => (q.keyless_hash, q.output_columnar, q.getColsSize,
          q.getBufferSizeQuad .GPU, q.getBufferSizeQuad .CPU,
          codegenGroupBy false
            (keylessColumnarArgs.ra_exe_unit.groupby_exprs.map (fun e => e.expr_range))
            q q.output_columnar .GPU))
      = .ok (true, true, .error .CheckFailed, .error .CheckFailed, .error .CheckFailed,
             .error .CheckFailed) := by
  rfl

/-! ## Perfect hash and nulls -/

/-- C26 (perfect hash injectivity) fails on the code: for two grouping columns with
ranges `[10, 12]` with nulls and `[-5, -2]`, `getColRangeInfo` returns
`MultiColPerfectHash` with 16 entries, the NULL of the first column is passed as 13,
and the legal key tuples `(NULL, -5)` and `(10, -4)` both get the hash value 3: the
emitted function multiplies by `max − min + 1 = 3`, without the slot for NULL that
`getColRangeInfo` counts. -/
theorem perfect_hash_injectivity_failing_input :
    getColRangeInfo false nullableFirstKeys
        = .ok { hash_type_ := .MultiColPerfectHash, min := 0, max := 16, bucket := 0,
                has_nulls := true } ∧
      legalKey nullableFirstKeys [13, -5] ∧ legalKey nullableFirstKeys [10, -4] ∧
      ([13, -5] : List Int) ≠ [10, -4] ∧
      (codegenPerfectHashFunction false nullableFirstKeys).map
          (fun f => (f.perfect_key_hash [13, -5], f.perfect_key_hash [10, -4]))
        = .ok (3, 3) := by
  refine ⟨by rfl, ⟨rfl, ?_⟩, ⟨rfl, ?_⟩, by decide, by rfl⟩
  · intro i hi
    have hi' : i < 2 := hi
    interval_cases i
    · exact Or.inr ⟨by rfl, by rfl⟩
    · exact Or.inl ⟨by decide, by decide⟩
  · intro i hi
    have hi' : i < 2 := hi
    interval_cases i
    · exact Or.inl ⟨by decide, by decide⟩
    · exact Or.inl ⟨by decide, by decide⟩

/-! ## Output slots -/

/-- C28 (output slot count consistency) fails on the code: for the projection of an
array column `get_agg_count` counts one slot, `agg_fn_base_names` returns two names, and
`codegenAggCalls`, called for a query without grouping with the one pointer that
`codegen` collects, reads `agg_out_vec[1]` past the end of the vector. -/
theorem output_slot_count_failing_input :
    get_agg_count [projectionTarget arrayTypeInfo] = .ok 1 ∧
      agg_fn_base_names cpuScanEnv.get_compact_type (projectionTarget arrayTypeInfo).target_info
        = ["agg_id", "agg_id"] ∧
      (cpuScanEnv.agg_out_vec_size : Int) = 1 ∧
      (codegenAggCalls cpuScanEnv
          [(projectionTarget arrayTypeInfo, { plainTargetContext with target_lvs_size := 2 })]
          scanDescriptor).map (fun r => r.1)
        = .error .UndefinedBehaviour :=
  ⟨by rfl, by rfl, by rfl, by rfl⟩

/-- C27 (COUNT DISTINCT slot index) fails on the code: for the targets
`'abc', COUNT(DISTINCT x)`, the string not dictionary encoded, the slot expansion of
`get_agg_count` puts the first slot of the `COUNT(DISTINCT)` at index 2, after the two
slots of the string, and `allocateCountDistinctBuffers` records its bitmap of 1000 bits
at index 1: the loop skips a second slot only for `AVG`. -/
theorem count_distinct_slot_index_failing_input :
    initCountDistinctDescriptors false stringThenDistinctTargets
        = .ok stringThenDistinctDescriptor.count_distinct_descriptors_ ∧
      get_agg_count (stringThenDistinctTargets.take 1) = .ok 2 ∧
      ∀ new_buffer,
        allocateCountDistinctBuffers new_buffer stringThenDistinctDescriptor
            stringThenDistinctTargets true [] []
          = .ok { agg_bitmap_size := [0, 1000, 0], init_agg_vals_ := [], requests := [] } :=
  ⟨by rfl, by rfl, fun _ => rfl⟩

/-! ## Buffer sizes -/

theorem colsStep_bound (F k : Nat) (w : ColWidths)
    (hw : w.compact = 1 ∨ w.compact = 2 ∨ w.compact = 4 ∨ w.compact = 8)
    (h : (F + 7) / 8 * 8 ≤ 8 * k) : (colsStep F w + 7) / 8 * 8 ≤ 8 * (k + 1) := by
  unfold colsStep align_to_int64 SIZE_T_RANGE
  rcases hw with hw | hw | hw | hw <;> simp only [hw] <;> split_ifs <;> omega

theorem foldl_colsStep_bound (l : List ColWidths) (F k : Nat)
    (hw : ∀ w ∈ l, w.compact = 1 ∨ w.compact = 2 ∨ w.compact = 4 ∨ w.compact = 8)
    (h : (F + 7) / 8 * 8 ≤ 8 * k) :
    (l.foldl colsStep F + 7) / 8 * 8 ≤ 8 * (k + l.length) := by
  induction l generalizing F k with
  | nil => simpa using h
  | cons w l ih =>
    simp only [List.foldl_cons, List.length_cons]
    have := ih (colsStep F w) (k + 1) (fun w' hw' => hw w' (List.mem_cons_of_mem _ hw'))
      (colsStep_bound F k w (hw w (List.mem_cons_self _ _)) h)
    omega

/-- The size of a row against the size of the small buffer.  For every keyed row-major
descriptor with compact widths in `{1, 2, 4, 8}`, `getRowSize()` is defined and at most
`8 * (group_col_widths.size() + agg_col_widths.size())`; hence, when the size of the
small buffer does not overflow `size_t`, `entry_count_small` rows of `getRowSize()`
bytes do not extend past `getSmallBufferSizeBytes()`. -/
theorem getRowSize_small_buffer (q : QueryMemoryDescriptor)
    (hrow : q.output_columnar = false) (hkeyed : q.keyless_hash = false)
    (hwidths : ∀ w ∈ q.agg_col_widths,
      w.compact = 1 ∨ w.compact = 2 ∨ w.compact = 4 ∨ w.compact = 8) :
    ∃ row_size, q.getRowSize = .ok row_size ∧
      row_size ≤ 8 * (q.group_col_widths.length + q.agg_col_widths.length) ∧
      ((q.group_col_widths.length + q.agg_col_widths.length) * q.entry_count_small * 8
          < SIZE_T_RANGE →
        ∃ small_bytes, q.getSmallBufferSizeBytes = .ok small_bytes ∧
          q.entry_count_small * row_size ≤ small_bytes) := by
  have hcols := foldl_colsStep_bound q.agg_col_widths 0 0 hwidths (by omega)
  have hrs : q.getRowSize = .ok (align_to_int64 ((q.group_col_widths.length * 8 % SIZE_T_RANGE
      + List.foldl colsStep 0 q.agg_col_widths) % SIZE_T_RANGE)) := by
    simp only [QueryMemoryDescriptor.getRowSize, QueryMemoryDescriptor.getColsSize,
      hrow, hkeyed, Bool.false_eq_true, if_false, Bool.false_and]
  refine ⟨_, hrs, ?_, ?_⟩
  · generalize List.foldl colsStep 0 q.agg_col_widths = cols at hcols
    unfold align_to_int64 SIZE_T_RANGE
    omega
  · intro hno
    rw [getSmallBufferSizeBytes_eq q (by simp [hkeyed])]
    refine ⟨_, rfl, ?_⟩
    have hr : align_to_int64 ((q.group_col_widths.length * 8 % SIZE_T_RANGE
        + List.foldl colsStep 0 q.agg_col_widths) % SIZE_T_RANGE)
        ≤ 8 * (q.group_col_widths.length + q.agg_col_widths.length) := by
      generalize List.foldl colsStep 0 q.agg_col_widths = cols at hcols
      unfold align_to_int64 SIZE_T_RANGE
      omega
    have hmul := Nat.mul_le_mul_left q.entry_count_small hr
    have e1 : (q.group_col_widths.length + q.agg_col_widths.length) * q.entry_count_small
        % SIZE_T_RANGE
        = (q.group_col_widths.length + q.agg_col_widths.length) * q.entry_count_small := by
      apply Nat.mod_eq_of_lt
      omega
    rw [e1, Nat.mod_eq_of_lt hno]
    calc q.entry_count_small * _ ≤ q.entry_count_small
          * (8 * (q.group_col_widths.length + q.agg_col_widths.length)) := hmul
      _ = (q.group_col_widths.length + q.agg_col_widths.length) * q.entry_count_small * 8 := by
        ring

/-- The baseline table of `smallBufferDescriptor`, with rows of 16 bytes and a small
buffer of 1024 entries. -/
theorem getRowSize_small_buffer_sample :
    ∃ row_size, smallBufferDescriptor.getRowSize = .ok row_size ∧
      row_size ≤ 8 * (smallBufferDescriptor.group_col_widths.length
        + smallBufferDescriptor.agg_col_widths.length) ∧
      ((smallBufferDescriptor.group_col_widths.length
            + smallBufferDescriptor.agg_col_widths.length)
          * smallBufferDescriptor.entry_count_small * 8 < SIZE_T_RANGE →
        ∃ small_bytes, smallBufferDescriptor.getSmallBufferSizeBytes = .ok small_bytes ∧
          smallBufferDescriptor.entry_count_small * row_size ≤ small_bytes) :=
  getRowSize_small_buffer smallBufferDescriptor (by rfl) (by rfl) (by
    intro w hw
    have : w = { actual := 8, compact := 8 } := by
      simpa [smallBufferDescriptor, keylessColumnarDescriptor] using hw
    subst this
    exact Or.inr (Or.inr (Or.inr rfl)))

/-- C25 (columnar buffer holds every slot) fails on the code: the constructor builds
for `sortCountArgs` a keyed columnar descriptor with 12001 bins and one target column of
compact width 4, for which the slot of the last bin occupies the bytes 144008 to
144011 and `getBufferSizeBytes` is 144008: `getBufferSizeQuad` divides the
`8 * 12001 + 4 * 12001 = 144012` bytes by 8 without rounding up. -/
theorem columnar_buffer_holds_slots_failing_input :
    GroupByAndAggregate sortCountArgs = .ok sortCountDescriptor ∧
      sortCountDescriptor.output_columnar = true ∧
      sortCountDescriptor.keyless_hash = false ∧
      sortCountDescriptor.agg_col_widths = [{ actual := 4, compact := 4 }] ∧
      sortCountDescriptor.entry_count = 12001 ∧
      sortCountDescriptor.getColOffInBytes 12000 0 = .ok 144008 ∧
      sortCountDescriptor.getTotalBytesOfColumnarBuffers sortCountDescriptor.agg_col_widths
        = .ok 48004 ∧
      sortCountDescriptor.getBufferSizeBytes .GPU = .ok 144008 ∧
      sortCountDescriptor.getBufferSizeBytes .CPU = .ok 144008 :=
  ⟨by rfl, by rfl, by rfl, by rfl, by rfl, by rfl, by rfl, by rfl, by rfl⟩

/-! ## Buffer pointer list -/

theorem QueryExecutionContext_push_buffer_ok (rt : Runtime) (a : QueryExecutionContextArgs)
    (step : Nat) (c c' : QueryExecutionContext)
    (h : QueryExecutionContext_push_buffer rt a step c = .ok c') :
    c'.num_buffers_ = c.num_buffers_ ∧
      c'.group_by_buffers_
        = c.group_by_buffers_ ++ some (rt.checked_malloc c.allocated)
            :: List.replicate (step - 1) none := by
  unfold QueryExecutionContext_push_buffer at h
  obtain ⟨_, -, h⟩ := except_bind_ok h
  obtain ⟨_, -, h⟩ := except_bind_ok h
  cases except_pure_ok h
  exact ⟨rfl, rfl⟩

theorem QueryExecutionContext_push_small_buffer_ok (rt : Runtime)
    (a : QueryExecutionContextArgs) (step : Nat) (c c' : QueryExecutionContext)
    (h : QueryExecutionContext_push_small_buffer rt a step c = .ok c') :
    c'.num_buffers_ = c.num_buffers_ ∧ c'.group_by_buffers_ = c.group_by_buffers_ := by
  unfold QueryExecutionContext_push_small_buffer at h
  obtain ⟨small, -, h⟩ := except_bind_ok h
  split_ifs at h
  · cases except_pure_ok h
    exact ⟨rfl, rfl⟩
  · cases except_pure_ok h
    exact ⟨rfl, rfl⟩

/-- The construction for `knownRangeArgs` sets `num_buffers_` to 16384, blocks not
sharing memory; the list starts with a buffer followed by a null pointer. -/
theorem knownRangeContext_run :
    (QueryExecutionContext.new sampleRuntime knownRangeContextArgs zeroedState).map
        (fun c => (c.num_buffers_, c.group_by_buffers_.take 2))
      = .ok (16384, [some 16777216, none]) := by
  rfl

/-! ## The allocation loop ends -/

theorem except_bind_error {α β : Type} {x : Except Failure α} {f : α → Except Failure β}
    {e : Failure} (h : (x >>= f) = .error e) :
    x = .error e ∨ ∃ a, x = .ok a ∧ f a = .error e := by
  cases x with
  | error e' =>
    cases h
    exact Or.inl rfl
  | ok a => exact Or.inr ⟨a, rfl, h⟩

theorem CHECK_error {c : Bool} {e : Failure} (h : CHECK c = .error e) : e = .CheckFailed := by
  unfold CHECK at h
  split_ifs at h
  cases h
  rfl

theorem getColsSize_error (q : QueryMemoryDescriptor) (e : Failure)
    (h : q.getColsSize = .error e) : e = .CheckFailed := by
  unfold getColsSize at h
  split_ifs at h
  cases h
  rfl

theorem getRowSize_error (q : QueryMemoryDescriptor) (e : Failure)
    (h : q.getRowSize = .error e) : e = .CheckFailed := by
  unfold getRowSize at h
  by_cases h1 : q.output_columnar = true
  · rw [if_pos h1] at h
    cases h
    rfl
  · rw [if_neg h1] at h
    by_cases h2 : (q.keyless_hash && q.group_col_widths.length != 1) = true
    · rw [if_pos h2] at h
      cases h
      rfl
    · rw [if_neg h2] at h
      simp only [] at h
      cases hc : q.getColsSize with
      | error e' =>
        rw [hc] at h
        cases h
        exact getColsSize_error q _ hc
      | ok cols =>
        rw [hc] at h
        cases h

theorem getBufferSizeQuad_error (q : QueryMemoryDescriptor) (d : ExecutorDeviceType)
    (e : Failure) (h : q.getBufferSizeQuad d = .error e) : e = .CheckFailed := by
  unfold getBufferSizeQuad at h
  by_cases hk : q.keyless_hash = true
  · rw [if_pos hk] at h
    rcases except_bind_error h with h | ⟨_, -, h⟩
    · exact CHECK_error h
    · rcases except_bind_error h with h | ⟨_, -, h⟩
      · exact getColsSize_error q e h
      · cases h
  · rw [if_neg hk] at h
    by_cases hc : q.output_columnar = true
    · rw [if_pos hc] at h
      rcases except_bind_error h with h | ⟨_, -, h⟩
      · exact CHECK_error h
      · rcases except_bind_error h with h | ⟨_, -, h⟩
        · unfold getTotalBytesOfColumnarBuffers at h
          rw [if_pos hc] at h
          cases h
        · cases h
    · rw [if_neg hc] at h
      rcases except_bind_error h with h | ⟨_, -, h⟩
      · exact getRowSize_error q e h
      · cases h

theorem getBufferSizeBytes_error (q : QueryMemoryDescriptor) (d : ExecutorDeviceType)
    (e : Failure) (h : q.getBufferSizeBytes d = .error e) : e = .CheckFailed := by
  unfold getBufferSizeBytes at h
  rcases except_bind_error h with h | ⟨_, -, h⟩
  · exact getBufferSizeQuad_error q d e h
  · cases h

theorem getSmallBufferSizeQuad_error (q : QueryMemoryDescriptor) (e : Failure)
    (h : q.getSmallBufferSizeQuad = .error e) : e = .CheckFailed := by
  unfold getSmallBufferSizeQuad at h
  rcases except_bind_error h with h | ⟨_, -, h⟩
  · exact CHECK_error h
  · cases h

theorem getSmallBufferSizeBytes_error (q : QueryMemoryDescriptor) (e : Failure)
    (h : q.getSmallBufferSizeBytes = .error e) : e = .CheckFailed := by
  unfold getSmallBufferSizeBytes at h
  rcases except_bind_error h with h | ⟨_, -, h⟩
  · exact getSmallBufferSizeQuad_error q e h
  · cases h

theorem lazyInitGroups_error (q : QueryMemoryDescriptor) (d : ExecutorDeviceType) (e : Failure)
    (h : q.lazyInitGroups d = .error e) : e = .CheckFailed := by
  unfold lazyInitGroups at h
  split_ifs at h
  · rcases except_bind_error h with h | ⟨_, -, h⟩
    · exact getSmallBufferSizeQuad_error q e h
    · cases h
  · cases h

theorem QueryExecutionContext_push_buffer_error (rt : Runtime) (a : QueryExecutionContextArgs)
    (step : Nat) (c : QueryExecutionContext) (e : Failure)
    (h : QueryExecutionContext_push_buffer rt a step c = .error e) : e = .CheckFailed := by
  unfold QueryExecutionContext_push_buffer at h
  rcases except_bind_error h with h | ⟨_, -, h⟩
  · exact getBufferSizeBytes_error _ _ e h
  · rcases except_bind_error h with h | ⟨_, -, h⟩
    · exact lazyInitGroups_error _ _ e h
    · cases h

theorem QueryExecutionContext_push_small_buffer_error (rt : Runtime)
    (a : QueryExecutionContextArgs) (step : Nat) (c : QueryExecutionContext) (e : Failure)
    (h : QueryExecutionContext_push_small_buffer rt a step c = .error e) :
    e = .CheckFailed := by
  unfold QueryExecutionContext_push_small_buffer at h
  rcases except_bind_error h with h | ⟨_, -, h⟩
  · exact getSmallBufferSizeBytes_error _ e h
  · split_ifs at h <;> cases h

/-- The loop of the constructor ends: with a `step` of at least 1, `num_buffers_ - i`
iterations are enough, so the loop returns or fails an assertion. -/
theorem QueryExecutionContext_buffers_ends (rt : Runtime) (a : QueryExecutionContextArgs)
    (step : Nat) (hstep : 1 ≤ step) (fuel i : Nat) (c : QueryExecutionContext)
    (hfit : c.num_buffers_ + step ≤ SIZE_T_RANGE) (hfuel : c.num_buffers_ ≤ i + fuel) :
    QueryExecutionContext_buffers rt a step fuel i c ≠ .error .DoesNotReturn := by
  induction fuel generalizing i c with
  | zero =>
    unfold QueryExecutionContext_buffers
    rw [if_neg (by omega)]
    intro h
    cases h
  | succ fuel ih =>
    unfold QueryExecutionContext_buffers
    split_ifs with hi
    · intro h
      rcases except_bind_error h with h | ⟨c1, h1, h⟩
      · cases QueryExecutionContext_push_buffer_error rt a step c _ h
      · rcases except_bind_error h with h | ⟨c2, h2, h⟩
        · cases QueryExecutionContext_push_small_buffer_error rt a step c1 _ h
        · have hn1 := (QueryExecutionContext_push_buffer_ok rt a step c c1 h1).1
          have hn2 := (QueryExecutionContext_push_small_buffer_ok rt a step c1 c2 h2).1
          have hnext : (i + step) % SIZE_T_RANGE = i + step := Nat.mod_eq_of_lt (by omega)
          rw [hnext] at h
          exact ih (i + step) c2 (by rw [hn2, hn1]; exact hfit) (by rw [hn2, hn1]; omega) h
    · intro h
      cases h

/-! ## Memory -/

theorem Memory.load_congr (m m' : Memory) (addr width : Nat)
    (h : ∀ a, addr ≤ a → a < addr + width → m a = m' a) :
    m.load addr width = m'.load addr width := by
  induction width generalizing addr with
  | zero => rfl
  | succ w ih =>
    unfold Memory.load
    rw [h addr (Nat.le_refl _) (by omega), ih (addr + 1) (fun a h1 h2 => h a (by omega) (by omega))]

theorem Memory.store_outside (m : Memory) (addr width value a : Nat)
    (h : a < addr ∨ addr + width ≤ a) : m.store addr width value a = m a := by
  unfold Memory.store
  rw [if_neg (by omega)]

theorem Memory.store_inside (m : Memory) (addr width value a : Nat)
    (h1 : addr ≤ a) (h2 : a < addr + width) :
    m.store addr width value a = value / 256 ^ (a - addr) % 256 := by
  unfold Memory.store
  rw [if_pos ⟨h1, h2⟩]

theorem Memory.load_zero (m : Memory) (addr width : Nat)
    (h : ∀ a, addr ≤ a → a < addr + width → m a = 0) : m.load addr width = 0 := by
  induction width generalizing addr with
  | zero => rfl
  | succ w ih =>
    unfold Memory.load
    rw [h addr (Nat.le_refl _) (by omega), ih (addr + 1) (fun a h1 h2 => h a (by omega) (by omega))]

/-! ## Columnar initialisation -/

theorem initColumnarBuffer_keys_frame (width buffer_ptr : Nat) (init_val : Int)
    (remaining i : Nat) (m : Memory) (a : Nat)
    (hfit : buffer_ptr + width * (i + remaining) ≤ SIZE_T_RANGE)
    (ha : a < buffer_ptr ∨ buffer_ptr + width * (i + remaining) ≤ a) :
    initColumnarBuffer_keys width buffer_ptr init_val remaining i m a = m a := by
  induction remaining generalizing i m with
  | zero => rfl
  | succ n ih =>
    unfold initColumnarBuffer_keys
    have hmul : width * (i + (n + 1)) = width * i + width + width * n := by ring
    have hmul' : width * (i + 1 + n) = width * i + width + width * n := by ring
    rw [ih (i + 1) _ (by rw [hmul']; omega) (by rw [hmul']; omega)]
    by_cases hw : width = 0
    · subst hw
      exact Memory.store_outside _ _ _ _ _ (by omega)
    · have hlt : buffer_ptr + width * i < SIZE_T_RANGE := by omega
      rw [Nat.mod_eq_of_lt hlt]
      exact Memory.store_outside _ _ _ _ _ (by omega)

theorem initColumnarBuffer_cols_frame (new_buffer : Nat → Int) (width buffer_ptr : Nat)
    (init_val bitmap_sz : Int) (remaining j : Nat) (s s' : InitState) (a : Nat)
    (hfit : buffer_ptr + width * (j + remaining) ≤ SIZE_T_RANGE)
    (ha : a < buffer_ptr ∨ buffer_ptr + width * (j + remaining) ≤ a)
    (h : initColumnarBuffer_cols new_buffer width buffer_ptr init_val bitmap_sz remaining j s
      = .ok s') :
    s'.memory a = s.memory a := by
  induction remaining generalizing j s with
  | zero =>
    unfold initColumnarBuffer_cols at h
    rw [← except_pure_ok h]
  | succ n ih =>
    unfold initColumnarBuffer_cols at h
    have hmul : width * (j + (n + 1)) = width * j + width + width * n := by ring
    have hmul' : width * (j + 1 + n) = width * j + width + width * n := by ring
    have hstore : ∀ (m : Memory) (v : Nat),
        m.store ((buffer_ptr + width * j) % SIZE_T_RANGE) width v a = m a := by
      intro m v
      by_cases hw : width = 0
      · subst hw
        exact Memory.store_outside _ _ _ _ _ (by omega)
      · have hlt : buffer_ptr + width * j < SIZE_T_RANGE := by omega
        rw [Nat.mod_eq_of_lt hlt]
        exact Memory.store_outside _ _ _ _ _ (by omega)
    by_cases hb : bitmap_sz = 0
    · rw [if_pos hb] at h
      rw [ih (j + 1) _ (by rw [hmul']; omega) (by rw [hmul']; omega) h]
      exact hstore _ _
    · rw [if_neg hb] at h
      by_cases hw8 : width ≠ 8
      · rw [if_pos hw8] at h
        cases h
      · rw [if_neg hw8] at h
        rw [ih (j + 1) _ (by rw [hmul']; omega) (by rw [hmul']; omega) h]
        exact hstore _ _

/-- What `initColumnarBuffer` leaves alone: every byte outside the `entry_count`
elements from `buffer_ptr`. -/
theorem initColumnarBuffer_frame (new_buffer : Nat → Int) (width buffer_ptr : Nat)
    (init_val : Int) (entry_count : Nat) (bitmap_sz : Int) (key_or_col : Bool)
    (s : InitState) (r : Nat × InitState) (a : Nat)
    (hfit : buffer_ptr + width * entry_count ≤ SIZE_T_RANGE)
    (ha : a < buffer_ptr ∨ buffer_ptr + width * entry_count ≤ a)
    (h : initColumnarBuffer new_buffer width buffer_ptr init_val entry_count bitmap_sz
      key_or_col s = .ok r) :
    r.2.memory a = s.memory a := by
  unfold initColumnarBuffer at h
  cases key_or_col with
  | true =>
    simp only [if_true] at h
    rw [← except_pure_ok h]
    exact initColumnarBuffer_keys_frame width buffer_ptr init_val entry_count 0 s.memory a
      (by rw [Nat.zero_add]; exact hfit) (by rw [Nat.zero_add]; exact ha)
  | false =>
    simp only [Bool.false_eq_true, if_false] at h
    obtain ⟨s1, h1, h⟩ := except_bind_ok h
    rw [← except_pure_ok h]
    exact initColumnarBuffer_cols_frame new_buffer width buffer_ptr init_val bitmap_sz
      entry_count 0 s s1 a (by rw [Nat.zero_add]; exact hfit) (by rw [Nat.zero_add]; exact ha) h1

/-- A call of `initColumnarBuffer` for no element writes nothing. -/
theorem initColumnarBuffer_none (new_buffer : Nat → Int) (width buffer_ptr : Nat)
    (init_val : Int) (bitmap_sz : Int) (key_or_col : Bool) (s : InitState) :
    initColumnarBuffer new_buffer width buffer_ptr init_val 0 bitmap_sz key_or_col s
      = .ok ((buffer_ptr + 0 * width) % SIZE_T_RANGE, s) := by
  cases key_or_col <;> rfl

/-- The `keyless_info` of the sample inputs of this section is what `getKeylessInfo`
returns for their targets. -/
theorem buffer_sample_keyless_info (get_compact_type : TargetInfo → SQLTypeInfo)
    (get_agg_initial_val : SQLAgg → SQLTypeInfo → Bool → Nat → Int)
    (query_mem_desc_ : QueryMemoryDescriptor) (is_group_by : Bool) :
    getKeylessInfo get_compact_type get_agg_initial_val query_mem_desc_
        distinctInRangeArgs.ra_exe_unit.target_exprs is_group_by
      = .ok distinctInRangeArgs.keyless_info ∧
    getKeylessInfo get_compact_type get_agg_initial_val unassignedDescriptor
        minColumnarArgs.ra_exe_unit.target_exprs is_group_by
      = .ok minColumnarArgs.keyless_info :=
  ⟨rfl, rfl⟩

/-- C24 (columnar initialisation) fails on the code.  For
`SELECT MIN(f(x)) ... GROUP BY y` compiled for the CPU with columnar output, 12001 bins
and one 8-byte column, `initColumnarGroups` runs on a zeroed buffer at address 4096 with the initial
value `INT64_MAX` of `MIN`, and afterwards the slot of every bin, 8 bytes from the
offset 96008 that `getColOffInBytes(0, 0)` returns, still holds 0: the call
`initColumnarBuffer<int64_t>(buffer_ptr, init_vals[i], bitmap_sz, false)` passes the
bitmap size, 0, for the parameter `entry_count`, so no element of the column is written,
whatever `EMPTY_KEY_64` and the default arguments of `initColumnarBuffer` are. -/
theorem columnar_initialisation_failing_input :
    GroupByAndAggregate minColumnarArgs = .ok minColumnarDescriptor ∧
      minColumnarDescriptor.getColOffInBytes 0 0 = .ok 96008 ∧
      truncate INT64_MAX 8 = 9223372036854775807 ∧
      (∃ s, initColumnarGroups sampleRuntime.EMPTY_KEY_64 sampleRuntime.new_buffer
          sampleRuntime.bitmap_sz_default sampleRuntime.key_or_col_default minColumnarDescriptor
          minColumnarArgs.ra_exe_unit.target_exprs [INT64_MAX] 4096 [INT64_MAX] 12001 false
          zeroedState = .ok s) ∧
      ∀ (EMPTY_KEY_64 : Int) (new_buffer : Nat → Int) (bitmap_sz_default : Int)
        (key_or_col_default : Bool) (s : InitState),
        initColumnarGroups EMPTY_KEY_64 new_buffer bitmap_sz_default key_or_col_default
            minColumnarDescriptor minColumnarArgs.ra_exe_unit.target_exprs [INT64_MAX] 4096
            [INT64_MAX] 12001 false zeroedState = .ok s →
          ∀ bin, s.memory.load (4096 + 96008 + 8 * bin) 8 = 0 := by
  refine ⟨by rfl, by rfl, by rfl, ⟨_, rfl⟩, ?_⟩
  intro EMPTY_KEY_64 new_buffer bitmap_sz_default key_or_col_default s h
  unfold initColumnarGroups at h
  rw [show allocateCountDistinctBuffers new_buffer minColumnarDescriptor
        minColumnarArgs.ra_exe_unit.target_exprs true [INT64_MAX] zeroedState.requests
      = .ok { agg_bitmap_size := [0], init_agg_vals_ := [INT64_MAX], requests := [] } from rfl,
    except_ok_bind] at h
  obtain ⟨_, -, h⟩ := except_bind_ok h
  unfold initColumnarGroups_body at h
  simp only [Bool.false_eq_true, if_false] at h
  obtain ⟨r, hr, h⟩ := except_bind_ok h
  have hkeys : ∀ a, 4096 + 96008 ≤ a → r.2.memory a = 0 := by
    intro a ha
    rw [initColumnarBuffer_frame new_buffer 8 4096 EMPTY_KEY_64 (to_uint32 12001)
      bitmap_sz_default key_or_col_default _ r a (by decide)
      (Or.inr (by rw [show to_uint32 12001 = 12001 from rfl]; omega)) hr]
    rfl
  rw [show (wrap32 (minColumnarDescriptor.agg_col_widths.length : Int)).toNat = 1 from rfl] at h
  unfold initColumnarGroups_loop at h
  obtain ⟨r', hr', h⟩ := except_bind_ok h
  unfold initColumnarGroups_loop at h
  rw [← except_pure_ok h]
  unfold initColumnarGroups_col at hr'
  rw [if_pos (by decide)] at hr'
  simp only [] at hr'
  rw [if_pos (by decide), if_pos (by decide)] at hr'
  rw [show to_uint32 (([0] : List Int).getD 0 0) = 0 from rfl, initColumnarBuffer_none,
    except_ok_bind] at hr'
  rw [← except_pure_ok hr']
  intro bin
  exact Memory.load_zero _ _ _ (fun a h1 _ => hkeys a (by omega))

/-- C23 (row-major initialisation) fails on the code.  For
`SELECT 'abc', COUNT(DISTINCT x) ... GROUP BY y`, the string not dictionary encoded, the
row has three 8-byte slots: 0 and 1 for the string, 2 for the count.  `initGroups` runs on
a zeroed keyed row-major buffer of two bins at address 4096 with `init_vals` all 0.
Afterwards slot 1 of bin 0, at the offset 16 that `getColOffInBytes(0, 1)` returns, is
not a `COUNT(DISTINCT)` slot and holds 1048576, the address of the first bitmap, instead
of `init_vals[1]`, while slot 2 holds 0: `allocateCountDistinctBuffers` records the
bitmap under index 1.  The key slots of both bins hold `EMPTY_KEY_64`. -/
theorem row_major_initialisation_failing_input :
    GroupByAndAggregate distinctInRangeArgs = .ok distinctInRangeDescriptor ∧
      get_agg_count (distinctInRangeArgs.ra_exe_unit.target_exprs.take 1) = .ok 2 ∧
      distinctInRangeDescriptor.getColOffInBytes 0 1 = .ok 16 ∧
      distinctInRangeDescriptor.getColOffInBytes 0 2 = .ok 24 ∧
      ([0, 0, 0] : List Int).getD 1 0 = 0 ∧
      (initGroups sampleRuntime.EMPTY_KEY_64 sampleRuntime.new_buffer distinctInRangeDescriptor
          distinctInRangeArgs.ra_exe_unit.target_exprs [0, 0, 0] 4096 [0, 0, 0] 2 false 1
          zeroedState).bind
        (fun s => do
          let empty0 ← isEmptyBin sampleRuntime.EMPTY_KEY_64 distinctInRangeDescriptor s.memory
            4096 0 0
          let empty1 ← isEmptyBin sampleRuntime.EMPTY_KEY_64 distinctInRangeDescriptor s.memory
            4096 1 0
          pure (empty0, empty1, s.memory.load (4096 + 16) 8, s.memory.load (4096 + 24) 8,
            s.requests))
        = .ok (true, true, 1048576, 0, [1000, 1000]) :=
  ⟨by rfl, by rfl, by rfl, by rfl, by rfl, by rfl⟩

/-! ## Row-major initialisation -/

theorem Memory.load_store_aux (m : Memory) (addr width value : Nat) (j k : Nat)
    (hk : k + j = width) :
    (m.store addr width value).load (addr + k) j = value / 256 ^ k % 256 ^ j := by
  induction j generalizing k with
  | zero => simp [Memory.load, Nat.mod_one]
  | succ j ih =>
    unfold Memory.load
    rw [Memory.store_inside _ _ _ _ _ (by omega) (by omega), Nat.add_sub_cancel_left,
      Nat.add_assoc, ih (k + 1) (by omega), Nat.pow_succ 256 j, Nat.mul_comm (256 ^ j) 256,
      Nat.mod_mul, Nat.pow_succ, Nat.div_div_eq_div_mul]

/-- Reading back what was stored. -/
theorem Memory.load_store (m : Memory) (addr width value : Nat) :
    (m.store addr width value).load addr width = value % 256 ^ width := by
  have := Memory.load_store_aux m addr width value width 0 (by omega)
  simpa using this

theorem truncate_lt (value : Int) (width : Nat) : truncate value width < 256 ^ width := by
  unfold truncate
  have hpos : (0 : Int) < 256 ^ width := by positivity
  have h1 := Int.emod_nonneg value hpos.ne'
  have h2 := Int.emod_lt_of_pos value hpos
  zify
  rw [Int.toNat_of_nonneg h1]
  exact_mod_cast h2

theorem Memory.load_store_truncate (m : Memory) (addr width : Nat) (value : Int) :
    (m.store addr width (truncate value width)).load addr width = truncate value width := by
  rw [Memory.load_store, Nat.mod_eq_of_lt (truncate_lt value width)]

theorem wrap64_truncate (value : Int) (h0 : INT64_MIN ≤ value) (h1 : value ≤ INT64_MAX) :
    wrap64 (truncate value 8) = value := by
  unfold truncate wrap64
  unfold INT64_MIN at h0
  unfold INT64_MAX at h1
  have hpos : (0 : Int) < 256 ^ 8 := by norm_num
  rw [Int.toNat_of_nonneg (Int.emod_nonneg value hpos.ne')]
  norm_num
  omega

theorem colsBefore_bound (q : QueryMemoryDescriptor) (c : Nat)
    (hwidths : ∀ w ∈ q.agg_col_widths,
      w.compact = 1 ∨ w.compact = 2 ∨ w.compact = 4 ∨ w.compact = 8)
    (hc : c ≤ q.agg_col_widths.length) :
    (q.colsBefore c + 7) / 8 * 8 ≤ 8 * c := by
  have h := foldl_colsStep_bound (q.agg_col_widths.take c) 0 0
    (fun w hw => hwidths w (List.mem_of_mem_take hw)) (by omega)
  rw [List.length_take, Nat.min_eq_left hc, Nat.zero_add] at h
  exact h

theorem width_cases (q : QueryMemoryDescriptor) (c : Nat)
    (hwidths : ∀ w ∈ q.agg_col_widths,
      w.compact = 1 ∨ w.compact = 2 ∨ w.compact = 4 ∨ w.compact = 8)
    (hc : c < q.agg_col_widths.length) :
    (q.agg_col_widths.getD c default).compact = 1 ∨ (q.agg_col_widths.getD c default).compact = 2 ∨
      (q.agg_col_widths.getD c default).compact = 4 ∨
      (q.agg_col_widths.getD c default).compact = 8 := by
  apply hwidths
  rw [List.getD_eq_getElem _ _ hc]
  exact List.getElem_mem hc

/-- The columns of a row follow one another: the slot of column `c` starts at or after
the bytes of the columns before it, and the bytes before column `c + 1` end with it. -/
theorem colsBefore_succ (q : QueryMemoryDescriptor) (c : Nat)
    (hwidths : ∀ w ∈ q.agg_col_widths,
      w.compact = 1 ∨ w.compact = 2 ∨ w.compact = 4 ∨ w.compact = 8)
    (hvec : 8 * (q.group_col_widths.length + q.agg_col_widths.length) + 8 ≤ SIZE_T_RANGE)
    (hc : c < q.agg_col_widths.length) :
    q.colsBefore c ≤ q.slotOff c ∧
      q.colsBefore (c + 1) = q.slotOff c + (q.agg_col_widths.getD c default).compact ∧
      q.slotOff c + (q.agg_col_widths.getD c default).compact ≤ 8 * (c + 1) := by
  have hb := colsBefore_bound q c hwidths (by omega)
  have hw := width_cases q c hwidths hc
  have hstep : q.colsBefore (c + 1)
      = ((if (q.agg_col_widths.getD c default).compact = 8 then align_to_int64 (q.colsBefore c)
          else q.colsBefore c) + (q.agg_col_widths.getD c default).compact) % SIZE_T_RANGE := by
    unfold colsBefore
    rw [foldl_take_succ colsStep 0 q.agg_col_widths c hc default]
    rfl
  rw [hstep]
  unfold slotOff
  generalize q.colsBefore c = F at hb ⊢
  generalize (q.agg_col_widths.getD c default).compact = w at hw ⊢
  unfold align_to_int64
  unfold SIZE_T_RANGE at hvec ⊢
  rcases hw with hw | hw | hw | hw <;> subst hw <;> norm_num <;> omega

theorem colsBefore_mono (q : QueryMemoryDescriptor) (c d : Nat)
    (hwidths : ∀ w ∈ q.agg_col_widths,
      w.compact = 1 ∨ w.compact = 2 ∨ w.compact = 4 ∨ w.compact = 8)
    (hvec : 8 * (q.group_col_widths.length + q.agg_col_widths.length) + 8 ≤ SIZE_T_RANGE)
    (hcd : c ≤ d) (hd : d ≤ q.agg_col_widths.length) :
    q.colsBefore c ≤ q.colsBefore d := by
  induction d with
  | zero =>
    have : c = 0 := by omega
    subst this
    exact Nat.le_refl _
  | succ d ih =>
    by_cases hc : c = d + 1
    · subst hc
      exact Nat.le_refl _
    · have h1 := ih (by omega) (by omega)
      obtain ⟨h2, h3, -⟩ := colsBefore_succ q d hwidths hvec (by omega)
      omega

/-- The row size covers the keys and the columns. -/
theorem getRowSize_covers (q : QueryMemoryDescriptor) (base n row_size : Nat)
    (H : RowMajorKeyed q base n row_size) :
    q.group_col_widths.length * 8 + q.colsBefore q.agg_col_widths.length ≤ row_size ∧
      row_size % 8 = 0 := by
  have hb := colsBefore_bound q q.agg_col_widths.length H.hwidths (Nat.le_refl _)
  have hrs := H.hrs
  have hvec := H.hvec
  refine ⟨?_, getRowSize_mod8 q row_size hrs⟩
  simp only [getRowSize, getColsSize, H.hrow, H.hkeyed, Bool.false_eq_true, if_false,
    Bool.false_and, Except.ok.injEq] at hrs
  rw [← hrs]
  unfold colsBefore
  rw [List.take_length]
  unfold colsBefore at hb
  rw [List.take_length] at hb
  generalize List.foldl colsStep 0 q.agg_col_widths = cols at hb ⊢
  unfold align_to_int64
  unfold SIZE_T_RANGE at hvec ⊢
  omega

/-- The offset `getColOffInBytes` returns for a slot of a keyed row-major buffer. -/
theorem getColOffInBytes_row (q : QueryMemoryDescriptor) (base n row_size bin c : Nat)
    (H : RowMajorKeyed q base n row_size) (hbin : bin < n) (hc : c < q.agg_col_widths.length) :
    q.getColOffInBytes bin c
        = .ok (bin * row_size + q.group_col_widths.length * 8 + q.slotOff c) ∧
      bin * row_size + q.group_col_widths.length * 8 + q.slotOff c
          + (q.agg_col_widths.getD c default).compact
        ≤ bin * row_size + row_size ∧
      bin * row_size + row_size ≤ n * row_size := by
  obtain ⟨hcov, -⟩ := getRowSize_covers q base n row_size H
  obtain ⟨h1, h2, -⟩ := colsBefore_succ q c H.hwidths H.hvec hc
  have hmono := colsBefore_mono q (c + 1) q.agg_col_widths.length H.hwidths H.hvec (by omega)
    (Nat.le_refl _)
  have hrows : bin * row_size + row_size ≤ n * row_size := by
    have := Nat.mul_le_mul_right row_size (show bin + 1 ≤ n by omega)
    rw [Nat.add_mul, Nat.one_mul] at this
    exact this
  have hfit := H.hfit
  have hwarp : q.getWarpCount = 1 := by
    unfold getWarpCount
    rw [H.hinter]
    rfl
  refine ⟨?_, by omega, hrows⟩
  unfold getColOffInBytes
  rw [if_pos hc, H.hrow]
  simp only [Bool.false_eq_true, if_false, H.hrs, hwarp, Nat.mul_one, H.hkeyed]
  have hcol : q.getColOnlyOffInBytes c = .ok (q.slotOff c) := by
    unfold getColOnlyOffInBytes slotOff colsBefore
    rw [if_pos hc]
    split_ifs <;> rfl
  rw [hcol]
  simp only [Except.ok.injEq]
  have e1 : bin * row_size % SIZE_T_RANGE = bin * row_size := Nat.mod_eq_of_lt (by omega)
  rw [e1]
  have e2 : (bin * row_size + q.group_col_widths.length * 8) % SIZE_T_RANGE
      = bin * row_size + q.group_col_widths.length * 8 := Nat.mod_eq_of_lt (by omega)
  rw [e2]
  exact Nat.mod_eq_of_lt (by omega)

theorem initColumnPerRow_init_val_plain (new_buffer : Nat → Int) (q : QueryMemoryDescriptor)
    (init_vals bitmap_sizes : List Int) (col_idx : Nat) (requests : List Int)
    (r : Int × List Int) (hplain : bitmap_sizes.getD col_idx 0 = 0)
    (h : initColumnPerRow_init_val new_buffer q init_vals bitmap_sizes col_idx requests = .ok r) :
    r.1 = init_vals.getD col_idx 0 := by
  unfold initColumnPerRow_init_val at h
  by_cases h1 : col_idx < bitmap_sizes.length
  · rw [if_pos h1] at h
    simp only [] at h
    rw [if_pos hplain] at h
    by_cases h2 : col_idx < init_vals.length
    · rw [if_pos h2] at h
      rw [← except_pure_ok h]
    · rw [if_neg h2] at h
      cases h
  · rw [if_neg h1] at h
    cases h

theorem initColumnPerRow_write_ok (q : QueryMemoryDescriptor) (col_idx col_ptr : Nat)
    (init_val : Int) (m m' : Memory)
    (h : initColumnPerRow_write q col_idx col_ptr init_val m = .ok m') :
    m' = m.store col_ptr (q.agg_col_widths.getD col_idx default).compact
      (truncate init_val (q.agg_col_widths.getD col_idx default).compact) := by
  unfold initColumnPerRow_write at h
  simp only [] at h
  by_cases h1 : (q.agg_col_widths.getD col_idx default).compact = 1
  · rw [if_pos h1] at h
    rw [← except_pure_ok h, h1]
  · rw [if_neg h1] at h
    by_cases h2 : (q.agg_col_widths.getD col_idx default).compact = 2
    · rw [if_pos h2] at h
      rw [← except_pure_ok h, h2]
    · rw [if_neg h2] at h
      by_cases h4 : (q.agg_col_widths.getD col_idx default).compact = 4
      · rw [if_pos h4] at h
        rw [← except_pure_ok h, h4]
      · rw [if_neg h4] at h
        by_cases h8 : (q.agg_col_widths.getD col_idx default).compact = 8
        · rw [if_pos h8] at h
          rw [← except_pure_ok h, h8]
        · rw [if_neg h8] at h
          cases h

/-- The loop of `initColumnPerRow` from column `c` of the row of bin `bin`: it changes
only the bytes of that row from column `c` on, and leaves in every column `i ≥ c` that
is not marked in `bitmap_sizes` the value `init_vals[i]` in the width of the column. -/
theorem initColumnPerRow_loop_spec (new_buffer : Nat → Int) (q : QueryMemoryDescriptor)
    (base n row_size bin : Nat) (init_vals bitmap_sizes : List Int)
    (H : RowMajorKeyed q base n row_size) (hbin : bin < n)
    (remaining c col_ptr : Nat) (s s' : InitState)
    (hc : c + remaining = q.agg_col_widths.length)
    (hptr : 0 < remaining →
      col_ptr = base + (bin * row_size + q.group_col_widths.length * 8 + q.slotOff c))
    (h : initColumnPerRow_loop new_buffer q bin init_vals bitmap_sizes remaining c col_ptr s
      = .ok s') :
    (∀ a, a < base + (bin * row_size + q.group_col_widths.length * 8 + q.colsBefore c) ∨
        base + (bin * row_size + row_size) ≤ a → s'.memory a = s.memory a) ∧
      ∀ i, c ≤ i → i < q.agg_col_widths.length → bitmap_sizes.getD i 0 = 0 →
        s'.memory.load
            (base + (bin * row_size + q.group_col_widths.length * 8 + q.slotOff i))
            (q.agg_col_widths.getD i default).compact
          = truncate (init_vals.getD i 0) (q.agg_col_widths.getD i default).compact := by
  induction remaining generalizing c col_ptr s with
  | zero =>
    unfold initColumnPerRow_loop at h
    rw [← except_pure_ok h]
    exact ⟨fun _ _ => rfl, fun i h1 h2 _ => by omega⟩
  | succ rem ih =>
    have hcl : c < q.agg_col_widths.length := by omega
    unfold initColumnPerRow_loop at h
    obtain ⟨r, hr, h⟩ := except_bind_ok h
    obtain ⟨m1, hm1, h⟩ := except_bind_ok h
    obtain ⟨off, hoff, h⟩ := except_bind_ok h
    have hm1' := initColumnPerRow_write_ok q c col_ptr r.1 s.memory m1 hm1
    have hp := hptr (by omega)
    obtain ⟨hoc, hend, hrows⟩ := getColOffInBytes_row q base n row_size bin c H hbin hcl
    obtain ⟨hlo, hnext, -⟩ := colsBefore_succ q c H.hwidths H.hvec hcl
    have hfit := H.hfit
    -- the pointer of the next column
    have hptr' : 0 < rem →
        (col_ptr + off) % SIZE_T_RANGE
          = base + (bin * row_size + q.group_col_widths.length * 8 + q.slotOff (c + 1)) := by
      intro hrem
      obtain ⟨o', off', ho', hoff', heq⟩ :=
        getColOffInBytes_step q base bin c _ H.hbase (by omega) hoc
      obtain ⟨hoc', hend', -⟩ :=
        getColOffInBytes_row q base n row_size bin (c + 1) H hbin (by omega)
      rw [hoc'] at ho'
      cases ho'
      have e1 : (base + (bin * row_size + q.group_col_widths.length * 8 + q.slotOff c))
          % SIZE_T_RANGE = col_ptr := by
        rw [hp]
        exact Nat.mod_eq_of_lt (by omega)
      rw [e1] at hoff' heq
      rw [hoff] at hoff'
      cases hoff'
      rw [heq]
      exact Nat.mod_eq_of_lt (by omega)
    obtain ⟨hframe, hvals⟩ := ih (c + 1) ((col_ptr + off) % SIZE_T_RANGE)
      { memory := m1, requests := r.2 } (by omega) hptr' h
    have hmono := colsBefore_mono q (c + 1) q.agg_col_widths.length H.hwidths H.hvec (by omega)
      (Nat.le_refl _)
    obtain ⟨hcov, -⟩ := getRowSize_covers q base n row_size H
    refine ⟨fun a ha => ?_, fun i hi1 hi2 hplain => ?_⟩
    · rw [hframe a (by omega)]
      show m1 a = s.memory a
      rw [hm1', hp]
      exact Memory.store_outside _ _ _ _ _ (by omega)
    · by_cases hic : i = c
      · subst hic
        have hval := initColumnPerRow_init_val_plain new_buffer q init_vals bitmap_sizes i
          s.requests r hplain hr
        rw [Memory.load_congr s'.memory m1 _ _ (fun a h1 h2 => hframe a (by omega))]
        rw [hm1', hp, hval]
        exact Memory.load_store_truncate _ _ _ _
      · exact hvals i (by omega) hi2 hplain

/-- The key slots of one row after the inner loop of `initGroups`. -/
theorem initGroups_keys_spec (EMPTY_KEY_64 : Int) (key_qw_count buffer_ptr : Nat) (m : Memory)
    (hfit : buffer_ptr + 8 * key_qw_count < SIZE_T_RANGE) :
    (∀ a, a < buffer_ptr ∨ buffer_ptr + 8 * key_qw_count ≤ a →
        initGroups_keys EMPTY_KEY_64 key_qw_count buffer_ptr m a = m a) ∧
      ∀ k, k < key_qw_count →
        (initGroups_keys EMPTY_KEY_64 key_qw_count buffer_ptr m).load (buffer_ptr + 8 * k) 8
          = truncate EMPTY_KEY_64 8 := by
  induction key_qw_count with
  | zero => exact ⟨fun _ _ => rfl, fun k hk => by omega⟩
  | succ K ih =>
    obtain ⟨hframe, hvals⟩ := ih (by omega)
    have hstep : initGroups_keys EMPTY_KEY_64 (K + 1) buffer_ptr m
        = (initGroups_keys EMPTY_KEY_64 K buffer_ptr m).store (buffer_ptr + 8 * K) 8
            (truncate EMPTY_KEY_64 8) := by
      unfold initGroups_keys
      rw [List.range_succ, List.foldl_append, List.foldl_cons, List.foldl_nil,
        Nat.mod_eq_of_lt (by omega)]
    rw [hstep]
    refine ⟨fun a ha => ?_, fun k hk => ?_⟩
    · rw [Memory.store_outside _ _ _ _ _ (by omega)]
      exact hframe a (by omega)
    · by_cases hkK : k = K
      · subst hkK
        exact Memory.load_store_truncate _ _ _ _
      · rw [Memory.load_congr _ (initGroups_keys EMPTY_KEY_64 K buffer_ptr m) _ _
          (fun a h1 h2 => Memory.store_outside _ _ _ _ _ (by omega))]
        exact hvals k (by omega)

/-- The loop of `initGroups` over the bins from `b`, keyed branch: it changes only the
rows from `b` on, and leaves in each of them `EMPTY_KEY_64` in every key slot and
`init_vals[i]` in every column `i` that is not marked in `agg_bitmap_size`. -/
theorem initGroups_bins_spec (EMPTY_KEY_64 : Int) (new_buffer : Nat → Int)
    (q : QueryMemoryDescriptor) (base n row_size : Nat) (init_vals agg_bitmap_size : List Int)
    (col_base_off : Nat) (H : RowMajorKeyed q base n row_size)
    (hcbo : 0 < q.agg_col_widths.length →
      col_base_off = q.group_col_widths.length * 8 + q.slotOff 0)
    (remaining b buffer_ptr : Nat) (s : InitState) (r : Nat × InitState)
    (hb : b + remaining = n) (hptr : 0 < remaining → buffer_ptr = base + b * row_size)
    (h : initGroups_bins EMPTY_KEY_64 new_buffer q init_vals agg_bitmap_size false
      q.group_col_widths.length row_size col_base_off remaining b buffer_ptr s = .ok r) :
    (∀ a, a < base + b * row_size ∨ base + n * row_size ≤ a → r.2.memory a = s.memory a) ∧
      ∀ bin, b ≤ bin → bin < n →
        (∀ k, k < q.group_col_widths.length →
          r.2.memory.load (base + (bin * row_size + 8 * k)) 8 = truncate EMPTY_KEY_64 8) ∧
        ∀ i, i < q.agg_col_widths.length → agg_bitmap_size.getD i 0 = 0 →
          r.2.memory.load
              (base + (bin * row_size + q.group_col_widths.length * 8 + q.slotOff i))
              (q.agg_col_widths.getD i default).compact
            = truncate (init_vals.getD i 0) (q.agg_col_widths.getD i default).compact := by
  induction remaining generalizing b buffer_ptr s with
  | zero =>
    unfold initGroups_bins at h
    rw [← except_pure_ok h]
    exact ⟨fun _ _ => rfl, fun bin h1 h2 => by omega⟩
  | succ rem ih =>
    have hbn : b < n := by omega
    unfold initGroups_bins at h
    simp only [Bool.false_eq_true, if_false] at h
    obtain ⟨s1, hs1, h⟩ := except_bind_ok h
    have hp := hptr (by omega)
    have hfit := H.hfit
    obtain ⟨hcov, hrs8⟩ := getRowSize_covers q base n row_size H
    have hrows : b * row_size + row_size ≤ n * row_size := by
      have := Nat.mul_le_mul_right row_size (show b + 1 ≤ n by omega)
      rw [Nat.add_mul, Nat.one_mul] at this
      exact this
    have hsucc : (b + 1) * row_size = b * row_size + row_size := by
      rw [Nat.add_mul, Nat.one_mul]
    -- the keys of row b
    obtain ⟨hkframe, hkvals⟩ := initGroups_keys_spec EMPTY_KEY_64 q.group_col_widths.length
      buffer_ptr s.memory (by rw [hp]; omega)
    -- the columns of row b
    have hzero : q.colsBefore 0 = 0 := rfl
    obtain ⟨hcframe, hcvals⟩ := initColumnPerRow_loop_spec new_buffer q base n row_size b
      init_vals agg_bitmap_size H hbn q.agg_col_widths.length 0
      ((buffer_ptr + col_base_off) % SIZE_T_RANGE) _ s1 (by omega)
      (by
        intro hpos
        obtain ⟨-, hend, -⟩ := getColOffInBytes_row q base n row_size b 0 H hbn hpos
        rw [hp, hcbo hpos, Nat.mod_eq_of_lt (by omega)]
        omega)
      hs1
    rw [hzero] at hcframe
    -- the rows after b
    obtain ⟨hframe, hvals⟩ := ih (b + 1) ((buffer_ptr + row_size) % SIZE_T_RANGE) s1 (by omega)
      (by
        intro _
        rw [hp, hsucc, Nat.mod_eq_of_lt (by omega)]
        omega)
      h
    rw [hsucc] at hframe
    refine ⟨fun a ha => ?_, fun bin hb1 hb2 => ?_⟩
    · rw [hframe a (by omega), hcframe a (by omega)]
      exact hkframe a (by rw [hp]; omega)
    · by_cases hbb : bin = b
      · rw [hbb]
        refine ⟨fun k hk => ?_, fun i hi hplain => ?_⟩
        · have h1 : r.2.memory.load (base + (b * row_size + 8 * k)) 8
              = s1.memory.load (base + (b * row_size + 8 * k)) 8 :=
            Memory.load_congr r.2.memory s1.memory (base + (b * row_size + 8 * k)) 8
              (fun a h1 h2 => hframe a (by omega))
          have h2 : s1.memory.load (base + (b * row_size + 8 * k)) 8
              = (initGroups_keys EMPTY_KEY_64 q.group_col_widths.length buffer_ptr
                  s.memory).load (base + (b * row_size + 8 * k)) 8 :=
            Memory.load_congr s1.memory _ (base + (b * row_size + 8 * k)) 8
              (fun a h1 h2 => hcframe a (by omega))
          have h3 := hkvals k hk
          have haddr : buffer_ptr + 8 * k = base + (b * row_size + 8 * k) := by
            rw [hp]
            omega
          rw [haddr] at h3
          rw [h1, h2, h3]
        · obtain ⟨-, hend, -⟩ := getColOffInBytes_row q base n row_size b i H hbn hi
          have h1 : r.2.memory.load
                (base + (b * row_size + q.group_col_widths.length * 8 + q.slotOff i))
                (q.agg_col_widths.getD i default).compact
              = s1.memory.load
                (base + (b * row_size + q.group_col_widths.length * 8 + q.slotOff i))
                (q.agg_col_widths.getD i default).compact :=
            Memory.load_congr r.2.memory s1.memory _ _ (fun a h1 h2 => hframe a (by omega))
          rw [h1]
          exact hcvals i (Nat.zero_le _) hi hplain
      · exact hvals bin (by omega) hb2

theorem getKeyOffInBytes_row (q : QueryMemoryDescriptor) (base n row_size bin key_idx : Nat)
    (H : RowMajorKeyed q base n row_size) (hbin : bin < n)
    (hk : key_idx < q.group_col_widths.length) :
    q.getKeyOffInBytes bin key_idx = .ok (bin * row_size + key_idx * 8) := by
  obtain ⟨hcov, hrs8⟩ := getRowSize_covers q base n row_size H
  have hfit := H.hfit
  have hrows : bin * row_size + row_size ≤ n * row_size := by
    have := Nat.mul_le_mul_right row_size (show bin + 1 ≤ n by omega)
    rw [Nat.add_mul, Nat.one_mul] at this
    exact this
  have h8 : bin * row_size % 8 = 0 :=
    Nat.mod_eq_zero_of_dvd (Dvd.dvd.mul_left (Nat.dvd_of_mod_eq_zero hrs8) _)
  have e1 : bin * row_size % SIZE_T_RANGE = bin * row_size := Nat.mod_eq_of_lt (by omega)
  have e2 : key_idx * 8 % SIZE_T_RANGE = key_idx * 8 := Nat.mod_eq_of_lt (by omega)
  have e3 : (bin * row_size + key_idx * 8) % SIZE_T_RANGE = bin * row_size + key_idx * 8 :=
    Nat.mod_eq_of_lt (by omega)
  unfold getKeyOffInBytes
  rw [H.hkeyed, H.hrow, H.hrs]
  simp only [Bool.not_false, CHECK, if_true, Bool.false_eq_true, if_false, hk, decide_True,
    except_ok_bind, e1, e2, e3, h8, beq_self_eq_true]
  rfl

/-- What `initGroups` leaves in a keyed row-major buffer of `n` bins, relative to the
bitmap sizes `allocateCountDistinctBuffers` returns: when it returns, every key slot of
every bin holds `EMPTY_KEY_64`, so `isEmptyBin` is true, and every slot `i` whose entry of
`agg_bitmap_size` is 0, at the offset `getColOffInBytes(bin, i)`, holds `init_vals[i]`
truncated to the compact width of the slot. -/
theorem initGroups_initialises (EMPTY_KEY_64 : Int) (new_buffer : Nat → Int)
    (q : QueryMemoryDescriptor) (target_exprs_ : List TargetExpr) (init_agg_vals_ : List Int)
    (base n row_size : Nat) (init_vals : List Int) (warp_size : Nat) (s s' : InitState)
    (bufs : CountDistinctBuffers)
    (H : RowMajorKeyed q base n row_size)
    (hkey : INT64_MIN ≤ EMPTY_KEY_64 ∧ EMPTY_KEY_64 ≤ INT64_MAX)
    (hn : n < 2147483648)
    (hbufs : allocateCountDistinctBuffers new_buffer q target_exprs_ true init_agg_vals_
      s.requests = .ok bufs)
    (h : initGroups EMPTY_KEY_64 new_buffer q target_exprs_ init_agg_vals_ base init_vals n
      false warp_size s = .ok s') :
    ∀ bin, bin < n →
      (∀ key_idx, key_idx < q.group_col_widths.length →
        isEmptyBin EMPTY_KEY_64 q s'.memory base bin key_idx = .ok true) ∧
      ∀ i, i < q.agg_col_widths.length → bufs.agg_bitmap_size.getD i 0 = 0 →
        ∃ off, q.getColOffInBytes bin i = .ok off ∧
          s'.memory.load (base + off) (q.agg_col_widths.getD i default).compact
            = truncate (init_vals.getD i 0) (q.agg_col_widths.getD i default).compact := by
  intro bin hbin
  unfold initGroups at h
  simp only [] at h
  rw [H.hrs, except_ok_bind] at h
  obtain ⟨col_base_off, hcbo, h⟩ := except_bind_ok h
  rw [hbufs, except_ok_bind] at h
  simp only [Bool.false_eq_true, if_false] at h
  obtain ⟨r, hr, h⟩ := except_bind_ok h
  have hs' := except_pure_ok h
  have hsize : to_size_t (n : Int) = n := by
    unfold to_size_t
    omega
  rw [hsize] at hr
  have hcbo' : 0 < q.agg_col_widths.length →
      col_base_off = q.group_col_widths.length * 8 + q.slotOff 0 := by
    intro hpos
    obtain ⟨h0, -, -⟩ := getColOffInBytes_row q base n row_size 0 0 H (by omega) hpos
    rw [h0] at hcbo
    have := Except.ok.inj hcbo
    omega
  obtain ⟨-, hvals⟩ := initGroups_bins_spec EMPTY_KEY_64 new_buffer q base n row_size init_vals
    bufs.agg_bitmap_size col_base_off H hcbo' n 0 base _ r (by omega)
    (fun _ => by omega) hr
  obtain ⟨hkeys, hcols⟩ := hvals bin (Nat.zero_le _) hbin
  rw [← hs']
  obtain ⟨hcov, hrs8⟩ := getRowSize_covers q base n row_size H
  have hfit := H.hfit
  have hrows : bin * row_size + row_size ≤ n * row_size := by
    have := Nat.mul_le_mul_right row_size (show bin + 1 ≤ n by omega)
    rw [Nat.add_mul, Nat.one_mul] at this
    exact this
  refine ⟨fun key_idx hk => ?_, fun i hi hplain => ?_⟩
  · unfold isEmptyBin
    rw [getKeyOffInBytes_row q base n row_size bin key_idx H hbin hk, except_ok_bind]
    have h8 : bin * row_size % 8 = 0 :=
      Nat.mod_eq_zero_of_dvd (Dvd.dvd.mul_left (Nat.dvd_of_mod_eq_zero hrs8) _)
    have haddr : (base + 8 * ((bin * row_size + key_idx * 8) / 8)) % SIZE_T_RANGE
        = base + (bin * row_size + 8 * key_idx) := by
      rw [Nat.mod_eq_of_lt (by omega)]
      omega
    simp only [haddr]
    unfold Memory.load_int64
    rw [hkeys key_idx hk, wrap64_truncate EMPTY_KEY_64 hkey.1 hkey.2]
    simp only [decide_True]
    rfl
  · obtain ⟨hoff, -, -⟩ := getColOffInBytes_row q base n row_size bin i H hbin hi
    exact ⟨_, hoff, hcols i hi hplain⟩

/-- The buffer of `distinctInRangeDescriptor` at address 4096 meets the hypotheses of
`initGroups_initialises`: two rows of 32 bytes. -/
theorem distinctInRange_rowMajorKeyed : RowMajorKeyed distinctInRangeDescriptor 4096 2 32 :=
  { hrow := rfl
    hkeyed := rfl
    hinter := rfl
    hwidths := by decide
    hbase := by decide
    hrs := by rfl
    hvec := by decide
    hfit := by decide }

/-- On the run of `row_major_initialisation_failing_input` the slots 0 and 2, which
`allocateCountDistinctBuffers` does not mark, hold their initial values in both bins, and
both bins are empty. -/
theorem initGroups_initialises_sample :
    ∃ s', initGroups sampleRuntime.EMPTY_KEY_64 sampleRuntime.new_buffer
        distinctInRangeDescriptor distinctInRangeArgs.ra_exe_unit.target_exprs [0, 0, 0] 4096
        [0, 0, 0] 2 false 1 zeroedState = .ok s' ∧
      ∀ bin, bin < 2 →
        (∀ key_idx, key_idx < distinctInRangeDescriptor.group_col_widths.length →
          isEmptyBin sampleRuntime.EMPTY_KEY_64 distinctInRangeDescriptor s'.memory 4096 bin
            key_idx = .ok true) ∧
        ∀ i, i < distinctInRangeDescriptor.agg_col_widths.length →
          ([0, 1000, 0] : List Int).getD i 0 = 0 →
          ∃ off, distinctInRangeDescriptor.getColOffInBytes bin i = .ok off ∧
            s'.memory.load (4096 + off)
                (distinctInRangeDescriptor.agg_col_widths.getD i default).compact
              = truncate (([0, 0, 0] : List Int).getD i 0)
                  (distinctInRangeDescriptor.agg_col_widths.getD i default).compact := by
  obtain ⟨s', h⟩ : ∃ s', initGroups sampleRuntime.EMPTY_KEY_64 sampleRuntime.new_buffer
      distinctInRangeDescriptor distinctInRangeArgs.ra_exe_unit.target_exprs [0, 0, 0] 4096
      [0, 0, 0] 2 false 1 zeroedState = .ok s' := ⟨_, rfl⟩
  exact ⟨s', h, initGroups_initialises sampleRuntime.EMPTY_KEY_64 sampleRuntime.new_buffer
    distinctInRangeDescriptor distinctInRangeArgs.ra_exe_unit.target_exprs [0, 0, 0] 4096 2 32
    [0, 0, 0] 1 zeroedState s'
    { agg_bitmap_size := [0, 1000, 0], init_agg_vals_ := [0, 0, 0], requests := [] }
    distinctInRange_rowMajorKeyed (by decide) (by decide) (by rfl) h⟩

/-! ## The calls the constructor makes -/

/-- For `distinctInRangeContextArgs` the constructor initialises its template, 64 zeroed
bytes, with the call of `initGroups` that `row_major_initialisation_failing_input`
evaluates. -/
theorem distinctInRangeContext_template :
    QueryExecutionContext_template sampleRuntime distinctInRangeContextArgs zeroedState
      = initGroups sampleRuntime.EMPTY_KEY_64 sampleRuntime.new_buffer distinctInRangeDescriptor
          distinctInRangeArgs.ra_exe_unit.target_exprs [0, 0, 0] 4096 [0, 0, 0] 2 false 1
          { zeroedState with memory := zeroedState.memory.zero_fill 4096 64 } := by
  unfold QueryExecutionContext_template
  rw [show distinctInRangeContextArgs.query_mem_desc.getBufferSizeQuad
      distinctInRangeContextArgs.device_type = .ok 8 from rfl, except_ok_bind]
  simp only []
  rw [show distinctInRangeContextArgs.query_mem_desc.lazyInitGroups
      distinctInRangeContextArgs.device_type = .ok false from rfl, except_ok_bind]
  rw [if_neg (by decide), if_neg (by decide)]
  rfl

/-- For `minColumnarContextArgs` the constructor initialises its template, 192016 zeroed
bytes, with the call of `initColumnarGroups` that `columnar_initialisation_failing_input`
evaluates. -/
theorem minColumnarContext_template :
    QueryExecutionContext_template sampleRuntime minColumnarContextArgs zeroedState
      = initColumnarGroups sampleRuntime.EMPTY_KEY_64 sampleRuntime.new_buffer
          sampleRuntime.bitmap_sz_default sampleRuntime.key_or_col_default minColumnarDescriptor
          minColumnarArgs.ra_exe_unit.target_exprs [INT64_MAX] 4096 [INT64_MAX] 12001 false
          { zeroedState with memory := zeroedState.memory.zero_fill 4096 192016 } := by
  unfold QueryExecutionContext_template
  rw [show minColumnarContextArgs.query_mem_desc.getBufferSizeQuad
      minColumnarContextArgs.device_type = .ok 24002 from rfl, except_ok_bind]
  simp only []
  rw [show minColumnarContextArgs.query_mem_desc.lazyInitGroups
      minColumnarContextArgs.device_type = .ok false from rfl, except_ok_bind]
  rw [if_neg (by decide), if_pos (by decide)]
  rfl

set_option maxHeartbeats 4000000 in
/-- The whole construction for `distinctInRangeContextArgs`: one buffer, at address
16777216, whose slot 1 of bin 0 holds the address of the first bitmap and whose slot 2,
the slot of the `COUNT(DISTINCT)`, holds 0. -/
theorem distinctInRangeContext_run :
    (QueryExecutionContext.new sampleRuntime distinctInRangeContextArgs zeroedState).map
        (fun c => (c.num_buffers_, c.group_by_buffers_, c.state.memory.load (16777216 + 16) 8,
          c.state.memory.load (16777216 + 24) 8, c.state.requests))
      = .ok (1, [some 16777216], 1048576, 0, [1000, 1000]) := by
  rfl

/-! ## Initialisation of the small buffer -/

/-- The keyed branch of `initGroups`, when it returns: the bitmap sizes and the offset of
the first column it computed, and the run of the loop over the bins that gave the
result. -/
theorem initGroups_keyed_ok (EMPTY_KEY_64 : Int) (new_buffer : Nat → Int)
    (q : QueryMemoryDescriptor) (target_exprs_ : List TargetExpr) (init_agg_vals_ : List Int)
    (base : Nat) (init_vals : List Int) (count : Int) (warp_size : Nat) (s s' : InitState)
    (h : initGroups EMPTY_KEY_64 new_buffer q target_exprs_ init_agg_vals_ base init_vals count
      false warp_size s = .ok s') :
    ∃ (row_size col_base_off : Nat) (bufs : CountDistinctBuffers) (r : Nat × InitState),
      q.getRowSize = .ok row_size ∧
      q.getColOffInBytes 0 0 = .ok col_base_off ∧
      initGroups_bins EMPTY_KEY_64 new_buffer q init_vals bufs.agg_bitmap_size false
        q.group_col_widths.length row_size col_base_off (to_size_t count) 0 base
        { memory := s.memory, requests := bufs.requests } = .ok r ∧
      s' = r.2 := by
  unfold initGroups at h
  simp only [] at h
  obtain ⟨row_size, hrs, h⟩ := except_bind_ok h
  obtain ⟨col_base_off, hcbo, h⟩ := except_bind_ok h
  obtain ⟨bufs, -, h⟩ := except_bind_ok h
  simp only [Bool.false_eq_true, if_false] at h
  obtain ⟨r, hr, h⟩ := except_bind_ok h
  exact ⟨row_size, col_base_off, bufs, r, hrs, hcbo, hr, (except_pure_ok h).symm⟩

/-- C29 (small-buffer initialisation fits), as the code has it.  For every keyed
row-major descriptor with compact widths in `{1, 2, 4, 8}`, `getRowSize()` is at most
`8 * (group_col_widths.size() + agg_col_widths.size())`.  Hence, when `entry_count_small`
is below `2 ^ 31`, so that it passes unchanged through the `int32_t` parameter of
`initGroups`, and the small-buffer template, `8 * (group_col_widths.size() +
agg_col_widths.size()) * entry_count_small` bytes at an 8-aligned address, lies within
the address space, the call `initGroups(template, init_vals, entry_count_small, false, 1)`
of the constructor changes no byte outside the `getSmallBufferSizeBytes()` bytes of the
template: the `entry_count_small` rows it writes do not extend past them. -/
theorem small_buffer_initialisation_fits (q : QueryMemoryDescriptor)
    (hrow : q.output_columnar = false) (hkeyed : q.keyless_hash = false)
    (hwidths : ∀ w ∈ q.agg_col_widths,
      w.compact = 1 ∨ w.compact = 2 ∨ w.compact = 4 ∨ w.compact = 8) :
    ∃ row_size, q.getRowSize = .ok row_size ∧
      row_size ≤ 8 * (q.group_col_widths.length + q.agg_col_widths.length) ∧
      ∀ (EMPTY_KEY_64 : Int) (new_buffer : Nat → Int) (target_exprs_ : List TargetExpr)
        (init_agg_vals_ : List Int) (base : Nat) (init_vals : List Int) (s s' : InitState),
        (q.interleaved_bins_on_gpu = true → q.keyless_hash = true) →
        base % 8 = 0 →
        q.entry_count_small < 2147483648 →
        base + (q.group_col_widths.length + q.agg_col_widths.length) * q.entry_count_small * 8
          < SIZE_T_RANGE →
        initGroups EMPTY_KEY_64 new_buffer q target_exprs_ init_agg_vals_ base init_vals
          (wrap32 q.entry_count_small) false 1 s = .ok s' →
        ∃ small_bytes, q.getSmallBufferSizeBytes = .ok small_bytes ∧
          q.entry_count_small * row_size ≤ small_bytes ∧
          ∀ a, a < base ∨ base + small_bytes ≤ a → s'.memory a = s.memory a := by
  obtain ⟨row_size, hrs, hle, hsmall⟩ := getRowSize_small_buffer q hrow hkeyed hwidths
  refine ⟨row_size, hrs, hle, ?_⟩
  intro EMPTY_KEY_64 new_buffer target_exprs_ init_agg_vals_ base init_vals s s' hinv hbase
    hcount hfit h
  obtain ⟨small_bytes, hsb, hrows⟩ := hsmall (by omega)
  refine ⟨small_bytes, hsb, hrows, ?_⟩
  have hsbv : small_bytes
      = (q.group_col_widths.length + q.agg_col_widths.length) * q.entry_count_small * 8 := by
    rw [getSmallBufferSizeBytes_eq q (by simp [hkeyed])] at hsb
    have e1 : (q.group_col_widths.length + q.agg_col_widths.length) * q.entry_count_small
        % SIZE_T_RANGE
        = (q.group_col_widths.length + q.agg_col_widths.length) * q.entry_count_small :=
      Nat.mod_eq_of_lt (by omega)
    rw [e1, Nat.mod_eq_of_lt (by omega)] at hsb
    exact (Except.ok.inj hsb).symm
  obtain ⟨row_size', col_base_off, bufs, r, hrs', hcbo, hr, hs'⟩ :=
    initGroups_keyed_ok EMPTY_KEY_64 new_buffer q target_exprs_ init_agg_vals_ base init_vals _ 1
      s s' h
  rw [hrs] at hrs'
  cases hrs'
  have hsize : to_size_t (wrap32 (q.entry_count_small : Int)) = q.entry_count_small := by
    rw [wrap32_of_bounds (Int.natCast_nonneg _) (by exact_mod_cast hcount)]
    have := to_size_t_of_nonneg (q.entry_count_small : Int) (Int.natCast_nonneg _)
      (by unfold INT64_MAX; omega)
    exact_mod_cast this
  rw [hsize] at hr
  rw [hs']
  by_cases hzero : q.entry_count_small = 0
  · rw [hzero] at hr
    unfold initGroups_bins at hr
    rw [← except_pure_ok hr]
    intro a _
    rfl
  · have hinter : q.interleaved_bins_on_gpu = false := by
      cases hi : q.interleaved_bins_on_gpu with
      | false => rfl
      | true =>
        rw [hinv hi] at hkeyed
        cases hkeyed
    have hmul : (q.group_col_widths.length + q.agg_col_widths.length) * 8
        ≤ (q.group_col_widths.length + q.agg_col_widths.length) * q.entry_count_small * 8 := by
      apply Nat.mul_le_mul_right
      exact Nat.le_mul_of_pos_right _ (by omega)
    have H : RowMajorKeyed q base q.entry_count_small row_size :=
      { hrow := hrow
        hkeyed := hkeyed
        hinter := hinter
        hwidths := hwidths
        hbase := hbase
        hrs := hrs
        hvec := by
          unfold SIZE_T_RANGE at hfit ⊢
          omega
        hfit := by omega }
    have hcbo' : 0 < q.agg_col_widths.length →
        col_base_off = q.group_col_widths.length * 8 + q.slotOff 0 := by
      intro hpos
      obtain ⟨h0, -, -⟩ := getColOffInBytes_row q base q.entry_count_small row_size 0 0 H
        (by omega) hpos
      rw [h0] at hcbo
      have := Except.ok.inj hcbo
      omega
    obtain ⟨hframe, -⟩ := initGroups_bins_spec EMPTY_KEY_64 new_buffer q base
      q.entry_count_small row_size init_vals bufs.agg_bitmap_size col_base_off H hcbo'
      q.entry_count_small 0 base _ r (by omega) (fun _ => by omega) hr
    intro a ha
    exact hframe a (by omega)

/-- Witness for C29: the baseline table of `smallLimitDescriptor`, built for the query
with `LIMIT 4`, with rows of 16 bytes and a small buffer of 4 entries, 64 bytes at
address 528384. -/
theorem small_buffer_initialisation_fits_witness :
    GroupByAndAggregate smallLimitArgs = .ok smallLimitDescriptor ∧
      smallLimitDescriptor.entry_count_small = 4 ∧
      ∃ row_size, smallLimitDescriptor.getRowSize = .ok row_size ∧
        row_size ≤ 8 * (smallLimitDescriptor.group_col_widths.length
          + smallLimitDescriptor.agg_col_widths.length) ∧
        ∃ s', initGroups sampleRuntime.EMPTY_KEY_64 sampleRuntime.new_buffer
            smallLimitDescriptor smallLimitArgs.ra_exe_unit.target_exprs [0] 528384 [0]
            (wrap32 smallLimitDescriptor.entry_count_small) false 1 zeroedState = .ok s' ∧
          ∃ small_bytes, smallLimitDescriptor.getSmallBufferSizeBytes = .ok small_bytes ∧
            smallLimitDescriptor.entry_count_small * row_size ≤ small_bytes ∧
            ∀ a, a < 528384 ∨ 528384 + small_bytes ≤ a →
              s'.memory a = zeroedState.memory a := by
  obtain ⟨row_size, hrs, hle, hall⟩ :=
    small_buffer_initialisation_fits smallLimitDescriptor (by rfl) (by rfl) (by decide)
  obtain ⟨s', h⟩ : ∃ s', initGroups sampleRuntime.EMPTY_KEY_64 sampleRuntime.new_buffer
      smallLimitDescriptor smallLimitArgs.ra_exe_unit.target_exprs [0] 528384 [0]
      (wrap32 smallLimitDescriptor.entry_count_small) false 1 zeroedState = .ok s' :=
    ⟨_, rfl⟩
  exact ⟨by rfl, rfl, row_size, hrs, hle, s', h,
    hall sampleRuntime.EMPTY_KEY_64 sampleRuntime.new_buffer
      smallLimitArgs.ra_exe_unit.target_exprs [0] 528384 [0] zeroedState s' (by decide)
      (by decide) (by decide) (by decide) h⟩

theorem ones_byte (d : Nat) (hd : d < 8) : truncate (-1) 8 / 256 ^ d % 256 = 255 := by
  rw [show truncate (-1) 8 = 18446744073709551615 from rfl]
  interval_cases d <;> rfl

theorem Memory.load_ones (m : Memory) (addr : Nat) (h : ∀ j, j < 8 → m (addr + j) = 255) :
    m.load addr 8 = 18446744073709551615 := by
  have h0 := h 0 (by omega)
  have h1 := h 1 (by omega)
  have h2 := h 2 (by omega)
  have h3 := h 3 (by omega)
  have h4 := h 4 (by omega)
  have h5 := h 5 (by omega)
  have h6 := h 6 (by omega)
  have h7 := h 7 (by omega)
  rw [Nat.add_zero] at h0
  simp only [Memory.load, Nat.add_assoc, Nat.reduceAdd, h0, h1, h2, h3, h4, h5, h6, h7]

/-- One row of the small buffer of `wideLimitDescriptor`: the column loop writes the
initial value of the single target. -/
theorem wideLimit_row (new_buffer : Nat → Int) (row_ptr bin : Nat) (s : InitState) :
    initColumnPerRow new_buffer wideLimitDescriptor row_ptr bin [0] [0] s
      = .ok { memory := s.memory.store row_ptr 8 (truncate 0 8), requests := s.requests } := by
  rfl

/-- The loop of `initGroups` over the rows of the small buffer of `wideLimitDescriptor`,
from a 16-aligned address: it returns, it keeps the eight bytes at address 34360266752
when they hold `EMPTY_KEY_64`, and they hold it afterwards when one of the rows starts
at that address. -/
theorem wideLimit_bins (new_buffer : Nat → Int) (remaining b buffer_ptr : Nat) (s : InitState)
    (hal : buffer_ptr % 16 = 0) (hlt : buffer_ptr < SIZE_T_RANGE) :
    ∃ r, initGroups_bins (-1) new_buffer wideLimitDescriptor [0] [0] false
        wideLimitDescriptor.group_col_widths.length 16 8 remaining b buffer_ptr s = .ok r ∧
      ((∀ j, j < 8 → s.memory (34360266752 + j) = 255) →
        ∀ j, j < 8 → r.2.memory (34360266752 + j) = 255) ∧
      ((∃ t, t < remaining ∧ (buffer_ptr + 16 * t) % SIZE_T_RANGE = 34360266752) →
        ∀ j, j < 8 → r.2.memory (34360266752 + j) = 255) := by
  induction remaining generalizing b buffer_ptr s with
  | zero =>
    refine ⟨(buffer_ptr, s), rfl, fun h => h, ?_⟩
    rintro ⟨t, ht, -⟩
    omega
  | succ rem ih =>
    have hnext : (buffer_ptr + 16) % SIZE_T_RANGE % 16 = 0 := by
      unfold SIZE_T_RANGE at hlt ⊢
      omega
    have hnlt : (buffer_ptr + 16) % SIZE_T_RANGE < SIZE_T_RANGE := Nat.mod_lt _ (by decide)
    have hrow : (buffer_ptr + 8) % SIZE_T_RANGE = buffer_ptr + 8 := by
      unfold SIZE_T_RANGE at hlt ⊢
      omega
    have hkey : (buffer_ptr + 8 * 0) % SIZE_T_RANGE = buffer_ptr := by
      rw [Nat.mul_zero, Nat.add_zero]
      exact Nat.mod_eq_of_lt hlt
    have hkeys : initGroups_keys (-1) wideLimitDescriptor.group_col_widths.length buffer_ptr
        s.memory = s.memory.store buffer_ptr 8 (truncate (-1) 8) := by
      show s.memory.store ((buffer_ptr + 8 * 0) % SIZE_T_RANGE) 8 (truncate (-1) 8) = _
      rw [hkey]
    obtain ⟨r, hr, hkeep, hhit⟩ := ih (b + 1) ((buffer_ptr + 16) % SIZE_T_RANGE)
      { memory := (s.memory.store buffer_ptr 8 (truncate (-1) 8)).store (buffer_ptr + 8) 8
                    (truncate 0 8)
        requests := s.requests } hnext hnlt
    have hstep : initGroups_bins (-1) new_buffer wideLimitDescriptor [0] [0] false
        wideLimitDescriptor.group_col_widths.length 16 8 (rem + 1) b buffer_ptr s = .ok r := by
      unfold initGroups_bins
      simp only [Bool.false_eq_true, if_false]
      rw [wideLimit_row, except_ok_bind, hkeys, hrow]
      exact hr
    -- the bytes at the address after one row
    have hbyte : ∀ j, j < 8 →
        ((s.memory.store buffer_ptr 8 (truncate (-1) 8)).store (buffer_ptr + 8) 8
            (truncate 0 8)) (34360266752 + j)
          = if buffer_ptr = 34360266752 then 255 else s.memory (34360266752 + j) := by
      intro j hj
      rw [Memory.store_outside _ _ _ _ _ (by omega)]
      by_cases hp : buffer_ptr = 34360266752
      · rw [if_pos hp, Memory.store_inside _ _ _ _ _ (by omega) (by omega)]
        exact ones_byte _ (by omega)
      · rw [if_neg hp]
        exact Memory.store_outside _ _ _ _ _ (by omega)
    refine ⟨r, hstep, fun hs => hkeep (fun j hj => ?_), ?_⟩
    · show ((s.memory.store buffer_ptr 8 (truncate (-1) 8)).store (buffer_ptr + 8) 8
        (truncate 0 8)) (34360266752 + j) = 255
      rw [hbyte j hj]
      split_ifs
      · rfl
      · exact hs j hj
    · rintro ⟨t, ht, hta⟩
      by_cases hp : buffer_ptr = 34360266752
      · refine hkeep (fun j hj => ?_)
        show ((s.memory.store buffer_ptr 8 (truncate (-1) 8)).store (buffer_ptr + 8) 8
          (truncate 0 8)) (34360266752 + j) = 255
        rw [hbyte j hj, if_pos hp]
      · have ht0 : t ≠ 0 := by
          intro h0
          rw [h0, Nat.mul_zero, Nat.add_zero, Nat.mod_eq_of_lt hlt] at hta
          exact hp hta
        refine hhit ⟨t - 1, by omega, ?_⟩
        rw [← hta, Nat.mod_add_mod]
        congr 1
        omega

/-- C29, the claim as stated fails.  For the query of `smallBufferArgs` with
`LIMIT 2147483648` the constructor builds a keyed row-major descriptor with rows of 16
bytes and `entry_count_small = 2 ^ 31`, whose small buffer has 34359738368 bytes, exactly
`entry_count_small` rows.  The slot count reaches `initGroups` through an `int32_t`
parameter as -2147483648, which the loop bound converts to 18446744071562067968 rows:
the call on the zeroed template at address 528384 returns with `EMPTY_KEY_64` in the
eight bytes at 528384 + 34359738368, the first bytes past the buffer. -/
theorem small_buffer_initialisation_fits_counterexample :
    GroupByAndAggregate wideLimitArgs = .ok wideLimitDescriptor ∧
      wideLimitDescriptor.output_columnar = false ∧
      wideLimitDescriptor.keyless_hash = false ∧
      wideLimitDescriptor.agg_col_widths = [{ actual := 8, compact := 8 }] ∧
      wideLimitDescriptor.getRowSize = .ok 16 ∧
      wideLimitDescriptor.getSmallBufferSizeBytes = .ok 34359738368 ∧
      wideLimitDescriptor.entry_count_small * 16 = 34359738368 ∧
      wrap32 (wideLimitDescriptor.entry_count_small : Int) = -2147483648 ∧
      to_size_t (-2147483648) = 18446744071562067968 ∧
      zeroedState.memory.load (528384 + 34359738368) 8 = 0 ∧
      ∃ s', initGroups (-1) sampleRuntime.new_buffer wideLimitDescriptor
          wideLimitArgs.ra_exe_unit.target_exprs [0] 528384 [0]
          (wrap32 wideLimitDescriptor.entry_count_small) false 1 zeroedState = .ok s' ∧
        s'.memory.load (528384 + 34359738368) 8 = 18446744073709551615 := by
  refine ⟨by rfl, by rfl, by rfl, by rfl, by rfl, by rfl, by rfl, by rfl, by rfl, by rfl, ?_⟩
  obtain ⟨r, hr, -, hhit⟩ := wideLimit_bins sampleRuntime.new_buffer
    (to_size_t (wrap32 (wideLimitDescriptor.entry_count_small : Int))) 0 528384
    { memory := zeroedState.memory, requests := [] } (by decide) (by decide)
  refine ⟨r.2, ?_, ?_⟩
  · unfold initGroups
    simp only []
    rw [show wideLimitDescriptor.getRowSize = .ok 16 from rfl, except_ok_bind,
      show wideLimitDescriptor.getColOffInBytes 0 0 = .ok 8 from rfl, except_ok_bind,
      show allocateCountDistinctBuffers sampleRuntime.new_buffer wideLimitDescriptor
          wideLimitArgs.ra_exe_unit.target_exprs true [0] zeroedState.requests
        = .ok { agg_bitmap_size := [0], init_agg_vals_ := [0], requests := [] } from rfl,
      except_ok_bind]
    simp only [Bool.false_eq_true, if_false]
    rw [hr]
    rfl
  · have hcount : to_size_t (wrap32 (wideLimitDescriptor.entry_count_small : Int))
        = 18446744071562067968 := rfl
    have := hhit ⟨2147483648, by rw [hcount]; decide, by decide⟩
    exact Memory.load_ones r.2.memory 34360266752 this

end MapD
